import Mathlib

/-!
# Multi-stream batched inference in the AR SDK Triton client samples

A shallow embedding of the tick loops of the three Triton client applications

* `FaceTrackTritonClientApp.cpp`  (namespace `FaceTrackTriton`),
* `LipSyncTritonClientApp.cpp`  (namespace `LipSyncTriton`),
* `SpeechLivePortraitTritonClientApp.cpp`  (namespace `SpeechLivePortraitTriton`),

followed by the properties proved about them.

Conventions of the embedding.

* `std::vector<T>` is a `List T`; `v[i]` read is `v.getD i d`, `v[i] = x` is `v.set i x`.
* `cv::Mat` is `Option Nat`: `none` is the empty matrix, `some p` an image with content `p`.
* `float` audio samples are only copied and zero filled, so a sample is an `Int`.
* `goto bail` is the `Except.error` branch, carrying the state reached at the label; an
  exception that nothing catches is an `Except.error` branch too, carrying the state at the
  throw with the violation recorded.
* Every call into the SDK (and the other external collaborators) takes its status and its
  result from an oracle `Sdk`; the calls that allocate or release inference state and the
  inference call itself are appended to `trace` in execution order.
* `unsigned` counters are natural numbers (stream counts and tick numbers stay far below
  `2 ^ 32`).
-/

set_option autoImplicit false
set_option maxRecDepth 100000

namespace ARSDK

/-- Status returned by the SDK, `NvCV_Status`; `NVCV_SUCCESS` is `0`. -/
abbrev NvCV_Status := Int

/-- The success status. -/
def NVCV_SUCCESS : NvCV_Status := 0

/-- Error status `NVCV_ERR_WRITE`. The error codes are declared in `nvCVStatus.h`, which is
not among the sources; all that is used of them is that they differ from success. -/
def NVCV_ERR_WRITE : NvCV_Status := -24

/-- Error status `NVCV_ERR_READ`. -/
def NVCV_ERR_READ : NvCV_Status := -23

/-- Error status `NVCV_ERR_MISMATCH`. -/
def NVCV_ERR_MISMATCH : NvCV_Status := -8

/-- Error status `NVCV_ERR_MISSINGINPUT`. -/
def NVCV_ERR_MISSINGINPUT : NvCV_Status := -15

/-- Opaque per-stream inference state, `NvAR_StateHandle`; `0` is `nullptr`. -/
abbrev NvAR_StateHandle := Nat

/-- One audio sample. -/
abbrev Sample := Int

/-- An image, `cv::Mat`; `none` is the empty image. -/
abbrev Mat := Option Nat

/-- A video file as `cv::VideoCapture` sees it. -/
structure Video where
  /-- whether `open` succeeds -/
  opens : Bool
  /-- the decoded frames, each a non-empty image -/
  frames : List Nat
  /-- width of the frames -/
  cols : Nat
  /-- height of the frames -/
  rows : Nat
deriving DecidableEq

/-- Stands for the element read at an index outside the list of videos. -/
def Video.absent : Video := { opens := false, frames := [], cols := 0, rows := 0 }

/-- A `cv::VideoCapture`. -/
structure VideoCapture where
  /-- result of `isOpened()` -/
  opened : Bool
  frames : List Nat
  /-- index of the next frame, `CAP_PROP_POS_FRAMES` -/
  pos : Nat
deriving DecidableEq

/-- A default constructed capture. -/
def VideoCapture.new : VideoCapture := { opened := false, frames := [], pos := 0 }

/-- Method `open(file)`. -/
def VideoCapture.open (v : Video) : VideoCapture :=
  { opened := v.opens, frames := if v.opens then v.frames else [], pos := 0 }

/-- The capture after `capture >> image`. -/
def VideoCapture.advance (c : VideoCapture) : VideoCapture :=
  if c.opened ∧ c.pos < c.frames.length then { c with pos := c.pos + 1 } else c

/-- The image read by `capture >> image`: empty at the end of the video or when the capture
is not opened. -/
def VideoCapture.image (c : VideoCapture) : Mat :=
  if c.opened then c.frames[c.pos]? else none

/-- Method `release()`. -/
def VideoCapture.release (c : VideoCapture) : VideoCapture := { c with opened := false }

/-- Number of frames of video `i`. -/
def numFrames (videos : List Video) (i : Nat) : Nat :=
  (videos.getD i Video.absent).frames.length

/-- Frame `t` of video `i`, empty past the end. -/
def frameAt (videos : List Video) (i t : Nat) : Mat :=
  (videos.getD i Video.absent).frames[t]?

/-- The capture of video `i` once it is opened and rewound. -/
def rewound (videos : List Video) (i : Nat) : VideoCapture :=
  { opened := true, frames := (videos.getD i Video.absent).frames, pos := 0 }

/-- What a trace says about releases and batches: a release of a stream, or an inference
call with the streams of its batch and the configured batch size. -/
inductive Step where
  | release (i : Nat)
  | run (batch_indices : List Nat) (BatchSize : Nat)
deriving DecidableEq

/-- The call sites whose outcome is decided outside the program. The arguments identify the
dynamic instance of the call: a stream index, a tick number, or a tick and a batch slot. -/
inductive Call where
  | ConnectTritonServer
  | CreateTriton
  | SetTritonServer
  | AllocateBuffers
  | SetParametersBeforeLoad
  | Load
  | SetParametersAfterLoad
  | GetNumInitialFrames
  | AllocateState (n : Nat)
  | DeallocateState (n : Nat)
  | TransferToNthImage (tick n : Nat)
  | SetAudioFrameBuffer (tick : Nat)
  | SetAudioFrameLength (tick : Nat)
  | SetHeadMovementSpeed (tick : Nat)
  | SetBatchSize (tick : Nat)
  | SetState (tick : Nat)
  | Run (tick : Nat)
  | SynchronizeTriton (tick : Nat)
  | GetActivation (tick : Nat)
  | GetReady (tick slot : Nat)
  | TransferOutput (tick slot : Nat)
deriving DecidableEq

/-- The environment of a run: what the SDK and the video writers answer. -/
structure Sdk where
  /-- status returned by each call -/
  status : Call → NvCV_Status
  /-- handle stored by a successful `NvAR_AllocateState` for stream `n` -/
  handle : Nat → NvAR_StateHandle
  /-- the ready flag the capability reports for a slot on a tick -/
  ready : Nat → Nat → Nat
  /-- the output the capability produced for a slot on a tick -/
  output : Nat → Nat → Nat
  /-- whether `cv::VideoWriter::open` succeeds for stream `i` -/
  writerOpened : Nat → Bool
  /-- value of `NvAR_Parameter_Config(NumInitialFrames)` -/
  NumInitialFrames : Nat

/-- An environment in which every call succeeds and every writer opens; the capability
reports its output ready from tick `F` on. -/
def Sdk.succeeding (F : Nat) : Sdk :=
  { status := fun _ => 0
    handle := fun n => n + 1
    ready := fun t _ => if t < F then 0 else 1
    output := fun t n => 100 * t + n
    writerOpened := fun _ => true
    NumInitialFrames := F }

/-- A video of `n` frames of size 640 x 480 whose `k`-th frame has content `base + k`. -/
def Video.sample (n base : Nat) : Video :=
  { opens := true, frames := (List.range n).map (fun k => base + k), cols := 640, rows := 480 }

/-- No call fails and every writer opens. -/
def Sdk.AllSucceed (sdk : Sdk) : Prop :=
  (∀ c, sdk.status c = NVCV_SUCCESS) ∧ ∀ i, sdk.writerOpened i = true

/-- What the feature handle `m_effect` has been given through the `NvAR_Set...` calls. -/
structure Effect where
  BatchSize : Nat
  State : List NvAR_StateHandle
  AudioFrameBuffer : List Sample
  AudioFrameLength : List Nat
deriving DecidableEq

/-- The calls on inference state and the inference calls, as they are made. -/
inductive Event where
  /-- call of `NvAR_AllocateState(m_effect, &m_arrayOfAllStateObjects[n])` -/
  | AllocateState (n : Nat)
  /-- call of `NvAR_DeallocateState(m_effect, m_arrayOfAllStateObjects[n])` -/
  | DeallocateState (n : Nat)
  /-- call of `NvAR_Run(m_effect)` inside `Run(..., batch_indices, batchsize)`: the first
  `batchsize` entries of `batch_indices`, the parameters set on the effect, and the first
  `batchsize` slots of the batched source image -/
  | Run (batch_indices : List Nat) (effect : Effect) (image : List Mat)
deriving DecidableEq

/-- The releases and the batches of a trace, in order. -/
def stepsOf (tr : List Event) : List Step :=
  tr.filterMap fun e =>
    match e with
    | Event.DeallocateState i => some (Step.release i)
    | Event.Run b eff _ => some (Step.run b eff.BatchSize)
    | Event.AllocateState _ => none

/-- Whether an event is an inference call. -/
def Event.isRun : Event → Bool
  | Event.Run _ _ _ => true
  | _ => false

/-- The inference calls of a trace, in order: the streams of the batch and the batched
audio each call was given. -/
def runsOf (tr : List Event) : List (List Nat × List Sample) :=
  tr.filterMap fun e =>
    match e with
    | Event.Run b eff _ => some (b, eff.AudioFrameBuffer)
    | _ => none

/-- The members shared by `BaseApp` and `SpeechLivePortraitApp`. -/
structure App where
  m_numOfStreams : Nat
  m_arrayOfAllStateObjects : List NvAR_StateHandle
  m_batchOfStateObjects : List NvAR_StateHandle
  m_effect : Effect
  /-- the batched source image `m_srcVidFrame` / `m_srcVid`, one slot per stream -/
  m_srcVid : List Mat
deriving DecidableEq

/-- The app object right after construction. -/
def App.new : App :=
  { m_numOfStreams := 0, m_arrayOfAllStateObjects := [], m_batchOfStateObjects := [],
    m_effect := { BatchSize := 0, State := [], AudioFrameBuffer := [], AudioFrameLength := [] },
    m_srcVid := [] }

/-- The loop `for (i = 0; i < batchsize; i++) m_batchOfStateObjects[i] =
m_arrayOfAllStateObjects[batch_indices[i]]` of every `Run`, after `k` iterations. -/
def gatherStates (batch_indices : List Nat) (all : List NvAR_StateHandle) :
    Nat → List NvAR_StateHandle → List NvAR_StateHandle
  | 0, batch => batch
  | k + 1, batch =>
    (gatherStates batch_indices all k batch).set k (all.getD (batch_indices.getD k 0) 0)

/-- Function `Init(num_streams)`: connect, create the feature, size the two handle arrays. -/
def App.Init (sdk : Sdk) (num_streams : Nat) (app : App) : NvCV_Status × App :=
  let app := { app with m_numOfStreams := num_streams }
  if sdk.status Call.ConnectTritonServer ≠ 0 then (sdk.status Call.ConnectTritonServer, app)
  else if sdk.status Call.CreateTriton ≠ 0 then (sdk.status Call.CreateTriton, app)
  else if sdk.status Call.SetTritonServer ≠ 0 then (sdk.status Call.SetTritonServer, app)
  else
    (NVCV_SUCCESS,
      { app with
        m_arrayOfAllStateObjects :=
          (app.m_arrayOfAllStateObjects ++ List.replicate num_streams 0).take num_streams
        m_batchOfStateObjects :=
          (app.m_batchOfStateObjects ++ List.replicate num_streams 0).take num_streams })

/-- Function `InitStream(n)` / `InitVideoStream(n)`: `NvAR_AllocateState(m_effect,
&m_arrayOfAllStateObjects[n])`; the handle is stored when the call succeeds. -/
def App.InitStream (sdk : Sdk) (n : Nat) (app : App) : NvCV_Status × App :=
  if sdk.status (Call.AllocateState n) ≠ 0 then (sdk.status (Call.AllocateState n), app)
  else
    (NVCV_SUCCESS,
      { app with m_arrayOfAllStateObjects := app.m_arrayOfAllStateObjects.set n (sdk.handle n) })

/-! ## FaceTrackTritonClientApp.cpp -/

namespace FaceTrackTriton

/-- A frame written to an output video: `GenerateNthOutputVizImage` clones the input frame
and draws on it the boxes or landmarks the capability returned for a batch slot. -/
structure VizFrame where
  /-- the input frame that was cloned -/
  input : Nat
  /-- the capability output drawn on it -/
  overlay : Nat
deriving DecidableEq

/-- The locals of `BatchProcessVideos` that live across ticks. -/
structure State where
  err : NvCV_Status
  list_of_captures : List VideoCapture
  frames : List Mat
  frames_t_1 : List Mat
  batch_indices : List Nat
  /-- the frames written so far to each `cv::VideoWriter` -/
  list_of_writers : List (List VizFrame)
  app : App
  trace : List Event
deriving DecidableEq

/-- The locals of one tick's assembly loop. -/
structure Assembly where
  st : State
  batchsize : Nat
deriving DecidableEq

/-- The loop of lines 399-418 after its first `k` iterations: open every video, read its
first frame, compare its size with the first video, rewind. The result is the captures and
`src_video_width`, `src_video_height`. -/
def openLoop (videos : List Video) :
    Nat → Except NvCV_Status (List VideoCapture × Nat × Nat)
  | 0 => .ok (List.replicate videos.length VideoCapture.new, 0, 0)
  | k + 1 =>
    match openLoop videos k with
    | .error e => .error e
    | .ok (list_of_captures, src_video_width, src_video_height) =>
      let cap := VideoCapture.open (videos.getD k Video.absent)
      if !cap.opened then .error NVCV_ERR_READ
      else if cap.image = none then .error NVCV_ERR_READ
      else if k = 0 then
        .ok (list_of_captures.set k { cap.advance with pos := 0 },
          (videos.getD k Video.absent).cols,
          (videos.getD k Video.absent).rows)
      else if src_video_width ≠
            (videos.getD k Video.absent).cols ∧
          src_video_height ≠
            (videos.getD k Video.absent).rows then
        .error NVCV_ERR_MISMATCH
      else
        .ok (list_of_captures.set k { cap.advance with pos := 0 }, src_video_width,
          src_video_height)

/-- Function `BaseApp::InitVideoStream(n)`. -/
def InitVideoStream (sdk : Sdk) (n : Nat) (st : State) : NvCV_Status × State :=
  ((st.app.InitStream sdk n).1,
    { st with app := (st.app.InitStream sdk n).2, trace := st.trace ++ [Event.AllocateState n] })

/-- Function `BaseApp::ReleaseVideoStream(n)`. -/
def ReleaseVideoStream (sdk : Sdk) (n : Nat) (st : State) : NvCV_Status × State :=
  (sdk.status (Call.DeallocateState n), { st with trace := st.trace ++ [Event.DeallocateState n] })

/-- The loop of lines 426-433 after its first `k` iterations: read the first frame of every
opened video and allocate the state of the streams that have one. -/
def initLoop (sdk : Sdk) : Nat → State → Except State State
  | 0, st => .ok st
  | k + 1, st =>
    match initLoop sdk k st with
    | .error st => .error st
    | .ok st =>
      if !(st.list_of_captures.getD k VideoCapture.new).opened then .ok st
      else
        let st1 : State :=
          { st with
            list_of_captures :=
              st.list_of_captures.set k (st.list_of_captures.getD k VideoCapture.new).advance
            frames := st.frames.set k (st.list_of_captures.getD k VideoCapture.new).image }
        if st1.frames.getD k none = none then
          .ok { st1 with
                list_of_captures :=
                  st1.list_of_captures.set k
                    (st1.list_of_captures.getD k VideoCapture.new).release }
        else if (InitVideoStream sdk k st1).1 ≠ 0 then .error (InitVideoStream sdk k st1).2
        else .ok (InitVideoStream sdk k st1).2

/-- First half of the assembly loop body (lines 454-463): read the next frame of an opened
video; when there is none, release the state of the stream and close the video. -/
def readNext (sdk : Sdk) (i : Nat) (st : State) : Except State State :=
  if (st.list_of_captures.getD i VideoCapture.new).opened then
    let st1 : State :=
      { st with
        list_of_captures :=
          st.list_of_captures.set i (st.list_of_captures.getD i VideoCapture.new).advance
        frames_t_1 := st.frames_t_1.set i (st.list_of_captures.getD i VideoCapture.new).image }
    if st1.frames_t_1.getD i none = none then
      if (ReleaseVideoStream sdk i st1).1 ≠ 0 then .error (ReleaseVideoStream sdk i st1).2
      else
        .ok { (ReleaseVideoStream sdk i st1).2 with
              list_of_captures :=
                st1.list_of_captures.set i
                  (st1.list_of_captures.getD i VideoCapture.new).release }
    else .ok st1
  else .ok st

/-- Body of the assembly loop `for (unsigned i = 0; i < num_videos; i++)`, lines 453-469. -/
def assembleStep (sdk : Sdk) (tick i : Nat) (a : Assembly) : Except State Assembly :=
  match readNext sdk i a.st with
  | .error st => .error st
  | .ok st =>
    match st.frames.getD i none with
    | none => .ok { a with st := st }
    | some frame =>
      if sdk.status (Call.TransferToNthImage tick i) ≠ 0 then
        .error { st with err := sdk.status (Call.TransferToNthImage tick i) }
      else
        .ok
          { st :=
              { st with
                err := sdk.status (Call.TransferToNthImage tick i)
                app := { st.app with m_srcVid := st.app.m_srcVid.set a.batchsize (some frame) }
                batch_indices := st.batch_indices.set a.batchsize i }
            batchsize := a.batchsize + 1 }

/-- The assembly loop after its first `k` iterations (streams `0 .. k-1`). -/
def assembleLoop (sdk : Sdk) (tick : Nat) : Nat → Assembly → Except State Assembly
  | 0, a => .ok a
  | k + 1, a =>
    match assembleLoop sdk tick k a with
    | .error st => .error st
    | .ok a => assembleStep sdk tick k a

/-- Function `BaseApp::Run(batch_indices, batchsize)`, lines 246-258. -/
def Run (sdk : Sdk) (tick : Nat) (batch_indices : List Nat) (batchsize : Nat) (st : State) :
    NvCV_Status × State :=
  let app1 : App :=
    { st.app with
      m_batchOfStateObjects :=
        gatherStates batch_indices st.app.m_arrayOfAllStateObjects batchsize
          st.app.m_batchOfStateObjects }
  if sdk.status (Call.SetBatchSize tick) ≠ 0 then
    (sdk.status (Call.SetBatchSize tick), { st with app := app1 })
  else
    let app2 : App := { app1 with m_effect := { app1.m_effect with BatchSize := batchsize } }
    if sdk.status (Call.SetState tick) ≠ 0 then
      (sdk.status (Call.SetState tick), { st with app := app2 })
    else
      let app3 : App :=
        { app2 with
          m_effect := { app2.m_effect with State := app2.m_batchOfStateObjects.take batchsize } }
      let st3 : State :=
        { st with
          app := app3
          trace := st.trace ++
            [Event.Run (batch_indices.take batchsize) app3.m_effect
              (app3.m_srcVid.take batchsize)] }
      if sdk.status (Call.Run tick) ≠ 0 then (sdk.status (Call.Run tick), st3)
      else (sdk.status (Call.SynchronizeTriton tick), st3)

/-- Function `GenerateNthOutputVizImage(n, input, result)`, lines 304-313 and 356-367: the status,
which is always success, and the image left in `result`. -/
def GenerateNthOutputVizImage (sdk : Sdk) (tick n : Nat) (input : Mat) :
    NvCV_Status × Option VizFrame :=
  (NVCV_SUCCESS, input.map (fun p => { input := p, overlay := sdk.output tick n }))

/-- Body of the loop `Write Output` of lines 476-484, for slot `i`. -/
def writeStep (sdk : Sdk) (tick i : Nat) (st : State) : Except State State :=
  if (GenerateNthOutputVizImage sdk tick i
      (st.frames.getD (st.batch_indices.getD i 0) none)).1 ≠ 0 then
    .error { st with
             err := (GenerateNthOutputVizImage sdk tick i
               (st.frames.getD (st.batch_indices.getD i 0) none)).1 }
  else
    let st1 : State :=
      match (GenerateNthOutputVizImage sdk tick i
          (st.frames.getD (st.batch_indices.getD i 0) none)).2 with
      | none => st
      | some display_frame =>
        { st with
          list_of_writers :=
            st.list_of_writers.set (st.batch_indices.getD i 0)
              (st.list_of_writers.getD (st.batch_indices.getD i 0) [] ++ [display_frame]) }
    .ok { st1 with
          err := (GenerateNthOutputVizImage sdk tick i
            (st.frames.getD (st.batch_indices.getD i 0) none)).1
          frames :=
            st1.frames.set (st.batch_indices.getD i 0)
              (st1.frames_t_1.getD (st.batch_indices.getD i 0) none) }

/-- The output loop after its first `k` iterations (slots `0 .. k-1`). -/
def writeLoop (sdk : Sdk) (tick : Nat) : Nat → State → Except State State
  | 0, st => .ok st
  | k + 1, st =>
    match writeLoop sdk tick k st with
    | .error st => .error st
    | .ok st => writeStep sdk tick k st

/-- The loop `Update current frame` of lines 487-491 after its first `k` iterations. -/
def updateLoop : Nat → State → State
  | 0, st => st
  | k + 1, st =>
    { updateLoop k st with
      frames :=
        (updateLoop k st).frames.set ((updateLoop k st).batch_indices.getD k 0)
          ((updateLoop k st).frames_t_1.getD ((updateLoop k st).batch_indices.getD k 0) none) }

/-- One iteration of `while (1)`, lines 450-492: `.error` is `goto bail` (which is also how
the loop is left when the batch is empty), `.ok` goes on to the next tick. -/
def tick (sdk : Sdk) (num_videos tick : Nat) (st : State) : Except State State :=
  match assembleLoop sdk tick num_videos { st := st, batchsize := 0 } with
  | .error st => .error st
  | .ok a =>
    if a.batchsize = 0 then .error a.st
    else if (Run sdk tick a.st.batch_indices a.batchsize a.st).1 ≠ 0 then
      .error { (Run sdk tick a.st.batch_indices a.batchsize a.st).2 with
               err := (Run sdk tick a.st.batch_indices a.batchsize a.st).1 }
    else
      match writeLoop sdk tick a.batchsize
          { (Run sdk tick a.st.batch_indices a.batchsize a.st).2 with
            err := (Run sdk tick a.st.batch_indices a.batchsize a.st).1 } with
      | .error st => .error st
      | .ok st => .ok (updateLoop a.batchsize st)

/-- The loop `while (1)`, run for at most `fuel` iterations from tick `t`; `none` when the
fuel runs out before the loop is left. -/
def tickLoop (sdk : Sdk) (num_videos : Nat) : Nat → Nat → State → Option State
  | 0, _, _ => none
  | fuel + 1, t, st =>
    match tick sdk num_videos t st with
    | .error st => some st
    | .ok st => tickLoop sdk num_videos fuel (t + 1) st

/-- The loop of lines 436-448: `some i` is the first writer that does not open. -/
def openWriters (sdk : Sdk) (num_videos : Nat) : Option Nat :=
  (List.range num_videos).find? (fun i => !sdk.writerOpened i)

/-- Function `BatchProcessVideos()`, lines 382-496, for a known effect name (`app` is not
null); `none` when the fuel runs out inside the tick loop. -/
def BatchProcessVideos (sdk : Sdk) (videos : List Video) (fuel : Nat) : Option State :=
  let num_videos := videos.length
  let st0 : State :=
    { err := NVCV_SUCCESS, list_of_captures := List.replicate num_videos VideoCapture.new,
      frames := List.replicate num_videos none, frames_t_1 := List.replicate num_videos none,
      batch_indices := List.replicate num_videos 0,
      list_of_writers := List.replicate num_videos [], app := App.new, trace := [] }
  if ¬ num_videos > 0 then some { st0 with err := NVCV_ERR_MISSINGINPUT }
  else
  match openLoop videos num_videos with
  | .error e => some { st0 with err := e }
  | .ok (list_of_captures, _, _) =>
    let st1 : State :=
      { st0 with
        list_of_captures := list_of_captures
        err := (st0.app.Init sdk num_videos).1
        app := (st0.app.Init sdk num_videos).2 }
    if st1.err ≠ 0 then some st1
    else if sdk.status Call.AllocateBuffers ≠ 0 then
      some { st1 with err := sdk.status Call.AllocateBuffers }
    else
      let st2 : State :=
        { st1 with app := { st1.app with m_srcVid := List.replicate num_videos none } }
      if sdk.status Call.SetParametersBeforeLoad ≠ 0 then
        some { st2 with err := sdk.status Call.SetParametersBeforeLoad }
      else if sdk.status Call.Load ≠ 0 then some { st2 with err := sdk.status Call.Load }
      else if sdk.status Call.SetParametersAfterLoad ≠ 0 then
        some { st2 with err := sdk.status Call.SetParametersAfterLoad }
      else
        match initLoop sdk num_videos
            { st2 with err := sdk.status Call.SetParametersAfterLoad } with
        | .error st => some st
        | .ok st =>
          match openWriters sdk num_videos with
          | some _ => some { st with err := NVCV_ERR_WRITE }
          | none => tickLoop sdk num_videos fuel 0 st

/-- The videos that contribute a slot on tick `t`, in slot order: those with more than `t`
frames. -/
def batchAt (videos : List Video) (num_videos t : Nat) : List Nat :=
  (List.range num_videos).filter (fun i => decide (t < numFrames videos i))

/-- The videos released on tick `t`: those with exactly `t + 1` frames. -/
def releasedAt (videos : List Video) (num_videos t : Nat) : List Nat :=
  (List.range num_videos).filter (fun i => decide (t + 1 = numFrames videos i))

/-- The slot of stream `i` on a tick `t` on which it contributes: the number of streams
before it that have more than `t` frames. -/
def slotOf (videos : List Video) (t i : Nat) : Nat :=
  (batchAt videos i t).length

/-- The events of tick `t` of a run in which no call fails: the releases of the assembly,
then the inference call. `all` is `m_arrayOfAllStateObjects`. -/
def tickEvents (videos : List Video) (all : List NvAR_StateHandle) (t : Nat) : List Event :=
  (releasedAt videos videos.length t).map Event.DeallocateState ++
    [Event.Run (batchAt videos videos.length t)
      { BatchSize := (batchAt videos videos.length t).length
        State := (batchAt videos videos.length t).map (fun i => all.getD i 0)
        AudioFrameBuffer := []
        AudioFrameLength := [] }
      ((batchAt videos videos.length t).map (fun i => frameAt videos i t))]

/-- The events of the loop that allocates the state of every stream. -/
def initEvents (num_videos : Nat) : List Event :=
  (List.range num_videos).map Event.AllocateState

/-- The frames writer `i` holds when tick `t` starts: for every earlier tick `k` on which
video `i` had a frame, that frame with the output of the slot the stream had on tick `k`. -/
def writtenTo (sdk : Sdk) (videos : List Video) (i t : Nat) : List VizFrame :=
  (List.range (min t (numFrames videos i))).map
    (fun k =>
      { input := (videos.getD i Video.absent).frames.getD k 0
        overlay := sdk.output k (slotOf videos k i) })

/-- The capture of video `i` when tick `t` starts. -/
def capAt (videos : List Video) (t i : Nat) : VideoCapture :=
  { opened := decide (t < numFrames videos i), frames := (videos.getD i Video.absent).frames,
    pos := min (t + 1) (numFrames videos i) }

/-- The first tick whose batch is empty: the largest number of frames. -/
def lastTick (videos : List Video) : Nat :=
  (videos.map (fun v => v.frames.length)).foldr max 0

/-- The state at the start of tick `t` of a run without failure. -/
structure Inv (sdk : Sdk) (videos : List Video) (all : List NvAR_StateHandle) (t : Nat)
    (st : State) : Prop where
  caps_len : st.list_of_captures.length = videos.length
  frames_len : st.frames.length = videos.length
  frames1_len : st.frames_t_1.length = videos.length
  bi_len : st.batch_indices.length = videos.length
  writers_len : st.list_of_writers.length = videos.length
  batch_len : st.app.m_batchOfStateObjects.length = videos.length
  src_len : st.app.m_srcVid.length = videos.length
  all_eq : st.app.m_arrayOfAllStateObjects = all
  audio_nil : st.app.m_effect.AudioFrameBuffer = [] ∧ st.app.m_effect.AudioFrameLength = []
  err_zero : st.err = 0
  caps : ∀ i, i < videos.length → st.list_of_captures[i]? = some (capAt videos t i)
  frames : ∀ i, i < videos.length → st.frames[i]? = some (frameAt videos i t)
  writers : ∀ i, i < videos.length → st.list_of_writers[i]? = some (writtenTo sdk videos i t)

/-- The state of tick `t`'s assembly after `k` iterations, in a run without failure that
entered the tick in state `st`. -/
structure AsmInv (videos : List Video) (t : Nat) (st : State) (k : Nat) (a : Assembly) :
    Prop where
  batchsize_eq : a.batchsize = (batchAt videos k t).length
  bi_take : a.st.batch_indices.take a.batchsize = batchAt videos k t
  src_take : a.st.app.m_srcVid.take a.batchsize =
    (batchAt videos k t).map (fun i => frameAt videos i t)
  bi_len : a.st.batch_indices.length = videos.length
  src_len : a.st.app.m_srcVid.length = videos.length
  caps_len : a.st.list_of_captures.length = videos.length
  frames1_len : a.st.frames_t_1.length = videos.length
  trace_eq : a.st.trace = st.trace ++ (releasedAt videos k t).map Event.DeallocateState
  frames_eq : a.st.frames = st.frames
  writers_eq : a.st.list_of_writers = st.list_of_writers
  err_zero : a.st.err = 0
  all_eq : a.st.app.m_arrayOfAllStateObjects = st.app.m_arrayOfAllStateObjects
  batch_eq : a.st.app.m_batchOfStateObjects = st.app.m_batchOfStateObjects
  effect_eq : a.st.app.m_effect = st.app.m_effect
  caps : ∀ j, j < videos.length →
    a.st.list_of_captures[j]? =
      some (if j < k then capAt videos (t + 1) j else capAt videos t j)
  frames1 : ∀ j, j < k → t < numFrames videos j →
    a.st.frames_t_1[j]? = some (frameAt videos j (t + 1))

/-- The state of tick `t`'s output loop after `k` iterations. -/
structure WriteInv (sdk : Sdk) (videos : List Video) (t : Nat) (st : State) (k : Nat)
    (s : State) : Prop where
  trace_eq : s.trace = st.trace
  app_eq : s.app = st.app
  bi_eq : s.batch_indices = st.batch_indices
  frames1_eq : s.frames_t_1 = st.frames_t_1
  caps_eq : s.list_of_captures = st.list_of_captures
  err_zero : s.err = 0
  frames_len : s.frames.length = videos.length
  writers_len : s.list_of_writers.length = videos.length
  frames : ∀ i, i < videos.length →
    s.frames[i]? =
      some (if i ∈ (batchAt videos videos.length t).take k then frameAt videos i (t + 1)
        else frameAt videos i t)
  writers : ∀ i, i < videos.length →
    s.list_of_writers[i]? =
      some (if i ∈ (batchAt videos videos.length t).take k then writtenTo sdk videos i (t + 1)
        else writtenTo sdk videos i t)

end FaceTrackTriton

/-! ## LipSyncTritonClientApp.cpp -/

namespace LipSyncTriton

/-- An access outside the bounds the C++ standard library defines. -/
inductive Violation where
  /-- the range `[begin + start, begin + stop)` inserted into `audio_frame` for a stream on a
  tick has `start > stop`: the insert throws `std::length_error`, which nothing catches -/
  | audioRange (tick i start stop : Nat)
  /-- the write `audio_frame_num_samples[index] = ...` on a tick with `index >= size()` -/
  | numSamplesIndex (tick index size : Nat)
  /-- the read `FLAG_srcVideoFiles[index]` with `index >= size()` -/
  | videoFileIndex (index size : Nat)
deriving DecidableEq

/-- The locals of `BatchProcessVideos` that live across ticks. -/
structure State where
  err : NvCV_Status
  list_of_captures : List VideoCapture
  frames : List Mat
  frames_t_1 : List Mat
  batch_indices : List Nat
  /-- the frames written so far to each `cv::VideoWriter` -/
  list_of_writers : List (List Nat)
  audio_frame_batched : List Sample
  /-- the elements of the vector `audio_frame_num_samples`, which stay allocated when the
  vector is cleared -/
  audio_frame_num_samples : List Nat
  /-- the `size()` of the vector `audio_frame_num_samples` -/
  audio_frame_num_samples_size : Nat
  batchsize : Nat
  frame_count : Nat
  last_audio_end_sample : Nat
  /-- the number of times `1 / kFPS` has been added to each stream's time stamp -/
  frame_timestamp : List Nat
  audio_finished : List Bool
  flush_frames_remaining : List Nat
  app : App
  trace : List Event
  violations : List Violation
deriving DecidableEq

/-- Function `BaseApp::InitStream(n)`. -/
def InitStream (sdk : Sdk) (n : Nat) (st : State) : NvCV_Status × State :=
  ((st.app.InitStream sdk n).1,
    { st with app := (st.app.InitStream sdk n).2, trace := st.trace ++ [Event.AllocateState n] })

/-- Function `BaseApp::ReleaseStream(n)`. -/
def ReleaseStream (sdk : Sdk) (n : Nat) (st : State) : NvCV_Status × State :=
  (sdk.status (Call.DeallocateState n), { st with trace := st.trace ++ [Event.DeallocateState n] })

/-- Lines 507-520 of the assembly loop body: advance the time stamp of stream `i` and, when
its video is opened, read the next frame; a video that has ended is closed only in verbose
mode. -/
def readNext (FLAG_verbose : Bool) (i : Nat) (st : State) : State :=
  let st : State :=
    { st with frame_timestamp := st.frame_timestamp.set i (st.frame_timestamp.getD i 0 + 1) }
  if (st.list_of_captures.getD i VideoCapture.new).opened then
    let st1 : State :=
      { st with
        list_of_captures :=
          st.list_of_captures.set i (st.list_of_captures.getD i VideoCapture.new).advance
        frames_t_1 := st.frames_t_1.set i (st.list_of_captures.getD i VideoCapture.new).image }
    if (st1.frames_t_1.getD i none = none ∨ st1.audio_finished.getD i false = true) ∧
        FLAG_verbose = true ∧ st1.frames_t_1.getD i none = none then
      { st1 with
        list_of_captures :=
          st1.list_of_captures.set i (st1.list_of_captures.getD i VideoCapture.new).release }
    else st1
  else st

/-- Lines 522-541: the flag is `false` for `continue` (the stream contributes nothing on this
tick) and `true` when the stream goes on to be staged; with it, the state reached. -/
def flushOrSkip (sdk : Sdk) (i : Nat) (st : State) : State × Bool :=
  if st.frames.getD i none = none ∨ st.audio_finished.getD i false = true then
    if st.flush_frames_remaining.getD i 0 > 0 then
      let st1 : State :=
        { st with
          flush_frames_remaining :=
            st.flush_frames_remaining.set i (st.flush_frames_remaining.getD i 0 - 1) }
      if st1.flush_frames_remaining.getD i 0 = 0 then ((ReleaseStream sdk i st1).2, true)
      else (st1, true)
    else if st.audio_finished.getD i false = true then
      ({ st with
         list_of_captures :=
           st.list_of_captures.set i (st.list_of_captures.getD i VideoCapture.new).release },
        false)
    else (st, false)
  else (st, true)

/-- Lines 546-568: the audio frame of stream `i` for this tick, and the state after it is
cut. `requestedEnd k` is the value of `static_cast<unsigned>(frame_timestamp[i] *
samples_per_second)` once `1 / kFPS` has been added `k` times to the time stamp. When the
audio of the stream is not finished and `audio_start_sample > audio_end_sample`, the range
insert of line 557 is given a first iterator behind the last one and throws
`std::length_error`; no handler catches it, so the run ends there: `.error` is the state at
the throw, with the violation recorded. -/
def cutAudio (requestedEnd : Nat → Nat) (list_of_audio : List (List Sample)) (tick i : Nat)
    (st : State) : Except State (List Sample × State) :=
  let audio_start_sample := st.last_audio_end_sample
  let requested_audio_end_sample := requestedEnd (st.frame_timestamp.getD i 0)
  let audio_end_sample := min requested_audio_end_sample (list_of_audio.getD i []).length
  let st : State := { st with last_audio_end_sample := requested_audio_end_sample }
  if st.audio_finished.getD i false = true then
    .ok (List.replicate (requested_audio_end_sample - audio_start_sample) 0, st)
  else if audio_start_sample > audio_end_sample then
    .error
      { st with
        violations := st.violations ++
          [Violation.audioRange tick i audio_start_sample audio_end_sample] }
  else
    let audio_frame :=
      ((list_of_audio.getD i []).drop audio_start_sample).take
        (audio_end_sample - audio_start_sample)
    if requested_audio_end_sample ≥ (list_of_audio.getD i []).length then
      .ok (audio_frame ++ List.replicate (requested_audio_end_sample - audio_end_sample) 0,
        { st with audio_finished := st.audio_finished.set i true })
    else .ok (audio_frame, st)

/-- The audio frame that `cutAudio` cuts for stream `i` when the insert of line 557 does not
throw. -/
def cutFrame (requestedEnd : Nat → Nat) (list_of_audio : List (List Sample)) (i : Nat)
    (st : State) : List Sample :=
  if st.audio_finished.getD i false = true then
    List.replicate (requestedEnd (st.frame_timestamp.getD i 0) - st.last_audio_end_sample) 0
  else if requestedEnd (st.frame_timestamp.getD i 0) ≥ (list_of_audio.getD i []).length then
    ((list_of_audio.getD i []).drop st.last_audio_end_sample).take
        (min (requestedEnd (st.frame_timestamp.getD i 0)) (list_of_audio.getD i []).length -
          st.last_audio_end_sample) ++
      List.replicate (requestedEnd (st.frame_timestamp.getD i 0) -
        min (requestedEnd (st.frame_timestamp.getD i 0)) (list_of_audio.getD i []).length) 0
  else
    ((list_of_audio.getD i []).drop st.last_audio_end_sample).take
      (min (requestedEnd (st.frame_timestamp.getD i 0)) (list_of_audio.getD i []).length -
        st.last_audio_end_sample)

/-- The state in which `cutAudio` leaves the audio frame cut when the insert of line 557 does
not throw. -/
def cutState (requestedEnd : Nat → Nat) (list_of_audio : List (List Sample)) (i : Nat)
    (st : State) : State :=
  if st.audio_finished.getD i false = false ∧
      requestedEnd (st.frame_timestamp.getD i 0) ≥ (list_of_audio.getD i []).length then
    { st with
      last_audio_end_sample := requestedEnd (st.frame_timestamp.getD i 0)
      audio_finished := st.audio_finished.set i true }
  else { st with last_audio_end_sample := requestedEnd (st.frame_timestamp.getD i 0) }

/-- Lines 570-573: append the audio frame to the batch, record its length and the stream in
slot `batchsize`, count the slot. -/
def stage (tick i : Nat) (audio_frame : List Sample) (st : State) : State :=
  { st with
    audio_frame_batched := st.audio_frame_batched ++ audio_frame
    audio_frame_num_samples := st.audio_frame_num_samples.set st.batchsize audio_frame.length
    violations :=
      if st.batchsize < st.audio_frame_num_samples_size then st.violations
      else st.violations ++
        [Violation.numSamplesIndex tick st.batchsize st.audio_frame_num_samples_size]
    batch_indices := st.batch_indices.set st.batchsize i
    batchsize := st.batchsize + 1 }

/-- Lines 546-573: cut the audio frame of stream `i` and stage it. -/
def cutAndStage (requestedEnd : Nat → Nat) (list_of_audio : List (List Sample)) (tick i : Nat)
    (st : State) : Except State State :=
  match cutAudio requestedEnd list_of_audio tick i st with
  | .error st => .error st
  | .ok (audio_frame, st) => .ok (stage tick i audio_frame st)

/-- Body of the assembly loop `for (unsigned i = 0; i < num_streams; i++)`, lines 506-574. -/
def assembleStep (sdk : Sdk) (FLAG_verbose : Bool) (requestedEnd : Nat → Nat)
    (list_of_audio : List (List Sample)) (tick i : Nat) (st : State) : Except State State :=
  if (flushOrSkip sdk i (readNext FLAG_verbose i st)).2 = false then
    .ok (flushOrSkip sdk i (readNext FLAG_verbose i st)).1
  else
    let st1 := (flushOrSkip sdk i (readNext FLAG_verbose i st)).1
    match st1.frames.getD i none with
    | none => cutAndStage requestedEnd list_of_audio tick i st1
    | some frame =>
      if sdk.status (Call.TransferToNthImage tick i) ≠ 0 then
        .error { st1 with err := sdk.status (Call.TransferToNthImage tick i) }
      else
        let st2 : State :=
          { st1 with
            err := sdk.status (Call.TransferToNthImage tick i)
            app := { st1.app with m_srcVid := st1.app.m_srcVid.set st1.batchsize (some frame) } }
        cutAndStage requestedEnd list_of_audio tick i st2

/-- The assembly loop after its first `k` iterations (streams `0 .. k-1`). -/
def assembleLoop (sdk : Sdk) (FLAG_verbose : Bool) (requestedEnd : Nat → Nat)
    (list_of_audio : List (List Sample)) (tick : Nat) : Nat → State → Except State State
  | 0, st => .ok st
  | k + 1, st =>
    match assembleLoop sdk FLAG_verbose requestedEnd list_of_audio tick k st with
    | .error st => .error st
    | .ok st => assembleStep sdk FLAG_verbose requestedEnd list_of_audio tick k st

/-- Function `BaseApp::Run(audio_batched, audio_num_samples, batch_indices, batchsize)`, lines
293-312. -/
def Run (sdk : Sdk) (tick : Nat) (audio_batched : List Sample) (audio_num_samples : List Nat)
    (batch_indices : List Nat) (batchsize : Nat) (st : State) : NvCV_Status × State :=
  if sdk.status (Call.SetAudioFrameBuffer tick) ≠ 0 then
    (sdk.status (Call.SetAudioFrameBuffer tick), st)
  else
    let app0 : App :=
      { st.app with m_effect := { st.app.m_effect with AudioFrameBuffer := audio_batched } }
    if sdk.status (Call.SetAudioFrameLength tick) ≠ 0 then
      (sdk.status (Call.SetAudioFrameLength tick), { st with app := app0 })
    else
      let app0 : App :=
        { app0 with
          m_effect := { app0.m_effect with AudioFrameLength := audio_num_samples.take batchsize } }
      if sdk.status (Call.SetHeadMovementSpeed tick) ≠ 0 then
        (sdk.status (Call.SetHeadMovementSpeed tick), { st with app := app0 })
      else
        let app1 : App :=
          { app0 with
            m_batchOfStateObjects :=
              gatherStates batch_indices app0.m_arrayOfAllStateObjects batchsize
                app0.m_batchOfStateObjects }
        if sdk.status (Call.SetBatchSize tick) ≠ 0 then
          (sdk.status (Call.SetBatchSize tick), { st with app := app1 })
        else
          let app2 : App :=
            { app1 with m_effect := { app1.m_effect with BatchSize := batchsize } }
          if sdk.status (Call.SetState tick) ≠ 0 then
            (sdk.status (Call.SetState tick), { st with app := app2 })
          else
            let app3 : App :=
              { app2 with
                m_effect :=
                  { app2.m_effect with State := app2.m_batchOfStateObjects.take batchsize } }
            let st3 : State :=
              { st with
                app := app3
                trace := st.trace ++
                  [Event.Run (batch_indices.take batchsize) app3.m_effect
                    (app3.m_srcVid.take batchsize)] }
            if sdk.status (Call.Run tick) ≠ 0 then (sdk.status (Call.Run tick), st3)
            else (sdk.status (Call.SynchronizeTriton tick), st3)

/-- Function `LipsyncApp::GenerateNthOutputVizImage(n, result)`, lines 362-377: the status and the
image left in `result` (which the caller passes in empty). -/
def GenerateNthOutputVizImage (sdk : Sdk) (tick n : Nat) : NvCV_Status × Mat :=
  if sdk.status (Call.GetReady tick n) ≠ 0 then (sdk.status (Call.GetReady tick n), none)
  else if sdk.ready tick n = 0 then (NVCV_SUCCESS, none)
  else (sdk.status (Call.TransferOutput tick n), some (sdk.output tick n))

/-- Body of the loop of lines 587-603, for slot `i`: write the output of the slot, if any, to
the writer of its stream and make the stream's next frame its current frame. -/
def writeStep (sdk : Sdk) (tick i : Nat) (st : State) : Except State State :=
  if (GenerateNthOutputVizImage sdk tick i).1 ≠ 0 then
    .error { st with err := (GenerateNthOutputVizImage sdk tick i).1 }
  else
    let st1 : State :=
      match (GenerateNthOutputVizImage sdk tick i).2 with
      | none => st
      | some display_frame =>
        { st with
          list_of_writers :=
            st.list_of_writers.set (st.batch_indices.getD i 0)
              (st.list_of_writers.getD (st.batch_indices.getD i 0) [] ++ [display_frame]) }
    .ok { st1 with
          err := (GenerateNthOutputVizImage sdk tick i).1
          frames :=
            st1.frames.set (st.batch_indices.getD i 0)
              (st1.frames_t_1.getD (st.batch_indices.getD i 0) none) }

/-- The output loop after its first `k` iterations (slots `0 .. k-1`). -/
def writeLoop (sdk : Sdk) (tick : Nat) : Nat → State → Except State State
  | 0, st => .ok st
  | k + 1, st =>
    match writeLoop sdk tick k st with
    | .error st => .error st
    | .ok st => writeStep sdk tick k st

/-- One iteration of `while (1)`, lines 502-610: `.error` is `goto bail` or the exception
thrown in `cutAudio`, `.ok (true, _)` is `break`, `.ok (false, _)` goes on to the next
tick. -/
def tick (sdk : Sdk) (FLAG_verbose : Bool) (requestedEnd : Nat → Nat)
    (list_of_audio : List (List Sample)) (num_streams tick : Nat) (st : State) :
    Except State (Bool × State) :=
  match assembleLoop sdk FLAG_verbose requestedEnd list_of_audio tick num_streams
      { st with batchsize := 0 } with
  | .error st => .error st
  | .ok a =>
    if a.batchsize = 0 then .ok (true, a)
    else if (Run sdk tick a.audio_frame_batched a.audio_frame_num_samples a.batch_indices
        a.batchsize a).1 ≠ 0 then
      .error
        { (Run sdk tick a.audio_frame_batched a.audio_frame_num_samples a.batch_indices
            a.batchsize a).2 with
          err := (Run sdk tick a.audio_frame_batched a.audio_frame_num_samples a.batch_indices
            a.batchsize a).1 }
    else
      let r : State :=
        { (Run sdk tick a.audio_frame_batched a.audio_frame_num_samples a.batch_indices
            a.batchsize a).2 with
          err := (Run sdk tick a.audio_frame_batched a.audio_frame_num_samples a.batch_indices
            a.batchsize a).1 }
      if sdk.status (Call.GetActivation tick) ≠ 0 then
        .error { r with err := sdk.status (Call.GetActivation tick) }
      else
        match writeLoop sdk tick r.batchsize
            { r with err := sdk.status (Call.GetActivation tick) } with
        | .error st => .error st
        | .ok st =>
          .ok (false,
            { st with
              frame_count := st.frame_count + 1
              audio_frame_batched := []
              audio_frame_num_samples_size := 0 })

/-- The loop `while (1)`, run for at most `fuel` iterations from tick `t`; `none` when the
fuel runs out before the loop is left. -/
def tickLoop (sdk : Sdk) (FLAG_verbose : Bool) (requestedEnd : Nat → Nat)
    (list_of_audio : List (List Sample)) (num_streams : Nat) : Nat → Nat → State → Option State
  | 0, _, _ => none
  | fuel + 1, t, st =>
    match tick sdk FLAG_verbose requestedEnd list_of_audio num_streams t st with
    | .error st => some st
    | .ok (true, st) => some st
    | .ok (false, st) =>
      tickLoop sdk FLAG_verbose requestedEnd list_of_audio num_streams fuel (t + 1) st

/-- The loop of lines 479-486 after its first `k` iterations: read the first frame of every
opened video and allocate the state of the streams that have one. -/
def initLoop (sdk : Sdk) : Nat → State → Except State State
  | 0, st => .ok st
  | k + 1, st =>
    match initLoop sdk k st with
    | .error st => .error st
    | .ok st =>
      if !(st.list_of_captures.getD k VideoCapture.new).opened then .ok st
      else
        let st1 : State :=
          { st with
            list_of_captures :=
              st.list_of_captures.set k (st.list_of_captures.getD k VideoCapture.new).advance
            frames := st.frames.set k (st.list_of_captures.getD k VideoCapture.new).image }
        if st1.frames.getD k none = none ∨ st1.audio_finished.getD k false = true then
          .ok { st1 with
                list_of_captures :=
                  st1.list_of_captures.set k
                    (st1.list_of_captures.getD k VideoCapture.new).release }
        else if (InitStream sdk k st1).1 ≠ 0 then .error (InitStream sdk k st1).2
        else .ok (InitStream sdk k st1).2

/-- The loop of lines 489-500: `some i` is the first writer that does not open. -/
def openWriters (sdk : Sdk) (num_streams : Nat) : Option Nat :=
  (List.range num_streams).find? (fun i => !sdk.writerOpened i)

/-- Why the loop of lines 433-461 is left early. -/
inductive OpenFailure where
  /-- a `return` with an error status -/
  | status (err : NvCV_Status)
  /-- the read `FLAG_srcVideoFiles[i]` past the end of the vector, after which the behaviour
  of the program is not defined -/
  | pastEnd (i : Nat)
deriving DecidableEq

/-- The loop of lines 433-461 after its first `k` iterations: open every video, read its
size from the metadata, compare it with the first video, rewind. The result is the captures
and `src_video_width`, `src_video_height`. -/
def openLoop (videos : List Video) (num_streams : Nat) :
    Nat → Except OpenFailure (List VideoCapture × Nat × Nat)
  | 0 => .ok (List.replicate num_streams VideoCapture.new, 0, 0)
  | k + 1 =>
    match openLoop videos num_streams k with
    | .error e => .error e
    | .ok (list_of_captures, src_video_width, src_video_height) =>
      match videos[k]? with
      | none => .error (OpenFailure.pastEnd k)
      | some video =>
        if !(VideoCapture.open video).opened then .error (OpenFailure.status NVCV_ERR_READ)
        else if video.cols = 0 ∨ video.rows = 0 then .error (OpenFailure.status NVCV_ERR_READ)
        else if k = 0 then
          .ok (list_of_captures.set k { VideoCapture.open video with pos := 0 }, video.cols,
            video.rows)
        else if src_video_width ≠ video.cols ∨ src_video_height ≠ video.rows then
          .error (OpenFailure.status NVCV_ERR_MISMATCH)
        else
          .ok (list_of_captures.set k { VideoCapture.open video with pos := 0 },
            src_video_width, src_video_height)

/-- The state in which `BatchProcessVideos` enters line 472. -/
def initialState (list_of_captures : List VideoCapture) (num_streams : Nat) : State :=
    { err := NVCV_SUCCESS
      list_of_captures := list_of_captures
      frames := List.replicate num_streams none
      frames_t_1 := List.replicate num_streams none
      batch_indices := List.replicate num_streams 0
      list_of_writers := List.replicate num_streams []
      audio_frame_batched := []
      audio_frame_num_samples := List.replicate num_streams 0
      audio_frame_num_samples_size := num_streams
      batchsize := 0
      frame_count := 0
      last_audio_end_sample := 0
      frame_timestamp := List.replicate num_streams 0
      audio_finished := List.replicate num_streams false
      flush_frames_remaining := []
      app := App.new
      trace := []
      violations := [] }

/-- Function `BatchProcessVideos()`, lines 398-614, for the source videos and the audio
buffers that `ReadWavFile` reads in the loop of lines 464-470 (one per stream, every read
succeeding), with an output format that is `mp4` or `avi`; `none` when the fuel runs out inside the tick loop. When the
loop that opens the videos reads past the end of the list of videos, or the insert of line
557 throws, the model stops there with the violation recorded: the state returned is the one
in which the program leaves what the C++ standard library defines or is aborted by the
exception. -/
def BatchProcessVideos (sdk : Sdk) (FLAG_verbose : Bool) (requestedEnd : Nat → Nat)
    (videos : List Video) (list_of_audio : List (List Sample)) (fuel : Nat) : Option State :=
  let num_streams := list_of_audio.length
  if ¬ num_streams > 0 then some { initialState [] num_streams with err := NVCV_ERR_MISSINGINPUT }
  else
  match openLoop videos num_streams num_streams with
  | .error (OpenFailure.status e) => some { initialState [] num_streams with err := e }
  | .error (OpenFailure.pastEnd i) =>
    some { initialState [] num_streams with
           violations := [Violation.videoFileIndex i videos.length] }
  | .ok (list_of_captures, _, _) =>
  let st0 : State := initialState list_of_captures num_streams
  let st1 : State := { st0 with err := (st0.app.Init sdk num_streams).1,
                                app := (st0.app.Init sdk num_streams).2 }
  if st1.err ≠ 0 then some st1
  else if sdk.status Call.AllocateBuffers ≠ 0 then
    some { st1 with err := sdk.status Call.AllocateBuffers }
  else
    let st2 : State :=
      { st1 with app := { st1.app with m_srcVid := List.replicate num_streams none } }
    if sdk.status Call.SetParametersBeforeLoad ≠ 0 then
      some { st2 with err := sdk.status Call.SetParametersBeforeLoad }
    else if sdk.status Call.Load ≠ 0 then some { st2 with err := sdk.status Call.Load }
    else if sdk.status Call.GetNumInitialFrames ≠ 0 then
      some { st2 with err := sdk.status Call.GetNumInitialFrames }
    else
      match initLoop sdk num_streams
          { st2 with
            err := sdk.status Call.GetNumInitialFrames
            flush_frames_remaining := List.replicate num_streams sdk.NumInitialFrames } with
      | .error st => some st
      | .ok st =>
        match openWriters sdk num_streams with
        | some _ => some { st with err := NVCV_ERR_WRITE }
        | none => tickLoop sdk FLAG_verbose requestedEnd list_of_audio num_streams fuel 0 st

/-- The streams that contribute a slot on tick `t`, in slot order, when the flush window is
`F` and no audio ends early: those whose video has more than `t - F` frames. -/
def batchAt (videos : List Video) (F num_streams t : Nat) : List Nat :=
  (List.range num_streams).filter (fun i => decide (t < numFrames videos i + F))

/-- The streams released on tick `t` in that case: those with `t + 1 = V + F`, if the flush
window is not empty. -/
def releasedAt (videos : List Video) (F num_streams t : Nat) : List Nat :=
  (List.range num_streams).filter
    (fun i => decide (0 < F ∧ t + 1 = numFrames videos i + F))

/-- The releases and the batch of tick `t` in that case. -/
def tickSteps (videos : List Video) (F : Nat) (t : Nat) : List Step :=
  (releasedAt videos F videos.length t).map Step.release ++
    [Step.run (batchAt videos F videos.length t) (batchAt videos F videos.length t).length]

/-- The first tick whose batch is empty in that case. -/
def lastTick (videos : List Video) (F : Nat) : Nat :=
  (videos.map (fun v => v.frames.length + F)).foldr max 0

/-- The capture of video `i` when tick `t` starts: a video that has ended is closed in
verbose mode only. -/
def capAt (FLAG_verbose : Bool) (videos : List Video) (t i : Nat) : VideoCapture :=
  { opened := !FLAG_verbose || decide (t < numFrames videos i)
    frames := (videos.getD i Video.absent).frames
    pos := min (t + 1) (numFrames videos i) }

/-- The state at the start of tick `t` of a run without failure in which no audio ends
before its stream has stopped contributing. -/
structure Inv (FLAG_verbose : Bool) (videos : List Video) (F t : Nat) (st : State) : Prop where
  caps_len : st.list_of_captures.length = videos.length
  frames_len : st.frames.length = videos.length
  frames1_len : st.frames_t_1.length = videos.length
  bi_len : st.batch_indices.length = videos.length
  flush_len : st.flush_frames_remaining.length = videos.length
  fin_len : st.audio_finished.length = videos.length
  ts_len : st.frame_timestamp.length = videos.length
  err_zero : st.err = 0
  caps : ∀ i, i < videos.length → st.list_of_captures[i]? = some (capAt FLAG_verbose videos t i)
  frames : ∀ i, i < videos.length → st.frames[i]? = some (frameAt videos i t)
  frames1 : ∀ i, i < videos.length → numFrames videos i ≤ t → st.frames_t_1[i]? = some none
  flush : ∀ i, i < videos.length →
    st.flush_frames_remaining[i]? = some (F - (t - numFrames videos i))
  fin : ∀ i, i < videos.length → st.audio_finished[i]? = some false
  ts : ∀ i, i < videos.length → st.frame_timestamp[i]? = some t
  steps : stepsOf st.trace = (List.range t).flatMap (tickSteps videos F)

/-- The state of tick `t`'s assembly after `k` iterations, in such a run that entered the
tick in state `st`. -/
structure AsmInv (FLAG_verbose : Bool) (videos : List Video) (F t : Nat) (st : State) (k : Nat)
    (a : State) : Prop where
  batchsize_eq : a.batchsize = (batchAt videos F k t).length
  bi_take : a.batch_indices.take a.batchsize = batchAt videos F k t
  caps_len : a.list_of_captures.length = videos.length
  frames1_len : a.frames_t_1.length = videos.length
  bi_len : a.batch_indices.length = videos.length
  flush_len : a.flush_frames_remaining.length = videos.length
  fin_len : a.audio_finished.length = videos.length
  ts_len : a.frame_timestamp.length = videos.length
  err_zero : a.err = 0
  frames_eq : a.frames = st.frames
  steps : stepsOf a.trace = stepsOf st.trace ++ (releasedAt videos F k t).map Step.release
  caps : ∀ j, j < videos.length →
    a.list_of_captures[j]? =
      some (if j < k then capAt FLAG_verbose videos (t + 1) j else capAt FLAG_verbose videos t j)
  frames1 : ∀ j, j < videos.length →
    (j < k → a.frames_t_1[j]? = some (frameAt videos j (t + 1))) ∧
      (k ≤ j → numFrames videos j ≤ t → a.frames_t_1[j]? = some none)
  flush : ∀ j, j < videos.length →
    a.flush_frames_remaining[j]? =
      some (if j < k then F - (t + 1 - numFrames videos j) else F - (t - numFrames videos j))
  fin : ∀ j, j < videos.length → a.audio_finished[j]? = some false
  ts : ∀ j, j < videos.length → a.frame_timestamp[j]? = some (if j < k then t + 1 else t)

/-- The state of tick `t`'s output loop after `k` iterations. -/
structure WriteInv (videos : List Video) (F t : Nat) (st : State) (k : Nat) (s : State) :
    Prop where
  trace_eq : s.trace = st.trace
  bi_eq : s.batch_indices = st.batch_indices
  frames1_eq : s.frames_t_1 = st.frames_t_1
  caps_eq : s.list_of_captures = st.list_of_captures
  flush_eq : s.flush_frames_remaining = st.flush_frames_remaining
  fin_eq : s.audio_finished = st.audio_finished
  ts_eq : s.frame_timestamp = st.frame_timestamp
  batchsize_eq : s.batchsize = st.batchsize
  err_zero : s.err = 0
  frames_len : s.frames.length = videos.length
  frames : ∀ i, i < videos.length →
    s.frames[i]? =
      some (if i ∈ (batchAt videos F videos.length t).take k then frameAt videos i (t + 1)
        else frameAt videos i t)

/-- The lengths of the audio frames given to each inference call of a trace, slot by slot. -/
def audioLengthsOf (tr : List Event) : List (List Nat × List Nat) :=
  tr.filterMap fun e =>
    match e with
    | Event.Run b eff _ => some (b, eff.AudioFrameLength)
    | _ => none

/-- The end sample requested once the time stamp has been advanced `k` times, in exact
arithmetic: `k / 30` seconds at `16000` samples per second. -/
def exactRequestedEnd (k : Nat) : Nat := 16000 * k / 30

end LipSyncTriton

/-! ## SpeechLivePortraitTritonClientApp.cpp -/

namespace SpeechLivePortraitTriton

/-- Constant `SpeechLPConstants::kSamplesPerFrame`. -/
def kSamplesPerFrame : Nat := 528

/-- Constant `SpeechLPConstants::kInitLatencyFrameCnt`. -/
def kInitLatencyFrameCnt : Nat := 6

/-- The locals of `BatchProcessVideos` that live across ticks. -/
structure State where
  err : NvCV_Status
  batch_indices : List Nat
  /-- the frames written so far to each `cv::VideoWriter` -/
  list_of_writers : List (List Nat)
  app : App
  trace : List Event
deriving DecidableEq

/-- The locals of one tick's assembly loop. -/
structure Assembly where
  st : State
  batchsize : Nat
  audio_frame_batched : List Sample
deriving DecidableEq

/-- Function `SpeechLivePortraitApp::ReleaseVideoStream(n)`. -/
def ReleaseVideoStream (sdk : Sdk) (n : Nat) (st : State) : NvCV_Status × State :=
  (sdk.status (Call.DeallocateState n), { st with trace := st.trace ++ [Event.DeallocateState n] })

/-- Function `SpeechLivePortraitApp::InitStream(n)`. -/
def InitStream (sdk : Sdk) (n : Nat) (st : State) : NvCV_Status × State :=
  ((st.app.InitStream sdk n).1,
    { st with app := (st.app.InitStream sdk n).2, trace := st.trace ++ [Event.AllocateState n] })

/-- The tail of the assembly loop body (lines 517-519): append the unit to the batched audio,
record the stream in `batch_indices[batchsize]`, count it. -/
def stage (i : Nat) (audio_frame : List Sample) (a : Assembly) : Assembly :=
  { st := { a.st with batch_indices := a.st.batch_indices.set a.batchsize i }
    batchsize := a.batchsize + 1
    audio_frame_batched := a.audio_frame_batched ++ audio_frame }

/-- Body of the loop `for (unsigned i = 0; i < num_streams; i++)` of lines 502-520. -/
def assembleStep (sdk : Sdk) (list_of_audio : List (List Sample)) (audio_nr_chunks : List Nat)
    (audio_chunk_idx i : Nat) (a : Assembly) : Except State Assembly :=
  if audio_chunk_idx ≥ audio_nr_chunks.getD i 0 + kInitLatencyFrameCnt then
    .ok a
  else if audio_chunk_idx = audio_nr_chunks.getD i 0 + kInitLatencyFrameCnt - 1 then
    if (ReleaseVideoStream sdk i a.st).1 ≠ 0 then
      .error (ReleaseVideoStream sdk i a.st).2
    else
      .ok (stage i (List.replicate kSamplesPerFrame 0)
        { a with st := (ReleaseVideoStream sdk i a.st).2 })
  else if audio_chunk_idx ≥ audio_nr_chunks.getD i 0 then
    .ok (stage i (List.replicate kSamplesPerFrame 0) a)
  else
    .ok (stage i
      (((list_of_audio.getD i []).drop (audio_chunk_idx * kSamplesPerFrame)).take
        kSamplesPerFrame) a)

/-- The assembly loop after its first `k` iterations (streams `0 .. k-1`). -/
def assembleLoop (sdk : Sdk) (list_of_audio : List (List Sample)) (audio_nr_chunks : List Nat)
    (audio_chunk_idx : Nat) : Nat → Assembly → Except State Assembly
  | 0, a => .ok a
  | k + 1, a =>
    match assembleLoop sdk list_of_audio audio_nr_chunks audio_chunk_idx k a with
    | .error st => .error st
    | .ok a => assembleStep sdk list_of_audio audio_nr_chunks audio_chunk_idx k a

/-- Function `SpeechLivePortraitApp::Run(audio_batched, batch_indices, batchsize)`, lines 391-410. -/
def Run (sdk : Sdk) (tick : Nat) (audio_batched : List Sample) (batch_indices : List Nat)
    (batchsize : Nat) (st : State) : NvCV_Status × State :=
  if sdk.status (Call.SetAudioFrameBuffer tick) ≠ 0 then
    (sdk.status (Call.SetAudioFrameBuffer tick), st)
  else
    let app1 : App :=
      { st.app with
        m_effect :=
          { st.app.m_effect with
            AudioFrameBuffer := audio_batched.take (batchsize * kSamplesPerFrame) }
        m_batchOfStateObjects :=
          gatherStates batch_indices st.app.m_arrayOfAllStateObjects batchsize
            st.app.m_batchOfStateObjects }
    if sdk.status (Call.SetBatchSize tick) ≠ 0 then
      (sdk.status (Call.SetBatchSize tick), { st with app := app1 })
    else
      let app2 : App := { app1 with m_effect := { app1.m_effect with BatchSize := batchsize } }
      if sdk.status (Call.SetState tick) ≠ 0 then
        (sdk.status (Call.SetState tick), { st with app := app2 })
      else
        let app3 : App :=
          { app2 with
            m_effect := { app2.m_effect with State := app2.m_batchOfStateObjects.take batchsize } }
        let st3 : State :=
          { st with
            app := app3
            trace := st.trace ++ [Event.Run (batch_indices.take batchsize) app3.m_effect []] }
        if sdk.status (Call.Run tick) ≠ 0 then (sdk.status (Call.Run tick), st3)
        else (sdk.status (Call.SynchronizeTriton tick), st3)

/-- Function `SpeechLivePortraitApp::GenerateNthOutputVizImage(n, result)`, lines 412-438: the status
and the image left in `result` (which the caller passes in empty). -/
def GenerateNthOutputVizImage (sdk : Sdk) (tick n : Nat) : NvCV_Status × Mat :=
  if sdk.status (Call.GetReady tick n) ≠ 0 then (sdk.status (Call.GetReady tick n), none)
  else if sdk.ready tick n = 0 then (NVCV_SUCCESS, none)
  else (sdk.status (Call.TransferOutput tick n), some (sdk.output tick n))

/-- Body of the loop `Write Output` of lines 528-535, for slot `i`. -/
def writeStep (sdk : Sdk) (tick i : Nat) (st : State) : Except State State :=
  if (GenerateNthOutputVizImage sdk tick i).1 ≠ 0 then
    .error { st with err := (GenerateNthOutputVizImage sdk tick i).1 }
  else
    match (GenerateNthOutputVizImage sdk tick i).2 with
    | none => .ok { st with err := (GenerateNthOutputVizImage sdk tick i).1 }
    | some display_frame =>
      .ok { st with
            err := (GenerateNthOutputVizImage sdk tick i).1
            list_of_writers :=
              st.list_of_writers.set (st.batch_indices.getD i 0)
                (st.list_of_writers.getD (st.batch_indices.getD i 0) [] ++ [display_frame]) }

/-- The output loop after its first `k` iterations (slots `0 .. k-1`). -/
def writeLoop (sdk : Sdk) (tick : Nat) : Nat → State → Except State State
  | 0, st => .ok st
  | k + 1, st =>
    match writeLoop sdk tick k st with
    | .error st => .error st
    | .ok st => writeStep sdk tick k st

/-- One iteration of the tick loop `for (int audio_chunk_idx = 0;; audio_chunk_idx++)`:
`.error` is `goto bail`, `.ok (true, _)` is `break`, `.ok (false, _)` goes on to the next
tick. -/
def tick (sdk : Sdk) (list_of_audio : List (List Sample)) (audio_nr_chunks : List Nat)
    (num_streams audio_chunk_idx : Nat) (st : State) : Except State (Bool × State) :=
  match assembleLoop sdk list_of_audio audio_nr_chunks audio_chunk_idx num_streams
      { st := st, batchsize := 0, audio_frame_batched := [] } with
  | .error st => .error st
  | .ok a =>
    if a.batchsize = 0 then .ok (true, a.st)
    else
      if (Run sdk audio_chunk_idx a.audio_frame_batched a.st.batch_indices a.batchsize a.st).1 ≠ 0
      then
        .error
          { (Run sdk audio_chunk_idx a.audio_frame_batched a.st.batch_indices a.batchsize a.st).2
            with
            err :=
              (Run sdk audio_chunk_idx a.audio_frame_batched a.st.batch_indices a.batchsize
                a.st).1 }
      else
        match writeLoop sdk audio_chunk_idx a.batchsize
            { (Run sdk audio_chunk_idx a.audio_frame_batched a.st.batch_indices a.batchsize
                  a.st).2 with
              err :=
                (Run sdk audio_chunk_idx a.audio_frame_batched a.st.batch_indices a.batchsize
                  a.st).1 } with
        | .error st => .error st
        | .ok st => .ok (false, st)

/-- The tick loop, run for at most `fuel` iterations from tick `audio_chunk_idx`; `none` when
the fuel runs out before the loop is left. -/
def tickLoop (sdk : Sdk) (list_of_audio : List (List Sample)) (audio_nr_chunks : List Nat)
    (num_streams : Nat) : Nat → Nat → State → Option State
  | 0, _, _ => none
  | fuel + 1, audio_chunk_idx, st =>
    match tick sdk list_of_audio audio_nr_chunks num_streams audio_chunk_idx st with
    | .error st => some st
    | .ok (true, st) => some st
    | .ok (false, st) =>
      tickLoop sdk list_of_audio audio_nr_chunks num_streams fuel (audio_chunk_idx + 1) st

/-- The loop of lines 475-480 after its first `k` iterations: `InitStream(i)` for every stream
with at least one chunk. -/
def initLoop (sdk : Sdk) (audio_nr_chunks : List Nat) : Nat → State → Except State State
  | 0, st => .ok st
  | k + 1, st =>
    match initLoop sdk audio_nr_chunks k st with
    | .error st => .error st
    | .ok st =>
      if audio_nr_chunks.getD k 0 = 0 then .ok st
      else if (InitStream sdk k st).1 ≠ 0 then .error (InitStream sdk k st).2
      else .ok (InitStream sdk k st).2

/-- The loop of lines 483-495: `some i` is the first writer that does not open. -/
def openWriters (sdk : Sdk) (num_streams : Nat) : Option Nat :=
  (List.range num_streams).find? (fun i => !sdk.writerOpened i)

/-- The chunk counts of line 466, `audio_nr_chunks[i] = list_of_audio[i]->size() /
kSamplesPerFrame`. -/
def audioNrChunks (list_of_audio : List (List Sample)) : List Nat :=
  list_of_audio.map (fun a => a.length / kSamplesPerFrame)

/-- Function `BatchProcessVideos()`, lines 441-540, for the audio buffers that `ReadWavFile`
gives the loop of lines 460-467 (one per stream); `none` when the fuel runs out inside the
tick loop. -/
def BatchProcessVideos (sdk : Sdk) (list_of_audio : List (List Sample)) (fuel : Nat) :
    Option State :=
  let num_streams := list_of_audio.length
  let audio_nr_chunks := audioNrChunks list_of_audio
  let st0 : State :=
    { err := NVCV_SUCCESS, batch_indices := List.replicate num_streams 0,
      list_of_writers := List.replicate num_streams [], app := App.new, trace := [] }
  if ¬ num_streams > 0 then some { st0 with err := NVCV_ERR_MISSINGINPUT }
  else
  let st1 : State := { st0 with err := (st0.app.Init sdk num_streams).1,
                                app := (st0.app.Init sdk num_streams).2 }
  if st1.err ≠ 0 then some st1
  else if sdk.status Call.AllocateBuffers ≠ 0 then
    some { st1 with err := sdk.status Call.AllocateBuffers }
  else if sdk.status Call.SetParametersBeforeLoad ≠ 0 then
    some { st1 with err := sdk.status Call.SetParametersBeforeLoad }
  else if sdk.status Call.Load ≠ 0 then some { st1 with err := sdk.status Call.Load }
  else if sdk.status Call.SetParametersAfterLoad ≠ 0 then
    some { st1 with err := sdk.status Call.SetParametersAfterLoad }
  else
    match initLoop sdk audio_nr_chunks num_streams
        { st1 with err := sdk.status Call.SetParametersAfterLoad } with
    | .error st => some st
    | .ok st =>
      match openWriters sdk num_streams with
      | some _ => some { st with err := NVCV_ERR_WRITE }
      | none => tickLoop sdk list_of_audio audio_nr_chunks num_streams fuel 0 st

/-- The streams that contribute a slot on tick `t`, in slot order: those with
`t < audio_nr_chunks[i] + kInitLatencyFrameCnt`. -/
def batchAt (audio_nr_chunks : List Nat) (num_streams t : Nat) : List Nat :=
  (List.range num_streams).filter
    (fun i => decide (t < audio_nr_chunks.getD i 0 + kInitLatencyFrameCnt))

/-- The streams released on tick `t`: those with `t = audio_nr_chunks[i] +
kInitLatencyFrameCnt - 1`. -/
def releasedAt (audio_nr_chunks : List Nat) (num_streams t : Nat) : List Nat :=
  (List.range num_streams).filter
    (fun i => decide (t = audio_nr_chunks.getD i 0 + kInitLatencyFrameCnt - 1))

/-- The unit of stream `i` on tick `t`: its `t`-th chunk while `t` is below its chunk count,
`kSamplesPerFrame` zeros afterwards. -/
def unitAt (list_of_audio : List (List Sample)) (t i : Nat) : List Sample :=
  if t < (list_of_audio.getD i []).length / kSamplesPerFrame then
    ((list_of_audio.getD i []).drop (t * kSamplesPerFrame)).take kSamplesPerFrame
  else List.replicate kSamplesPerFrame 0

/-- The first tick whose batch is empty: the largest `audio_nr_chunks[i] +
kInitLatencyFrameCnt`. -/
def lastTick (audio_nr_chunks : List Nat) : Nat :=
  (audio_nr_chunks.map (fun n => n + kInitLatencyFrameCnt)).foldr max 0

/-- The events of tick `t` of a run in which no call fails: the releases of the assembly,
then the inference call. `all` is `m_arrayOfAllStateObjects`. -/
def tickEvents (list_of_audio : List (List Sample)) (all : List NvAR_StateHandle) (t : Nat) :
    List Event :=
  (releasedAt (audioNrChunks list_of_audio) list_of_audio.length t).map Event.DeallocateState ++
    [Event.Run (batchAt (audioNrChunks list_of_audio) list_of_audio.length t)
      { BatchSize := (batchAt (audioNrChunks list_of_audio) list_of_audio.length t).length
        State :=
          (batchAt (audioNrChunks list_of_audio) list_of_audio.length t).map
            (fun i => all.getD i 0)
        AudioFrameBuffer :=
          (batchAt (audioNrChunks list_of_audio) list_of_audio.length t).flatMap
            (unitAt list_of_audio t)
        AudioFrameLength := [] } []]

/-- The events of the loop that allocates the state of every stream with at least one chunk. -/
def initEvents (audio_nr_chunks : List Nat) (num_streams : Nat) : List Event :=
  ((List.range num_streams).filter (fun i => decide (audio_nr_chunks.getD i 0 ≠ 0))).map
    Event.AllocateState

/-- What every tick of a run without failure preserves. -/
def Inv (all : List NvAR_StateHandle) (num_streams : Nat) (st : State) : Prop :=
  st.batch_indices.length = num_streams ∧ st.app.m_arrayOfAllStateObjects = all ∧
    st.app.m_batchOfStateObjects.length = num_streams ∧ st.app.m_effect.AudioFrameLength = [] ∧
    st.err = 0 ∧ st.list_of_writers.length = num_streams

end SpeechLivePortraitTriton

/-! ## Sample inputs -/

/-- An environment in which every call succeeds and the capability reports the output of the
odd slots ready and that of the even slots not ready. -/
def Sdk.oddSlotsReady : Sdk :=
  { status := fun _ => 0
    handle := fun n => n + 1
    ready := fun _ n => n % 2
    output := fun t n => 100 * t + n
    writerOpened := fun _ => true
    NumInitialFrames := 0 }

/-- An app object for three streams whose states are allocated. -/
def App.sample : App :=
  { m_numOfStreams := 3, m_arrayOfAllStateObjects := [11, 12, 13],
    m_batchOfStateObjects := [0, 0, 0],
    m_effect := { BatchSize := 0, State := [], AudioFrameBuffer := [], AudioFrameLength := [] },
    m_srcVid := [none, none, none] }

/-- A state at the start of a tick with three streams: stream 0 holds frame 10 of a video
with one more frame, the video of stream 1 has ended, stream 2 holds its last frame 30. -/
def FaceTrackTriton.sampleState : FaceTrackTriton.State :=
  { err := 0
    list_of_captures :=
      [{ opened := true, frames := [10, 11], pos := 1 },
        { opened := false, frames := [20], pos := 1 },
        { opened := true, frames := [30], pos := 1 }]
    frames := [some 10, none, some 30]
    frames_t_1 := [some 10, none, some 30]
    batch_indices := [0, 1, 2]
    list_of_writers := [[], [{ input := 20, overlay := 1 }], []]
    app := App.sample
    trace := [] }

/-- A state at the start of a tick with three streams and no flush window: stream 0 holds
frame 10 of a video with one more frame, the video of stream 1 has ended, stream 2 holds its
last frame 30. -/
def LipSyncTriton.sampleState : LipSyncTriton.State :=
  { err := 0
    list_of_captures :=
      [{ opened := true, frames := [10, 11], pos := 1 },
        { opened := true, frames := [20], pos := 1 },
        { opened := true, frames := [30], pos := 1 }]
    frames := [some 10, none, some 30]
    frames_t_1 := [some 10, none, some 30]
    batch_indices := [0, 1, 2]
    list_of_writers := [[], [7], []]
    audio_frame_batched := []
    audio_frame_num_samples := [0, 0, 0]
    audio_frame_num_samples_size := 3
    batchsize := 0
    frame_count := 0
    last_audio_end_sample := 0
    frame_timestamp := [0, 0, 0]
    audio_finished := [false, false, false]
    flush_frames_remaining := [0, 0, 0]
    app := App.sample
    trace := []
    violations := [] }

/-- A state at the start of a tick with three streams. -/
def SpeechLivePortraitTriton.sampleState : SpeechLivePortraitTriton.State :=
  { err := 0, batch_indices := [0, 1, 2], list_of_writers := [[], [7], []], app := App.sample,
    trace := [] }

/-- Whether a computation that may leave through `bail` completes with a result that passes
the test `p`. -/
def completesWith {ε α : Type} (x : Except ε α) (p : α → Bool) : Bool :=
  match x with
  | .ok a => p a
  | .error _ => false

/-- An environment in which the call `c` returns the status `e` and every other call
succeeds; every writer opens, the flush window is `F` and the capability reports every
output ready. -/
def Sdk.failingAt (F : Nat) (c : Call) (e : NvCV_Status) : Sdk :=
  { status := fun c1 => if c1 = c then e else 0
    handle := fun n => n + 1
    ready := fun _ _ => 1
    output := fun t n => 100 * t + n
    writerOpened := fun _ => true
    NumInitialFrames := F }

/-! ## waveReadWrite.cpp -/

namespace WaveReadWrite

/-- A wave file as `CWaveFileRead` presents it to `ReadWavFile`. The class is declared in a
header that is not among the sources; `GetNumSamples()` is taken to return the `uint32_t`
member `m_nNumSamples`, the number of entries `GetFloatPCMData` gives `m_floatWaveData`. -/
structure WaveFile where
  /-- result of `isValid()` -/
  valid : Bool
  /-- result of `GetSampleRate()` -/
  sampleRate : Nat
  /-- member `GetWaveFormat().nChannels` -/
  nChannels : Nat
  /-- the vector `m_floatWaveData` once `GetFloatPCMData` has filled it -/
  samples : List Sample
deriving DecidableEq

/-- How a call of `ReadWavFile` ends. -/
inductive Outcome where
  /-- `return false`, with `*data = nullptr` -/
  | returnedFalse
  /-- the remainder `GetNumSamples() % align_samples` is taken with `align_samples` equal to
  0 -/
  | divisionByZero
  /-- the `resize` is asked for a negative `num_samples`, which as a `size_t` is above
  `max_size()` -/
  | lengthError
  /-- `return true`, with the vector `**data` and `*original_num_samples` -/
  | returnedTrue (data : List Sample) (original_num_samples : Nat)
deriving DecidableEq

/-- Method `std::vector<float>::resize(n, value)`. -/
def resize (v : List Sample) (n : Nat) (value : Sample) : List Sample :=
  v.take n ++ List.replicate (n - v.length) value

/-- The value of an `uint32_t` converted to `int`. -/
def toInt32 (x : Nat) : Int :=
  if x % 2 ^ 32 < 2 ^ 31 then (x % 2 ^ 32 : Nat) else (x % 2 ^ 32 : Nat) - 2 ^ 32

/-- Function `ReadWavFile(filename, expected_sample_rate, expected_num_channels, data,
original_num_samples, file_end_offset, align_samples, enable_debug)`, lines 346-448, for a
`filename` without `;` (a single file, read for the first time) and `file_end_offset ==
nullptr`. -/
def ReadWavFile (wave_file : WaveFile) (expected_sample_rate : Nat)
    (expected_num_channels : Int) (align_samples : Int) : Outcome :=
  if wave_file.valid = false then Outcome.returnedFalse
  else if wave_file.sampleRate ≠ expected_sample_rate then Outcome.returnedFalse
  else if (wave_file.nChannels : Int) ≠ expected_num_channels then Outcome.returnedFalse
  else
    let original_num_samples := wave_file.samples.length % 2 ^ 32
    if align_samples ≠ -1 then
      let align := (align_samples % 2 ^ 32).toNat
      if align = 0 then Outcome.divisionByZero
      else
        let pad := (align + 2 ^ 32 - original_num_samples % align) % 2 ^ 32
        let num_samples := toInt32 (original_num_samples + pad)
        if num_samples < 0 then Outcome.lengthError
        else
          Outcome.returnedTrue (resize wave_file.samples num_samples.toNat 0)
            original_num_samples
    else
      let num_samples := toInt32 original_num_samples
      if num_samples < 0 then Outcome.lengthError
      else
        Outcome.returnedTrue (resize wave_file.samples num_samples.toNat 0)
          original_num_samples

/-- A valid mono 16 kHz file of `n` samples of value 1. -/
def WaveFile.sample (n : Nat) : WaveFile :=
  { valid := true, sampleRate := 16000, nChannels := 1, samples := List.replicate n 1 }

end WaveReadWrite

/-! ## SpeechLivePortraitApp.cpp -/

namespace SpeechLivePortraitApp

/-- The values of `App::Err` that the three loops of `App::Run` can return. -/
inductive Err where
  | errNone
  | errHeadPose
  | errSDK
deriving DecidableEq

/-- The three loops of `App::Run`. -/
inductive Phase where
  | prime
  | pump
  | flush
deriving DecidableEq

/-- What the SDK and the application flags answer in iteration `i` of a loop of
`App::Run`. -/
structure Env where
  /-- status of `NvAR_SetF32Array(..., AudioFrameBuffer, ...)` -/
  setAudio : Phase → Nat → NvCV_Status
  /-- result of `UpdateHeadPose` -/
  headPose : Phase → Nat → Err
  /-- status of `NvAR_Run` -/
  run : Phase → Nat → NvCV_Status
  /-- status of `NvCVImage_Transfer` in `ProcessOutputVideo` -/
  transfer : Phase → Nat → NvCV_Status
  /-- value of `m_genVideo.isOpened() && FLAG_offlineMode && FLAG_captureOutputs` -/
  capture : Bool

/-- An environment in which no call fails and the generated video is captured. -/
def Env.succeeding : Env :=
  { setAudio := fun _ _ => 0, headPose := fun _ _ => Err.errNone, run := fun _ _ => 0,
    transfer := fun _ _ => 0, capture := true }

/-- No call fails and the generated video is captured. -/
def Env.AllSucceed (env : Env) : Prop :=
  (∀ p i, env.setAudio p i = NVCV_SUCCESS) ∧ (∀ p i, env.headPose p i = Err.errNone) ∧
    (∀ p i, env.run p i = NVCV_SUCCESS) ∧ (∀ p i, env.transfer p i = NVCV_SUCCESS) ∧
    env.capture = true

/-- What the loops do, as it is done. -/
inductive Event where
  /-- a successful `NvAR_SetF32Array` of an audio frame -/
  | feed (audio_frame : List Sample)
  /-- a call of `NvAR_Run` -/
  | run
  /-- a call of `m_genVideo.write` -/
  | write
deriving DecidableEq

/-- The locals of `App::Run` the loops change. -/
structure State where
  app_err : Err
  trace : List Event
deriving DecidableEq

/-- Function `App::ProcessOutputVideo()`, lines 855-883. -/
def ProcessOutputVideo (env : Env) (p : Phase) (i : Nat) (st : State) : Err × State :=
  if env.transfer p i ≠ 0 then (Err.errSDK, st)
  else if env.capture then (Err.errNone, { st with trace := st.trace ++ [Event.write] })
  else (Err.errNone, st)

/-- The statements shared by the bodies of the three loops: set the audio frame, update the
head pose, run inference; `.error` is the value of an early `return`. -/
def feedAndRun (env : Env) (p : Phase) (i : Nat) (audio_frame : List Sample) (st : State) :
    Except (Err × State) State :=
  if env.setAudio p i ≠ 0 then .error (Err.errSDK, st)
  else
    let st1 : State := { st with trace := st.trace ++ [Event.feed audio_frame] }
    if env.headPose p i ≠ Err.errNone then .error (st1.app_err, st1)
    else
      let st2 : State := { st1 with trace := st1.trace ++ [Event.run] }
      if env.run p i ≠ 0 then .error (Err.errSDK, st2) else .ok st2

/-- The audio frame `(offset, offset + samples_per_frame)` with `offset = begin() + i *
samples_per_frame`. -/
def audioFrame (input_wav_samples : List Sample) (samples_per_frame i : Nat) : List Sample :=
  (input_wav_samples.drop (i * samples_per_frame)).take samples_per_frame

/-- The loop `Prime` of lines 745-765 after its first `k` iterations. -/
def primeLoop (env : Env) (input_wav_samples : List Sample) (samples_per_frame : Nat) :
    Nat → State → Except (Err × State) State
  | 0, st => .ok st
  | k + 1, st =>
    match primeLoop env input_wav_samples samples_per_frame k st with
    | .error r => .error r
    | .ok st =>
      feedAndRun env Phase.prime k (audioFrame input_wav_samples samples_per_frame k) st

/-- The loop `Pump` of lines 768-786 after its first `k` iterations, which are those of
`i = init_latency_frame_cnt .. init_latency_frame_cnt + k - 1`. -/
def pumpLoop (env : Env) (input_wav_samples : List Sample)
    (samples_per_frame init_latency_frame_cnt : Nat) :
    Nat → State → Except (Err × State) State
  | 0, st => .ok st
  | k + 1, st =>
    match pumpLoop env input_wav_samples samples_per_frame init_latency_frame_cnt k st with
    | .error r => .error r
    | .ok st =>
      match feedAndRun env Phase.pump (init_latency_frame_cnt + k)
          (audioFrame input_wav_samples samples_per_frame (init_latency_frame_cnt + k)) st with
      | .error r => .error r
      | .ok st1 =>
        .ok { (ProcessOutputVideo env Phase.pump (init_latency_frame_cnt + k) st1).2 with
              app_err := (ProcessOutputVideo env Phase.pump (init_latency_frame_cnt + k) st1).1 }

/-- The loop `Flush` of lines 789-806 after its first `k` iterations. -/
def flushLoop (env : Env) (samples_per_frame : Nat) : Nat → State → Except (Err × State) State
  | 0, st => .ok st
  | k + 1, st =>
    match flushLoop env samples_per_frame k st with
    | .error r => .error r
    | .ok st =>
      match feedAndRun env Phase.flush k (List.replicate samples_per_frame 0) st with
      | .error r => .error r
      | .ok st1 =>
        .ok { (ProcessOutputVideo env Phase.flush k st1).2 with
              app_err := (ProcessOutputVideo env Phase.flush k st1).1 }

/-- Function `App::Run()` from line 742 on: the three loops, for the audio vector that
`ReadWavFile` returned, `samples_per_frame` and `init_latency_frame_cnt`; the value returned
and the state reached. -/
def Run (env : Env) (input_wav_samples : List Sample)
    (samples_per_frame init_latency_frame_cnt : Nat) : Err × State :=
  let input_audio_frame_cnt := input_wav_samples.length / samples_per_frame
  let flush_frame_cnt := init_latency_frame_cnt
  match primeLoop env input_wav_samples samples_per_frame
      (min init_latency_frame_cnt input_audio_frame_cnt)
      { app_err := Err.errNone, trace := [] } with
  | .error r => r
  | .ok st =>
    match pumpLoop env input_wav_samples samples_per_frame init_latency_frame_cnt
        (input_audio_frame_cnt - init_latency_frame_cnt) st with
    | .error r => r
    | .ok st =>
      match flushLoop env samples_per_frame flush_frame_cnt st with
      | .error r => r
      | .ok st => (st.app_err, st)

end SpeechLivePortraitApp

/-! ## Termination of the LipSync tick loop -/

namespace LipSyncTriton

/-- The variables of `BatchProcessVideos` that belong to one stream: its capture, its
current frame `frames[i]` and next frame `frames_t_1[i]`, the number of times its time stamp
was advanced, its `audio_finished` flag and its flush counter. -/
structure StreamView where
  cap : VideoCapture
  frame : Mat
  frame1 : Mat
  ts : Nat
  fin : Bool
  flush : Nat

/-- The variables of stream `i` in state `st`. -/
def view (st : State) (i : Nat) : StreamView :=
  { cap := st.list_of_captures.getD i VideoCapture.new
    frame := st.frames.getD i none
    frame1 := st.frames_t_1.getD i none
    ts := st.frame_timestamp.getD i 0
    fin := st.audio_finished.getD i false
    flush := st.flush_frames_remaining.getD i 0 }

/-- The vectors with one entry per stream have `N` entries. -/
structure Lens (N : Nat) (st : State) : Prop where
  caps : st.list_of_captures.length = N
  frames : st.frames.length = N
  frames1 : st.frames_t_1.length = N
  ts : st.frame_timestamp.length = N
  fin : st.audio_finished.length = N
  flush : st.flush_frames_remaining.length = N
  bi : st.batch_indices.length = N

/-- State `s1` is state `s` with the variables of stream `i` set to `v`; the current frames
and the count of completed ticks are those of `s`. -/
structure Upd (i : Nat) (s s1 : State) (v : StreamView) : Prop where
  caps : s1.list_of_captures = s.list_of_captures.set i v.cap
  frames1 : s1.frames_t_1 = s.frames_t_1.set i v.frame1
  ts : s1.frame_timestamp = s.frame_timestamp.set i v.ts
  fin : s1.audio_finished = s.audio_finished.set i v.fin
  flush : s1.flush_frames_remaining = s.flush_frames_remaining.set i v.flush
  frame : v.frame = s.frames.getD i none
  frames : s1.frames = s.frames
  frame_count : s1.frame_count = s.frame_count
  bi_len : s1.batch_indices.length = s.batch_indices.length

/-- The number of ticks on which a stream has real input, counted on from tick `t` when its
video has `n` more frames and its audio `A` samples: the stream leaves real-input mode after
the first tick whose requested end sample reaches `A`, and when its video has ended. -/
def realTicksFrom (requestedEnd : Nat → Nat) (A : Nat) : Nat → Nat → Nat
  | 0, t => t
  | n + 1, t =>
    if A ≤ requestedEnd (t + 1) then t + 1 else realTicksFrom requestedEnd A n (t + 1)

/-- The number of ticks on which stream `i` has real input: `min (V, T + 1)` for a video of
`V` frames, where `T` is the first tick whose requested end sample `requestedEnd (T + 1)`
reaches the length of the stream's audio, and `V` when no tick below `V` does. -/
def realTicks (requestedEnd : Nat → Nat) (videos : List Video)
    (list_of_audio : List (List Sample)) (i : Nat) : Nat :=
  realTicksFrom requestedEnd (list_of_audio.getD i []).length (numFrames videos i) 0

/-- The largest number of real-input ticks of a stream, plus the flush window `F`. -/
def tickBound (requestedEnd : Nat → Nat) (videos : List Video)
    (list_of_audio : List (List Sample)) (F : Nat) : Nat :=
  ((List.range list_of_audio.length).map
    (realTicks requestedEnd videos list_of_audio)).foldr max 0 + F

/-- What holds of a stream with `r` real-input ticks and video frames `vf` when tick `t`
starts: while `t < r` it has a current frame, unfinished audio and an opened capture that has
read `t + 1` frames; from tick `r` on its audio is finished, or its current frame is empty
and so is every frame it will read; its flush counter is `F` less the ticks since `r`. -/
structure StreamInv (r F t : Nat) (vf : List Nat) (v : StreamView) : Prop where
  ts : v.ts = t
  flush : v.flush = F - (t - r)
  real : t < r → v.frame ≠ none ∧ v.fin = false ∧
    v.cap = { opened := true, frames := vf, pos := t + 1 }
  ended : r ≤ t → v.fin = true ∨
    (v.frame = none ∧ (v.cap.opened = true → v.cap.image = none) ∧
      (v.cap.opened = false → v.frame1 = none))

/-- How one iteration of the assembly loop changes the variables of its stream from `v` to
`v1`, for audio of `A` samples; `staged` tells whether the stream is given a slot. -/
structure StepRel (requestedEnd : Nat → Nat) (A : Nat) (v v1 : StreamView) (staged : Bool) :
    Prop where
  ts : v1.ts = v.ts + 1
  frame : v1.frame = v.frame
  staged_iff : staged = true ↔ (v.frame ≠ none ∧ v.fin = false) ∨ 0 < v.flush
  flush : v1.flush = if v.frame ≠ none ∧ v.fin = false then v.flush else v.flush - 1
  fin : v1.fin = true ↔ v.fin = true ∨ (staged = true ∧ A ≤ requestedEnd (v.ts + 1))
  frame1_open : v.cap.opened = true → v1.frame1 = v.cap.image
  frame1_closed : v.cap.opened = false → v1.frame1 = v.frame1
  cap_closed : v.fin = false → v.cap.opened = false → v1.cap = v.cap
  cap_open : v.fin = false → v.cap.opened = true →
    v1.cap = v.cap.advance ∨ (v1.cap = v.cap.advance.release ∧ v.cap.image = none)

/-- The state at the start of tick `t` of a run with flush window `F`. -/
structure TickInv (requestedEnd : Nat → Nat) (videos : List Video)
    (list_of_audio : List (List Sample)) (F t : Nat) (st : State) : Prop where
  lens : Lens list_of_audio.length st
  streams : ∀ i, i < list_of_audio.length →
    StreamInv (realTicks requestedEnd videos list_of_audio i) F t
      (videos.getD i Video.absent).frames (view st i)

end LipSyncTriton

/-! ## Command-line flags of the Triton clients

The functions `GetFlagArgVal` and `GetFlagArgValAndSplit` are the same, line for line, in
FaceTrackTritonClientApp.cpp and LipSyncTritonClientApp.cpp. A C string is the list of its
characters before the terminating NUL. -/

/-- Function `GetFlagArgVal(flag, arg, const char** val)`: `none` is `return false`,
`some none` is `return true` with `*val = NULL` (the argument has no `=`), `some (some v)` is
`return true` with `*val` pointing at the characters `v` after the first `=`. -/
def GetFlagArgVal (flag arg : List Char) : Option (Option (List Char)) :=
  match arg with
  | [] => none
  | c :: rest =>
    if c ≠ '-' then none
    else
      let arg := rest.dropWhile (fun c => c == '-')
      match arg.dropWhile (fun c => c != '=') with
      | [] => if flag ≠ arg then none else some none
      | _ :: val =>
        if flag.length ≠ (arg.takeWhile (fun c => c != '=')).length ∨
            flag ≠ arg.takeWhile (fun c => c != '=') then none
        else some (some val)

/-- How a call of an overload of `GetFlagArgVal` that converts the value ends. -/
inductive FlagResult (α : Type) where
  /-- `return false` -/
  | noMatch
  /-- `return true`, with the value stored through `val` -/
  | matched (val : α)
  /-- the flag matches without a value and the null pointer `valStr` is passed to `strtol` -/
  | nullToStrtol
deriving DecidableEq

/-- Function `GetFlagArgVal(flag, arg, std::string* val)`. -/
def GetFlagArgVal_string (flag arg : List Char) : FlagResult (List Char) :=
  match GetFlagArgVal flag arg with
  | none => FlagResult.noMatch
  | some valStr => FlagResult.matched (valStr.getD [])

/-- Function `strcasecmp(a, b) == 0`. -/
def strcaseeq (a b : List Char) : Bool :=
  a.map Char.toLower == b.map Char.toLower

/-- Function `GetFlagArgVal(flag, arg, bool* val)`. -/
def GetFlagArgVal_bool (flag arg : List Char) : FlagResult Bool :=
  match GetFlagArgVal flag arg with
  | none => FlagResult.noMatch
  | some none => FlagResult.matched true
  | some (some valStr) =>
    FlagResult.matched
      (strcaseeq valStr "true".toList || strcaseeq valStr "on".toList ||
        strcaseeq valStr "yes".toList || strcaseeq valStr "1".toList)

/-- Function `GetFlagArgVal(flag, arg, long* val)`; `strtol s` is the value of
`strtol(s, NULL, 10)` for a string `s`. -/
def GetFlagArgVal_long (strtol : List Char → Int) (flag arg : List Char) : FlagResult Int :=
  match GetFlagArgVal flag arg with
  | none => FlagResult.noMatch
  | some none => FlagResult.nullToStrtol
  | some (some valStr) => FlagResult.matched (strtol valStr)

/-- Function `GetFlagArgVal(flag, arg, unsigned* val)`. -/
def GetFlagArgVal_unsigned (strtol : List Char → Int) (flag arg : List Char) :
    FlagResult Nat :=
  match GetFlagArgVal_long strtol flag arg with
  | FlagResult.noMatch => FlagResult.noMatch
  | FlagResult.nullToStrtol => FlagResult.nullToStrtol
  | FlagResult.matched longVal => FlagResult.matched (longVal % 2 ^ 32).toNat

/-- Call `std::getline(iss, part, ',')` on a stream with the characters `s` left: `none`
when nothing is left and the extraction fails, else the part read and the characters left
after it and its delimiter. -/
def getline (s : List Char) : Option (List Char × List Char) :=
  match s with
  | [] => none
  | _ :: _ => some (s.takeWhile (fun c => c != ','), (s.dropWhile (fun c => c != ',')).drop 1)

/-- The loop `while (std::getline(iss, part, ','))` with the characters `s` left in the
stream, run for at most `fuel` iterations; `none` when the fuel runs out. -/
def splitLoop : Nat → List Char → List (List Char) → Option (List (List Char))
  | 0, _, _ => none
  | fuel + 1, s, vals =>
    match getline s with
    | none => some vals
    | some (part, rest) => splitLoop fuel rest (if part ≠ [] then vals ++ [part] else vals)

/-- Function `GetFlagArgValAndSplit(flag, arg, vals)`: the value returned and the vector
`vals` afterwards; the loop is given one iteration more than the value has characters. -/
def GetFlagArgValAndSplit (flag arg : List Char) (vals : List (List Char)) :
    Option (Bool × List (List Char)) :=
  match GetFlagArgVal flag arg with
  | none => some (false, vals)
  | some none => some (true, vals)
  | some (some valStr) =>
    match splitLoop (valStr.length + 1) valStr vals with
    | none => none
    | some vals1 => some (true, vals1)

/-- The first operand of a chain `a || b || ...` of calls of `GetFlagArgVal` that does not
return false. -/
def firstOf {α : Type} : List (FlagResult α) → FlagResult α
  | [] => FlagResult.noMatch
  | FlagResult.noMatch :: rest => firstOf rest
  | r :: _ => r

/-- The result of a call of `GetFlagArgVal` that matches, stored in its flag. -/
def FlagResult.store {α β : Type} (r : FlagResult α) (f : α → β) : FlagResult β :=
  match r with
  | FlagResult.noMatch => FlagResult.noMatch
  | FlagResult.matched v => FlagResult.matched (f v)
  | FlagResult.nullToStrtol => FlagResult.nullToStrtol

namespace FaceTrackTriton

/-- The flags of FaceTrackTritonClientApp.cpp, lines 51-63. -/
structure Flags where
  FLAG_verbose : Bool
  FLAG_isLandmarks126 : Bool
  FLAG_useTritonGRPC : Bool
  FLAG_tritonURL : List Char
  FLAG_modelPath : List Char
  FLAG_effect : List Char
  FLAG_outputNameTag : List Char
  FLAG_log : List Char
  FLAG_inSrcVideoFiles : List (List Char)
  FLAG_srcImages : List (List Char)
  FLAG_landmarksMode : Nat
  FLAG_temporal : Nat
  FLAG_logLevel : Nat
deriving DecidableEq

/-- The initial values of the flags; `NVCV_LOG_ERROR` is 1. -/
def Flags.initial : Flags :=
  { FLAG_verbose := false, FLAG_isLandmarks126 := false, FLAG_useTritonGRPC := false,
    FLAG_tritonURL := "localhost:8001".toList, FLAG_modelPath := [], FLAG_effect := [],
    FLAG_outputNameTag := "output".toList, FLAG_log := "stderr".toList,
    FLAG_inSrcVideoFiles := [], FLAG_srcImages := [], FLAG_landmarksMode := 0,
    FLAG_temporal := 0xFFFFFFFF, FLAG_logLevel := 1 }

/-- Body of the loop of `ParseMyArgs`, lines 161-192, for the argument `arg`: `.error arg`
when the argument makes `GetFlagArgVal` pass a null pointer to `strtol`, after which the
behaviour of the program is not defined; else `errs` and the flags afterwards. -/
def parseArg (strtol : List Char → Int) (arg : List Char) (errs : Int) (f : Flags) :
    Except (List Char) (Int × Flags) :=
  match arg with
  | '-' :: '-' :: _ =>
    match firstOf
        [(GetFlagArgVal_bool "verbose".toList arg).store (fun v => { f with FLAG_verbose := v }),
          (GetFlagArgVal_string "url".toList arg).store (fun v => { f with FLAG_tritonURL := v }),
          (GetFlagArgVal_bool "grpc".toList arg).store
            (fun v => { f with FLAG_useTritonGRPC := v }),
          (GetFlagArgVal_string "effect".toList arg).store
            (fun v => { f with FLAG_effect := v }),
          (GetFlagArgVal_string "model_path".toList arg).store
            (fun v => { f with FLAG_modelPath := v }),
          (GetFlagArgVal_string "output_name_tag".toList arg).store
            (fun v => { f with FLAG_outputNameTag := v }),
          (GetFlagArgVal_bool "landmarks_126".toList arg).store
            (fun v => { f with FLAG_isLandmarks126 := v }),
          (GetFlagArgVal_unsigned strtol "landmark_mode".toList arg).store
            (fun v => { f with FLAG_landmarksMode := v }),
          (GetFlagArgVal_string "log".toList arg).store (fun v => { f with FLAG_log := v }),
          (GetFlagArgVal_unsigned strtol "log_level".toList arg).store
            (fun v => { f with FLAG_logLevel := v }),
          (GetFlagArgVal_unsigned strtol "temporal".toList arg).store
            (fun v => { f with FLAG_temporal := v })] with
    | FlagResult.matched f1 => .ok (errs, f1)
    | FlagResult.nullToStrtol => .error arg
    | FlagResult.noMatch =>
      match GetFlagArgVal_bool "help".toList arg with
      | FlagResult.matched _ => .ok (1, f)
      | _ =>
        match GetFlagArgValAndSplit "src_images".toList arg f.FLAG_srcImages with
        | some (_, vals) => .ok (errs, { f with FLAG_srcImages := vals })
        | none => .ok (errs, f)
  | '-' :: rest =>
    .ok (errs, { f with FLAG_verbose := f.FLAG_verbose || rest.any (fun c => c == 'v') })
  | _ => .ok (errs, { f with FLAG_inSrcVideoFiles := f.FLAG_inSrcVideoFiles ++ [arg] })

/-- Function `ParseMyArgs(argc, argv)` for the arguments `argv[1 ..]`. -/
def ParseMyArgs (strtol : List Char → Int) :
    List (List Char) → Int → Flags → Except (List Char) (Int × Flags)
  | [], errs, f => .ok (errs, f)
  | arg :: args, errs, f =>
    match parseArg strtol arg errs f with
    | .error e => .error e
    | .ok (errs1, f1) => ParseMyArgs strtol args errs1 f1

end FaceTrackTriton

namespace LipSyncTriton

/-- The flags of LipSyncTritonClientApp.cpp, lines 61-72. -/
structure Flags where
  FLAG_verbose : Bool
  FLAG_useTritonGRPC : Bool
  FLAG_tritonURL : List Char
  FLAG_outputNameTag : List Char
  FLAG_outputCodec : List Char
  FLAG_outputFormat : List Char
  FLAG_log : List Char
  FLAG_srcVideoFiles : List (List Char)
  FLAG_srcAudioFiles : List (List Char)
  FLAG_logLevel : Nat
  FLAG_headMovementSpeed : Nat
deriving DecidableEq

/-- The initial values of the flags; `NVCV_LOG_ERROR` is 1. -/
def Flags.initial : Flags :=
  { FLAG_verbose := false, FLAG_useTritonGRPC := false,
    FLAG_tritonURL := "localhost:8001".toList, FLAG_outputNameTag := "output".toList,
    FLAG_outputCodec := "avc1".toList, FLAG_outputFormat := "mp4".toList,
    FLAG_log := "stderr".toList, FLAG_srcVideoFiles := [], FLAG_srcAudioFiles := [],
    FLAG_logLevel := 1, FLAG_headMovementSpeed := 0 }

/-- Body of the loop of `ParseMyArgs`, lines 179-218, for the argument `arg`: `.error arg`
when the argument makes `GetFlagArgVal` pass a null pointer to `strtol`; else `errs` and the
flags afterwards. -/
def parseArg (strtol : List Char → Int) (arg : List Char) (errs : Int) (f : Flags) :
    Except (List Char) (Int × Flags) :=
  match arg with
  | '-' :: '-' :: _ =>
    match firstOf
        [(GetFlagArgVal_bool "verbose".toList arg).store (fun v => { f with FLAG_verbose := v }),
          (GetFlagArgVal_string "url".toList arg).store (fun v => { f with FLAG_tritonURL := v }),
          (GetFlagArgVal_bool "grpc".toList arg).store
            (fun v => { f with FLAG_useTritonGRPC := v }),
          (GetFlagArgVal_string "output_name_tag".toList arg).store
            (fun v => { f with FLAG_outputNameTag := v }),
          (GetFlagArgVal_string "log".toList arg).store (fun v => { f with FLAG_log := v }),
          (GetFlagArgVal_string "output_codec".toList arg).store
            (fun v => { f with FLAG_outputCodec := v }),
          (GetFlagArgVal_string "output_format".toList arg).store
            (fun v => { f with FLAG_outputFormat := v }),
          (GetFlagArgVal_unsigned strtol "head_movement_speed".toList arg).store
            (fun v => { f with FLAG_headMovementSpeed := v }),
          (GetFlagArgVal_unsigned strtol "log_level".toList arg).store
            (fun v => { f with FLAG_logLevel := v })] with
    | FlagResult.matched f1 => .ok (errs, f1)
    | FlagResult.nullToStrtol => .error arg
    | FlagResult.noMatch =>
      match GetFlagArgVal_bool "help".toList arg with
      | FlagResult.matched _ => .ok (1, f)
      | _ =>
        match GetFlagArgValAndSplit "src_videos".toList arg f.FLAG_srcVideoFiles with
        | none => .ok (errs, f)
        | some (true, vals) => .ok (errs, { f with FLAG_srcVideoFiles := vals })
        | some (false, _) =>
          match GetFlagArgValAndSplit "src_audios".toList arg f.FLAG_srcAudioFiles with
          | some (_, vals) => .ok (errs, { f with FLAG_srcAudioFiles := vals })
          | none => .ok (errs, f)
  | '-' :: rest =>
    .ok (if rest.dropWhile (fun c => c == 'v') ≠ [] then 1 else errs,
      { f with FLAG_verbose := f.FLAG_verbose || (rest.takeWhile (fun c => c == 'v') != []) })
  | _ => .ok (errs, { f with FLAG_srcAudioFiles := f.FLAG_srcAudioFiles ++ [arg] })

/-- Function `ParseMyArgs(argc, argv)` for the arguments `argv[1 ..]`. -/
def ParseMyArgs (strtol : List Char → Int) :
    List (List Char) → Int → Flags → Except (List Char) (Int × Flags)
  | [], errs, f => .ok (errs, f)
  | arg :: args, errs, f =>
    match parseArg strtol arg errs f with
    | .error e => .error e
    | .ok (errs1, f1) => ParseMyArgs strtol args errs1 f1

end LipSyncTriton

/-! ## waveReadWrite.cpp, several files -/

namespace WaveReadWrite

/-- Method `std::string::find(";", pos)`: the first position at or after `pos` that holds a
`;`, `none` for `npos`. -/
def find (filename : List Char) (pos : Nat) : Option Nat :=
  match (filename.drop pos).indexOf? ';' with
  | some k => some (pos + k)
  | none => none

/-- Method `std::string::substr(pos, n)`. -/
def substr (filename : List Char) (pos n : Nat) : List Char :=
  (filename.drop pos).take n

/-- The loop `do ... while` of lines 354-357, entered with `start` and a position `delim`
that holds a `;`, for at most `fuel` iterations: the files pushed and `start` when the loop
is left; `none` when the fuel runs out. -/
def splitFilesLoop (filename : List Char) :
    Nat → Nat → Nat → List (List Char) → Option (List (List Char) × Nat)
  | 0, _, _, _ => none
  | fuel + 1, start, delim, files =>
    match find filename (delim + 1) with
    | some d =>
      splitFilesLoop filename fuel (delim + 1) d (files ++ [substr filename start (delim - start)])
    | none => some (files ++ [substr filename start (delim - start)], delim + 1)

/-- Lines 347-365: the file names in `filename`, separated by `;`; the loop is given one
iteration more than `filename` has characters. -/
def splitFilenames (filename : List Char) : Option (List (List Char)) :=
  match find filename 0 with
  | some delim =>
    match splitFilesLoop filename (filename.length + 1) 0 delim [] with
    | none => none
    | some (files, start) =>
      if start < filename.length then some (files ++ [substr filename start filename.length])
      else some files
  | none => some [filename]

/-- The variables of `ReadWavFile` that the loop over the files changes: `ret` is `none`
while the pointer is null. -/
structure ReadState where
  original_num_samples : Nat
  ret : Option (List Sample)
  data : List Sample
deriving DecidableEq

/-- Body of the loop `for (auto& file : files)`, lines 372-431, for a file read for the
first time as `wave_file` and `file_end_offset == nullptr`; `.error` is an early return or a
fault. -/
def readOne (wave_file : WaveFile) (num_files : Nat) (expected_sample_rate : Nat)
    (expected_num_channels : Int) (align_samples : Int) (st : ReadState) :
    Except Outcome ReadState :=
  if wave_file.valid = false then .error Outcome.returnedFalse
  else if wave_file.sampleRate ≠ expected_sample_rate then .error Outcome.returnedFalse
  else if (wave_file.nChannels : Int) ≠ expected_num_channels then
    .error Outcome.returnedFalse
  else
    let n := wave_file.samples.length % 2 ^ 32
    let st1 : ReadState :=
      { st with original_num_samples := (st.original_num_samples + n) % 2 ^ 32 }
    if align_samples ≠ -1 ∧ (align_samples % 2 ^ 32).toNat = 0 then
      .error Outcome.divisionByZero
    else
      let num_samples : Int :=
        if align_samples ≠ -1 then
          toInt32 (n + ((align_samples % 2 ^ 32).toNat + 2 ^ 32 -
            n % (align_samples % 2 ^ 32).toNat) % 2 ^ 32)
        else toInt32 n
      if num_files > 1 then
        .ok { st1 with
              ret := some (st1.ret.getD [] ++ wave_file.samples)
              data := st1.ret.getD [] ++ wave_file.samples }
      else if num_samples < 0 then .error Outcome.lengthError
      else .ok { st1 with data := resize wave_file.samples num_samples.toNat 0 }

/-- The loop `for (auto& file : files)` over the files left. -/
def readLoop (fs : List Char → WaveFile) (num_files : Nat) (expected_sample_rate : Nat)
    (expected_num_channels : Int) (align_samples : Int) :
    List (List Char) → ReadState → Except Outcome ReadState
  | [], st => .ok st
  | file :: files, st =>
    match readOne (fs file) num_files expected_sample_rate expected_num_channels
        align_samples st with
    | .error e => .error e
    | .ok st1 =>
      readLoop fs num_files expected_sample_rate expected_num_channels align_samples files st1

/-- Function `ReadWavFile(filename, expected_sample_rate, expected_num_channels, data,
original_num_samples, file_end_offset, align_samples, enable_debug)`, lines 346-448, for any
`filename`, with `file_end_offset == nullptr` and an empty `read_file_cache`; `fs file` is the
object `CWaveFileRead(file)`. The result is `none` when the loop that splits `filename` runs
out of fuel. -/
def ReadWavFiles (fs : List Char → WaveFile) (filename : List Char)
    (expected_sample_rate : Nat) (expected_num_channels : Int) (align_samples : Int) :
    Option Outcome :=
  match splitFilenames filename with
  | none => none
  | some files =>
    match readLoop fs files.length expected_sample_rate expected_num_channels align_samples
        files { original_num_samples := 0, ret := none, data := [] } with
    | .error e => some e
    | .ok st =>
      if files.length > 1 ∧ align_samples ≠ -1 then
        let pad := (st.data.length % (align_samples % 2 ^ 64).toNat) % 2 ^ 32
        if pad ≠ 0 then
          some (Outcome.returnedTrue (resize st.data (st.data.length + pad) 0)
            st.original_num_samples)
        else some (Outcome.returnedTrue st.data st.original_num_samples)
      else some (Outcome.returnedTrue st.data st.original_num_samples)

/-- The files of the sample inputs: `a.wav` holds the samples 1, 2, 3 and `b.wav` the samples
4, 5; every other name is a valid file of one sample 9. -/
def sampleFiles (file : List Char) : WaveFile :=
  if file = "a.wav".toList then
    { valid := true, sampleRate := 16000, nChannels := 1, samples := [1, 2, 3] }
  else if file = "b.wav".toList then
    { valid := true, sampleRate := 16000, nChannels := 1, samples := [4, 5] }
  else { valid := true, sampleRate := 16000, nChannels := 1, samples := [9] }

end WaveReadWrite

/-! ## waveReadWrite.cpp, the class `CWaveFileRead`

The header `wave.h` is not among the sources. Its structures are taken with the packed layout
of the RIFF format: `RiffChunk` is `chunkId` and `chunkSize` (8 bytes), `RiffHeader` adds
`fileTag` (12 bytes), `waveFormat_basic` is `formatTag`, `channels` (2 bytes each),
`sampleRate`, `avgBytesPerSec` (4 bytes each), `blockAlign`, `bitsPerSample` (2 bytes each),
16 bytes in all, and `waveFormat_ext` adds `cbSize` (18 bytes); `WAVE_FORMAT_PCM` is 1 and
`WAVE_FORMAT_IEEE_FLOAT` is 3. A file is the list of its bytes and a pointer into it is an
offset. -/

namespace WaveReadWrite

/-- The `uint16_t` at offset `off`; `none` when it is not inside the bytes. -/
def le16 (bytes : List Nat) (off : Nat) : Option Nat :=
  if off + 2 ≤ bytes.length then some (bytes.getD off 0 + 256 * bytes.getD (off + 1) 0)
  else none

/-- The `uint32_t` at offset `off`; `none` when it is not inside the bytes. -/
def le32 (bytes : List Nat) (off : Nat) : Option Nat :=
  if off + 4 ≤ bytes.length then
    some (bytes.getD off 0 + 256 * bytes.getD (off + 1) 0 + 65536 * bytes.getD (off + 2) 0 +
      16777216 * bytes.getD (off + 3) 0)
  else none

/-- Macro `MAKEFOURCC(c0, c1, c2, c3)`. -/
def MAKEFOURCC (c0 c1 c2 c3 : Char) : Nat :=
  c0.toNat + 256 * c1.toNat + 65536 * c2.toNat + 16777216 * c3.toNat

/-- How a call of `FindChunk` ends. -/
inductive Found where
  /-- the chunk header at this offset -/
  | chunk (off : Nat)
  /-- `nullptr` -/
  | notFound
  /-- a header is read that is not inside the bytes of the file -/
  | outside
  /-- the loop has not ended when the fuel runs out -/
  | unfinished
deriving DecidableEq

/-- The loop of `FindChunk`, lines 113-118, from `ptr` with the bound `end`, for at most
`fuel` iterations. -/
def findLoop (bytes : List Nat) (fourcc : Nat) : Nat → Nat → Nat → Found
  | 0, ptr, end_ => if end_ > ptr + 8 then Found.unfinished else Found.notFound
  | fuel + 1, ptr, end_ =>
    if end_ > ptr + 8 then
      match le32 bytes ptr, le32 bytes (ptr + 4) with
      | some chunkId, some chunkSize =>
        if chunkId = fourcc then Found.chunk ptr
        else findLoop bytes fourcc fuel (ptr + (chunkSize + 8)) end_
      | some chunkId, none => if chunkId = fourcc then Found.chunk ptr else Found.outside
      | none, _ => Found.outside
    else Found.notFound

/-- Function `CWaveFileRead::FindChunk(data, sizeBytes, fourcc)`; every iteration moves `ptr`
on by 8 bytes or more, so `sizeBytes` iterations are enough. -/
def FindChunk (bytes : List Nat) (data sizeBytes fourcc : Nat) : Found :=
  findLoop bytes fourcc sizeBytes data (data + sizeBytes)

/-- The members of `m_WaveFormatEx`. -/
structure WaveFormat where
  wFormatTag : Nat
  nChannels : Nat
  nSamplesPerSec : Nat
  nAvgBytesPerSec : Nat
  nBlockAlign : Nat
  wBitsPerSample : Nat
  cbSize : Nat
deriving DecidableEq

/-- How a call of `readPCM` ends. -/
inductive ReadPCM where
  /-- `return -1` -/
  | rejected
  /-- a read that is not inside the bytes of the file -/
  | outside
  /-- the loop of `FindChunk` has not ended when the fuel runs out -/
  | unfinished
  /-- the division by `nBlockAlign / nChannels`, or the one by `nChannels`, is by zero -/
  | divisionByZero (format : WaveFormat) (m_WaveDataSize : Nat)
  /-- `return 0`: the file is valid, `m_WaveData` holds the `m_WaveDataSize` bytes at
  `dataOffset` -/
  | accepted (format : WaveFormat) (dataOffset m_WaveDataSize m_nNumSamples : Nat)
deriving DecidableEq

/-- Lines 231-243 of `readPCM`: copy the format and compute `m_nNumSamples`, for the format
at `wf` and the data chunk at `dataChunk` of `chunkSize` bytes. -/
def readFormat (bytes : List Nat) (wf dataChunk chunkSize : Nat) : ReadPCM :=
  match le16 bytes wf, le16 bytes (wf + 2), le32 bytes (wf + 4), le32 bytes (wf + 8),
      le16 bytes (wf + 12), le16 bytes (wf + 14) with
  | some formatTag, some channels, some sampleRate, some avgBytesPerSec, some blockAlign,
      some bitsPerSample =>
    match (if formatTag = 1 then some 0 else le16 bytes (wf + 16)) with
    | none => ReadPCM.outside
    | some cbSize =>
      let format : WaveFormat :=
        { wFormatTag := formatTag, nChannels := channels, nSamplesPerSec := sampleRate,
          nAvgBytesPerSec := avgBytesPerSec, nBlockAlign := blockAlign,
          wBitsPerSample := bitsPerSample, cbSize := cbSize }
      if channels = 0 ∨ blockAlign / channels = 0 then ReadPCM.divisionByZero format chunkSize
      else
        ReadPCM.accepted format (dataChunk + 8) chunkSize
          (chunkSize / (blockAlign / channels))
  | _, _, _, _, _, _ => ReadPCM.outside

/-- Function `CWaveFileRead::readPCM(szFileName)`, lines 170-245, for a file that
`loadFile` has read as `bytes`. -/
def readPCM (bytes : List Nat) : ReadPCM :=
  match FindChunk bytes 0 bytes.length (MAKEFOURCC 'R' 'I' 'F' 'F') with
  | Found.notFound => ReadPCM.rejected
  | Found.outside => ReadPCM.outside
  | Found.unfinished => ReadPCM.unfinished
  | Found.chunk riffChunk =>
    match le32 bytes (riffChunk + 4) with
    | none => ReadPCM.outside
    | some riffSize =>
      if riffSize < 4 then ReadPCM.rejected
      else
        match le32 bytes (riffChunk + 8) with
        | none => ReadPCM.outside
        | some fileTag =>
          if fileTag ≠ MAKEFOURCC 'W' 'A' 'V' 'E' then ReadPCM.rejected
          else if riffChunk + 12 + 8 > bytes.length then ReadPCM.rejected
          else
            match FindChunk bytes (riffChunk + 12) riffSize (MAKEFOURCC 'f' 'm' 't' ' ') with
            | Found.notFound => ReadPCM.rejected
            | Found.outside => ReadPCM.outside
            | Found.unfinished => ReadPCM.unfinished
            | Found.chunk fmtChunk =>
              match le32 bytes (fmtChunk + 4) with
              | none => ReadPCM.outside
              | some fmtSize =>
                if fmtSize < 16 then ReadPCM.rejected
                else if fmtChunk + 8 + fmtSize > bytes.length then ReadPCM.rejected
                else
                  match le16 bytes (fmtChunk + 8) with
                  | none => ReadPCM.outside
                  | some formatTag =>
                    if ¬ (formatTag = 1 ∨ formatTag = 3) then ReadPCM.rejected
                    else
                      match FindChunk bytes (riffChunk + 12) riffSize
                          (MAKEFOURCC 'd' 'a' 't' 'a') with
                      | Found.notFound => ReadPCM.rejected
                      | Found.outside => ReadPCM.outside
                      | Found.unfinished => ReadPCM.unfinished
                      | Found.chunk dataChunk =>
                        match le32 bytes (dataChunk + 4) with
                        | none => ReadPCM.outside
                        | some dataSize =>
                          if dataSize = 0 then ReadPCM.rejected
                          else if dataChunk + 8 + dataSize > bytes.length then
                            ReadPCM.rejected
                          else readFormat bytes (fmtChunk + 8) dataChunk dataSize

/-- The read that iteration `i` of the loop of `GetFloatPCMData`, lines 62-85, makes in
`m_WaveData`: its offset `i * nBlockAlign` and its width in bytes, which is that of
`uint8_t`, `int16_t` or `int32_t`; `none` when `wBitsPerSample` is not 8, 16, 24 or 32 and
nothing is read. -/
def sampleRead (format : WaveFormat) (i : Nat) : Option (Nat × Nat) :=
  if format.wBitsPerSample = 8 then some (i * format.nBlockAlign, 1)
  else if format.wBitsPerSample = 16 then some (i * format.nBlockAlign, 2)
  else if format.wBitsPerSample = 24 then some (i * format.nBlockAlign, 4)
  else if format.wBitsPerSample = 32 then some (i * format.nBlockAlign, 4)
  else none

/-- The reads of the loop of `GetFloatPCMData` for a file of integer samples. -/
def sampleReads (format : WaveFormat) (m_nNumSamples : Nat) : List (Nat × Nat) :=
  (List.range m_nNumSamples).filterMap (sampleRead format)

/-- The bytes of `x` as a `uint16_t`. -/
def put16 (x : Nat) : List Nat := [x % 256, x / 256 % 256]

/-- The bytes of `x` as a `uint32_t`. -/
def put32 (x : Nat) : List Nat := [x % 256, x / 256 % 256, x / 65536 % 256, x / 16777216 % 256]

/-- The bytes of a four-character code. -/
def putCode (c0 c1 c2 c3 : Char) : List Nat := [c0.toNat, c1.toNat, c2.toNat, c3.toNat]

/-- A 16 kHz PCM file as `CWaveFileWrite::commitFile` lays it out: the header `RIFF`, the
chunk `fmt ` of 16 bytes and the chunk `data`, for the given number of channels and of bits
per sample, with `nBlockAlign = channels * bits / 8`. -/
def pcmFile (channels bits : Nat) (data : List Nat) : List Nat :=
  putCode 'R' 'I' 'F' 'F' ++ put32 (4 + 8 + 8 + 16 + data.length) ++
    putCode 'W' 'A' 'V' 'E' ++
    putCode 'f' 'm' 't' ' ' ++ put32 16 ++
    put16 1 ++ put16 channels ++ put32 16000 ++ put32 (16000 * (channels * bits / 8)) ++
    put16 (channels * bits / 8) ++ put16 bits ++
    putCode 'd' 'a' 't' 'a' ++ put32 data.length ++ data

end WaveReadWrite

/-- The audio frames given to `NvAR_SetF32Array` in a trace of `App::Run`, in order. -/
def SpeechLivePortraitApp.feedsOf (tr : List SpeechLivePortraitApp.Event) :
    List (List Sample) :=
  tr.filterMap fun e =>
    match e with
    | SpeechLivePortraitApp.Event.feed audio_frame => some audio_frame
    | _ => none

/-! ## LipSyncApp.cpp, the frame loop of `App::Run` (lines 575-727)

The loop reads one video frame and cuts one audio window per iteration, decides once when to
stop, and hands both to the SDK. OpenCV and the SDK are oracles (`Env`); the expression
`static_cast<unsigned int>((frame_timestamp + estimated_video_frame_duration) *
samples_per_second)`, computed in floating point from the frame index, is the parameter
`audioEnd` of the model. -/

namespace LipSyncApp

/-- The values of `App::Err` that the frame loop of `App::Run` can return. -/
inductive Err where
  | errNone
  | errRead
  | errSDK
deriving DecidableEq

/-- The constant `std::numeric_limits<unsigned>::max()`. -/
def UINT_MAX : Nat := 2 ^ 32 - 1

/-- The constant `kExtendOff`, line 62. -/
def kExtendOff : List Char := "off".toList

/-- The constant `kExtendVideoForward`, line 63. -/
def kExtendVideoForward : List Char := "forward_loop".toList

/-- The constant `kExtendVideoReverse`, line 64. -/
def kExtendVideoReverse : List Char := "reverse_loop".toList

/-- The constant `kExtendAudioSilence`, line 65. -/
def kExtendAudioSilence : List Char := "silence".toList

/-- The two flags the loop reads, `--extend_short_video` and `--extend_short_audio`. -/
structure Flags where
  FLAG_extendVideo : List Char
  FLAG_extendAudio : List Char
deriving DecidableEq

/-- The defaults of the two flags, lines 81-82. -/
def Flags.initial : Flags := { FLAG_extendVideo := kExtendOff, FLAG_extendAudio := kExtendOff }

/-- What OpenCV and the SDK answer in the iteration with a given `input_frame_index`. -/
structure Env where
  /-- result of the `k`-th call `m_cap.set(cv::CAP_PROP_POS_FRAMES, ...)` of the iteration -/
  seek : Nat → Nat → Bool
  /-- status of `NvAR_SetObject(..., SpeakerData, ...)` or of
  `NvAR_SetF32Array(..., AudioFrameBuffer, ...)`, whichever the flags select -/
  setAudio : Nat → NvCV_Status
  /-- status of `NvAR_SetU32(..., HeadMovementSpeed, ...)` -/
  setHeadMovementSpeed : Nat → NvCV_Status
  /-- status of `NvCVImage_Transfer(&c_src, &g_src, ...)` -/
  transfer : Nat → NvCV_Status
  /-- status of `NvAR_SetObject(..., Image, ...)` -/
  setImage : Nat → NvCV_Status
  /-- status of `NvAR_Run` -/
  run : Nat → NvCV_Status
  /-- value the SDK leaves in `output_ready` -/
  output_ready : Nat → Nat
  /-- the constant `NVCV_ERR_OBJECTNOTFOUND` of the SDK header -/
  NVCV_ERR_OBJECTNOTFOUND : NvCV_Status
  /-- value of `m_genVideo.isOpened()` -/
  genVideoOpened : Bool

/-- An environment in which no call fails, an output is ready from iteration 2 on and the
generated video is written. -/
def Env.succeeding : Env :=
  { seek := fun _ _ => true, setAudio := fun _ => 0, setHeadMovementSpeed := fun _ => 0,
    transfer := fun _ => 0, setImage := fun _ => 0, run := fun _ => 0,
    output_ready := fun i => if 2 ≤ i then 1 else 0, NVCV_ERR_OBJECTNOTFOUND := -1,
    genVideoOpened := true }

/-- No call of the SDK fails. -/
def Env.AllSucceed (env : Env) : Prop :=
  (∀ i, env.setAudio i = NVCV_SUCCESS) ∧ (∀ i, env.setHeadMovementSpeed i = NVCV_SUCCESS) ∧
    (∀ i, env.transfer i = NVCV_SUCCESS) ∧ (∀ i, env.setImage i = NVCV_SUCCESS) ∧
    (∀ i, env.run i = NVCV_SUCCESS)

/-- What the loop does, as it is done. -/
inductive Event where
  /-- the assignment `end_frame_index = input_frame_index + init_latency_frame_cnt` -/
  | setEnd (input_frame_index end_frame_index : Nat)
  /-- a successful hand-over of the audio frame that starts at `audio_start_sample` -/
  | feed (audio_start_sample : Nat) (audio_frame : List Sample)
  /-- a successful `NvAR_SetObject` of the input image -/
  | image (img : Mat)
  /-- a call of `NvAR_Run` -/
  | run
  /-- a call of `m_genVideo.write` -/
  | write
deriving DecidableEq

/-- The locals of `App::Run` the loop changes, and the capture `m_cap`. -/
structure State where
  input_frame_index : Nat
  end_frame_index : Nat
  last_audio_end_sample : Nat
  audio_finished : Bool
  video_finished : Bool
  frame_step : Int
  m_cap : VideoCapture
  trace : List Event
deriving DecidableEq

/-- The locals at the loop entry, lines 575-585, with the capture opened by
`InitOfflineMode`. -/
def State.initial (m_cap : VideoCapture) : State :=
  { input_frame_index := 0, end_frame_index := UINT_MAX, last_audio_end_sample := 0,
    audio_finished := false, video_finished := false, frame_step := 1, m_cap := m_cap,
    trace := [] }

/-- The capture after a successful `m_cap.set(cv::CAP_PROP_POS_FRAMES, p)`. -/
def seekTo (c : VideoCapture) (p : Int) : VideoCapture := { c with pos := p.toNat }

/-- Lines 589-599: the block `if (frame_step < 0)` after the read at the top of the
iteration. -/
def stepBack (env : Env) (pos_frames : Int) (st : State) : Except (Err × State) State :=
  if st.frame_step < 0 then
    if pos_frames = 0 then .ok { st with frame_step := 1 }
    else if !env.seek st.input_frame_index 0 then .error (Err.errRead, st)
    else .ok { st with m_cap := seekTo st.m_cap (pos_frames - 1) }
  else .ok st

/-- Lines 619-650: what is done when the video has finished and no frame was read. The
result carries `got_video_frame` and `img`. -/
def extendVideo (env : Env) (flags : Flags) (pos_frames : Int) (got_video_frame : Bool)
    (img : Mat) (st : State) : Except (Err × State) (Bool × Mat × State) :=
  if st.video_finished && !got_video_frame then
    if flags.FLAG_extendVideo = kExtendVideoForward then
      if !env.seek st.input_frame_index 1 then .error (Err.errRead, st)
      else
        let c := seekTo st.m_cap 0
        let st := { st with m_cap := c.advance }
        if !c.image.isSome then .error (Err.errRead, st)
        else .ok (true, c.image, st)
    else if flags.FLAG_extendVideo = kExtendVideoReverse then
      let st := { st with frame_step := -1 }
      if !env.seek st.input_frame_index 1 then .error (Err.errRead, st)
      else
        let c := seekTo st.m_cap (pos_frames - 1)
        let st := { st with m_cap := c.advance }
        if !c.image.isSome then .error (Err.errRead, st)
        else if !env.seek st.input_frame_index 2 then .error (Err.errRead, st)
        else .ok (true, c.image, { st with m_cap := seekTo st.m_cap (pos_frames - 1) })
    else .ok (got_video_frame, img, st)
  else .ok (got_video_frame, img, st)

/-- Lines 652-659: the audio frame of `audio_end_sample - audio_start_sample` zeros (an
unsigned difference) with the samples `[min(start, size), min(end, size))` of the file copied
to its beginning. -/
def audioFrame (input_wav_samples : List Sample) (audio_start_sample audio_end_sample : Nat) :
    List Sample :=
  let audio_frame_length := (audio_end_sample + 2 ^ 32 - audio_start_sample) % 2 ^ 32
  let valid_audio_start_sample := min audio_start_sample input_wav_samples.length
  let valid_audio_end_sample := min audio_end_sample input_wav_samples.length
  let copied := (input_wav_samples.drop valid_audio_start_sample).take
    (valid_audio_end_sample - valid_audio_start_sample)
  copied ++ List.replicate (audio_frame_length - copied.length) 0

/-- Function `App::ProcessOutputVideo()`, lines 731-763: it writes the frame when the output
video is opened and returns `errNone`. -/
def ProcessOutputVideo (env : Env) (st : State) : Err × State :=
  if env.genVideoOpened then (Err.errNone, { st with trace := st.trace ++ [Event.write] })
  else (Err.errNone, st)

/-- Lines 686-725: the audio frame, the head movement speed and the image are handed to the
SDK, the feature is run and an output that is ready is processed. -/
def submit (env : Env) (audio_start_sample : Nat) (audio_frame : List Sample)
    (got_video_frame : Bool) (img : Mat) (st : State) : Except (Err × State) State :=
  let i := st.input_frame_index
  if env.setAudio i ≠ 0 then .error (Err.errSDK, st)
  else
    let st := { st with trace := st.trace ++ [Event.feed audio_start_sample audio_frame] }
    if env.setHeadMovementSpeed i ≠ 0 then .error (Err.errSDK, st)
    else
      let r : Except (Err × State) State :=
        if got_video_frame then
          if env.transfer i ≠ 0 then .error (Err.errSDK, st)
          else if env.setImage i ≠ 0 then .error (Err.errSDK, st)
          else .ok { st with trace := st.trace ++ [Event.image img] }
        else .ok st
      match r with
      | .error e => .error e
      | .ok st =>
        let st := { st with trace := st.trace ++ [Event.run] }
        if env.run i ≠ env.NVCV_ERR_OBJECTNOTFOUND ∧ env.run i ≠ 0 then
          .error (Err.errSDK, st)
        else if env.output_ready i ≠ 0 then
          match ProcessOutputVideo env st with
          | (Err.errNone, st) => .ok st
          | (e, st) => .error (e, st)
        else .ok st

/-- Lines 669-673: with `--extend_short_audio=silence` a missing audio frame counts as
read. -/
def extendAudio (flags : Flags) (audio_finished got_audio_frame : Bool) : Bool :=
  if (audio_finished && !got_audio_frame) ∧ flags.FLAG_extendAudio = kExtendAudioSilence then
    true
  else got_audio_frame

/-- Line 676: the value of `should_stop`. -/
def shouldStop (video_finished audio_finished got_video_frame got_audio_frame : Bool) : Bool :=
  (video_finished && audio_finished) || !got_video_frame || !got_audio_frame

/-- Lines 678-684: `end_frame_index` is assigned when it still is `UINT_MAX` and
`should_stop` holds. -/
def setEndFrameIndex (init_latency_frame_cnt : Nat) (should_stop : Bool) (st : State) : State :=
  if st.end_frame_index = UINT_MAX ∧ should_stop = true then
    { st with
      end_frame_index := (st.input_frame_index + init_latency_frame_cnt) % 2 ^ 32
      trace := st.trace ++ [Event.setEnd st.input_frame_index
        ((st.input_frame_index + init_latency_frame_cnt) % 2 ^ 32)] }
  else st

/-- The body of the loop, lines 586-725. -/
def body (env : Env) (flags : Flags) (input_wav_samples : List Sample) (audioEnd : Nat → Nat)
    (init_latency_frame_cnt : Nat) (st : State) : Except (Err × State) State :=
  let pos_frames : Int := st.m_cap.pos
  let got_video_frame := st.m_cap.image.isSome
  let img := st.m_cap.image
  match stepBack env pos_frames { st with m_cap := st.m_cap.advance } with
  | .error e => .error e
  | .ok st =>
    let audio_start_sample := st.last_audio_end_sample
    let audio_end_sample := audioEnd st.input_frame_index
    let st := { st with last_audio_end_sample := audio_end_sample }
    let st := { st with video_finished := st.video_finished || !got_video_frame }
    match extendVideo env flags pos_frames got_video_frame img st with
    | .error e => .error e
    | .ok (got_video_frame, img, st) =>
      let audio_frame := audioFrame input_wav_samples audio_start_sample audio_end_sample
      let got_audio_frame := decide (audio_start_sample < input_wav_samples.length)
      let st := { st with audio_finished := st.audio_finished || !got_audio_frame }
      let got_audio_frame := extendAudio flags st.audio_finished got_audio_frame
      let should_stop :=
        shouldStop st.video_finished st.audio_finished got_video_frame got_audio_frame
      submit env audio_start_sample audio_frame got_video_frame img
        (setEndFrameIndex init_latency_frame_cnt should_stop st)

/-- The loop `for (input_frame_index = 0; input_frame_index < end_frame_index;
++input_frame_index)`. -/
def loop (env : Env) (flags : Flags) (input_wav_samples : List Sample) (audioEnd : Nat → Nat)
    (init_latency_frame_cnt : Nat) : Nat → State → Option (Err × State)
  | 0, _ => none
  | fuel + 1, st =>
    if st.input_frame_index < st.end_frame_index then
      match body env flags input_wav_samples audioEnd init_latency_frame_cnt st with
      | .error e => some e
      | .ok st =>
        loop env flags input_wav_samples audioEnd init_latency_frame_cnt fuel
          { st with input_frame_index := (st.input_frame_index + 1) % 2 ^ 32 }
    else some (Err.errNone, st)

/-- The frame loop of `App::Run` and its `return Err::errNone`, on the frames of the opened
input video. -/
def Run (env : Env) (flags : Flags) (frames : List Nat) (input_wav_samples : List Sample)
    (audioEnd : Nat → Nat) (init_latency_frame_cnt : Nat) (fuel : Nat) :
    Option (Err × State) :=
  loop env flags input_wav_samples audioEnd init_latency_frame_cnt fuel
    (State.initial { opened := true, frames := frames, pos := 0 })

/-- The assignments of `end_frame_index` in a trace, each with the frame index at which it
was made. -/
def setEndsOf : List Event → List (Nat × Nat)
  | [] => []
  | Event.setEnd i e :: tr => (i, e) :: setEndsOf tr
  | _ :: tr => setEndsOf tr

/-- The first sample of the audio window of frame `t`: the end of the window before it. -/
def windowStart (audioEnd : Nat → Nat) : Nat → Nat
  | 0 => 0
  | t + 1 => audioEnd t

/-- The first frame index from `t` on, at most `n` frames later, whose audio window starts at
or beyond sample `A`. -/
def truncationFrom (audioEnd : Nat → Nat) (A : Nat) : Nat → Nat → Nat
  | 0, t => t
  | n + 1, t => if A ≤ windowStart audioEnd t then t else truncationFrom audioEnd A n (t + 1)

/-- The frame index at which the loop decides to stop, for a video of `V` frames and an audio
of `A` samples. -/
def stopFrame (flags : Flags) (audioEnd : Nat → Nat) (V A : Nat) : Nat :=
  if flags.FLAG_extendAudio = kExtendAudioSilence then V else truncationFrom audioEnd A V 0

/-- Every audio frame handed to the SDK is zero at the positions that lie at or beyond
sample `A` of the file. -/
def SilentPast (A : Nat) (trace : List Event) : Prop :=
  ∀ s f, Event.feed s f ∈ trace → ∀ j, A ≤ s + j → f.getD j 0 = 0

/-- The locals at the start of iteration `t`, while the loop has not decided to stop. -/
def Running (frames : List Nat) (audioEnd : Nat → Nat) (A t : Nat) (st : State) : Prop :=
  st.input_frame_index = t ∧ st.end_frame_index = UINT_MAX ∧
    st.last_audio_end_sample = windowStart audioEnd t ∧ st.video_finished = false ∧
    st.frame_step = 1 ∧ st.m_cap = { opened := true, frames := frames, pos := t } ∧
    setEndsOf st.trace = [] ∧ SilentPast A st.trace

/-- The locals once `end_frame_index` was assigned the value `e` in iteration `t`. -/
def Stopping (A t e : Nat) (st : State) : Prop :=
  st.end_frame_index = e ∧ st.frame_step = 1 ∧ setEndsOf st.trace = [(t, e)] ∧
    SilentPast A st.trace

end LipSyncApp

/-! ## Properties -/

section ListLemmas

theorem take_succ_set {α : Type} (l : List α) (b : Nat) (x : α) (h : b < l.length) :
    (l.set b x).take (b + 1) = l.take b ++ [x] := by
  induction l generalizing b with
  | nil => simp at h
  | cons a l ih =>
    cases b with
    | zero => simp
    | succ b =>
      simp only [List.length_cons, Nat.add_lt_add_iff_right] at h
      simp [ih b h]

theorem foldr_max_le (l : List Nat) (t : Nat) : l.foldr max 0 ≤ t ↔ ∀ x ∈ l, x ≤ t := by
  induction l with
  | nil => simp
  | cons a l ih => simp [ih]

theorem gatherStates_length (bi : List Nat) (all batch : List NvAR_StateHandle) (k : Nat) :
    (gatherStates bi all k batch).length = batch.length := by
  induction k with
  | zero => rfl
  | succ k ih => simp [gatherStates, ih]

theorem gatherStates_getElem? (bi : List Nat) (all batch : List NvAR_StateHandle) (k j : Nat) :
    (gatherStates bi all k batch)[j]? =
      if j < k ∧ j < batch.length then some (all.getD (bi.getD j 0) 0) else batch[j]? := by
  induction k with
  | zero => simp [gatherStates]
  | succ k ih =>
    simp only [gatherStates, List.getElem?_set, ih, gatherStates_length]
    by_cases h1 : k = j
    · subst h1
      by_cases h2 : k < batch.length
      · simp [h2]
      · have : batch[k]? = none := by simp; omega
        simp [h2, this]
    · simp only [h1, if_false]
      by_cases h2 : j < k ∧ j < batch.length
      · rw [if_pos h2, if_pos ⟨by omega, h2.2⟩]
      · rw [if_neg h2, if_neg (by omega)]

theorem gatherStates_take (bi : List Nat) (all batch : List NvAR_StateHandle) (k : Nat)
    (h1 : k ≤ batch.length) (h2 : k ≤ bi.length) :
    (gatherStates bi all k batch).take k = (bi.take k).map (fun i => all.getD i 0) := by
  apply List.ext_getElem?
  intro j
  rw [List.getElem?_take, gatherStates_getElem?, List.getElem?_map, List.getElem?_take]
  by_cases h : j < k
  · have hj : j < bi.length := by omega
    rw [if_pos h, if_pos ⟨h, by omega⟩, if_pos h, List.getD_eq_getElem?_getD bi,
      List.getElem?_eq_getElem hj]
    simp
  · simp [h]

theorem filter_range_split (p : Nat → Bool) (n i : Nat) (hi : i < n) (hp : p i = true) :
    (List.range n).filter p =
      (List.range i).filter p ++ [i] ++ (List.range' (i + 1) (n - (i + 1))).filter p := by
  have h1 : List.range n = List.range i ++ [i] ++ List.range' (i + 1) (n - (i + 1)) := by
    rw [List.range_eq_range', List.range_eq_range']
    have e : n = (n - (i + 1) + 1) + i := by omega
    conv_lhs => rw [e]
    rw [← List.range'_append_1 0 i (n - (i + 1) + 1), List.range'_succ]
    simp
  rw [h1, List.filter_append, List.filter_append]
  simp [hp]

theorem range_split (n i : Nat) (hi : i < n) :
    List.range n = List.range i ++ [i] ++ List.range' (i + 1) (n - (i + 1)) := by
  have := filter_range_split (fun _ => true) n i hi rfl
  simpa using this

theorem filter_range_split_mem (p : Nat → Bool) (n i : Nat) (hi : i < n) (hp : p i = true) :
    ∃ l1 l2, (List.range n).filter p = l1 ++ [i] ++ l2 ∧ i ∉ l1 ∧ i ∉ l2 := by
  refine ⟨_, _, filter_range_split p n i hi hp, ?_, ?_⟩
  · intro h
    have := (List.mem_filter.mp h).1
    simp at this
  · intro h
    have := (List.mem_filter.mp h).1
    simp at this

theorem getD_of_getElem? {α : Type} {l : List α} {i : Nat} {x : α} (d : α)
    (h : l[i]? = some x) : l.getD i d = x := by
  rw [List.getD_eq_getElem?_getD, h]
  rfl

theorem mem_take_succ {α : Type} (l : List α) (k : Nat) (v x : α) (h : l[k]? = some v) :
    x ∈ l.take (k + 1) ↔ x ∈ l.take k ∨ x = v := by
  have hk : k < l.length := by
    by_contra hc
    rw [List.getElem?_eq_none (by omega)] at h
    cases h
  rw [List.take_succ, h]
  simp

theorem set_eq_self {α : Type} {l : List α} {i : Nat} {x : α} (h : l[i]? = some x) :
    l.set i x = l := by
  apply List.ext_getElem?
  intro j
  rw [List.getElem?_set]
  by_cases hj : i = j
  · subst hj
    have hi : i < l.length := by
      by_contra hc
      rw [List.getElem?_eq_none (by omega)] at h
      cases h
    rw [if_pos rfl, if_pos hi, h]
  · rw [if_neg hj]

theorem frameAt_eq_none (videos : List Video) (i t : Nat) :
    frameAt videos i t = none ↔ numFrames videos i ≤ t := by
  unfold frameAt numFrames
  rw [List.getElem?_eq_none_iff]

theorem numFrames_of_lt (videos : List Video) (i : Nat) (hi : i < videos.length) :
    numFrames videos i = (videos[i]).frames.length := by
  unfold numFrames
  rw [List.getD_eq_getElem?_getD, List.getElem?_eq_getElem hi]
  rfl

end ListLemmas

section TraceLemmas

theorem countP_isRun_map_dealloc (l : List Nat) :
    (l.map Event.DeallocateState).countP Event.isRun = 0 := by
  induction l with
  | nil => rfl
  | cons a l ih => simp [List.countP_cons, ih, Event.isRun]

theorem countP_isRun_ticks (rel : Nat → List Nat) (runE : Nat → Event)
    (hrun : ∀ t, (runE t).isRun = true) (k : Nat) :
    ((List.range k).flatMap
      (fun t => (rel t).map Event.DeallocateState ++ [runE t])).countP Event.isRun = k := by
  induction k with
  | zero => rfl
  | succ k ih =>
    rw [List.range_succ, List.flatMap_append, List.countP_append, ih]
    rw [List.flatMap_singleton, List.countP_append, countP_isRun_map_dealloc]
    simp [List.countP_cons, hrun]

theorem dealloc_mem_tick (rel : Nat → List Nat) (runE : Nat → Event)
    (hrun : ∀ t, (runE t).isRun = true) (i t : Nat)
    (h : Event.DeallocateState i ∈ (rel t).map Event.DeallocateState ++ [runE t]) :
    i ∈ rel t := by
  rw [List.mem_append] at h
  rcases h with h | h
  · obtain ⟨j, hj, e⟩ := List.mem_map.mp h
    cases e
    exact hj
  · rw [List.mem_singleton] at h
    have := hrun t
    rw [← h] at this
    simp [Event.isRun] at this

/-- In a trace made of setup events followed by one block per tick (the releases of the
tick's assembly, then the tick's inference call), a stream released on tick `Ti` only, and
only once there, is released exactly once, after exactly `Ti` inference calls and before
the inference call of tick `Ti`. -/
theorem release_once_in_trace (inits : List Event) (rel : Nat → List Nat) (runE : Nat → Event)
    (T i Ti : Nat)
    (hinit : ∀ e ∈ inits, e.isRun = false ∧ e ≠ Event.DeallocateState i)
    (hrun : ∀ t, (runE t).isRun = true) (hTi : Ti < T)
    (hsplit : ∃ l1 l2, rel Ti = l1 ++ [i] ++ l2 ∧ i ∉ l1 ∧ i ∉ l2)
    (hother : ∀ t, t ≠ Ti → i ∉ rel t) :
    ∃ pre mid post,
      inits ++ (List.range T).flatMap
          (fun t => (rel t).map Event.DeallocateState ++ [runE t]) =
        pre ++ [Event.DeallocateState i] ++ mid ++ [runE Ti] ++ post ∧
      pre.countP Event.isRun = Ti ∧ Event.DeallocateState i ∉ pre ∧
      (∀ e ∈ mid, e.isRun = false) ∧ Event.DeallocateState i ∉ mid ∧
      Event.DeallocateState i ∉ post ∧
      post = (List.range' (Ti + 1) (T - (Ti + 1))).flatMap
          (fun t => (rel t).map Event.DeallocateState ++ [runE t]) ∧
      ∀ e ∈ pre, e.isRun = true → ∃ t, t < Ti ∧ e = runE t := by
  obtain ⟨l1, l2, hl, hn1, hn2⟩ := hsplit
  have hinj : ∀ (l : List Nat), i ∉ l → Event.DeallocateState i ∉ l.map Event.DeallocateState := by
    intro l hl h
    obtain ⟨j, hj, e⟩ := List.mem_map.mp h
    cases e
    exact hl hj
  refine ⟨inits ++ (List.range Ti).flatMap
      (fun t => (rel t).map Event.DeallocateState ++ [runE t]) ++ l1.map Event.DeallocateState,
    l2.map Event.DeallocateState, _, ?_, ?_, ?_, ?_, hinj l2 hn2, ?_, rfl, ?_⟩
  · rw [range_split T Ti hTi]
    simp only [List.flatMap_append, List.flatMap_singleton, List.flatMap_cons, List.flatMap_nil,
      hl, List.map_append, List.map_cons, List.map_nil, List.append_assoc, List.append_nil,
      List.singleton_append, List.cons_append, List.nil_append]
  · rw [List.countP_append, List.countP_append, countP_isRun_ticks rel runE hrun,
      countP_isRun_map_dealloc]
    have : inits.countP Event.isRun = 0 := by
      rw [List.countP_eq_zero]
      intro e he
      simp [(hinit e he).1]
    omega
  · intro h
    rw [List.mem_append, List.mem_append] at h
    rcases h with (h | h) | h
    · exact (hinit _ h).2 rfl
    · obtain ⟨t, ht, h⟩ := List.mem_flatMap.mp h
      have hlt : t < Ti := by simpa using ht
      exact hother t (by omega) (dealloc_mem_tick rel runE hrun i t h)
    · exact hinj l1 hn1 h
  · intro e he
    obtain ⟨j, _, rfl⟩ := List.mem_map.mp he
    rfl
  · intro h
    obtain ⟨t, ht, h⟩ := List.mem_flatMap.mp h
    have hlt : Ti + 1 ≤ t := by
      have := List.mem_range'_1.mp ht
      omega
    exact hother t (by omega) (dealloc_mem_tick rel runE hrun i t h)
  · intro e he hr
    rw [List.mem_append, List.mem_append] at he
    rcases he with (he | he) | he
    · rw [(hinit e he).1] at hr
      cases hr
    · obtain ⟨t, ht, he⟩ := List.mem_flatMap.mp he
      rw [List.mem_append, List.mem_singleton] at he
      rcases he with he | he
      · obtain ⟨j, _, rfl⟩ := List.mem_map.mp he
        cases hr
      · exact ⟨t, by simpa using ht, he⟩
    · obtain ⟨j, _, rfl⟩ := List.mem_map.mp he
      cases hr

end TraceLemmas

section SlotLemmas

theorem getD_congr {α : Type} {l1 l2 : List α} {i : Nat} (d : α) (h : l1[i]? = l2[i]?) :
    l1.getD i d = l2.getD i d := by
  rw [List.getD_eq_getElem?_getD, List.getD_eq_getElem?_getD, h]

theorem slots_keep (bi : List Nat) (b k : Nat)
    (h : b ≤ k ∧ (bi.take b).Pairwise (· < ·) ∧ ∀ x ∈ bi.take b, x < k) :
    b ≤ k + 1 ∧ (bi.take b).Pairwise (· < ·) ∧ ∀ x ∈ bi.take b, x < k + 1 :=
  ⟨by omega, h.2.1, fun x hx => Nat.lt_succ_of_lt (h.2.2 x hx)⟩

theorem slots_push (bi : List Nat) (b k : Nat) (hb : b < bi.length)
    (h : b ≤ k ∧ (bi.take b).Pairwise (· < ·) ∧ ∀ x ∈ bi.take b, x < k) :
    b + 1 ≤ k + 1 ∧ ((bi.set b k).take (b + 1)).Pairwise (· < ·) ∧
      ∀ x ∈ (bi.set b k).take (b + 1), x < k + 1 := by
  rw [take_succ_set bi b k hb]
  refine ⟨by omega, ?_, ?_⟩
  · rw [List.pairwise_append]
    refine ⟨h.2.1, List.pairwise_singleton _ _, ?_⟩
    intro x hx y hy
    rw [List.mem_singleton] at hy
    subst hy
    exact h.2.2 x hx
  · intro x hx
    rw [List.mem_append, List.mem_singleton] at hx
    rcases hx with hx | hx
    · exact Nat.lt_succ_of_lt (h.2.2 x hx)
    · omega

end SlotLemmas


namespace FaceTrackTriton

theorem batchAt_pairwise (videos : List Video) (n t : Nat) :
    (batchAt videos n t).Pairwise (fun a b => a < b) := by
  unfold batchAt
  exact List.Pairwise.filter _ (List.pairwise_lt_range _)

end FaceTrackTriton

namespace LipSyncTriton

theorem readNext_spec (FLAG_verbose : Bool) (videos : List Video) (t i : Nat) (st : State)
    (hi : i < st.list_of_captures.length) (hi1 : i < st.frames_t_1.length)
    (hcap : st.list_of_captures[i]? = some (capAt FLAG_verbose videos t i))
    (hf1 : numFrames videos i ≤ t → st.frames_t_1[i]? = some none)
    (hfin : st.audio_finished[i]? = some false)
    (hts : st.frame_timestamp[i]? = some t) :
    readNext FLAG_verbose i st =
      { st with
        frame_timestamp := st.frame_timestamp.set i (t + 1)
        list_of_captures := st.list_of_captures.set i (capAt FLAG_verbose videos (t + 1) i)
        frames_t_1 := st.frames_t_1.set i (frameAt videos i (t + 1)) } := by
  have hg : st.list_of_captures.getD i VideoCapture.new = capAt FLAG_verbose videos t i :=
    getD_of_getElem? _ hcap
  have hgt : st.frame_timestamp.getD i 0 = t := getD_of_getElem? _ hts
  have hgf : st.audio_finished.getD i false = false := getD_of_getElem? _ hfin
  unfold readNext
  simp only [hg, hgt, hgf]
  by_cases hop : (capAt FLAG_verbose videos t i).opened = true
  · rw [if_pos hop]
    have himg : (capAt FLAG_verbose videos t i).image = frameAt videos i (t + 1) := by
      unfold VideoCapture.image
      rw [if_pos hop]
      simp only [capAt, frameAt]
      by_cases ht : t < numFrames videos i
      · rw [Nat.min_eq_left (by omega)]
      · rw [Nat.min_eq_right (by omega), List.getElem?_eq_none (by unfold numFrames; omega),
          List.getElem?_eq_none (by simp only [numFrames] at ht; omega)]
    have hget : (st.frames_t_1.set i (frameAt videos i (t + 1))).getD i none =
        frameAt videos i (t + 1) := by
      rw [List.getD_eq_getElem?_getD, List.getElem?_set, if_pos rfl, if_pos hi1]
      rfl
    have hgetc : ((st.list_of_captures.set i (capAt FLAG_verbose videos t i).advance).getD i
        VideoCapture.new) = (capAt FLAG_verbose videos t i).advance := by
      rw [List.getD_eq_getElem?_getD, List.getElem?_set, if_pos rfl, if_pos hi]
      rfl
    have hadv : (capAt FLAG_verbose videos t i).advance =
        { opened := true, frames := (videos.getD i Video.absent).frames,
          pos := min (t + 2) (numFrames videos i) } := by
      have ho : (!FLAG_verbose || decide (t < numFrames videos i)) = true := hop
      simp only [VideoCapture.advance, capAt, ho, true_and]
      by_cases ht : t + 1 < numFrames videos i
      · rw [Nat.min_eq_left (by omega), Nat.min_eq_left (by omega),
          if_pos (by simp only [numFrames] at ht; exact ht)]
      · by_cases ht2 : t < numFrames videos i
        · rw [Nat.min_eq_left (by omega), Nat.min_eq_right (by omega),
            if_neg (by simp only [numFrames] at ht; exact ht)]
          congr 1
          omega
        · rw [Nat.min_eq_right (by omega), Nat.min_eq_right (by omega),
            if_neg (by simp only [numFrames]; omega)]
    simp only [himg, hget, hgetc, List.set_set, Bool.false_eq_true, or_false]
    by_cases hrel : FLAG_verbose = true ∧ frameAt videos i (t + 1) = none
    · rw [if_pos ⟨hrel.2, hrel.1, hrel.2⟩]
      have hge := (frameAt_eq_none videos i (t + 1)).mp hrel.2
      congr 1
      congr 1
      rw [hadv]
      have hd : decide (t + 1 < numFrames videos i) = false := decide_eq_false (by omega)
      simp only [VideoCapture.release, capAt, hrel.1, Bool.not_true, Bool.false_or, hd]
    · rw [if_neg (fun h => hrel ⟨h.2.1, h.1⟩)]
      congr 1
      congr 1
      rw [hadv]
      by_cases hv : FLAG_verbose = true
      · have hne : ¬ frameAt videos i (t + 1) = none := fun h => hrel ⟨hv, h⟩
        rw [frameAt_eq_none] at hne
        have hd : decide (t + 1 < numFrames videos i) = true := decide_eq_true (by omega)
        simp only [capAt, hv, Bool.not_true, Bool.false_or, hd]
      · simp only [Bool.not_eq_true] at hv
        simp only [capAt, hv, Bool.not_false, Bool.true_or]
  · rw [if_neg hop]
    have ho : (!FLAG_verbose || decide (t < numFrames videos i)) = false := by
      simpa [capAt] using hop
    simp only [Bool.or_eq_false_iff, Bool.not_eq_false', decide_eq_false_iff_not] at ho
    have hc : capAt FLAG_verbose videos (t + 1) i = capAt FLAG_verbose videos t i := by
      simp only [capAt, ho.1, Bool.not_true, Bool.false_or]
      congr 1
      · simp only [decide_eq_decide]; omega
      · omega
    rw [hc, set_eq_self hcap, (frameAt_eq_none videos i (t + 1)).mpr (by omega),
      set_eq_self (hf1 (by omega))]

theorem flushOrSkip_spec (sdk : Sdk) (videos : List Video) (F t i : Nat) (st : State)
    (hi : i < st.flush_frames_remaining.length)
    (hfr : st.frames[i]? = some (frameAt videos i t))
    (hfin : st.audio_finished[i]? = some false)
    (hfl : st.flush_frames_remaining[i]? = some (F - (t - numFrames videos i))) :
    flushOrSkip sdk i st =
      if t < numFrames videos i then (st, true)
      else if t < numFrames videos i + F then
        ({ st with
           flush_frames_remaining :=
             st.flush_frames_remaining.set i (F - (t + 1 - numFrames videos i))
           trace := st.trace ++
             (if t + 1 = numFrames videos i + F then [Event.DeallocateState i] else []) },
          true)
      else (st, false) := by
  have hgf : st.frames.getD i none = frameAt videos i t := getD_of_getElem? _ hfr
  have hgn : st.audio_finished.getD i false = false := getD_of_getElem? _ hfin
  have hgl : st.flush_frames_remaining.getD i 0 = F - (t - numFrames videos i) :=
    getD_of_getElem? _ hfl
  unfold flushOrSkip
  simp only [hgf, hgn, hgl, Bool.false_eq_true, or_false, if_false]
  by_cases h1 : t < numFrames videos i
  · rw [if_pos h1, if_neg]
    rw [frameAt_eq_none]
    omega
  · rw [if_neg h1, if_pos ((frameAt_eq_none videos i t).mpr (by omega))]
    by_cases h2 : t < numFrames videos i + F
    · rw [if_pos h2, if_pos (by omega)]
      have hget : (st.flush_frames_remaining.set i (F - (t - numFrames videos i) - 1)).getD i 0 =
          F - (t - numFrames videos i) - 1 := by
        rw [List.getD_eq_getElem?_getD, List.getElem?_set, if_pos rfl, if_pos hi]
        rfl
      have he : F - (t - numFrames videos i) - 1 = F - (t + 1 - numFrames videos i) := by omega
      simp only [hget]
      by_cases h3 : t + 1 = numFrames videos i + F
      · rw [if_pos (by omega), if_pos h3]
        simp only [ReleaseStream, he]
      · rw [if_neg (by omega), if_neg h3]
        simp only [he, List.append_nil]
    · rw [if_neg h2, if_neg (by omega)]

theorem cutAudio_eq (requestedEnd : Nat → Nat) (list_of_audio : List (List Sample))
    (tick i : Nat) (st : State) :
    cutAudio requestedEnd list_of_audio tick i st =
      if st.audio_finished.getD i false = false ∧
          min (requestedEnd (st.frame_timestamp.getD i 0)) (list_of_audio.getD i []).length <
            st.last_audio_end_sample then
        .error
          { st with
            last_audio_end_sample := requestedEnd (st.frame_timestamp.getD i 0)
            violations := st.violations ++
              [Violation.audioRange tick i st.last_audio_end_sample
                (min (requestedEnd (st.frame_timestamp.getD i 0))
                  (list_of_audio.getD i []).length)] }
      else
        .ok (cutFrame requestedEnd list_of_audio i st, cutState requestedEnd list_of_audio i st) := by
  unfold cutAudio cutFrame cutState
  dsimp only
  by_cases hfin : st.audio_finished.getD i false = true
  · simp only [hfin, if_true, Bool.true_eq_false, false_and, if_false]
  · have hf : st.audio_finished.getD i false = false := by
      cases h : st.audio_finished.getD i false with
      | false => rfl
      | true => exact absurd h hfin
    by_cases hthrow : min (requestedEnd (st.frame_timestamp.getD i 0))
        (list_of_audio.getD i []).length < st.last_audio_end_sample
    · simp only [hf, Bool.false_eq_true, if_false, gt_iff_lt, hthrow, if_true, true_and]
    · by_cases hpad : requestedEnd (st.frame_timestamp.getD i 0) ≥
          (list_of_audio.getD i []).length
      · simp only [hf, Bool.false_eq_true, if_false, gt_iff_lt, hthrow, hpad, if_true,
          true_and, and_false, and_true]
      · simp only [hf, Bool.false_eq_true, if_false, gt_iff_lt, hthrow, hpad, true_and,
          and_false]

theorem cutAndStage_eq (requestedEnd : Nat → Nat) (list_of_audio : List (List Sample))
    (tick i : Nat) (st : State) :
    cutAndStage requestedEnd list_of_audio tick i st =
      if st.audio_finished.getD i false = false ∧
          min (requestedEnd (st.frame_timestamp.getD i 0)) (list_of_audio.getD i []).length <
            st.last_audio_end_sample then
        .error
          { st with
            last_audio_end_sample := requestedEnd (st.frame_timestamp.getD i 0)
            violations := st.violations ++
              [Violation.audioRange tick i st.last_audio_end_sample
                (min (requestedEnd (st.frame_timestamp.getD i 0))
                  (list_of_audio.getD i []).length)] }
      else
        .ok (stage tick i (cutFrame requestedEnd list_of_audio i st)
          (cutState requestedEnd list_of_audio i st)) := by
  unfold cutAndStage
  rw [cutAudio_eq]
  split_ifs <;> rfl

theorem cutAndStage_ok (requestedEnd : Nat → Nat) (list_of_audio : List (List Sample))
    (tick i : Nat) (st s1 : State)
    (h : cutAndStage requestedEnd list_of_audio tick i st = .ok s1) :
    s1 = stage tick i (cutFrame requestedEnd list_of_audio i st)
      (cutState requestedEnd list_of_audio i st) := by
  rw [cutAndStage_eq] at h
  split_ifs at h
  cases h
  rfl

theorem cutAudio_spec (requestedEnd : Nat → Nat) (list_of_audio : List (List Sample))
    (tick i : Nat) (st : State) (hfin : st.audio_finished[i]? = some false)
    (haud : requestedEnd (st.frame_timestamp.getD i 0) < (list_of_audio.getD i []).length)
    (hlast : st.last_audio_end_sample ≤ requestedEnd (st.frame_timestamp.getD i 0)) :
    cutAndStage requestedEnd list_of_audio tick i st =
      .ok (stage tick i (cutFrame requestedEnd list_of_audio i st)
        { st with last_audio_end_sample := requestedEnd (st.frame_timestamp.getD i 0) }) := by
  have hgn : st.audio_finished.getD i false = false := getD_of_getElem? _ hfin
  rw [cutAndStage_eq, if_neg (fun h => by have := h.2; omega)]
  unfold cutState
  rw [if_neg (fun h => by have := h.2; omega)]

theorem stepsOf_append (tr1 tr2 : List Event) :
    stepsOf (tr1 ++ tr2) = stepsOf tr1 ++ stepsOf tr2 := by
  unfold stepsOf
  rw [List.filterMap_append]

theorem assembleStep_spec (sdk : Sdk) (hs : ∀ c, sdk.status c = 0) (FLAG_verbose : Bool)
    (requestedEnd : Nat → Nat) (list_of_audio : List (List Sample)) (videos : List Video)
    (F t k : Nat) (a : State)
    (hk : k < a.list_of_captures.length) (hk1 : k < a.frames_t_1.length)
    (hkf : k < a.flush_frames_remaining.length) (hkt : k < a.frame_timestamp.length)
    (hcap : a.list_of_captures[k]? = some (capAt FLAG_verbose videos t k))
    (hf1 : numFrames videos k ≤ t → a.frames_t_1[k]? = some none)
    (hfin : a.audio_finished[k]? = some false)
    (hts : a.frame_timestamp[k]? = some t)
    (hfr : a.frames[k]? = some (frameAt videos k t))
    (hfl : a.flush_frames_remaining[k]? = some (F - (t - numFrames videos k)))
    (herr : a.err = 0)
    (haud : t < numFrames videos k + F →
      requestedEnd (t + 1) < (list_of_audio.getD k []).length)
    (hlast : a.last_audio_end_sample ≤ requestedEnd (t + 1)) :
    ∃ a1, assembleStep sdk FLAG_verbose requestedEnd list_of_audio t k a = .ok a1 ∧
      a1.last_audio_end_sample ≤ requestedEnd (t + 1) ∧
      a1.list_of_captures = a.list_of_captures.set k (capAt FLAG_verbose videos (t + 1) k) ∧
      a1.frames_t_1 = a.frames_t_1.set k (frameAt videos k (t + 1)) ∧
      a1.frame_timestamp = a.frame_timestamp.set k (t + 1) ∧
      a1.flush_frames_remaining =
        a.flush_frames_remaining.set k (F - (t + 1 - numFrames videos k)) ∧
      a1.audio_finished = a.audio_finished ∧ a1.frames = a.frames ∧ a1.err = 0 ∧
      stepsOf a1.trace = stepsOf a.trace ++
        (if 0 < F ∧ t + 1 = numFrames videos k + F then [Step.release k] else []) ∧
      a1.batchsize = a.batchsize + (if t < numFrames videos k + F then 1 else 0) ∧
      a1.batch_indices =
        (if t < numFrames videos k + F then a.batch_indices.set a.batchsize k
          else a.batch_indices) := by
  have hr := readNext_spec FLAG_verbose videos t k a hk hk1 hcap hf1 hfin hts
  have hfo := flushOrSkip_spec sdk videos F t k (readNext FLAG_verbose k a)
    (by rw [hr]; exact hkf) (by rw [hr]; exact hfr) (by rw [hr]; exact hfin)
    (by rw [hr]; exact hfl)
  have htsg : (a.frame_timestamp.set k (t + 1)).getD k 0 = t + 1 := by
    rw [List.getD_eq_getElem?_getD, List.getElem?_set, if_pos rfl, if_pos hkt]
    rfl
  unfold assembleStep
  rw [hfo]
  by_cases h1 : t < numFrames videos k
  · have h2 : t < numFrames videos k + F := by omega
    simp only [if_pos h1, Bool.true_eq_false, if_false]
    obtain ⟨f, hf⟩ : ∃ f, frameAt videos k t = some f := by
      cases h : frameAt videos k t with
      | none =>
        have := (frameAt_eq_none videos k t).mp h
        omega
      | some f => exact ⟨f, rfl⟩
    have hgf : (readNext FLAG_verbose k a).frames.getD k none = some f := by
      rw [hr]
      exact getD_of_getElem? _ (hfr.trans (congrArg some hf))
    rw [hgf]
    simp only [hs, ne_eq, not_true_eq_false, if_false]
    have hv := cutAudio_spec requestedEnd list_of_audio t k
      { readNext FLAG_verbose k a with
        err := 0
        app := { (readNext FLAG_verbose k a).app with
                 m_srcVid := (readNext FLAG_verbose k a).app.m_srcVid.set
                   (readNext FLAG_verbose k a).batchsize (some f) } }
      (by rw [hr]; exact hfin)
      (by
        rw [hr]
        simp only [htsg]
        exact haud h2)
      (by
        rw [hr]
        simp only [htsg]
        exact hlast)
    rw [hv]
    refine ⟨_, rfl, ?_⟩
    rw [hr]
    simp only [stage, if_pos h2, true_and, and_true, htsg, le_refl]
    refine ⟨?_, ?_⟩
    · have : F - (t + 1 - numFrames videos k) = F - (t - numFrames videos k) := by omega
      rw [this, set_eq_self hfl]
    · rw [if_neg (by omega), List.append_nil]
  · by_cases h2 : t < numFrames videos k + F
    · simp only [if_neg h1, if_pos h2, Bool.true_eq_false, if_false]
      have hgf : (readNext FLAG_verbose k a).frames.getD k none = none := by
        rw [hr]
        exact getD_of_getElem? _
          (hfr.trans (congrArg some ((frameAt_eq_none videos k t).mpr (by omega))))
      rw [hgf]
      have hv := cutAudio_spec requestedEnd list_of_audio t k
        { readNext FLAG_verbose k a with
          flush_frames_remaining :=
            (readNext FLAG_verbose k a).flush_frames_remaining.set k
              (F - (t + 1 - numFrames videos k))
          trace := (readNext FLAG_verbose k a).trace ++
            (if t + 1 = numFrames videos k + F then [Event.DeallocateState k] else []) }
        (by rw [hr]; exact hfin)
        (by
          rw [hr]
          simp only [htsg]
          exact haud h2)
        (by
          rw [hr]
          simp only [htsg]
          exact hlast)
      rw [hv]
      refine ⟨_, rfl, ?_⟩
      rw [hr]
      simp only [stage, if_pos h2, true_and, and_true, htsg, le_refl]
      refine ⟨herr, ?_⟩
      rw [stepsOf_append]
      congr 1
      by_cases h3 : t + 1 = numFrames videos k + F
      · rw [if_pos h3, if_pos ⟨by omega, h3⟩]
        rfl
      · rw [if_neg h3, if_neg (fun h => h3 h.2)]
        rfl
    · simp only [if_neg h1, if_neg h2, if_true]
      refine ⟨_, rfl, ?_⟩
      rw [hr]
      refine ⟨hlast, rfl, rfl, rfl, ?_, rfl, rfl, herr, ?_, rfl, rfl⟩
      · have : F - (t + 1 - numFrames videos k) = F - (t - numFrames videos k) := by omega
        simp only [this, set_eq_self hfl]
      · rw [if_neg (by omega), List.append_nil]

theorem ls_batchAt_succ (videos : List Video) (F k t : Nat) :
    batchAt videos F (k + 1) t =
      batchAt videos F k t ++ (if t < numFrames videos k + F then [k] else []) := by
  simp only [batchAt, List.range_succ, List.filter_append, List.filter_cons, List.filter_nil]
  by_cases h : t < numFrames videos k + F <;> simp [h]

theorem ls_releasedAt_succ (videos : List Video) (F k t : Nat) :
    releasedAt videos F (k + 1) t =
      releasedAt videos F k t ++
        (if 0 < F ∧ t + 1 = numFrames videos k + F then [k] else []) := by
  simp only [releasedAt, List.range_succ, List.filter_append, List.filter_cons,
    List.filter_nil]
  by_cases h : 0 < F ∧ t + 1 = numFrames videos k + F <;> simp [h]

theorem ls_batchAt_length_le (videos : List Video) (F k t : Nat) :
    (batchAt videos F k t).length ≤ k := by
  unfold batchAt
  exact (List.length_filter_le _ _).trans (by simp)

theorem ls_mem_batchAt (videos : List Video) (F n t i : Nat) :
    i ∈ batchAt videos F n t ↔ i < n ∧ t < numFrames videos i + F := by
  unfold batchAt
  rw [List.mem_filter, List.mem_range, decide_eq_true_eq]

theorem ls_assembleLoop_closed (sdk : Sdk) (hs : ∀ c, sdk.status c = 0) (FLAG_verbose : Bool)
    (requestedEnd : Nat → Nat) (list_of_audio : List (List Sample)) (videos : List Video)
    (F t : Nat) (st : State) (hinv : Inv FLAG_verbose videos F t st)
    (haud : ∀ i, i < videos.length → ∀ u, u < numFrames videos i + F →
      requestedEnd (u + 1) < (list_of_audio.getD i []).length)
    (hlast : st.last_audio_end_sample ≤ requestedEnd (t + 1))
    (k : Nat) (hk : k ≤ videos.length) :
    ∃ a, assembleLoop sdk FLAG_verbose requestedEnd list_of_audio t k
        { st with batchsize := 0 } = .ok a ∧
      a.last_audio_end_sample ≤ requestedEnd (t + 1) ∧
      AsmInv FLAG_verbose videos F t st k a := by
  induction k with
  | zero =>
    refine ⟨_, rfl, hlast, ?_⟩
    exact
      { batchsize_eq := rfl, bi_take := rfl, caps_len := hinv.caps_len,
        frames1_len := hinv.frames1_len, bi_len := hinv.bi_len, flush_len := hinv.flush_len,
        fin_len := hinv.fin_len, ts_len := hinv.ts_len, err_zero := hinv.err_zero,
        frames_eq := rfl, steps := by simp [releasedAt],
        caps := fun j hj => by simpa using hinv.caps j hj,
        frames1 := fun j hj =>
          ⟨fun h => absurd h (Nat.not_lt_zero j), fun _ h => hinv.frames1 j hj h⟩,
        flush := fun j hj => by simpa using hinv.flush j hj,
        fin := hinv.fin,
        ts := fun j hj => by simpa using hinv.ts j hj }
  | succ k ih =>
    obtain ⟨a, ha, hal, inv⟩ := ih (by omega)
    have hkN : k < videos.length := by omega
    obtain ⟨a1, h0, hal1, h1, h2, h3, h4, h5, h6, h7, h8, h9, h10⟩ :=
      assembleStep_spec sdk hs FLAG_verbose requestedEnd list_of_audio videos F t k a
        (by rw [inv.caps_len]; exact hkN) (by rw [inv.frames1_len]; exact hkN)
        (by rw [inv.flush_len]; exact hkN) (by rw [inv.ts_len]; exact hkN)
        (by rw [inv.caps k hkN, if_neg (Nat.lt_irrefl k)])
        ((inv.frames1 k hkN).2 (Nat.le_refl k))
        (inv.fin k hkN)
        (by rw [inv.ts k hkN, if_neg (Nat.lt_irrefl k)])
        (by rw [inv.frames_eq]; exact hinv.frames k hkN)
        (by rw [inv.flush k hkN, if_neg (Nat.lt_irrefl k)])
        inv.err_zero (haud k hkN t) hal
    have hble : a.batchsize ≤ k := by rw [inv.batchsize_eq]; exact ls_batchAt_length_le _ _ _ _
    refine ⟨a1, by simp only [assembleLoop, ha, h0], hal1, ?_⟩
    exact
      { batchsize_eq := by
          rw [h9, ls_batchAt_succ, List.length_append, inv.batchsize_eq]
          split <;> rfl
        bi_take := by
          rw [h9, h10, ls_batchAt_succ]
          by_cases hc : t < numFrames videos k + F
          · rw [if_pos hc, if_pos hc, if_pos hc,
              take_succ_set _ _ _ (by rw [inv.bi_len]; omega), inv.bi_take]
          · rw [if_neg hc, if_neg hc, if_neg hc, List.append_nil]
            exact inv.bi_take
        caps_len := by rw [h1]; simp [inv.caps_len]
        frames1_len := by rw [h2]; simp [inv.frames1_len]
        bi_len := by
          rw [h10]
          split <;> simp [inv.bi_len]
        flush_len := by rw [h4]; simp [inv.flush_len]
        fin_len := by rw [h5]; exact inv.fin_len
        ts_len := by rw [h3]; simp [inv.ts_len]
        err_zero := h7
        frames_eq := by rw [h6]; exact inv.frames_eq
        steps := by
          rw [h8, inv.steps, ls_releasedAt_succ, List.map_append, List.append_assoc]
          congr 2
          split <;> rfl
        caps := by
          intro j hj
          rw [h1, List.getElem?_set]
          by_cases hjk : k = j
          · subst hjk
            rw [if_pos rfl, if_pos (by rw [inv.caps_len]; exact hkN), if_pos (by omega)]
          · rw [if_neg hjk, inv.caps j hj]
            by_cases hlt : j < k
            · rw [if_pos hlt, if_pos (by omega)]
            · rw [if_neg hlt, if_neg (by omega)]
        frames1 := by
          intro j hj
          rw [h2, List.getElem?_set]
          by_cases hjk : k = j
          · subst hjk
            rw [if_pos rfl, if_pos (by rw [inv.frames1_len]; exact hkN)]
            exact ⟨fun _ => rfl, fun h => absurd h (by omega)⟩
          · rw [if_neg hjk]
            exact ⟨fun h => (inv.frames1 j hj).1 (by omega),
              fun h => (inv.frames1 j hj).2 (by omega)⟩
        flush := by
          intro j hj
          rw [h4, List.getElem?_set]
          by_cases hjk : k = j
          · subst hjk
            rw [if_pos rfl, if_pos (by rw [inv.flush_len]; exact hkN), if_pos (by omega)]
          · rw [if_neg hjk, inv.flush j hj]
            by_cases hlt : j < k
            · rw [if_pos hlt, if_pos (by omega)]
            · rw [if_neg hlt, if_neg (by omega)]
        fin := by
          intro j hj
          rw [h5]
          exact inv.fin j hj
        ts := by
          intro j hj
          rw [h3, List.getElem?_set]
          by_cases hjk : k = j
          · subst hjk
            rw [if_pos rfl, if_pos (by rw [inv.ts_len]; exact hkN), if_pos (by omega)]
          · rw [if_neg hjk, inv.ts j hj]
            by_cases hlt : j < k
            · rw [if_pos hlt, if_pos (by omega)]
            · rw [if_neg hlt, if_neg (by omega)] }

theorem Run_spec (sdk : Sdk) (hs : ∀ c, sdk.status c = 0) (t : Nat) (st : State) :
    ∃ app eff img,
      Run sdk t st.audio_frame_batched st.audio_frame_num_samples st.batch_indices st.batchsize
          st =
        (0, { st with
              app := app
              trace := st.trace ++
                [Event.Run (st.batch_indices.take st.batchsize) eff img] }) ∧
      eff.BatchSize = st.batchsize := by
  simp only [Run, hs, ne_eq, not_true_eq_false, if_false]
  exact ⟨_, _, _, rfl, rfl⟩

theorem ls_writeLoop_closed (sdk : Sdk) (hs : ∀ c, sdk.status c = 0) (videos : List Video)
    (F t : Nat) (st : State)
    (hbi : st.batch_indices.take (batchAt videos F videos.length t).length =
      batchAt videos F videos.length t)
    (herr : st.err = 0) (hfl : st.frames.length = videos.length)
    (hfr : ∀ i, i < videos.length → st.frames[i]? = some (frameAt videos i t))
    (hfr1 : ∀ i, i < videos.length → st.frames_t_1[i]? = some (frameAt videos i (t + 1)))
    (k : Nat) (hk : k ≤ (batchAt videos F videos.length t).length) :
    ∃ s, writeLoop sdk t k st = .ok s ∧
      s.last_audio_end_sample = st.last_audio_end_sample ∧ WriteInv videos F t st k s := by
  induction k with
  | zero =>
    refine ⟨st, rfl, rfl, ?_⟩
    exact
      { trace_eq := rfl, bi_eq := rfl, frames1_eq := rfl, caps_eq := rfl, flush_eq := rfl,
        fin_eq := rfl, ts_eq := rfl, batchsize_eq := rfl, err_zero := herr, frames_len := hfl,
        frames := fun i hi => by simpa using hfr i hi }
  | succ k ih =>
    obtain ⟨s, hs1, hsl, inv⟩ := ih (by omega)
    have hkb : k < (batchAt videos F videos.length t).length := by omega
    obtain ⟨v, hv⟩ : ∃ v, (batchAt videos F videos.length t)[k]? = some v :=
      ⟨_, List.getElem?_eq_getElem hkb⟩
    have hvmem : v ∈ batchAt videos F videos.length t := List.getElem?_mem hv
    obtain ⟨hvN, _⟩ := (ls_mem_batchAt videos F _ t v).mp hvmem
    have hidx : s.batch_indices.getD k 0 = v := by
      apply getD_of_getElem?
      rw [inv.bi_eq, ← hv, ← hbi, List.getElem?_take, if_pos hkb]
    have hf1v : s.frames_t_1.getD v none = frameAt videos v (t + 1) := by
      apply getD_of_getElem?
      rw [inv.frames1_eq, hfr1 v hvN]
    have hfrs : ∀ (fr : List Mat), fr.length = videos.length →
        (∀ i, i < videos.length → fr[i]? =
          some (if i ∈ (batchAt videos F videos.length t).take k then frameAt videos i (t + 1)
            else frameAt videos i t)) →
        ∀ i, i < videos.length → (fr.set v (frameAt videos v (t + 1)))[i]? =
          some (if i ∈ (batchAt videos F videos.length t).take (k + 1) then
            frameAt videos i (t + 1) else frameAt videos i t) := by
      intro fr hlen hfr i hi
      simp only [List.getElem?_set, mem_take_succ _ k v i hv]
      by_cases hiv : v = i
      · subst hiv
        rw [if_pos rfl, if_pos (by rw [hlen]; exact hi), if_pos (Or.inr rfl)]
      · rw [if_neg hiv, hfr i hi]
        by_cases hm : i ∈ (batchAt videos F videos.length t).take k
        · rw [if_pos hm, if_pos (Or.inl hm)]
        · rw [if_neg hm, if_neg (by
            intro h
            rcases h with h | h
            · exact hm h
            · exact hiv h.symm)]
    simp only [writeLoop, hs1, writeStep, GenerateNthOutputVizImage, hs, ne_eq,
      not_true_eq_false, if_false, hidx]
    by_cases hr : sdk.ready t k = 0
    · simp only [hr, if_true, hf1v]
      refine ⟨_, rfl, hsl, ?_⟩
      exact
        { trace_eq := inv.trace_eq, bi_eq := inv.bi_eq, frames1_eq := inv.frames1_eq,
          caps_eq := inv.caps_eq, flush_eq := inv.flush_eq, fin_eq := inv.fin_eq,
          ts_eq := inv.ts_eq, batchsize_eq := inv.batchsize_eq, err_zero := rfl,
          frames_len := by simp [inv.frames_len],
          frames := hfrs s.frames inv.frames_len inv.frames }
    · simp only [hr, if_false, hf1v]
      refine ⟨_, rfl, hsl, ?_⟩
      exact
        { trace_eq := inv.trace_eq, bi_eq := inv.bi_eq, frames1_eq := inv.frames1_eq,
          caps_eq := inv.caps_eq, flush_eq := inv.flush_eq, fin_eq := inv.fin_eq,
          ts_eq := inv.ts_eq, batchsize_eq := inv.batchsize_eq, err_zero := rfl,
          frames_len := by simp [inv.frames_len],
          frames := hfrs s.frames inv.frames_len inv.frames }

theorem ls_releasedAt_eq_nil (videos : List Video) (F n t : Nat)
    (h : batchAt videos F n t = []) : releasedAt videos F n t = [] := by
  unfold batchAt at h
  unfold releasedAt
  rw [List.filter_eq_nil_iff] at *
  intro i hi
  have := h i hi
  simp only [decide_eq_true_eq] at *
  omega

theorem stepsOf_run (b : List Nat) (eff : Effect) (img : List Mat) :
    stepsOf [Event.Run b eff img] = [Step.run b eff.BatchSize] := rfl

theorem ls_tick_closed (sdk : Sdk) (hs : ∀ c, sdk.status c = 0) (FLAG_verbose : Bool)
    (requestedEnd : Nat → Nat) (list_of_audio : List (List Sample)) (videos : List Video)
    (F t : Nat) (st : State) (hinv : Inv FLAG_verbose videos F t st)
    (haud : ∀ i, i < videos.length → ∀ u, u < numFrames videos i + F →
      requestedEnd (u + 1) < (list_of_audio.getD i []).length)
    (hmono : requestedEnd t ≤ requestedEnd (t + 1))
    (hlast : st.last_audio_end_sample ≤ requestedEnd t) :
    (batchAt videos F videos.length t = [] →
      ∃ st1, tick sdk FLAG_verbose requestedEnd list_of_audio videos.length t st =
          .ok (true, st1) ∧ st1.err = 0 ∧ stepsOf st1.trace = stepsOf st.trace) ∧
    (batchAt videos F videos.length t ≠ [] →
      ∃ st1, tick sdk FLAG_verbose requestedEnd list_of_audio videos.length t st =
          .ok (false, st1) ∧ st1.last_audio_end_sample ≤ requestedEnd (t + 1) ∧
        Inv FLAG_verbose videos F (t + 1) st1) := by
  obtain ⟨a, ha, hal, ainv⟩ := ls_assembleLoop_closed sdk hs FLAG_verbose requestedEnd
    list_of_audio videos F t st hinv haud (le_trans hlast hmono) videos.length (Nat.le_refl _)
  constructor
  · intro he
    have hz : a.batchsize = 0 := by rw [ainv.batchsize_eq, he]; rfl
    refine ⟨a, ?_, ainv.err_zero, ?_⟩
    · simp only [tick, ha, hz, if_true]
    · rw [ainv.steps, ls_releasedAt_eq_nil _ _ _ _ he]
      simp
  · intro he
    have hz : a.batchsize ≠ 0 := by
      rw [ainv.batchsize_eq]
      intro h
      exact he (List.length_eq_zero.mp h)
    have hbt : a.batch_indices.take (batchAt videos F videos.length t).length =
        batchAt videos F videos.length t := by
      rw [← ainv.batchsize_eq]; exact ainv.bi_take
    obtain ⟨app, eff, img, hrun, heff⟩ := Run_spec sdk hs t a
    obtain ⟨s, hw, hsl, winv⟩ := ls_writeLoop_closed sdk hs videos F t
      { a with
        err := sdk.status (Call.GetActivation t)
        app := app
        trace := a.trace ++ [Event.Run (a.batch_indices.take a.batchsize) eff img] }
      hbt (hs _) (by rw [ainv.frames_eq]; exact hinv.frames_len)
      (by rw [ainv.frames_eq]; exact hinv.frames)
      (fun i hi => (ainv.frames1 i hi).1 hi)
      a.batchsize (by rw [ainv.batchsize_eq])
    have wf := winv.frames
    rw [ainv.batchsize_eq, List.take_length] at wf
    refine ⟨{ s with
              frame_count := s.frame_count + 1
              audio_frame_batched := []
              audio_frame_num_samples_size := 0 }, ?_, ?_, ?_⟩
    · simp only [tick, ha, if_neg hz, hrun, hs, ne_eq, not_true_eq_false, if_false]
      simp only [hs] at hw
      rw [hw]
    · show s.last_audio_end_sample ≤ requestedEnd (t + 1)
      rw [hsl]
      exact hal
    · exact
        { caps_len := by simp only [winv.caps_eq]; exact ainv.caps_len
          frames_len := winv.frames_len
          frames1_len := by simp only [winv.frames1_eq]; exact ainv.frames1_len
          bi_len := by simp only [winv.bi_eq]; exact ainv.bi_len
          flush_len := by simp only [winv.flush_eq]; exact ainv.flush_len
          fin_len := by simp only [winv.fin_eq]; exact ainv.fin_len
          ts_len := by simp only [winv.ts_eq]; exact ainv.ts_len
          err_zero := winv.err_zero
          caps := by
            intro i hi
            simp only [winv.caps_eq]
            rw [ainv.caps i hi, if_pos hi]
          frames := by
            intro i hi
            simp only []
            rw [wf i hi]
            by_cases hm : i ∈ batchAt videos F videos.length t
            · rw [if_pos hm]
            · rw [if_neg hm]
              have hge : numFrames videos i + F ≤ t := by
                by_contra hc
                exact hm ((ls_mem_batchAt videos F _ t i).mpr ⟨hi, by omega⟩)
              rw [(frameAt_eq_none videos i t).mpr (by omega),
                (frameAt_eq_none videos i (t + 1)).mpr (by omega)]
          frames1 := by
            intro i hi hge
            simp only [winv.frames1_eq]
            rw [(ainv.frames1 i hi).1 hi, (frameAt_eq_none videos i (t + 1)).mpr hge]
          flush := by
            intro i hi
            simp only [winv.flush_eq]
            rw [ainv.flush i hi, if_pos hi]
          fin := by
            intro i hi
            simp only [winv.fin_eq]
            exact ainv.fin i hi
          ts := by
            intro i hi
            simp only [winv.ts_eq]
            rw [ainv.ts i hi, if_pos hi]
          steps := by
            simp only [winv.trace_eq]
            rw [stepsOf_append, ainv.steps, hinv.steps, stepsOf_run, heff, List.range_succ,
              List.flatMap_append, List.flatMap_singleton, List.append_assoc]
            congr 1
            unfold tickSteps
            rw [ainv.bi_take, ainv.batchsize_eq] }

theorem ls_lastTick_spec (videos : List Video) (F t : Nat) :
    batchAt videos F videos.length t = [] ↔ lastTick videos F ≤ t := by
  unfold batchAt lastTick
  rw [List.filter_eq_nil_iff, foldr_max_le]
  simp only [List.mem_range, decide_eq_true_eq, List.mem_map, forall_exists_index, and_imp,
    forall_apply_eq_imp_iff₂]
  constructor
  · intro h x hx
    obtain ⟨i, hi, rfl⟩ := List.mem_iff_getElem.mp hx
    have := h i hi
    rw [numFrames_of_lt videos i hi] at this
    omega
  · intro h i hi
    have := h (videos[i]) (List.getElem_mem hi)
    rw [numFrames_of_lt videos i hi]
    omega

theorem ls_tickLoop_closed (sdk : Sdk) (hs : ∀ c, sdk.status c = 0) (FLAG_verbose : Bool)
    (requestedEnd : Nat → Nat) (list_of_audio : List (List Sample)) (videos : List Video)
    (F : Nat)
    (haud : ∀ i, i < videos.length → ∀ u, u < numFrames videos i + F →
      requestedEnd (u + 1) < (list_of_audio.getD i []).length)
    (hmono : ∀ k, requestedEnd k ≤ requestedEnd (k + 1))
    (d : Nat) :
    ∀ (t : Nat) (st : State) (fuel : Nat), Inv FLAG_verbose videos F t st →
      st.last_audio_end_sample ≤ requestedEnd t →
      t + d = lastTick videos F → d < fuel →
      ∃ st1, tickLoop sdk FLAG_verbose requestedEnd list_of_audio videos.length fuel t st =
          some st1 ∧ st1.err = 0 ∧
        stepsOf st1.trace = (List.range (lastTick videos F)).flatMap (tickSteps videos F) := by
  induction d with
  | zero =>
    intro t st fuel hinv hlast ht hf
    have he : batchAt videos F videos.length t = [] := by
      rw [ls_lastTick_spec]; omega
    obtain ⟨st1, h1, h2, h3⟩ :=
      (ls_tick_closed sdk hs FLAG_verbose requestedEnd list_of_audio videos F t st hinv haud
        (hmono t) hlast).1 he
    obtain ⟨fuel, rfl⟩ : ∃ f, fuel = f + 1 := ⟨fuel - 1, by omega⟩
    refine ⟨st1, ?_, h2, ?_⟩
    · simp only [tickLoop, h1]
    · have : t = lastTick videos F := by omega
      rw [h3, hinv.steps, this]
  | succ d ih =>
    intro t st fuel hinv hlast ht hf
    have he : batchAt videos F videos.length t ≠ [] := by
      rw [Ne, ls_lastTick_spec]; omega
    obtain ⟨st1, h1, hl1, h2⟩ :=
      (ls_tick_closed sdk hs FLAG_verbose requestedEnd list_of_audio videos F t st hinv haud
        (hmono t) hlast).2 he
    obtain ⟨fuel, rfl⟩ : ∃ f, fuel = f + 1 := ⟨fuel - 1, by omega⟩
    obtain ⟨st2, h4, h5, h6⟩ := ih (t + 1) st1 fuel h2 hl1 (by omega) (by omega)
    exact ⟨st2, by simp only [tickLoop, h1, h4], h5, h6⟩

theorem ls_openLoop_closed (videos : List Video) (hopen : ∀ v ∈ videos, v.opens = true)
    (hdim : ∀ v ∈ videos, v.cols ≠ 0 ∧ v.rows ≠ 0)
    (hres : ∀ v ∈ videos, v.cols = (videos.getD 0 Video.absent).cols ∧
      v.rows = (videos.getD 0 Video.absent).rows)
    (k : Nat) (hk : k ≤ videos.length) :
    ∃ caps w h, openLoop videos videos.length k = .ok (caps, w, h) ∧
      caps.length = videos.length ∧
      (∀ j, j < videos.length → caps[j]? =
        some (if j < k then rewound videos j else VideoCapture.new)) ∧
      (0 < k → w = (videos.getD 0 Video.absent).cols ∧
        h = (videos.getD 0 Video.absent).rows) := by
  induction k with
  | zero =>
    refine ⟨_, _, _, rfl, by simp, ?_, fun h => absurd h (Nat.lt_irrefl 0)⟩
    intro j hj
    simp [hj]
  | succ k ih =>
    obtain ⟨caps, w, h, h1, h2, h3, h4⟩ := ih (by omega)
    have hkN : k < videos.length := by omega
    have hvk : videos[k]? = some (videos[k]) := List.getElem?_eq_getElem hkN
    have hgd : videos.getD k Video.absent = videos[k] := getD_of_getElem? _ hvk
    have hv : videos[k] ∈ videos := List.getElem_mem hkN
    have ho := hopen _ hv
    have hd := hdim _ hv
    have hr := hres _ hv
    have hcap : ({ VideoCapture.open (videos[k]) with pos := 0 } : VideoCapture) =
        rewound videos k := by
      simp only [VideoCapture.open, ho, if_true, rewound, hgd]
    have hcaps : ∀ j, j < videos.length →
        (caps.set k (rewound videos k))[j]? =
        some (if j < k + 1 then rewound videos j else VideoCapture.new) := by
      intro j hj
      rw [List.getElem?_set]
      by_cases hjk : k = j
      · subst hjk
        rw [if_pos rfl, if_pos (by omega), if_pos (by omega)]
      · rw [if_neg hjk, h3 j hj]
        by_cases hlt : j < k
        · rw [if_pos hlt, if_pos (by omega)]
        · rw [if_neg hlt, if_neg (by omega)]
    simp only [openLoop, h1, hvk, hcap]
    rw [if_neg (by simp [VideoCapture.open, ho]), if_neg (by
      intro hc
      rcases hc with hc | hc
      · exact hd.1 hc
      · exact hd.2 hc)]
    by_cases hk0 : k = 0
    · rw [if_pos hk0]
      refine ⟨_, _, _, rfl, by simp [h2], hcaps, fun _ => ?_⟩
      subst hk0
      rw [hgd]
      exact ⟨rfl, rfl⟩
    · rw [if_neg hk0]
      obtain ⟨hw, hh⟩ := h4 (by omega)
      rw [if_neg (by
        intro hc
        rcases hc with hc | hc
        · exact hc (by rw [hw, hr.1])
        · exact hc (by rw [hh, hr.2]))]
      exact ⟨_, _, _, rfl, by simp [h2], hcaps, fun _ => ⟨hw, hh⟩⟩

theorem stepsOf_allocate (l : List Nat) : stepsOf (l.map Event.AllocateState) = [] := by
  unfold stepsOf
  rw [List.filterMap_eq_nil_iff]
  intro e he
  obtain ⟨j, _, rfl⟩ := List.mem_map.mp he
  rfl

theorem ls_initLoop_closed (sdk : Sdk) (hs : ∀ c, sdk.status c = 0) (FLAG_verbose : Bool)
    (videos : List Video) (hne : ∀ v ∈ videos, 1 ≤ v.frames.length) (st : State)
    (hcl : st.list_of_captures.length = videos.length)
    (hfl : st.frames.length = videos.length)
    (hcaps : ∀ j, j < videos.length → st.list_of_captures[j]? = some (rewound videos j))
    (hfin : ∀ j, j < videos.length → st.audio_finished[j]? = some false)
    (k : Nat) (hk : k ≤ videos.length) :
    ∃ s, initLoop sdk k st = .ok s ∧ s.list_of_captures.length = videos.length ∧
      s.frames.length = videos.length ∧
      (∀ j, j < videos.length → s.list_of_captures[j]? =
        some (if j < k then capAt FLAG_verbose videos 0 j else rewound videos j)) ∧
      (∀ j, j < videos.length → j < k → s.frames[j]? = some (frameAt videos j 0)) ∧
      s.trace = st.trace ++ (List.range k).map Event.AllocateState ∧
      s.frames_t_1 = st.frames_t_1 ∧ s.batch_indices = st.batch_indices ∧
      s.err = st.err ∧ s.flush_frames_remaining = st.flush_frames_remaining ∧
      s.audio_finished = st.audio_finished ∧ s.frame_timestamp = st.frame_timestamp ∧
      s.last_audio_end_sample = st.last_audio_end_sample := by
  induction k with
  | zero =>
    refine ⟨st, rfl, hcl, hfl, ?_, ?_, by simp, rfl, rfl, rfl, rfl, rfl, rfl, rfl⟩
    · intro j hj
      simpa using hcaps j hj
    · intro j _ hj
      exact absurd hj (Nat.not_lt_zero j)
  | succ k ih =>
    obtain ⟨s, h1, h2, h3, h4, h5, h6, h7, h8, h9, h10, h11, h12, h13⟩ := ih (by omega)
    have hkN : k < videos.length := by omega
    have hv : videos.getD k Video.absent ∈ videos := by
      rw [List.getD_eq_getElem?_getD, List.getElem?_eq_getElem hkN]
      exact List.getElem_mem hkN
    have hn : 1 ≤ numFrames videos k := hne _ hv
    have hg : s.list_of_captures.getD k VideoCapture.new = rewound videos k := by
      apply getD_of_getElem?
      rw [h4 k hkN, if_neg (Nat.lt_irrefl k)]
    have hgn : s.audio_finished.getD k false = false := by
      apply getD_of_getElem?
      rw [h11]
      exact hfin k hkN
    have himg : (rewound videos k).image = frameAt videos k 0 := by
      simp only [VideoCapture.image, frameAt, rewound, if_true]
    have hadv : (rewound videos k).advance = capAt FLAG_verbose videos 0 k := by
      have h5 : (True ∧ 0 < (videos.getD k Video.absent).frames.length) := ⟨trivial, hn⟩
      have h6 : decide (0 < numFrames videos k) = true := by simpa using hn
      have h7 : min (0 + 1) (numFrames videos k) = 0 + 1 := by omega
      simp only [VideoCapture.advance, capAt, h6, h7, decide_True, rewound, Bool.or_true]
      rw [if_pos h5]
    have hsome : ¬ frameAt videos k 0 = none := by
      rw [frameAt_eq_none]; omega
    have hget : (s.frames.set k (frameAt videos k 0)).getD k none = frameAt videos k 0 := by
      apply getD_of_getElem?
      rw [List.getElem?_set, if_pos rfl, if_pos (by omega)]
    have hop : (rewound videos k).opened = true := rfl
    simp only [initLoop, h1, hg, himg, hadv, hop, Bool.not_true, Bool.false_eq_true, if_false,
      hget, hsome, hgn, or_false, InitStream, App.InitStream, hs, ne_eq, not_true_eq_false]
    refine ⟨_, rfl, by simp [h2], by simp [h3], ?_, ?_, ?_, h7, h8, h9, h10, h11, h12, h13⟩
    · intro j hj
      simp only [List.getElem?_set]
      by_cases hjk : k = j
      · subst hjk
        rw [if_pos rfl, if_pos (by omega), if_pos (by omega)]
      · rw [if_neg hjk, h4 j hj]
        by_cases hlt : j < k
        · rw [if_pos hlt, if_pos (by omega)]
        · rw [if_neg hlt, if_neg (by omega)]
    · intro j hj hjk1
      simp only [List.getElem?_set]
      by_cases hjk : k = j
      · subst hjk
        rw [if_pos rfl, if_pos (by omega)]
      · rw [if_neg hjk, h5 j hj (by omega)]
    · simp only [h6, List.range_succ, List.map_append, List.append_assoc]
      rfl

theorem ls_openWriters_none (sdk : Sdk) (hw : ∀ i, sdk.writerOpened i = true) (n : Nat) :
    openWriters sdk n = none := by
  simp [openWriters, hw]

theorem exactRequestedEnd_mono (k : Nat) : exactRequestedEnd k ≤ exactRequestedEnd (k + 1) := by
  unfold exactRequestedEnd
  exact Nat.div_le_div_right (by omega)

theorem ls_BatchProcessVideos_closed (sdk : Sdk) (hs : sdk.AllSucceed) (FLAG_verbose : Bool)
    (requestedEnd : Nat → Nat) (hmono : ∀ k, requestedEnd k ≤ requestedEnd (k + 1))
    (videos : List Video) (list_of_audio : List (List Sample)) (hpos : videos.length > 0)
    (hlen : list_of_audio.length = videos.length)
    (hopen : ∀ v ∈ videos, v.opens = true) (hdim : ∀ v ∈ videos, v.cols ≠ 0 ∧ v.rows ≠ 0)
    (hres : ∀ v ∈ videos, v.cols = (videos.getD 0 Video.absent).cols ∧
      v.rows = (videos.getD 0 Video.absent).rows)
    (hne : ∀ v ∈ videos, 1 ≤ v.frames.length)
    (haud : ∀ i, i < videos.length → ∀ u, u < numFrames videos i + sdk.NumInitialFrames →
      requestedEnd (u + 1) < (list_of_audio.getD i []).length)
    (fuel : Nat) (hf : lastTick videos sdk.NumInitialFrames < fuel) :
    ∃ st, BatchProcessVideos sdk FLAG_verbose requestedEnd videos list_of_audio fuel =
        some st ∧ st.err = 0 ∧
      stepsOf st.trace =
        (List.range (lastTick videos sdk.NumInitialFrames)).flatMap
          (tickSteps videos sdk.NumInitialFrames) := by
  obtain ⟨hs, hw⟩ := hs
  unfold NVCV_SUCCESS at hs
  obtain ⟨caps, w, h, h1, h2, h3, _⟩ := ls_openLoop_closed videos hopen hdim hres videos.length
    (Nat.le_refl _)
  obtain ⟨s, i0, i1, i2, i4, i5, i6, i7, i8, i9, i10, i11, i12, i13⟩ :=
    ls_initLoop_closed sdk hs FLAG_verbose videos hne
      { initialState caps videos.length with
        err := 0
        app := { (App.new.Init sdk videos.length).2 with
                 m_srcVid := List.replicate videos.length none }
        flush_frames_remaining := List.replicate videos.length sdk.NumInitialFrames }
      h2 (by simp [initialState])
      (by
        intro j hj
        simp only [initialState]
        rw [h3 j hj, if_pos hj])
      (by
        intro j hj
        simp [initialState, hj])
      videos.length (Nat.le_refl _)
  have hinv : Inv FLAG_verbose videos sdk.NumInitialFrames 0 s :=
    { caps_len := i1
      frames_len := i2
      frames1_len := by rw [i7]; simp [initialState]
      bi_len := by rw [i8]; simp [initialState]
      flush_len := by rw [i10]; simp
      fin_len := by rw [i11]; simp [initialState]
      ts_len := by rw [i12]; simp [initialState]
      err_zero := by rw [i9]
      caps := by
        intro j hj
        rw [i4 j hj, if_pos hj]
      frames := fun j hj => i5 j hj hj
      frames1 := by
        intro j hj hge
        have hv : videos.getD j Video.absent ∈ videos := by
          rw [List.getD_eq_getElem?_getD, List.getElem?_eq_getElem hj]
          exact List.getElem_mem hj
        have : 1 ≤ numFrames videos j := hne _ hv
        omega
      flush := by
        intro j hj
        rw [i10]
        simp [hj]
      fin := by
        intro j hj
        rw [i11]
        simp [initialState, hj]
      ts := by
        intro j hj
        rw [i12]
        simp [initialState, hj]
      steps := by
        rw [i6]
        simp only [initialState, List.nil_append, List.range_zero, List.flatMap_nil]
        exact stepsOf_allocate _ }
  have hl0 : s.last_audio_end_sample = 0 := by
    rw [i13]
    rfl
  obtain ⟨st2, t1, t2, t3⟩ := ls_tickLoop_closed sdk hs FLAG_verbose requestedEnd list_of_audio
    videos sdk.NumInitialFrames haud hmono (lastTick videos sdk.NumInitialFrames) 0 s fuel hinv
    (by rw [hl0]; exact Nat.zero_le _) (by simp) hf
  refine ⟨st2, ?_, t2, t3⟩
  simp only [BatchProcessVideos, hlen, hpos, h1, hs, App.Init, NVCV_SUCCESS, ne_eq,
    not_true_eq_false, if_false, initialState]
  simp only [App.Init, hs, ne_eq, not_true_eq_false, if_false, NVCV_SUCCESS, initialState]
    at i0
  rw [i0]
  simp only [ls_openWriters_none sdk hw, t1]

/-- C7. LipSync Triton `BatchProcessVideos` with flush window `F = NumInitialFrames`, for
one or more streams whose videos open with the same non-zero size and have at least one
frame, audio buffers that are longer than every end sample requested before tick `V_i + F`,
requested end samples that do not decrease from one tick to the next, in a run where no call
fails: the run ends with success after the inference calls of ticks `0 .. lastTick - 1`; the
batch of tick `t` is the list of the streams with `t < V_i + F`, in stream order, and the
configured batch size is its length; every tick `t < V_i + F` is run; and when `F > 0` stream
`i` is released during the assembly of tick `V_i + F - 1`, before that tick's inference
call. -/
theorem batch_sizes_with_flush (sdk : Sdk) (hs : sdk.AllSucceed) (FLAG_verbose : Bool)
    (requestedEnd : Nat → Nat) (hmono : ∀ k, requestedEnd k ≤ requestedEnd (k + 1))
    (videos : List Video) (list_of_audio : List (List Sample)) (hpos : videos.length > 0)
    (hlen : list_of_audio.length = videos.length)
    (hopen : ∀ v ∈ videos, v.opens = true) (hdim : ∀ v ∈ videos, v.cols ≠ 0 ∧ v.rows ≠ 0)
    (hres : ∀ v ∈ videos, v.cols = (videos.getD 0 Video.absent).cols ∧
      v.rows = (videos.getD 0 Video.absent).rows)
    (hne : ∀ v ∈ videos, 1 ≤ v.frames.length)
    (haud : ∀ i, i < videos.length →
      ∀ t, t < (videos.getD i Video.absent).frames.length + sdk.NumInitialFrames →
        requestedEnd (t + 1) < (list_of_audio.getD i []).length)
    (fuel : Nat) (hf : lastTick videos sdk.NumInitialFrames < fuel) :
    ∃ st, BatchProcessVideos sdk FLAG_verbose requestedEnd videos list_of_audio fuel =
        some st ∧ st.err = NVCV_SUCCESS ∧
      stepsOf st.trace =
        (List.range (lastTick videos sdk.NumInitialFrames)).flatMap (fun t =>
          (releasedAt videos sdk.NumInitialFrames videos.length t).map Step.release ++
            [Step.run (batchAt videos sdk.NumInitialFrames videos.length t)
              (batchAt videos sdk.NumInitialFrames videos.length t).length]) ∧
      (∀ t i, i ∈ batchAt videos sdk.NumInitialFrames videos.length t ↔
        i < videos.length ∧
          t < (videos.getD i Video.absent).frames.length + sdk.NumInitialFrames) ∧
      (∀ t, (batchAt videos sdk.NumInitialFrames videos.length t).Pairwise
        (fun a b => a < b)) ∧
      (∀ t i, i ∈ releasedAt videos sdk.NumInitialFrames videos.length t ↔
        i < videos.length ∧ 0 < sdk.NumInitialFrames ∧
          t + 1 = (videos.getD i Video.absent).frames.length + sdk.NumInitialFrames) ∧
      (∀ t i, i < videos.length →
        t < (videos.getD i Video.absent).frames.length + sdk.NumInitialFrames →
        t < lastTick videos sdk.NumInitialFrames) := by
  obtain ⟨st, h1, h2, h3⟩ := ls_BatchProcessVideos_closed sdk hs FLAG_verbose requestedEnd hmono
    videos list_of_audio hpos hlen hopen hdim hres hne haud fuel hf
  refine ⟨st, h1, h2, h3, ?_, ?_, ?_, ?_⟩
  · intro t i
    exact ls_mem_batchAt videos _ _ t i
  · intro t
    unfold batchAt
    exact List.Pairwise.filter _ (List.pairwise_lt_range _)
  · intro t i
    unfold releasedAt
    rw [List.mem_filter, List.mem_range, decide_eq_true_eq]
    rfl
  · intro t i hi ht
    by_contra hc
    have he : batchAt videos sdk.NumInitialFrames videos.length t = [] := by
      rw [ls_lastTick_spec]; omega
    have := (ls_mem_batchAt videos sdk.NumInitialFrames videos.length t i).mpr ⟨hi, ht⟩
    rw [he] at this
    cases this

/-- C3. LipSync Triton `BatchProcessVideos` with the flush window `F = NumInitialFrames`
equal to 0, for one or more streams whose videos open with the same non-zero size and have
at least one frame, audio buffers longer than every end sample requested and requested end
samples that do not decrease from one tick to the next, in a run where no call fails: the
run ends with success, it makes one inference call per tick `0 .. lastTick - 1`, stream `i` is
in the batch of each of its `V_i` ticks, and the trace contains no call of `ReleaseStream`
for any stream. -/
theorem no_release_when_flush_window_is_zero (sdk : Sdk) (hs : sdk.AllSucceed)
    (FLAG_verbose : Bool) (requestedEnd : Nat → Nat)
    (hmono : ∀ k, requestedEnd k ≤ requestedEnd (k + 1)) (videos : List Video)
    (list_of_audio : List (List Sample)) (hpos : videos.length > 0)
    (hlen : list_of_audio.length = videos.length)
    (hopen : ∀ v ∈ videos, v.opens = true) (hdim : ∀ v ∈ videos, v.cols ≠ 0 ∧ v.rows ≠ 0)
    (hres : ∀ v ∈ videos, v.cols = (videos.getD 0 Video.absent).cols ∧
      v.rows = (videos.getD 0 Video.absent).rows)
    (hne : ∀ v ∈ videos, 1 ≤ v.frames.length)
    (hF : sdk.NumInitialFrames = 0)
    (haud : ∀ i, i < videos.length →
      ∀ t, t < (videos.getD i Video.absent).frames.length →
        requestedEnd (t + 1) < (list_of_audio.getD i []).length)
    (fuel : Nat) (hf : lastTick videos 0 < fuel) :
    ∃ st, BatchProcessVideos sdk FLAG_verbose requestedEnd videos list_of_audio fuel =
        some st ∧ st.err = NVCV_SUCCESS ∧
      (∀ i, Event.DeallocateState i ∉ st.trace) ∧
      stepsOf st.trace =
        (List.range (lastTick videos 0)).map (fun t =>
          Step.run (batchAt videos 0 videos.length t)
            (batchAt videos 0 videos.length t).length) ∧
      ∀ i, i < videos.length → ∀ t, t < (videos.getD i Video.absent).frames.length →
        t < lastTick videos 0 ∧ i ∈ batchAt videos 0 videos.length t := by
  obtain ⟨st, h1, h2, h3⟩ := ls_BatchProcessVideos_closed sdk hs FLAG_verbose requestedEnd hmono
    videos list_of_audio hpos hlen hopen hdim hres hne (by rw [hF]; exact haud) fuel
    (by rw [hF]; exact hf)
  rw [hF] at h3
  have hrel : ∀ t, releasedAt videos 0 videos.length t = [] := by
    intro t
    unfold releasedAt
    rw [List.filter_eq_nil_iff]
    intro i _
    simp
  have hsteps : stepsOf st.trace =
      (List.range (lastTick videos 0)).map (fun t =>
        Step.run (batchAt videos 0 videos.length t)
          (batchAt videos 0 videos.length t).length) := by
    rw [h3]
    induction (List.range (lastTick videos 0)) with
    | nil => rfl
    | cons a l ih =>
      simp only [List.flatMap_cons, List.map_cons, ih, tickSteps, hrel, List.map_nil,
        List.nil_append, List.singleton_append]
  refine ⟨st, h1, h2, ?_, hsteps, ?_⟩
  · intro i hi
    have hmem : Step.release i ∈ stepsOf st.trace := by
      unfold stepsOf
      rw [List.mem_filterMap]
      exact ⟨_, hi, rfl⟩
    rw [hsteps, List.mem_map] at hmem
    obtain ⟨t, _, e⟩ := hmem
    cases e
  · intro i hi t ht
    have hn : numFrames videos i = (videos.getD i Video.absent).frames.length := rfl
    have hm := (ls_mem_batchAt videos 0 videos.length t i).mpr ⟨hi, by omega⟩
    refine ⟨?_, hm⟩
    by_contra hc
    have he : batchAt videos 0 videos.length t = [] := by
      rw [ls_lastTick_spec]
      exact Nat.le_of_not_lt hc
    rw [he] at hm
    cases hm

/-- Witness of `no_release_when_flush_window_is_zero`, the failing input of C3: one stream, a
video of two frames and 1500 audio samples, `F = 0`. The run makes the inference calls of
ticks 0 and 1 with stream 0 in the batch and never releases the state of stream 0. -/
theorem no_release_when_flush_window_is_zero_witness :
    ((Sdk.succeeding 0).AllSucceed ∧ (Sdk.succeeding 0).NumInitialFrames = 0 ∧
      (∀ i, i < [Video.sample 2 10].length →
        ∀ t, t < ([Video.sample 2 10].getD i Video.absent).frames.length →
          exactRequestedEnd (t + 1) <
            (([List.replicate 1500 1] : List (List Sample)).getD i []).length) ∧
      lastTick [Video.sample 2 10] 0 < 5) ∧
    ∃ st, BatchProcessVideos (Sdk.succeeding 0) false exactRequestedEnd [Video.sample 2 10]
          [List.replicate 1500 1] 5 = some st ∧
      st.err = NVCV_SUCCESS ∧ (∀ i, Event.DeallocateState i ∉ st.trace) ∧
      stepsOf st.trace = [Step.run [0] 1, Step.run [0] 1] := by
  have hs : (Sdk.succeeding 0).AllSucceed := ⟨fun _ => rfl, fun _ => rfl⟩
  have haud : ∀ i, i < [Video.sample 2 10].length →
      ∀ t, t < ([Video.sample 2 10].getD i Video.absent).frames.length →
        exactRequestedEnd (t + 1) <
          (([List.replicate 1500 1] : List (List Sample)).getD i []).length := by
    intro i hi t ht
    have hi0 : i = 0 := by simpa using hi
    subst hi0
    have ht2 : t < 2 := by simpa [Video.sample] using ht
    have hle : exactRequestedEnd (t + 1) ≤ exactRequestedEnd 2 := by
      unfold exactRequestedEnd
      exact Nat.div_le_div_right (by omega)
    have h2 : exactRequestedEnd 2 = 1066 := by decide
    simp only [List.getD_cons_zero, List.length_replicate]
    omega
  have hf : lastTick [Video.sample 2 10] 0 < 5 := by decide
  obtain ⟨st, h1, h2, h3, h4, _⟩ :=
    no_release_when_flush_window_is_zero (Sdk.succeeding 0) hs false exactRequestedEnd
      exactRequestedEnd_mono [Video.sample 2 10] [List.replicate 1500 1] (by decide) rfl
      (by decide) (by decide) (by decide) (by decide) rfl haud 5 hf
  refine ⟨⟨hs, rfl, haud, hf⟩, st, h1, h2, h3, ?_⟩
  rw [h4]
  decide

/-- C2, at a failing input (two streams, each a video of one frame and 600 audio samples of
its own, an empty flush window): the run is the single tick 0, on which the end sample
requested for both streams is 533; both streams are in the batch, no access is out of range,
slot 0 is given the 533 first samples of stream 0 and slot 1, that of stream 1, is given an
audio frame of length 0 instead of its own 533 first samples: the whole batched audio is
stream 0's. -/
theorem second_stream_is_given_no_audio :
    (exactRequestedEnd 0 = 0 ∧ exactRequestedEnd 1 = 533) ∧
    (BatchProcessVideos (Sdk.succeeding 0) false exactRequestedEnd
        [Video.sample 1 10, Video.sample 1 20]
        [List.replicate 600 1, List.replicate 600 2] 5).map
      (fun st => (st.err, st.violations, audioLengthsOf st.trace)) =
      some (0, [], [([0, 1], [533, 0])]) ∧
    (BatchProcessVideos (Sdk.succeeding 0) false exactRequestedEnd
        [Video.sample 1 10, Video.sample 1 20]
        [List.replicate 600 1, List.replicate 600 2] 5).map
      (fun st => runsOf st.trace) =
      some [([0, 1], List.replicate 533 1)] :=
  ⟨by decide, by decide, by decide⟩

/-- Witness of `batch_sizes_with_flush`: flush window 2 and videos of 2 and 5 frames. -/
theorem batch_sizes_with_flush_witness :
    ((Sdk.succeeding 2).AllSucceed ∧
      ([List.replicate 4000 1, List.replicate 4000 2] : List (List Sample)).length =
        [Video.sample 2 10, Video.sample 5 20].length ∧
      (∀ i, i < [Video.sample 2 10, Video.sample 5 20].length →
        ∀ t, t < ([Video.sample 2 10, Video.sample 5 20].getD i Video.absent).frames.length +
            (Sdk.succeeding 2).NumInitialFrames →
          exactRequestedEnd (t + 1) <
            (([List.replicate 4000 1, List.replicate 4000 2] : List (List Sample)).getD i
              []).length) ∧
      lastTick [Video.sample 2 10, Video.sample 5 20] (Sdk.succeeding 2).NumInitialFrames <
        20) ∧
    ∃ st, BatchProcessVideos (Sdk.succeeding 2) false exactRequestedEnd
          [Video.sample 2 10, Video.sample 5 20]
          [List.replicate 4000 1, List.replicate 4000 2] 20 = some st ∧
      st.err = NVCV_SUCCESS ∧
      stepsOf st.trace =
        (List.range (lastTick [Video.sample 2 10, Video.sample 5 20]
            (Sdk.succeeding 2).NumInitialFrames)).flatMap (fun t =>
          (releasedAt [Video.sample 2 10, Video.sample 5 20] (Sdk.succeeding 2).NumInitialFrames
              [Video.sample 2 10, Video.sample 5 20].length t).map Step.release ++
            [Step.run
              (batchAt [Video.sample 2 10, Video.sample 5 20]
                (Sdk.succeeding 2).NumInitialFrames
                [Video.sample 2 10, Video.sample 5 20].length t)
              (batchAt [Video.sample 2 10, Video.sample 5 20]
                (Sdk.succeeding 2).NumInitialFrames
                [Video.sample 2 10, Video.sample 5 20].length t).length]) ∧
      (List.range (lastTick [Video.sample 2 10, Video.sample 5 20]
            (Sdk.succeeding 2).NumInitialFrames)).flatMap (fun t =>
          (releasedAt [Video.sample 2 10, Video.sample 5 20] (Sdk.succeeding 2).NumInitialFrames
              [Video.sample 2 10, Video.sample 5 20].length t).map Step.release ++
            [Step.run
              (batchAt [Video.sample 2 10, Video.sample 5 20]
                (Sdk.succeeding 2).NumInitialFrames
                [Video.sample 2 10, Video.sample 5 20].length t)
              (batchAt [Video.sample 2 10, Video.sample 5 20]
                (Sdk.succeeding 2).NumInitialFrames
                [Video.sample 2 10, Video.sample 5 20].length t).length]) =
        [Step.run [0, 1] 2, Step.run [0, 1] 2, Step.run [0, 1] 2, Step.release 0,
          Step.run [0, 1] 2, Step.run [1] 1, Step.run [1] 1, Step.release 1,
          Step.run [1] 1] := by
  have hs : (Sdk.succeeding 2).AllSucceed := ⟨fun _ => rfl, fun _ => rfl⟩
  have hlen : ([List.replicate 4000 1, List.replicate 4000 2] : List (List Sample)).length =
      [Video.sample 2 10, Video.sample 5 20].length := rfl
  have haud : ∀ i, i < [Video.sample 2 10, Video.sample 5 20].length →
      ∀ t, t < ([Video.sample 2 10, Video.sample 5 20].getD i Video.absent).frames.length +
          (Sdk.succeeding 2).NumInitialFrames →
        exactRequestedEnd (t + 1) <
          (([List.replicate 4000 1, List.replicate 4000 2] : List (List Sample)).getD i
            []).length := by
    intro i hi t ht
    have hle : exactRequestedEnd (t + 1) ≤ exactRequestedEnd 7 := by
      unfold exactRequestedEnd
      have ht7 : t < 7 := by
        have hi2 : i < 2 := by simpa using hi
        interval_cases i <;> simp [Video.sample, Sdk.succeeding] at ht <;> omega
      exact Nat.div_le_div_right (by omega)
    have h7 : exactRequestedEnd 7 = 3733 := by decide
    have hi2 : i < 2 := by simpa using hi
    interval_cases i <;> simp only [List.getD_cons_zero, List.getD_cons_succ,
      List.length_replicate] <;> omega
  have hf : lastTick [Video.sample 2 10, Video.sample 5 20]
      (Sdk.succeeding 2).NumInitialFrames < 20 := by decide
  obtain ⟨st, h1, h2, h3, _⟩ :=
    batch_sizes_with_flush (Sdk.succeeding 2) hs false exactRequestedEnd exactRequestedEnd_mono
      [Video.sample 2 10, Video.sample 5 20] [List.replicate 4000 1, List.replicate 4000 2]
      (by decide) hlen (by decide) (by decide) (by decide) (by decide) haud 20 hf
  exact ⟨⟨hs, hlen, haud, hf⟩, st, h1, h2, h3, by decide⟩

end LipSyncTriton

namespace SpeechLivePortraitTriton

theorem audioNrChunks_getD (list_of_audio : List (List Sample)) (i : Nat) :
    (audioNrChunks list_of_audio).getD i 0 =
      (list_of_audio.getD i []).length / kSamplesPerFrame := by
  unfold audioNrChunks
  rw [List.getD_eq_getElem?_getD, List.getD_eq_getElem?_getD, List.getElem?_map]
  cases list_of_audio[i]? <;> simp

theorem slp_batchAt_succ (c : List Nat) (k t : Nat) :
    batchAt c (k + 1) t =
      batchAt c k t ++ (if t < c.getD k 0 + kInitLatencyFrameCnt then [k] else []) := by
  simp only [batchAt, List.range_succ, List.filter_append, List.filter_cons, List.filter_nil]
  by_cases h : t < c.getD k 0 + kInitLatencyFrameCnt <;> simp [h]

theorem slp_releasedAt_succ (c : List Nat) (k t : Nat) :
    releasedAt c (k + 1) t =
      releasedAt c k t ++ (if t = c.getD k 0 + kInitLatencyFrameCnt - 1 then [k] else []) := by
  simp only [releasedAt, List.range_succ, List.filter_append, List.filter_cons, List.filter_nil]
  by_cases h : t = c.getD k 0 + kInitLatencyFrameCnt - 1 <;> simp [h]

theorem slp_assembleLoop_closed (sdk : Sdk) (list_of_audio : List (List Sample)) (t : Nat)
    (st : State) (hrel : ∀ i, sdk.status (Call.DeallocateState i) = 0) (k : Nat)
    (hk : k ≤ st.batch_indices.length) :
    ∃ a, assembleLoop sdk list_of_audio (audioNrChunks list_of_audio) t k
        { st := st, batchsize := 0, audio_frame_batched := [] } = .ok a ∧
      a.batchsize = (batchAt (audioNrChunks list_of_audio) k t).length ∧
      a.audio_frame_batched =
        (batchAt (audioNrChunks list_of_audio) k t).flatMap (unitAt list_of_audio t) ∧
      a.st.batch_indices.take a.batchsize = batchAt (audioNrChunks list_of_audio) k t ∧
      a.st.batch_indices.length = st.batch_indices.length ∧
      a.st.trace = st.trace ++
        (releasedAt (audioNrChunks list_of_audio) k t).map Event.DeallocateState ∧
      a.st.app = st.app ∧ a.st.list_of_writers = st.list_of_writers ∧ a.st.err = st.err := by
  induction k with
  | zero => exact ⟨_, rfl, by simp [batchAt, releasedAt]⟩
  | succ k ih =>
    obtain ⟨a, ha, hb, haud, hbi, hlen, htr, happ, hw, herr⟩ := ih (by omega)
    have hle : (batchAt (audioNrChunks list_of_audio) k t).length ≤ k := by
      unfold batchAt
      exact (List.length_filter_le _ _).trans (by simp)
    have hn : (audioNrChunks list_of_audio).getD k 0 =
        (list_of_audio.getD k []).length / kSamplesPerFrame := audioNrChunks_getD _ _
    simp only [assembleLoop, ha, assembleStep]
    by_cases h1 : t ≥ (audioNrChunks list_of_audio).getD k 0 + kInitLatencyFrameCnt
    · have h2 : ¬ t = (audioNrChunks list_of_audio).getD k 0 + kInitLatencyFrameCnt - 1 := by
        unfold kInitLatencyFrameCnt at *; omega
      refine ⟨a, by rw [if_pos h1], ?_⟩
      have e1 : batchAt (audioNrChunks list_of_audio) (k + 1) t =
          batchAt (audioNrChunks list_of_audio) k t := by
        rw [slp_batchAt_succ, if_neg (by omega), List.append_nil]
      have e2 : releasedAt (audioNrChunks list_of_audio) (k + 1) t =
          releasedAt (audioNrChunks list_of_audio) k t := by
        rw [slp_releasedAt_succ, if_neg h2, List.append_nil]
      rw [e1, e2]
      exact ⟨hb, haud, hbi, hlen, htr, happ, hw, herr⟩
    · have e1 : batchAt (audioNrChunks list_of_audio) (k + 1) t =
          batchAt (audioNrChunks list_of_audio) k t ++ [k] := by
        rw [slp_batchAt_succ, if_pos (by omega)]
      have hlt : a.batchsize < a.st.batch_indices.length := by omega
      by_cases h2 : t = (audioNrChunks list_of_audio).getD k 0 + kInitLatencyFrameCnt - 1
      · have e2 : releasedAt (audioNrChunks list_of_audio) (k + 1) t =
            releasedAt (audioNrChunks list_of_audio) k t ++ [k] := by
          rw [slp_releasedAt_succ, if_pos h2]
        have e3 : unitAt list_of_audio t k = List.replicate kSamplesPerFrame 0 := by
          unfold unitAt
          rw [if_neg]
          rw [← hn]; unfold kInitLatencyFrameCnt at h2; omega
        refine ⟨_, by rw [if_neg h1, if_pos h2, if_neg (by simp only [ReleaseVideoStream, hrel]; decide)], ?_⟩
        rw [e1, e2]
        simp only [stage, ReleaseVideoStream, List.length_append, List.length_singleton,
          List.flatMap_append, List.flatMap_singleton, List.flatMap_nil, List.append_nil,
          List.length_set, List.map_append, List.map_singleton, List.map_nil, e3]
        refine ⟨by omega, by rw [haud], ?_, hlen, by rw [htr, List.append_assoc], happ, hw, herr⟩
        rw [take_succ_set _ _ _ hlt, hbi]
      · have e2 : releasedAt (audioNrChunks list_of_audio) (k + 1) t =
            releasedAt (audioNrChunks list_of_audio) k t := by
          rw [slp_releasedAt_succ, if_neg h2, List.append_nil]
        by_cases h3 : t ≥ (audioNrChunks list_of_audio).getD k 0
        · have e3 : unitAt list_of_audio t k = List.replicate kSamplesPerFrame 0 := by
            unfold unitAt
            rw [if_neg]
            rw [← hn]; omega
          refine ⟨_, by rw [if_neg h1, if_neg h2, if_pos h3], ?_⟩
          rw [e1, e2]
          simp only [stage, List.length_append, List.length_singleton,
            List.flatMap_append, List.flatMap_singleton, List.flatMap_nil, List.append_nil,
            List.length_set, e3]
          refine ⟨by omega, by rw [haud], ?_, hlen, htr, happ, hw, herr⟩
          rw [take_succ_set _ _ _ hlt, hbi]
        · have e3 : unitAt list_of_audio t k =
              ((list_of_audio.getD k []).drop (t * kSamplesPerFrame)).take kSamplesPerFrame := by
            unfold unitAt
            rw [if_pos]
            rw [← hn]; omega
          refine ⟨_, by rw [if_neg h1, if_neg h2, if_neg h3], ?_⟩
          rw [e1, e2]
          simp only [stage, List.length_append, List.length_singleton,
            List.flatMap_append, List.flatMap_singleton, List.flatMap_nil, List.append_nil,
            List.length_set, e3]
          refine ⟨by omega, by rw [haud], ?_, hlen, htr, happ, hw, herr⟩
          rw [take_succ_set _ _ _ hlt, hbi]

theorem unitAt_length (list_of_audio : List (List Sample)) (t i : Nat) :
    (unitAt list_of_audio t i).length = kSamplesPerFrame := by
  unfold unitAt
  split
  · rename_i h
    rw [List.length_take, List.length_drop]
    unfold kSamplesPerFrame at *
    omega
  · simp

theorem flatMap_unitAt_length (list_of_audio : List (List Sample)) (t : Nat) (l : List Nat) :
    (l.flatMap (unitAt list_of_audio t)).length = l.length * kSamplesPerFrame := by
  induction l with
  | nil => simp
  | cons a l ih =>
    simp only [List.flatMap_cons, List.length_append, ih, unitAt_length, List.length_cons]
    ring

theorem slp_Run_closed (sdk : Sdk) (hs : ∀ c, sdk.status c = 0) (t : Nat)
    (audio_batched : List Sample) (batch_indices : List Nat) (batchsize : Nat) (st : State) :
    Run sdk t audio_batched batch_indices batchsize st =
      (0,
        { st with
          app :=
            { st.app with
              m_effect :=
                { BatchSize := batchsize
                  State :=
                    (gatherStates batch_indices st.app.m_arrayOfAllStateObjects batchsize
                      st.app.m_batchOfStateObjects).take batchsize
                  AudioFrameBuffer := audio_batched.take (batchsize * kSamplesPerFrame)
                  AudioFrameLength := st.app.m_effect.AudioFrameLength }
              m_batchOfStateObjects :=
                gatherStates batch_indices st.app.m_arrayOfAllStateObjects batchsize
                  st.app.m_batchOfStateObjects }
          trace := st.trace ++
            [Event.Run (batch_indices.take batchsize)
              { BatchSize := batchsize
                State :=
                  (gatherStates batch_indices st.app.m_arrayOfAllStateObjects batchsize
                    st.app.m_batchOfStateObjects).take batchsize
                AudioFrameBuffer := audio_batched.take (batchsize * kSamplesPerFrame)
                AudioFrameLength := st.app.m_effect.AudioFrameLength } []] }) := by
  simp [Run, hs]

theorem slp_writeLoop_closed (sdk : Sdk) (hs : ∀ c, sdk.status c = 0) (t k : Nat) (st : State)
    (h0 : st.err = 0) :
    ∃ st1, writeLoop sdk t k st = .ok st1 ∧ st1.trace = st.trace ∧ st1.app = st.app ∧
      st1.batch_indices = st.batch_indices ∧ st1.err = 0 ∧
      st1.list_of_writers.length = st.list_of_writers.length := by
  induction k with
  | zero => exact ⟨st, rfl, rfl, rfl, rfl, h0, rfl⟩
  | succ k ih =>
    obtain ⟨st1, h1, h2, h3, h4, h5, h6⟩ := ih
    simp only [writeLoop, h1, writeStep, GenerateNthOutputVizImage, hs]
    by_cases hr : sdk.ready t k = 0
    · simp [hr, h2, h3, h4, h6, NVCV_SUCCESS]
    · simp [hr, h2, h3, h4, h6]

theorem slp_releasedAt_eq_nil (c : List Nat) (n t : Nat) (h : batchAt c n t = []) :
    releasedAt c n t = [] := by
  unfold batchAt at h
  unfold releasedAt
  rw [List.filter_eq_nil_iff] at *
  intro i hi
  have := h i hi
  simp only [decide_eq_true_eq] at *
  unfold kInitLatencyFrameCnt at *
  omega

theorem slp_tick_closed (sdk : Sdk) (hs : ∀ c, sdk.status c = 0)
    (list_of_audio : List (List Sample)) (all : List NvAR_StateHandle) (t : Nat) (st : State)
    (hinv : Inv all list_of_audio.length st) :
    ∃ st1, tick sdk list_of_audio (audioNrChunks list_of_audio) list_of_audio.length t st =
        .ok (decide (batchAt (audioNrChunks list_of_audio) list_of_audio.length t = []), st1) ∧
      Inv all list_of_audio.length st1 ∧
      st1.trace = st.trace ++
        (if batchAt (audioNrChunks list_of_audio) list_of_audio.length t = [] then []
          else tickEvents list_of_audio all t) := by
  obtain ⟨hbi, hall, hbo, hafl, herr, hwl⟩ := hinv
  obtain ⟨a, ha, hb, haud, hbt, hlen, htr, happ, hw, herr1⟩ :=
    slp_assembleLoop_closed sdk list_of_audio t st (fun i => hs _) list_of_audio.length (by omega)
  unfold tick
  rw [ha]
  by_cases he : batchAt (audioNrChunks list_of_audio) list_of_audio.length t = []
  · have hz : a.batchsize = 0 := by rw [hb, he]; rfl
    refine ⟨a.st, by simp [hz, he], ⟨by omega, by rw [happ, hall], by rw [happ, hbo],
      by rw [happ, hafl], by rw [herr1, herr], by rw [hw, hwl]⟩, ?_⟩
    rw [htr, slp_releasedAt_eq_nil _ _ _ he, if_pos he]
    rfl
  · have hz : a.batchsize ≠ 0 := by
      rw [hb]
      intro h
      exact he (List.length_eq_zero.mp h)
    have hble : a.batchsize ≤ list_of_audio.length := by
      rw [hb]
      unfold batchAt
      exact (List.length_filter_le _ _).trans (by simp)
    obtain ⟨st1, h1, h2, h3, h4, h5, h6⟩ := slp_writeLoop_closed sdk hs t a.batchsize
      { (Run sdk t a.audio_frame_batched a.st.batch_indices a.batchsize a.st).2 with
        err := (Run sdk t a.audio_frame_batched a.st.batch_indices a.batchsize a.st).1 }
      (by rw [slp_Run_closed sdk hs])
    refine ⟨st1, ?_, ?_, ?_⟩
    · simp only [if_neg hz, h1, he, decide_False]
      rw [if_neg (by rw [slp_Run_closed sdk hs]; simp)]
    · rw [slp_Run_closed sdk hs] at h3 h4 h6
      refine ⟨by rw [h4]; simpa using (by omega), by rw [h3]; simpa [happ] using hall,
        by rw [h3]; simp [gatherStates_length, happ, hbo], by rw [h3]; simp [happ, hafl], h5,
        by rw [h6]; simp [hw, hwl]⟩
    · rw [h2, slp_Run_closed sdk hs, if_neg he]
      simp only [tickEvents, htr, List.append_assoc]
      congr 2
      rw [hbt, hb, happ, hall, hafl, haud, gatherStates_take _ _ _ _ (by rw [hbo, ← hb]; exact hble)
        (by rw [hlen, hbi, ← hb]; exact hble), ← hb, hbt]
      congr 2
      rw [hb, ← flatMap_unitAt_length list_of_audio t, List.take_length]

theorem slp_lastTick_spec (ns : List Nat) (t : Nat) :
    batchAt ns ns.length t = [] ↔ lastTick ns ≤ t := by
  unfold batchAt lastTick
  rw [List.filter_eq_nil_iff, foldr_max_le]
  simp only [List.mem_range, decide_eq_true_eq, List.mem_map, forall_exists_index, and_imp,
    forall_apply_eq_imp_iff₂]
  constructor
  · intro h x hx
    obtain ⟨i, hi, rfl⟩ := List.mem_iff_getElem.mp hx
    have := h i hi
    rw [List.getD_eq_getElem?_getD, List.getElem?_eq_getElem hi] at this
    simp only [Option.getD_some] at this
    omega
  · intro h i hi
    have := h (ns[i]) (List.getElem_mem hi)
    rw [List.getD_eq_getElem?_getD, List.getElem?_eq_getElem hi]
    simp only [Option.getD_some]
    omega

theorem slp_tickLoop_closed (sdk : Sdk) (hs : ∀ c, sdk.status c = 0)
    (list_of_audio : List (List Sample)) (all : List NvAR_StateHandle) (d : Nat) :
    ∀ (t : Nat) (st : State) (fuel : Nat), Inv all list_of_audio.length st →
      t + d = lastTick (audioNrChunks list_of_audio) → d < fuel →
      ∃ st1, tickLoop sdk list_of_audio (audioNrChunks list_of_audio) list_of_audio.length
          fuel t st = some st1 ∧ st1.err = 0 ∧
        st1.trace = st.trace ++ (List.range' t d).flatMap (tickEvents list_of_audio all) := by
  have hlen : (audioNrChunks list_of_audio).length = list_of_audio.length := by
    simp [audioNrChunks]
  induction d with
  | zero =>
    intro t st fuel hinv ht hf
    obtain ⟨st1, h1, h2, h3⟩ := slp_tick_closed sdk hs list_of_audio all t st hinv
    have he : batchAt (audioNrChunks list_of_audio) list_of_audio.length t = [] := by
      rw [← hlen, slp_lastTick_spec]; omega
    obtain ⟨fuel, rfl⟩ : ∃ f, fuel = f + 1 := ⟨fuel - 1, by omega⟩
    refine ⟨st1, ?_, h2.2.2.2.2.1, ?_⟩
    · simp only [tickLoop, h1, he, decide_True]
    · rw [h3, if_pos he]; simp
  | succ d ih =>
    intro t st fuel hinv ht hf
    obtain ⟨st1, h1, h2, h3⟩ := slp_tick_closed sdk hs list_of_audio all t st hinv
    have he : ¬ batchAt (audioNrChunks list_of_audio) list_of_audio.length t = [] := by
      rw [← hlen, slp_lastTick_spec]; omega
    obtain ⟨fuel, rfl⟩ : ∃ f, fuel = f + 1 := ⟨fuel - 1, by omega⟩
    obtain ⟨st2, h4, h5, h6⟩ := ih (t + 1) st1 fuel h2 (by omega) (by omega)
    refine ⟨st2, ?_, h5, ?_⟩
    · simp only [tickLoop, h1, he, decide_False, h4]
    · rw [h6, h3, if_neg he, List.range'_succ, List.flatMap_cons, List.append_assoc]

theorem slp_initLoop_closed (sdk : Sdk) (hs : ∀ c, sdk.status c = 0) (c : List Nat) (st : State)
    (k : Nat) :
    ∃ st1, initLoop sdk c k st = .ok st1 ∧ st1.trace = st.trace ++ initEvents c k ∧
      st1.batch_indices = st.batch_indices ∧ st1.err = st.err ∧
      st1.list_of_writers = st.list_of_writers ∧ st1.app.m_effect = st.app.m_effect ∧
      st1.app.m_batchOfStateObjects = st.app.m_batchOfStateObjects := by
  induction k with
  | zero => exact ⟨st, rfl, by simp [initEvents], rfl, rfl, rfl, rfl, rfl⟩
  | succ k ih =>
    obtain ⟨st1, h1, h2, h3, h4, h5, h6, h7⟩ := ih
    have hev : initEvents c (k + 1) =
        initEvents c k ++ (if c.getD k 0 = 0 then [] else [Event.AllocateState k]) := by
      simp only [initEvents, List.range_succ, List.filter_append, List.filter_cons,
        List.filter_nil]
      by_cases h : c.getD k 0 = 0 <;> simp [h, -List.getD_eq_getElem?_getD]
    simp only [initLoop, h1]
    by_cases h : c.getD k 0 = 0
    · refine ⟨st1, by rw [if_pos h], ?_, h3, h4, h5, h6, h7⟩
      rw [hev, if_pos h, h2, List.append_nil]
    · refine ⟨(InitStream sdk k st1).2, ?_, ?_, ?_⟩
      · rw [if_neg h, if_neg]
        simp [InitStream, App.InitStream, hs, NVCV_SUCCESS]
      · rw [hev, if_neg h]
        simp [InitStream, h2]
      · simp [InitStream, App.InitStream, hs, h3, h4, h5, h6, h7]

theorem slp_openWriters_none (sdk : Sdk) (hw : ∀ i, sdk.writerOpened i = true) (n : Nat) :
    openWriters sdk n = none := by
  simp [openWriters, hw]

theorem slp_BatchProcessVideos_closed (sdk : Sdk) (hs : sdk.AllSucceed)
    (list_of_audio : List (List Sample)) (fuel : Nat)
    (hf : lastTick (audioNrChunks list_of_audio) < fuel) :
    ∃ st all, BatchProcessVideos sdk list_of_audio fuel = some st ∧
      (list_of_audio.length > 0 → st.err = 0) ∧
      st.trace = initEvents (audioNrChunks list_of_audio) list_of_audio.length ++
        (List.range (lastTick (audioNrChunks list_of_audio))).flatMap
          (tickEvents list_of_audio all) := by
  by_cases hpos : list_of_audio.length > 0
  swap
  · have hnil : list_of_audio = [] := List.length_eq_zero.mp (by omega)
    subst hnil
    exact ⟨_, [], rfl, fun h => absurd h (by decide), rfl⟩
  obtain ⟨hs, hw⟩ := hs
  unfold NVCV_SUCCESS at hs
  obtain ⟨st1, h1, h2, h3, h4, h5, h6, h7⟩ := slp_initLoop_closed sdk hs (audioNrChunks list_of_audio)
    { err := 0, batch_indices := List.replicate list_of_audio.length 0,
      list_of_writers := List.replicate list_of_audio.length [],
      app := (App.new.Init sdk list_of_audio.length).2, trace := [] } list_of_audio.length
  have hinv : Inv st1.app.m_arrayOfAllStateObjects list_of_audio.length st1 := by
    refine ⟨by rw [h3]; simp, rfl, by rw [h7]; simp [App.Init, hs, App.new], ?_, by rw [h4],
      by rw [h5]; simp⟩
    rw [h6]; simp [App.Init, hs, App.new]
  obtain ⟨st2, h8, h9, h10⟩ := slp_tickLoop_closed sdk hs list_of_audio _
    (lastTick (audioNrChunks list_of_audio)) 0 st1 fuel hinv (by simp) hf
  refine ⟨st2, st1.app.m_arrayOfAllStateObjects, ?_, fun _ => h9, ?_⟩
  · simp only [BatchProcessVideos, hpos, hs, App.Init, NVCV_SUCCESS, ne_eq,
      not_true_eq_false, if_false]
    simp only [App.Init, hs, ne_eq, not_true_eq_false, if_false, NVCV_SUCCESS] at h1
    rw [h1]
    simp only [slp_openWriters_none sdk hw, h8]
  · rw [h10, h2, List.range_eq_range']
    simp

theorem runsOf_initEvents (ns : List Nat) (n : Nat) : runsOf (initEvents ns n) = [] := by
  unfold runsOf initEvents
  rw [List.filterMap_eq_nil_iff]
  intro e he
  obtain ⟨j, _, rfl⟩ := List.mem_map.mp he
  rfl

theorem runsOf_tickEvents (list_of_audio : List (List Sample)) (all : List NvAR_StateHandle)
    (t : Nat) :
    runsOf (tickEvents list_of_audio all t) =
      [(batchAt (audioNrChunks list_of_audio) list_of_audio.length t,
        (batchAt (audioNrChunks list_of_audio) list_of_audio.length t).flatMap
          (unitAt list_of_audio t))] := by
  unfold runsOf tickEvents
  rw [List.filterMap_append]
  have : List.filterMap (fun e => match e with
      | Event.Run b eff _ => some (b, eff.AudioFrameBuffer)
      | _ => none)
      ((releasedAt (audioNrChunks list_of_audio) list_of_audio.length t).map
        Event.DeallocateState) = [] := by
    rw [List.filterMap_eq_nil_iff]
    intro e he
    obtain ⟨j, _, rfl⟩ := List.mem_map.mp he
    rfl
  rw [this]
  rfl

theorem runsOf_ticks (list_of_audio : List (List Sample)) (all : List NvAR_StateHandle)
    (k : Nat) :
    runsOf ((List.range k).flatMap (tickEvents list_of_audio all)) =
      (List.range k).map (fun t =>
        (batchAt (audioNrChunks list_of_audio) list_of_audio.length t,
          (batchAt (audioNrChunks list_of_audio) list_of_audio.length t).flatMap
            (unitAt list_of_audio t))) := by
  induction k with
  | zero => rfl
  | succ k ih =>
    rw [List.range_succ, List.flatMap_append, List.map_append]
    unfold runsOf at *
    rw [List.filterMap_append, ih, List.flatMap_singleton]
    congr 1
    exact runsOf_tickEvents list_of_audio all k

/-- C4. SpeechLivePortrait Triton `BatchProcessVideos`, in a run where no call fails: the
inference calls are those of ticks `0 .. lastTick - 1`, and the call of tick `t` is given the
batch `batchAt t` and, as batched audio, the concatenation in slot order of the units
`unitAt t i` of its streams. Stream `i` (with `n = size / 528` chunks) is in the batch of
tick `t` exactly when `t < n + 6`, and each such tick is run; on a tick `t < n` its unit is
the 528 samples `[528 t, 528 (t + 1))` of its own audio, which lie inside the audio vector; on
a tick `t >= n` the unit is 528 zeros. -/
theorem slot_occupancy_and_units (sdk : Sdk) (hs : sdk.AllSucceed)
    (list_of_audio : List (List Sample)) (fuel : Nat)
    (hf : lastTick (audioNrChunks list_of_audio) < fuel) :
    ∃ st, BatchProcessVideos sdk list_of_audio fuel = some st ∧
      runsOf st.trace =
        (List.range (lastTick (audioNrChunks list_of_audio))).map (fun t =>
          (batchAt (audioNrChunks list_of_audio) list_of_audio.length t,
            (batchAt (audioNrChunks list_of_audio) list_of_audio.length t).flatMap
              (unitAt list_of_audio t))) ∧
      (∀ t i, i ∈ batchAt (audioNrChunks list_of_audio) list_of_audio.length t ↔
        i < list_of_audio.length ∧
          t < (list_of_audio.getD i []).length / kSamplesPerFrame + kInitLatencyFrameCnt) ∧
      (∀ t, (batchAt (audioNrChunks list_of_audio) list_of_audio.length t).Pairwise
        (fun a b => a < b)) ∧
      (∀ t i, i < list_of_audio.length →
        t < (list_of_audio.getD i []).length / kSamplesPerFrame + kInitLatencyFrameCnt →
        t < lastTick (audioNrChunks list_of_audio)) ∧
      (∀ t i, t < (list_of_audio.getD i []).length / kSamplesPerFrame →
        unitAt list_of_audio t i =
            ((list_of_audio.getD i []).drop (kSamplesPerFrame * t)).take kSamplesPerFrame ∧
          kSamplesPerFrame * (t + 1) ≤ (list_of_audio.getD i []).length ∧
          (unitAt list_of_audio t i).length = kSamplesPerFrame) ∧
      (∀ t i, (list_of_audio.getD i []).length / kSamplesPerFrame ≤ t →
        unitAt list_of_audio t i = List.replicate kSamplesPerFrame 0) ∧
      kSamplesPerFrame = 528 ∧ kInitLatencyFrameCnt = 6 := by
  obtain ⟨st, all, h1, _, h3⟩ := slp_BatchProcessVideos_closed sdk hs list_of_audio fuel hf
  have hmem : ∀ t i, i ∈ batchAt (audioNrChunks list_of_audio) list_of_audio.length t ↔
      i < list_of_audio.length ∧
        t < (list_of_audio.getD i []).length / kSamplesPerFrame + kInitLatencyFrameCnt := by
    intro t i
    unfold batchAt
    rw [List.mem_filter, List.mem_range, decide_eq_true_eq, audioNrChunks_getD]
  refine ⟨st, h1, ?_, hmem, ?_, ?_, ?_, ?_, rfl, rfl⟩
  · rw [h3]
    unfold runsOf
    rw [List.filterMap_append]
    have := runsOf_initEvents (audioNrChunks list_of_audio) list_of_audio.length
    unfold runsOf at this
    rw [this, List.nil_append]
    exact runsOf_ticks list_of_audio all _
  · intro t
    unfold batchAt
    exact List.Pairwise.filter _ (List.pairwise_lt_range _)
  · intro t i hi ht
    by_contra hc
    have hlen : (audioNrChunks list_of_audio).length = list_of_audio.length := by
      simp [audioNrChunks]
    have he : batchAt (audioNrChunks list_of_audio) list_of_audio.length t = [] := by
      rw [← hlen, slp_lastTick_spec]; omega
    have := (hmem t i).mpr ⟨hi, ht⟩
    rw [he] at this
    simp at this
  · intro t i ht
    refine ⟨?_, ?_, unitAt_length _ _ _⟩
    · unfold unitAt
      rw [if_pos ht, Nat.mul_comm]
    · unfold kSamplesPerFrame at *
      omega
  · intro t i ht
    unfold unitAt
    rw [if_neg (by omega)]

/-- C5. SpeechLivePortrait Triton `BatchProcessVideos`, in a run where no call fails: for
every stream `i` (with `n = size / 528` chunks) the trace of the run contains
`ReleaseVideoStream(i)` exactly once; exactly `n + kInitLatencyFrameCnt - 1` inference calls
precede it and the next inference call, that of tick `n + kInitLatencyFrameCnt - 1`, has
stream `i` in its batch; no later inference call has. -/
theorem release_exactly_once (sdk : Sdk) (hs : sdk.AllSucceed)
    (list_of_audio : List (List Sample)) (i : Nat) (hi : i < list_of_audio.length) (fuel : Nat)
    (hf : lastTick (audioNrChunks list_of_audio) < fuel) :
    ∃ st pre mid post b eff img,
      BatchProcessVideos sdk list_of_audio fuel = some st ∧ st.err = NVCV_SUCCESS ∧
      st.trace = pre ++ [Event.DeallocateState i] ++ mid ++ [Event.Run b eff img] ++ post ∧
      pre.countP Event.isRun =
        (list_of_audio.getD i []).length / kSamplesPerFrame + kInitLatencyFrameCnt - 1 ∧
      Event.DeallocateState i ∉ pre ∧ (∀ e ∈ mid, e.isRun = false) ∧
      Event.DeallocateState i ∉ mid ∧ Event.DeallocateState i ∉ post ∧ i ∈ b ∧
      ∀ b1 eff1 img1, Event.Run b1 eff1 img1 ∈ post → i ∉ b1 := by
  obtain ⟨st, all, h1, h2', h3⟩ := slp_BatchProcessVideos_closed sdk hs list_of_audio fuel hf
  have h2 := h2' (by omega)
  have hlen : (audioNrChunks list_of_audio).length = list_of_audio.length := by
    simp [audioNrChunks]
  have hn := audioNrChunks_getD list_of_audio i
  have hmemB : i ∈ batchAt (audioNrChunks list_of_audio) list_of_audio.length
      ((audioNrChunks list_of_audio).getD i 0 + kInitLatencyFrameCnt - 1) := by
    unfold batchAt
    rw [List.mem_filter, List.mem_range, decide_eq_true_eq]
    unfold kInitLatencyFrameCnt
    omega
  have hTi : (audioNrChunks list_of_audio).getD i 0 + kInitLatencyFrameCnt - 1 <
      lastTick (audioNrChunks list_of_audio) := by
    by_contra hc
    have he : batchAt (audioNrChunks list_of_audio) list_of_audio.length
        ((audioNrChunks list_of_audio).getD i 0 + kInitLatencyFrameCnt - 1) = [] := by
      rw [← hlen, slp_lastTick_spec]; omega
    rw [he] at hmemB
    simp at hmemB
  obtain ⟨pre, mid, post, e1, e2, e3, e4, e5, e6, e7, _⟩ :=
    release_once_in_trace (initEvents (audioNrChunks list_of_audio) list_of_audio.length)
      (releasedAt (audioNrChunks list_of_audio) list_of_audio.length)
      (fun t => Event.Run (batchAt (audioNrChunks list_of_audio) list_of_audio.length t)
        { BatchSize := (batchAt (audioNrChunks list_of_audio) list_of_audio.length t).length
          State :=
            (batchAt (audioNrChunks list_of_audio) list_of_audio.length t).map
              (fun i => all.getD i 0)
          AudioFrameBuffer :=
            (batchAt (audioNrChunks list_of_audio) list_of_audio.length t).flatMap
              (unitAt list_of_audio t)
          AudioFrameLength := [] } [])
      (lastTick (audioNrChunks list_of_audio)) i
      ((audioNrChunks list_of_audio).getD i 0 + kInitLatencyFrameCnt - 1)
      (by
        intro e he
        obtain ⟨j, _, rfl⟩ := List.mem_map.mp he
        exact ⟨rfl, by simp⟩)
      (fun t => rfl) hTi
      (filter_range_split_mem _ _ i hi (by simp))
      (by
        intro t ht h
        unfold releasedAt at h
        rw [List.mem_filter, decide_eq_true_eq] at h
        exact ht h.2)
  refine ⟨st, pre, mid, post, _, _, _, h1, h2, h3.trans e1, ?_, e3, e4, e5, e6, hmemB, ?_⟩
  · rw [e2, hn]
  · intro b1 eff1 img1 hmem hib
    rw [e7] at hmem
    obtain ⟨t, ht, hmem⟩ := List.mem_flatMap.mp hmem
    have hlt := (List.mem_range'_1.mp ht).1
    rw [List.mem_append, List.mem_singleton] at hmem
    rcases hmem with hmem | hmem
    · obtain ⟨j, _, e⟩ := List.mem_map.mp hmem
      cases e
    · injection hmem with hb
      rw [hb] at hib
      unfold batchAt at hib
      rw [List.mem_filter, decide_eq_true_eq] at hib
      omega

/-- Witness of `slot_occupancy_and_units`: two streams of 2 and 1 chunks (1056 and 600
samples). -/
theorem slot_occupancy_and_units_witness :
    ((Sdk.succeeding 6).AllSucceed ∧
      lastTick (audioNrChunks [List.replicate 1056 1, List.replicate 600 2]) < 20) ∧
    ∃ st, BatchProcessVideos (Sdk.succeeding 6) [List.replicate 1056 1, List.replicate 600 2]
          20 = some st ∧
      runsOf st.trace =
        (List.range (lastTick (audioNrChunks [List.replicate 1056 1, List.replicate 600 2]))).map
          (fun t =>
            (batchAt (audioNrChunks [List.replicate 1056 1, List.replicate 600 2])
                ([List.replicate 1056 1, List.replicate 600 2] : List (List Sample)).length t,
              (batchAt (audioNrChunks [List.replicate 1056 1, List.replicate 600 2])
                ([List.replicate 1056 1, List.replicate 600 2] : List (List Sample)).length
                  t).flatMap
                (unitAt [List.replicate 1056 1, List.replicate 600 2] t))) ∧
      (List.range (lastTick (audioNrChunks [List.replicate 1056 1, List.replicate 600 2]))).map
          (fun t =>
            batchAt (audioNrChunks [List.replicate 1056 1, List.replicate 600 2])
              ([List.replicate 1056 1, List.replicate 600 2] : List (List Sample)).length t) =
        [[0, 1], [0, 1], [0, 1], [0, 1], [0, 1], [0, 1], [0, 1], [0]] := by
  have hs : (Sdk.succeeding 6).AllSucceed := ⟨fun _ => rfl, fun _ => rfl⟩
  have hf : lastTick (audioNrChunks [List.replicate 1056 1, List.replicate 600 2]) < 20 := by
    decide
  obtain ⟨st, h1, h2, _⟩ := slot_occupancy_and_units (Sdk.succeeding 6) hs
    [List.replicate 1056 1, List.replicate 600 2] 20 hf
  exact ⟨⟨hs, hf⟩, st, h1, h2, by decide⟩

/-- Witness of `release_exactly_once`: stream 1 of two streams of 2 and 1 chunks. -/
theorem release_exactly_once_witness :
    ((Sdk.succeeding 6).AllSucceed ∧
      1 < ([List.replicate 1056 1, List.replicate 600 2] : List (List Sample)).length ∧
      lastTick (audioNrChunks [List.replicate 1056 1, List.replicate 600 2]) < 20) ∧
    ∃ st pre mid post b eff img,
      BatchProcessVideos (Sdk.succeeding 6) [List.replicate 1056 1, List.replicate 600 2] 20 =
        some st ∧ st.err = NVCV_SUCCESS ∧
      st.trace = pre ++ [Event.DeallocateState 1] ++ mid ++ [Event.Run b eff img] ++ post ∧
      pre.countP Event.isRun =
        (([List.replicate 1056 1, List.replicate 600 2] : List (List Sample)).getD 1 []).length /
          kSamplesPerFrame + kInitLatencyFrameCnt - 1 ∧
      Event.DeallocateState 1 ∉ pre ∧ (∀ e ∈ mid, e.isRun = false) ∧
      Event.DeallocateState 1 ∉ mid ∧ Event.DeallocateState 1 ∉ post ∧ 1 ∈ b ∧
      ∀ b1 eff1 img1, Event.Run b1 eff1 img1 ∈ post → 1 ∉ b1 := by
  have hs : (Sdk.succeeding 6).AllSucceed := ⟨fun _ => rfl, fun _ => rfl⟩
  have hf : lastTick (audioNrChunks [List.replicate 1056 1, List.replicate 600 2]) < 20 := by
    decide
  exact ⟨⟨hs, by decide, hf⟩,
    release_exactly_once (Sdk.succeeding 6) hs [List.replicate 1056 1, List.replicate 600 2] 1
      (by decide) 20 hf⟩

end SpeechLivePortraitTriton

section Batches

theorem ft_readNext_keeps (sdk : Sdk) (i : Nat) (st st' : FaceTrackTriton.State)
    (h : FaceTrackTriton.readNext sdk i st = .ok st') :
    st'.frames = st.frames ∧ st'.list_of_writers = st.list_of_writers ∧
      st'.batch_indices = st.batch_indices ∧ st'.app = st.app := by
  unfold FaceTrackTriton.readNext at h
  dsimp only [FaceTrackTriton.ReleaseVideoStream] at h
  split_ifs at h <;> cases h <;> exact ⟨rfl, rfl, rfl, rfl⟩

theorem ft_assembleStep_cases (sdk : Sdk) (t i : Nat) (a a' : FaceTrackTriton.Assembly)
    (h : FaceTrackTriton.assembleStep sdk t i a = .ok a') :
    a'.st.frames = a.st.frames ∧ a'.st.list_of_writers = a.st.list_of_writers ∧
    ((a'.batchsize = a.batchsize ∧ a'.st.batch_indices = a.st.batch_indices ∧
        a'.st.app.m_srcVid = a.st.app.m_srcVid) ∨
      ∃ f, a.st.frames.getD i none = some f ∧ a'.batchsize = a.batchsize + 1 ∧
        a'.st.batch_indices = a.st.batch_indices.set a.batchsize i ∧
        a'.st.app.m_srcVid = a.st.app.m_srcVid.set a.batchsize (some f)) := by
  unfold FaceTrackTriton.assembleStep at h
  cases hr : FaceTrackTriton.readNext sdk i a.st with
  | error e => rw [hr] at h; cases h
  | ok st =>
    obtain ⟨k1, k2, k3, k4⟩ := ft_readNext_keeps sdk i a.st st hr
    rw [hr] at h
    simp only at h
    cases hf : st.frames.getD i none with
    | none =>
      rw [hf] at h
      cases h
      exact ⟨k1, k2, Or.inl ⟨rfl, k3, by rw [k4]⟩⟩
    | some f =>
      rw [hf] at h
      simp only at h
      split_ifs at h
      cases h
      refine ⟨k1, k2, Or.inr ⟨f, by rw [← k1]; exact hf, rfl, ?_, ?_⟩⟩
      · simp only [k3]
      · simp only [k4]

theorem ft_assembleLoop_slots (sdk : Sdk) (t N : Nat) (ft : FaceTrackTriton.State)
    (hbi : ft.batch_indices.length = N) :
    ∀ k, k ≤ N → ∀ a, FaceTrackTriton.assembleLoop sdk t k { st := ft, batchsize := 0 } = .ok a →
      a.st.frames = ft.frames ∧ a.st.list_of_writers = ft.list_of_writers ∧
      a.st.batch_indices.length = N ∧ a.st.app.m_srcVid.length = ft.app.m_srcVid.length ∧
      (a.batchsize ≤ k ∧ (a.st.batch_indices.take a.batchsize).Pairwise (· < ·) ∧
        ∀ x ∈ a.st.batch_indices.take a.batchsize, x < k) := by
  intro k
  induction k with
  | zero =>
    intro _ a h
    cases h
    exact ⟨rfl, rfl, hbi, rfl, Nat.le_refl _, by simp, by simp⟩
  | succ k ih =>
    intro hk a h
    simp only [FaceTrackTriton.assembleLoop] at h
    cases hp : FaceTrackTriton.assembleLoop sdk t k { st := ft, batchsize := 0 } with
    | error e => rw [hp] at h; cases h
    | ok p =>
      rw [hp] at h
      simp only at h
      obtain ⟨i1, i2, i3, i4, i5⟩ := ih (by omega) p hp
      obtain ⟨s1, s2, s3⟩ := ft_assembleStep_cases sdk t k p a h
      rcases s3 with ⟨e1, e2, e3⟩ | ⟨f, _, e1, e2, e3⟩
      · rw [e1, e2, e3, s1, s2]
        exact ⟨i1, i2, i3, i4, slots_keep _ _ _ i5⟩
      · rw [e1, e2, e3, s1, s2]
        exact ⟨i1, i2, by simp [i3], by simp [i4],
          slots_push _ _ _ (by omega) i5⟩

theorem ls_pre_keeps (sdk : Sdk) (V : Bool) (i : Nat) (s : LipSyncTriton.State) :
    (LipSyncTriton.flushOrSkip sdk i (LipSyncTriton.readNext V i s)).1.frames = s.frames ∧
    (LipSyncTriton.flushOrSkip sdk i (LipSyncTriton.readNext V i s)).1.list_of_writers =
      s.list_of_writers ∧
    (LipSyncTriton.flushOrSkip sdk i (LipSyncTriton.readNext V i s)).1.batch_indices =
      s.batch_indices ∧
    (LipSyncTriton.flushOrSkip sdk i (LipSyncTriton.readNext V i s)).1.batchsize = s.batchsize ∧
    (LipSyncTriton.flushOrSkip sdk i (LipSyncTriton.readNext V i s)).1.app = s.app := by
  unfold LipSyncTriton.flushOrSkip LipSyncTriton.readNext LipSyncTriton.ReleaseStream
  dsimp only
  split_ifs <;> exact ⟨rfl, rfl, rfl, rfl, rfl⟩

theorem ls_cutAudio_keeps (rE : Nat → Nat) (audio : List (List Sample)) (i : Nat)
    (s : LipSyncTriton.State) :
    (LipSyncTriton.cutState rE audio i s).frames = s.frames ∧
    (LipSyncTriton.cutState rE audio i s).list_of_writers = s.list_of_writers ∧
    (LipSyncTriton.cutState rE audio i s).batch_indices = s.batch_indices ∧
    (LipSyncTriton.cutState rE audio i s).batchsize = s.batchsize ∧
    (LipSyncTriton.cutState rE audio i s).app = s.app := by
  unfold LipSyncTriton.cutState
  split_ifs <;> exact ⟨rfl, rfl, rfl, rfl, rfl⟩

theorem ls_assembleStep_cases (sdk : Sdk) (V : Bool) (rE : Nat → Nat)
    (audio : List (List Sample)) (t i : Nat) (s s' : LipSyncTriton.State)
    (h : LipSyncTriton.assembleStep sdk V rE audio t i s = .ok s') :
    s'.frames = s.frames ∧ s'.list_of_writers = s.list_of_writers ∧
    ((s'.batchsize = s.batchsize ∧ s'.batch_indices = s.batch_indices ∧
        s'.app.m_srcVid = s.app.m_srcVid) ∨
      (s'.batchsize = s.batchsize + 1 ∧
        s'.batch_indices = s.batch_indices.set s.batchsize i ∧
        ((s.frames.getD i none = none ∧ s'.app.m_srcVid = s.app.m_srcVid) ∨
          ∃ f, s.frames.getD i none = some f ∧
            s'.app.m_srcVid = s.app.m_srcVid.set s.batchsize (some f)))) := by
  obtain ⟨k1, k2, k3, k4, k5⟩ := ls_pre_keeps sdk V i s
  unfold LipSyncTriton.assembleStep at h
  by_cases hc : (LipSyncTriton.flushOrSkip sdk i (LipSyncTriton.readNext V i s)).2 = false
  · rw [if_pos hc] at h
    cases h
    exact ⟨k1, k2, Or.inl ⟨k4, k3, by rw [k5]⟩⟩
  · rw [if_neg hc] at h
    dsimp only at h
    cases hf : (LipSyncTriton.flushOrSkip sdk i (LipSyncTriton.readNext V i s)).1.frames.getD
        i none with
    | none =>
      rw [hf] at h
      dsimp only at h
      have h := LipSyncTriton.cutAndStage_ok rE audio t i _ _ h
      subst h
      obtain ⟨c1, c2, c3, c4, c5⟩ := ls_cutAudio_keeps rE audio i
        (LipSyncTriton.flushOrSkip sdk i (LipSyncTriton.readNext V i s)).1
      rw [k1] at hf
      refine ⟨c1.trans k1, c2.trans k2, Or.inr ⟨congrArg (· + 1) (c4.trans k4), ?_,
        Or.inl ⟨hf, ?_⟩⟩⟩
      · show List.set _ _ i = _
        rw [c3, c4, k3, k4]
      · show (LipSyncTriton.cutState rE audio i _).app.m_srcVid = _
        rw [c5, k5]
    | some f =>
      rw [hf] at h
      dsimp only at h
      by_cases hst : sdk.status (Call.TransferToNthImage t i) = 0
      · rw [if_neg (not_not.mpr hst)] at h
        have h := LipSyncTriton.cutAndStage_ok rE audio t i _ _ h
        subst h
        obtain ⟨c1, c2, c3, c4, c5⟩ := ls_cutAudio_keeps rE audio i
          { (LipSyncTriton.flushOrSkip sdk i (LipSyncTriton.readNext V i s)).1 with
            err := sdk.status (Call.TransferToNthImage t i)
            app :=
              { (LipSyncTriton.flushOrSkip sdk i (LipSyncTriton.readNext V i s)).1.app with
                m_srcVid :=
                  (LipSyncTriton.flushOrSkip sdk i
                    (LipSyncTriton.readNext V i s)).1.app.m_srcVid.set
                    (LipSyncTriton.flushOrSkip sdk i (LipSyncTriton.readNext V i s)).1.batchsize
                    (some f) } }
        rw [k1] at hf
        refine ⟨c1.trans k1, c2.trans k2, Or.inr ⟨congrArg (· + 1) (c4.trans k4), ?_,
          Or.inr ⟨f, hf, ?_⟩⟩⟩
        · show List.set _ _ i = _
          rw [c3, c4]
          show List.set (LipSyncTriton.flushOrSkip sdk i
            (LipSyncTriton.readNext V i s)).1.batch_indices (LipSyncTriton.flushOrSkip sdk i
            (LipSyncTriton.readNext V i s)).1.batchsize i = _
          rw [k3, k4]
        · show (LipSyncTriton.cutState rE audio i _).app.m_srcVid = _
          rw [c5]
          show List.set (LipSyncTriton.flushOrSkip sdk i
            (LipSyncTriton.readNext V i s)).1.app.m_srcVid (LipSyncTriton.flushOrSkip sdk i
            (LipSyncTriton.readNext V i s)).1.batchsize (some f) = _
          rw [k5, k4]
      · rw [if_pos hst] at h
        cases h

theorem ls_assembleLoop_slots (sdk : Sdk) (V : Bool) (rE : Nat → Nat)
    (audio : List (List Sample)) (t N : Nat) (ls : LipSyncTriton.State)
    (hbi : ls.batch_indices.length = N) :
    ∀ k, k ≤ N → ∀ a,
      LipSyncTriton.assembleLoop sdk V rE audio t k { ls with batchsize := 0 } = .ok a →
      a.frames = ls.frames ∧ a.list_of_writers = ls.list_of_writers ∧
      a.batch_indices.length = N ∧ a.app.m_srcVid.length = ls.app.m_srcVid.length ∧
      (a.batchsize ≤ k ∧ (a.batch_indices.take a.batchsize).Pairwise (· < ·) ∧
        ∀ x ∈ a.batch_indices.take a.batchsize, x < k) := by
  intro k
  induction k with
  | zero =>
    intro _ a h
    cases h
    exact ⟨rfl, rfl, hbi, rfl, Nat.le_refl _, by simp, by simp⟩
  | succ k ih =>
    intro hk a h
    simp only [LipSyncTriton.assembleLoop] at h
    cases hp : LipSyncTriton.assembleLoop sdk V rE audio t k { ls with batchsize := 0 } with
    | error e => rw [hp] at h; cases h
    | ok p =>
      rw [hp] at h
      simp only at h
      obtain ⟨i1, i2, i3, i4, i5⟩ := ih (by omega) p hp
      obtain ⟨s1, s2, s3⟩ := ls_assembleStep_cases sdk V rE audio t k p a h
      rcases s3 with ⟨e1, e2, e3⟩ | ⟨e1, e2, e3⟩
      · rw [e1, e2, e3, s1, s2]
        exact ⟨i1, i2, i3, i4, slots_keep _ _ _ i5⟩
      · rw [e1, e2, s1, s2]
        refine ⟨i1, i2, by simp [i3], ?_, slots_push _ _ _ (by omega) i5⟩
        rcases e3 with ⟨_, e3⟩ | ⟨f, _, e3⟩
        · rw [e3, i4]
        · rw [e3, List.length_set, i4]

theorem slp_assembleStep_cases (sdk : Sdk) (audio : List (List Sample)) (chunks : List Nat)
    (t i : Nat) (a a' : SpeechLivePortraitTriton.Assembly)
    (h : SpeechLivePortraitTriton.assembleStep sdk audio chunks t i a = .ok a') :
    a'.st.list_of_writers = a.st.list_of_writers ∧
    ((a'.batchsize = a.batchsize ∧ a'.st.batch_indices = a.st.batch_indices ∧
        a'.audio_frame_batched = a.audio_frame_batched) ∨
      (a'.batchsize = a.batchsize + 1 ∧
        a'.st.batch_indices = a.st.batch_indices.set a.batchsize i ∧
        a'.audio_frame_batched = a.audio_frame_batched ++
          (if chunks.getD i 0 ≤ t then
            List.replicate SpeechLivePortraitTriton.kSamplesPerFrame 0
          else ((audio.getD i []).drop (t * SpeechLivePortraitTriton.kSamplesPerFrame)).take
            SpeechLivePortraitTriton.kSamplesPerFrame))) := by
  unfold SpeechLivePortraitTriton.assembleStep at h
  unfold SpeechLivePortraitTriton.kInitLatencyFrameCnt at h
  split_ifs at h with c1 c2 c3 c4
  · cases h
    exact ⟨rfl, Or.inl ⟨rfl, rfl, rfl⟩⟩
  · cases h
    refine ⟨rfl, Or.inr ⟨rfl, rfl, ?_⟩⟩
    rw [if_pos (by omega)]
    rfl
  · cases h
    refine ⟨rfl, Or.inr ⟨rfl, rfl, ?_⟩⟩
    rw [if_pos (by omega)]
    rfl
  · cases h
    refine ⟨rfl, Or.inr ⟨rfl, rfl, ?_⟩⟩
    rw [if_neg (by omega)]
    rfl

theorem slp_assembleLoop_slots (sdk : Sdk) (audio : List (List Sample)) (chunks : List Nat)
    (t N : Nat) (slp : SpeechLivePortraitTriton.State) (hbi : slp.batch_indices.length = N) :
    ∀ k, k ≤ N → ∀ a,
      SpeechLivePortraitTriton.assembleLoop sdk audio chunks t k
          { st := slp, batchsize := 0, audio_frame_batched := [] } = .ok a →
      a.st.list_of_writers = slp.list_of_writers ∧ a.st.batch_indices.length = N ∧
      (a.batchsize ≤ k ∧ (a.st.batch_indices.take a.batchsize).Pairwise (· < ·) ∧
        ∀ x ∈ a.st.batch_indices.take a.batchsize, x < k) ∧
      a.audio_frame_batched = (a.st.batch_indices.take a.batchsize).flatMap (fun i =>
        if chunks.getD i 0 ≤ t then List.replicate SpeechLivePortraitTriton.kSamplesPerFrame 0
        else ((audio.getD i []).drop (t * SpeechLivePortraitTriton.kSamplesPerFrame)).take
          SpeechLivePortraitTriton.kSamplesPerFrame) := by
  intro k
  induction k with
  | zero =>
    intro _ a h
    cases h
    exact ⟨rfl, hbi, ⟨Nat.le_refl _, by simp, by simp⟩, by simp⟩
  | succ k ih =>
    intro hk a h
    simp only [SpeechLivePortraitTriton.assembleLoop] at h
    cases hp : SpeechLivePortraitTriton.assembleLoop sdk audio chunks t k
        { st := slp, batchsize := 0, audio_frame_batched := [] } with
    | error e => rw [hp] at h; cases h
    | ok p =>
      rw [hp] at h
      simp only at h
      obtain ⟨i2, i3, i5, i6⟩ := ih (by omega) p hp
      obtain ⟨s2, s3⟩ := slp_assembleStep_cases sdk audio chunks t k p a h
      rcases s3 with ⟨e1, e2, e3⟩ | ⟨e1, e2, e3⟩
      · rw [e1, e2, e3, s2]
        exact ⟨i2, i3, slots_keep _ _ _ i5, i6⟩
      · rw [e1, e2, e3, s2]
        refine ⟨i2, by simp [i3], slots_push _ _ _ (by omega) i5, ?_⟩
        rw [take_succ_set _ _ _ (by omega), List.flatMap_append, ← i6]
        simp
theorem gatherStates_take_range (bi : List Nat) (all batch : List NvAR_StateHandle) (b : Nat)
    (hb : b ≤ batch.length) :
    (gatherStates bi all b batch).take b =
      (List.range b).map (fun j => all.getD (bi.getD j 0) 0) := by
  apply List.ext_getElem?
  intro j
  rw [List.getElem?_take, gatherStates_getElem?, List.getElem?_map]
  by_cases h : j < b
  · rw [if_pos h, if_pos ⟨h, by omega⟩, List.getElem?_range h]
    rfl
  · rw [if_neg h, List.getElem?_eq_none (by simpa using h)]
    rfl

theorem ft_Run_states (sdk : Sdk) (t : Nat) (bi : List Nat) (b : Nat)
    (st : FaceTrackTriton.State) (hb : b ≤ st.app.m_batchOfStateObjects.length) :
    (FaceTrackTriton.Run sdk t bi b st).2.app.m_arrayOfAllStateObjects =
      st.app.m_arrayOfAllStateObjects ∧
    (((FaceTrackTriton.Run sdk t bi b st).1 ≠ 0 ∧
        (FaceTrackTriton.Run sdk t bi b st).2.trace = st.trace) ∨
      ∃ eff img,
        (FaceTrackTriton.Run sdk t bi b st).2.trace =
          st.trace ++ [Event.Run (bi.take b) eff img] ∧
        eff.BatchSize = b ∧
        eff.State = (List.range b).map
          (fun j => st.app.m_arrayOfAllStateObjects.getD (bi.getD j 0) 0)) := by
  unfold FaceTrackTriton.Run
  dsimp only
  split_ifs with h1 h2 h3
  · exact ⟨rfl, Or.inl ⟨h1, rfl⟩⟩
  · exact ⟨rfl, Or.inl ⟨h2, rfl⟩⟩
  · exact ⟨rfl, Or.inr ⟨_, _, rfl, rfl, gatherStates_take_range _ _ _ _ hb⟩⟩
  · exact ⟨rfl, Or.inr ⟨_, _, rfl, rfl, gatherStates_take_range _ _ _ _ hb⟩⟩

theorem ls_Run_states (sdk : Sdk) (t : Nat) (ab : List Sample) (an : List Nat) (bi : List Nat)
    (b : Nat) (st : LipSyncTriton.State) (hb : b ≤ st.app.m_batchOfStateObjects.length) :
    (LipSyncTriton.Run sdk t ab an bi b st).2.app.m_arrayOfAllStateObjects =
      st.app.m_arrayOfAllStateObjects ∧
    (((LipSyncTriton.Run sdk t ab an bi b st).1 ≠ 0 ∧
        (LipSyncTriton.Run sdk t ab an bi b st).2.trace = st.trace) ∨
      ∃ eff img,
        (LipSyncTriton.Run sdk t ab an bi b st).2.trace =
          st.trace ++ [Event.Run (bi.take b) eff img] ∧
        eff.BatchSize = b ∧
        eff.State = (List.range b).map
          (fun j => st.app.m_arrayOfAllStateObjects.getD (bi.getD j 0) 0)) := by
  unfold LipSyncTriton.Run
  dsimp only
  split_ifs with h1 h2 h3 h4 h5 h6
  · exact ⟨rfl, Or.inl ⟨h1, rfl⟩⟩
  · exact ⟨rfl, Or.inl ⟨h2, rfl⟩⟩
  · exact ⟨rfl, Or.inl ⟨h3, rfl⟩⟩
  · exact ⟨rfl, Or.inl ⟨h4, rfl⟩⟩
  · exact ⟨rfl, Or.inl ⟨h5, rfl⟩⟩
  · exact ⟨rfl, Or.inr ⟨_, _, rfl, rfl, gatherStates_take_range _ _ _ _ hb⟩⟩
  · exact ⟨rfl, Or.inr ⟨_, _, rfl, rfl, gatherStates_take_range _ _ _ _ hb⟩⟩

theorem slp_Run_states (sdk : Sdk) (t : Nat) (ab : List Sample) (bi : List Nat)
    (b : Nat) (st : SpeechLivePortraitTriton.State)
    (hb : b ≤ st.app.m_batchOfStateObjects.length) :
    (SpeechLivePortraitTriton.Run sdk t ab bi b st).2.app.m_arrayOfAllStateObjects =
      st.app.m_arrayOfAllStateObjects ∧
    (((SpeechLivePortraitTriton.Run sdk t ab bi b st).1 ≠ 0 ∧
        (SpeechLivePortraitTriton.Run sdk t ab bi b st).2.trace = st.trace) ∨
      ∃ eff img,
        (SpeechLivePortraitTriton.Run sdk t ab bi b st).2.trace =
          st.trace ++ [Event.Run (bi.take b) eff img] ∧
        eff.BatchSize = b ∧
        eff.State = (List.range b).map
          (fun j => st.app.m_arrayOfAllStateObjects.getD (bi.getD j 0) 0)) := by
  unfold SpeechLivePortraitTriton.Run
  dsimp only
  split_ifs with h1 h2 h3 h4
  · exact ⟨rfl, Or.inl ⟨h1, rfl⟩⟩
  · exact ⟨rfl, Or.inl ⟨h2, rfl⟩⟩
  · exact ⟨rfl, Or.inl ⟨h3, rfl⟩⟩
  · exact ⟨rfl, Or.inr ⟨_, _, rfl, rfl, gatherStates_take_range _ _ _ _ hb⟩⟩
  · exact ⟨rfl, Or.inr ⟨_, _, rfl, rfl, gatherStates_take_range _ _ _ _ hb⟩⟩

theorem completesWith_spec {ε α : Type} (x : Except ε α) (p : α → Bool)
    (h : completesWith x p = true) : ∃ a, x = .ok a ∧ p a = true := by
  cases x with
  | error e => cases h
  | ok a => exact ⟨a, rfl, h⟩

theorem nodup_of_pairwise_lt (l : List Nat) (h : l.Pairwise (· < ·)) : l.Nodup :=
  List.Pairwise.imp (fun hab => Nat.ne_of_lt hab) h

/-- C10. `Run(..., batch_indices, batchsize)` of each of the three clients, called with
`batchsize` at most the number of streams, leaves `m_arrayOfAllStateObjects` unchanged, and
it either fails before it calls inference or calls inference once with `BatchSize` set to
`batchsize` and with the state array whose position `j < batchsize` holds the handle
`m_arrayOfAllStateObjects[batch_indices[j]]`. -/
theorem run_passes_the_state_of_each_slot (sdk : Sdk) (tick : Nat) (batch_indices : List Nat)
    (batchsize : Nat) (audio_batched : List Sample) (audio_num_samples : List Nat)
    (ft : FaceTrackTriton.State) (ls : LipSyncTriton.State)
    (slp : SpeechLivePortraitTriton.State)
    (hft : batchsize ≤ ft.app.m_batchOfStateObjects.length)
    (hls : batchsize ≤ ls.app.m_batchOfStateObjects.length)
    (hslp : batchsize ≤ slp.app.m_batchOfStateObjects.length) :
    ((FaceTrackTriton.Run sdk tick batch_indices batchsize ft).2.app.m_arrayOfAllStateObjects =
        ft.app.m_arrayOfAllStateObjects ∧
      (((FaceTrackTriton.Run sdk tick batch_indices batchsize ft).1 ≠ 0 ∧
          (FaceTrackTriton.Run sdk tick batch_indices batchsize ft).2.trace = ft.trace) ∨
        ∃ eff img,
          (FaceTrackTriton.Run sdk tick batch_indices batchsize ft).2.trace =
            ft.trace ++ [Event.Run (batch_indices.take batchsize) eff img] ∧
          eff.BatchSize = batchsize ∧
          eff.State = (List.range batchsize).map
            (fun j => ft.app.m_arrayOfAllStateObjects.getD (batch_indices.getD j 0) 0))) ∧
    ((LipSyncTriton.Run sdk tick audio_batched audio_num_samples batch_indices batchsize
          ls).2.app.m_arrayOfAllStateObjects = ls.app.m_arrayOfAllStateObjects ∧
      (((LipSyncTriton.Run sdk tick audio_batched audio_num_samples batch_indices batchsize
            ls).1 ≠ 0 ∧
          (LipSyncTriton.Run sdk tick audio_batched audio_num_samples batch_indices batchsize
            ls).2.trace = ls.trace) ∨
        ∃ eff img,
          (LipSyncTriton.Run sdk tick audio_batched audio_num_samples batch_indices batchsize
            ls).2.trace = ls.trace ++ [Event.Run (batch_indices.take batchsize) eff img] ∧
          eff.BatchSize = batchsize ∧
          eff.State = (List.range batchsize).map
            (fun j => ls.app.m_arrayOfAllStateObjects.getD (batch_indices.getD j 0) 0))) ∧
    ((SpeechLivePortraitTriton.Run sdk tick audio_batched batch_indices batchsize
          slp).2.app.m_arrayOfAllStateObjects = slp.app.m_arrayOfAllStateObjects ∧
      (((SpeechLivePortraitTriton.Run sdk tick audio_batched batch_indices batchsize
            slp).1 ≠ 0 ∧
          (SpeechLivePortraitTriton.Run sdk tick audio_batched batch_indices batchsize
            slp).2.trace = slp.trace) ∨
        ∃ eff img,
          (SpeechLivePortraitTriton.Run sdk tick audio_batched batch_indices batchsize
            slp).2.trace = slp.trace ++ [Event.Run (batch_indices.take batchsize) eff img] ∧
          eff.BatchSize = batchsize ∧
          eff.State = (List.range batchsize).map
            (fun j => slp.app.m_arrayOfAllStateObjects.getD (batch_indices.getD j 0) 0))) :=
  ⟨ft_Run_states sdk tick batch_indices batchsize ft hft,
    ls_Run_states sdk tick audio_batched audio_num_samples batch_indices batchsize ls hls,
    slp_Run_states sdk tick audio_batched batch_indices batchsize slp hslp⟩

/-- Witness of `run_passes_the_state_of_each_slot`: three streams with the handles 11, 12
and 13, a batch of the two streams 2 and 0. -/
theorem run_passes_the_state_of_each_slot_witness :
    (2 ≤ FaceTrackTriton.sampleState.app.m_batchOfStateObjects.length ∧
      2 ≤ LipSyncTriton.sampleState.app.m_batchOfStateObjects.length ∧
      2 ≤ SpeechLivePortraitTriton.sampleState.app.m_batchOfStateObjects.length) ∧
    (FaceTrackTriton.Run (Sdk.succeeding 0) 4 [2, 0, 1] 2
        FaceTrackTriton.sampleState).2.app.m_arrayOfAllStateObjects = [11, 12, 13] ∧
    (LipSyncTriton.Run (Sdk.succeeding 0) 4 [] [] [2, 0, 1] 2
        LipSyncTriton.sampleState).2.app.m_arrayOfAllStateObjects = [11, 12, 13] ∧
    (SpeechLivePortraitTriton.Run (Sdk.succeeding 0) 4 [] [2, 0, 1] 2
        SpeechLivePortraitTriton.sampleState).2.app.m_arrayOfAllStateObjects = [11, 12, 13] ∧
    stepsOf (FaceTrackTriton.Run (Sdk.succeeding 0) 4 [2, 0, 1] 2
      FaceTrackTriton.sampleState).2.trace = [Step.run [2, 0] 2] ∧
    (FaceTrackTriton.Run (Sdk.succeeding 0) 4 [2, 0, 1] 2
      FaceTrackTriton.sampleState).2.app.m_effect.State = [13, 11] ∧
    (LipSyncTriton.Run (Sdk.succeeding 0) 4 [] [] [2, 0, 1] 2
      LipSyncTriton.sampleState).2.app.m_effect.State = [13, 11] ∧
    (SpeechLivePortraitTriton.Run (Sdk.succeeding 0) 4 [] [2, 0, 1] 2
      SpeechLivePortraitTriton.sampleState).2.app.m_effect.State = [13, 11] := by
  have h1 : 2 ≤ FaceTrackTriton.sampleState.app.m_batchOfStateObjects.length := by decide
  have h2 : 2 ≤ LipSyncTriton.sampleState.app.m_batchOfStateObjects.length := by decide
  have h3 : 2 ≤ SpeechLivePortraitTriton.sampleState.app.m_batchOfStateObjects.length := by
    decide
  obtain ⟨⟨a1, _⟩, ⟨a2, _⟩, ⟨a3, _⟩⟩ := run_passes_the_state_of_each_slot (Sdk.succeeding 0) 4
    [2, 0, 1] 2 [] [] FaceTrackTriton.sampleState LipSyncTriton.sampleState
    SpeechLivePortraitTriton.sampleState h1 h2 h3
  exact ⟨⟨h1, h2, h3⟩, a1, a2, a3, by decide, by decide, by decide, by decide⟩

/-- C9. In the assembly loop of each of the three clients, started with `batchsize = 0` on a
`batch_indices` of `num_streams` entries, after the first `k <= num_streams` iterations the
entries `batch_indices[0 .. batchsize)` are strictly increasing stream indices below `k`, so
no stream occupies two slots, `batchsize <= k`, and the write `batch_indices[batchsize]` of
a further iteration is within the bounds of the vector, whose size does not change. -/
theorem batch_indices_strictly_increasing (sdk : Sdk) (FLAG_verbose : Bool)
    (requestedEnd : Nat → Nat) (list_of_audio : List (List Sample))
    (audio_nr_chunks : List Nat) (tick num_streams k : Nat) (hk : k ≤ num_streams)
    (ft : FaceTrackTriton.State) (fa : FaceTrackTriton.Assembly)
    (ls la : LipSyncTriton.State)
    (slp : SpeechLivePortraitTriton.State) (sa : SpeechLivePortraitTriton.Assembly) :
    (ft.batch_indices.length = num_streams →
      FaceTrackTriton.assembleLoop sdk tick k { st := ft, batchsize := 0 } = .ok fa →
      fa.batchsize ≤ k ∧ fa.st.batch_indices.length = num_streams ∧
        (fa.st.batch_indices.take fa.batchsize).Pairwise (· < ·) ∧
        (∀ i ∈ fa.st.batch_indices.take fa.batchsize, i < k) ∧
        (fa.st.batch_indices.take fa.batchsize).Nodup ∧
        (k < num_streams → fa.batchsize < fa.st.batch_indices.length)) ∧
    (ls.batch_indices.length = num_streams →
      LipSyncTriton.assembleLoop sdk FLAG_verbose requestedEnd list_of_audio tick k
          { ls with batchsize := 0 } = .ok la →
      la.batchsize ≤ k ∧ la.batch_indices.length = num_streams ∧
        (la.batch_indices.take la.batchsize).Pairwise (· < ·) ∧
        (∀ i ∈ la.batch_indices.take la.batchsize, i < k) ∧
        (la.batch_indices.take la.batchsize).Nodup ∧
        (k < num_streams → la.batchsize < la.batch_indices.length)) ∧
    (slp.batch_indices.length = num_streams →
      SpeechLivePortraitTriton.assembleLoop sdk list_of_audio audio_nr_chunks tick k
          { st := slp, batchsize := 0, audio_frame_batched := [] } = .ok sa →
      sa.batchsize ≤ k ∧ sa.st.batch_indices.length = num_streams ∧
        (sa.st.batch_indices.take sa.batchsize).Pairwise (· < ·) ∧
        (∀ i ∈ sa.st.batch_indices.take sa.batchsize, i < k) ∧
        (sa.st.batch_indices.take sa.batchsize).Nodup ∧
        (k < num_streams → sa.batchsize < sa.st.batch_indices.length)) := by
  refine ⟨?_, ?_, ?_⟩
  · intro hbi ha
    obtain ⟨_, _, i3, _, i5, i6, i7⟩ := ft_assembleLoop_slots sdk tick num_streams ft hbi k hk fa ha
    exact ⟨i5, i3, i6, i7, nodup_of_pairwise_lt _ i6, fun h => by omega⟩
  · intro hbi ha
    obtain ⟨_, _, i3, _, i5, i6, i7⟩ := ls_assembleLoop_slots sdk FLAG_verbose requestedEnd
      list_of_audio tick num_streams ls hbi k hk la ha
    exact ⟨i5, i3, i6, i7, nodup_of_pairwise_lt _ i6, fun h => by omega⟩
  · intro hbi ha
    obtain ⟨_, i3, ⟨i5, i6, i7⟩, _⟩ := slp_assembleLoop_slots sdk list_of_audio audio_nr_chunks
      tick num_streams slp hbi k hk sa ha
    exact ⟨i5, i3, i6, i7, nodup_of_pairwise_lt _ i6, fun h => by omega⟩

/-- Witness of `batch_indices_strictly_increasing`: on tick 6 of three streams of which
stream 1 has ended, the streams 0 and 2 having 1056 audio samples each, the assembly of each
client stages the streams 0 and 2 in the slots 0 and 1; in LipSync every audio range cut is
well formed. -/
theorem batch_indices_strictly_increasing_witness :
    3 ≤ 3 ∧
    ∃ fa la sa,
      (FaceTrackTriton.sampleState.batch_indices.length = 3 ∧
        FaceTrackTriton.assembleLoop Sdk.oddSlotsReady 6 3
          { st := FaceTrackTriton.sampleState, batchsize := 0 } = .ok fa) ∧
      (LipSyncTriton.sampleState.batch_indices.length = 3 ∧
        LipSyncTriton.assembleLoop Sdk.oddSlotsReady false LipSyncTriton.exactRequestedEnd
          [List.replicate 1056 1, [], List.replicate 1056 3] 6 3
          { LipSyncTriton.sampleState with batchsize := 0 } = .ok la) ∧
      (SpeechLivePortraitTriton.sampleState.batch_indices.length = 3 ∧
        SpeechLivePortraitTriton.assembleLoop Sdk.oddSlotsReady
          [List.replicate 1056 1, [], List.replicate 1056 3] [2, 0, 2] 6 3
          { st := SpeechLivePortraitTriton.sampleState, batchsize := 0,
            audio_frame_batched := [] } = .ok sa) ∧
      (fa.batchsize = 2 ∧ fa.st.batch_indices = [0, 2, 2]) ∧
      (la.batchsize = 2 ∧ la.batch_indices = [0, 2, 2] ∧ la.violations = []) ∧
      (sa.batchsize = 2 ∧ sa.st.batch_indices = [0, 2, 2]) ∧
      (fa.st.batch_indices.take fa.batchsize).Pairwise (· < ·) ∧
      (la.batch_indices.take la.batchsize).Pairwise (· < ·) ∧
      (sa.st.batch_indices.take sa.batchsize).Pairwise (· < ·) := by
  obtain ⟨fa, ha, hfa⟩ := completesWith_spec
    (FaceTrackTriton.assembleLoop Sdk.oddSlotsReady 6 3
      { st := FaceTrackTriton.sampleState, batchsize := 0 })
    (fun fa => decide (fa.batchsize = 2 ∧ fa.st.batch_indices = [0, 2, 2])) (by decide)
  obtain ⟨la, hl, hla⟩ := completesWith_spec
    (LipSyncTriton.assembleLoop Sdk.oddSlotsReady false LipSyncTriton.exactRequestedEnd
      [List.replicate 1056 1, [], List.replicate 1056 3] 6 3
      { LipSyncTriton.sampleState with batchsize := 0 })
    (fun la => decide (la.batchsize = 2 ∧ la.batch_indices = [0, 2, 2] ∧
      la.violations = [])) (by decide)
  obtain ⟨sa, hs, hsa⟩ := completesWith_spec
    (SpeechLivePortraitTriton.assembleLoop Sdk.oddSlotsReady
      [List.replicate 1056 1, [], List.replicate 1056 3] [2, 0, 2] 6 3
      { st := SpeechLivePortraitTriton.sampleState, batchsize := 0,
        audio_frame_batched := [] })
    (fun sa => decide (sa.batchsize = 2 ∧ sa.st.batch_indices = [0, 2, 2])) (by decide)
  obtain ⟨c1, c2, c3⟩ := batch_indices_strictly_increasing Sdk.oddSlotsReady false
    LipSyncTriton.exactRequestedEnd [List.replicate 1056 1, [], List.replicate 1056 3]
    [2, 0, 2] 6 3 3 (Nat.le_refl 3) FaceTrackTriton.sampleState fa LipSyncTriton.sampleState la
    SpeechLivePortraitTriton.sampleState sa
  exact ⟨Nat.le_refl 3, fa, la, sa, ⟨rfl, ha⟩, ⟨rfl, hl⟩, ⟨rfl, hs⟩, of_decide_eq_true hfa,
    of_decide_eq_true hla, of_decide_eq_true hsa, (c1 rfl ha).2.2.1, (c2 rfl hl).2.2.1,
    (c3 rfl hs).2.2.1⟩

end Batches

namespace SpeechLivePortraitTriton

theorem slp_lastTick_eq_max (ns : List Nat) (hne : ns ≠ []) :
    lastTick ns = ns.foldr max 0 + kInitLatencyFrameCnt := by
  unfold lastTick
  induction ns with
  | nil => exact absurd rfl hne
  | cons a l ih =>
    cases l with
    | nil => simp
    | cons b l =>
      have := ih (by simp)
      simp only [List.map_cons, List.foldr_cons] at this ⊢
      rw [this]
      omega

theorem slp_countP_isRun_initEvents (ns : List Nat) (n : Nat) :
    (initEvents ns n).countP Event.isRun = 0 := by
  unfold initEvents
  rw [List.countP_eq_zero]
  intro e he
  obtain ⟨j, _, rfl⟩ := List.mem_map.mp he
  simp [Event.isRun]

/-- C11. SpeechLivePortrait Triton `BatchProcessVideos`, for a non-empty list of streams in a
run where no call fails: with `T = max_i n_i + kInitLatencyFrameCnt`, where `n_i = size_i /
528`, the run ends with success after exactly `T` inference calls, those of the ticks
`0 .. T - 1`; the batch of every tick below `T` is not empty and the batch of tick `T`, on
which the loop is left, is empty. -/
theorem inference_calls_until_first_empty_batch (sdk : Sdk) (hs : sdk.AllSucceed)
    (list_of_audio : List (List Sample)) (hne : list_of_audio ≠ []) (fuel : Nat)
    (hf : (audioNrChunks list_of_audio).foldr max 0 + kInitLatencyFrameCnt < fuel) :
    ∃ st, BatchProcessVideos sdk list_of_audio fuel = some st ∧ st.err = NVCV_SUCCESS ∧
      st.trace.countP Event.isRun =
        (audioNrChunks list_of_audio).foldr max 0 + kInitLatencyFrameCnt ∧
      (runsOf st.trace).map Prod.fst =
        (List.range ((audioNrChunks list_of_audio).foldr max 0 + kInitLatencyFrameCnt)).map
          (batchAt (audioNrChunks list_of_audio) list_of_audio.length) ∧
      (∀ t, t < (audioNrChunks list_of_audio).foldr max 0 + kInitLatencyFrameCnt →
        batchAt (audioNrChunks list_of_audio) list_of_audio.length t ≠ []) ∧
      batchAt (audioNrChunks list_of_audio) list_of_audio.length
        ((audioNrChunks list_of_audio).foldr max 0 + kInitLatencyFrameCnt) = [] := by
  have hne2 : audioNrChunks list_of_audio ≠ [] := by
    unfold audioNrChunks
    simpa using hne
  have hT := slp_lastTick_eq_max _ hne2
  have hlen : (audioNrChunks list_of_audio).length = list_of_audio.length := by
    simp [audioNrChunks]
  obtain ⟨st, all, h1, h2', h3⟩ := slp_BatchProcessVideos_closed sdk hs list_of_audio fuel
    (by rw [hT]; exact hf)
  have h2 := h2' (List.length_pos.mpr hne)
  refine ⟨st, h1, h2, ?_, ?_, ?_, ?_⟩
  · rw [h3, List.countP_append, slp_countP_isRun_initEvents, ← hT, Nat.zero_add]
    exact countP_isRun_ticks
      (releasedAt (audioNrChunks list_of_audio) list_of_audio.length)
      (fun t => Event.Run (batchAt (audioNrChunks list_of_audio) list_of_audio.length t)
        { BatchSize := (batchAt (audioNrChunks list_of_audio) list_of_audio.length t).length
          State :=
            (batchAt (audioNrChunks list_of_audio) list_of_audio.length t).map
              (fun i => all.getD i 0)
          AudioFrameBuffer :=
            (batchAt (audioNrChunks list_of_audio) list_of_audio.length t).flatMap
              (unitAt list_of_audio t)
          AudioFrameLength := [] } []) (fun _ => rfl) _
  · rw [h3, ← hT]
    unfold runsOf
    rw [List.filterMap_append]
    have h0 := runsOf_initEvents (audioNrChunks list_of_audio) list_of_audio.length
    unfold runsOf at h0
    rw [h0, List.nil_append]
    have h4 := runsOf_ticks list_of_audio all (lastTick (audioNrChunks list_of_audio))
    unfold runsOf at h4
    rw [h4, List.map_map]
    rfl
  · intro t ht h
    rw [← hlen, slp_lastTick_spec, hT] at h
    omega
  · rw [← hlen, slp_lastTick_spec, hT]

/-- Witness of `inference_calls_until_first_empty_batch`: a single stream of 2 chunks (1200
samples) runs 2 + 6 ticks. -/
theorem inference_calls_until_first_empty_batch_witness :
    ((Sdk.succeeding 6).AllSucceed ∧ ([List.replicate 1200 1] : List (List Sample)) ≠ [] ∧
      (audioNrChunks [List.replicate 1200 1]).foldr max 0 + kInitLatencyFrameCnt < 20) ∧
    ∃ st, BatchProcessVideos (Sdk.succeeding 6) [List.replicate 1200 1] 20 = some st ∧
      st.err = NVCV_SUCCESS ∧ st.trace.countP Event.isRun = 8 := by
  have hs : (Sdk.succeeding 6).AllSucceed := ⟨fun _ => rfl, fun _ => rfl⟩
  have hf : (audioNrChunks [List.replicate 1200 1]).foldr max 0 + kInitLatencyFrameCnt < 20 := by
    decide
  obtain ⟨st, h1, h2, h3, _⟩ := inference_calls_until_first_empty_batch (Sdk.succeeding 6) hs
    [List.replicate 1200 1] (by simp) 20 hf
  refine ⟨⟨hs, by simp, hf⟩, st, h1, h2, ?_⟩
  rw [h3]
  decide

end SpeechLivePortraitTriton

namespace FaceTrackTriton

/-- C19, at failing inputs: two videos of two frames whose first frames differ in height only
(640 x 480 and 640 x 360), or in width only (640 x 480 and 800 x 480), pass the loop that
opens the videos, and `BatchProcessVideos` goes on to initialise the effect, runs both
streams and returns `NVCV_SUCCESS`; `NVCV_ERR_MISMATCH` is returned only when both the
width and the height differ. -/
theorem mismatch_in_one_dimension_is_accepted :
    ((BatchProcessVideos (Sdk.succeeding 0)
        [{ opens := true, frames := [10, 11], cols := 640, rows := 480 },
          { opens := true, frames := [20, 21], cols := 640, rows := 360 }] 10).map
      (fun st => (st.err, stepsOf st.trace)) =
      some (NVCV_SUCCESS,
        [Step.run [0, 1] 2, Step.release 0, Step.release 1, Step.run [0, 1] 2])) ∧
    ((BatchProcessVideos (Sdk.succeeding 0)
        [{ opens := true, frames := [10, 11], cols := 640, rows := 480 },
          { opens := true, frames := [20, 21], cols := 800, rows := 480 }] 10).map
      (fun st => (st.err, stepsOf st.trace)) =
      some (NVCV_SUCCESS,
        [Step.run [0, 1] 2, Step.release 0, Step.release 1, Step.run [0, 1] 2])) ∧
    ((BatchProcessVideos (Sdk.succeeding 0)
        [{ opens := true, frames := [10, 11], cols := 640, rows := 480 },
          { opens := true, frames := [20, 21], cols := 800, rows := 600 }] 10).map
      (fun st => (st.err, st.trace)) = some (NVCV_ERR_MISMATCH, [])) ∧
    NVCV_ERR_MISMATCH ≠ NVCV_SUCCESS := by
  decide

end FaceTrackTriton

namespace LipSyncTriton

/-- C14, at a failing input (one stream whose video opens with the size 640 x 480 but has no
frame to read, 600 audio samples, flush window 1): the first frame read is empty, so
`InitStream(0)` is not called; on tick 0 the stream is taken for one in its flush window:
`ReleaseStream(0)` is called and stream 0 occupies slot 0 of the batch given to inference. -/
theorem stream_without_frames_contributes :
    (BatchProcessVideos (Sdk.succeeding 1) false exactRequestedEnd
        [{ opens := true, frames := [], cols := 640, rows := 480 }]
        [List.replicate 600 1] 5).map
      (fun st => (st.err, st.trace.map Event.isRun, stepsOf st.trace,
        decide (Event.AllocateState 0 ∈ st.trace))) =
      some (NVCV_SUCCESS, [false, true], [Step.release 0, Step.run [0] 1], false) := by
  decide

/-- C13, at a counterexample (one stream, a video of one frame and 1500 audio samples, all
of value 1, flush window 1): tick 1 is the flush tick of the stream, its video having ended
while its audio has not, and the audio frame staged for it on that tick is the 533 samples
`[533, 1066)` of its audio, none of which is zero. -/
theorem flush_tick_stages_remaining_audio :
    (BatchProcessVideos (Sdk.succeeding 1) false exactRequestedEnd [Video.sample 1 10]
        [List.replicate 1500 1] 5).map
      (fun st => (st.err, stepsOf st.trace, runsOf st.trace)) =
      some (NVCV_SUCCESS, [Step.run [0] 1, Step.release 0, Step.run [0] 1],
        [([0], List.replicate 533 1), ([0], List.replicate 533 1)]) := by
  decide

end LipSyncTriton

/-- C17, at failing inputs. FaceTrack, one video of one frame, `NvAR_DeallocateState` fails
for stream 0: the run is aborted on tick 0 before any inference call and nothing is written,
and the status returned is `NVCV_SUCCESS`. FaceTrack, same video, `NvAR_AllocateState` fails
for stream 0: the run is aborted before the first tick and the status returned is
`NVCV_SUCCESS`. SpeechLivePortrait, one stream of one chunk, `NvAR_DeallocateState` fails for
stream 0: the run is aborted on tick 6, before the inference call of the stream's last
tick, and the status returned is `NVCV_SUCCESS`; the same when `NvAR_AllocateState` fails. -/
theorem failed_release_or_allocation_returns_success :
    ((Sdk.failingAt 0 (Call.DeallocateState 0) (-1)).status (Call.DeallocateState 0) ≠
        NVCV_SUCCESS ∧
      (FaceTrackTriton.BatchProcessVideos (Sdk.failingAt 0 (Call.DeallocateState 0) (-1))
          [Video.sample 1 10] 10).map
        (fun st => (st.err, st.trace, st.list_of_writers)) =
        some (NVCV_SUCCESS, [Event.AllocateState 0, Event.DeallocateState 0], [[]])) ∧
    ((Sdk.failingAt 0 (Call.AllocateState 0) (-1)).status (Call.AllocateState 0) ≠
        NVCV_SUCCESS ∧
      (FaceTrackTriton.BatchProcessVideos (Sdk.failingAt 0 (Call.AllocateState 0) (-1))
          [Video.sample 1 10] 10).map
        (fun st => (st.err, st.trace, st.list_of_writers)) =
        some (NVCV_SUCCESS, [Event.AllocateState 0], [[]])) ∧
    ((SpeechLivePortraitTriton.BatchProcessVideos
          (Sdk.failingAt 0 (Call.DeallocateState 0) (-1)) [List.replicate 528 1] 20).map
        (fun st => (st.err, st.trace.map Event.isRun, st.trace.getLast?)) =
        some (NVCV_SUCCESS, [false, true, true, true, true, true, true, false],
          some (Event.DeallocateState 0))) ∧
    ((SpeechLivePortraitTriton.BatchProcessVideos
          (Sdk.failingAt 0 (Call.AllocateState 0) (-1)) [List.replicate 528 1] 20).map
        (fun st => (st.err, st.trace)) =
        some (NVCV_SUCCESS, [Event.AllocateState 0])) :=
  ⟨⟨by decide, by decide⟩, ⟨by decide, by decide⟩, by decide, by decide⟩

namespace WaveReadWrite

theorem toInt32_of_lt (x : Nat) (h : x < 2 ^ 31) : toInt32 x = (x : Int) := by
  unfold toInt32
  have h1 : x % 2 ^ 32 = x := Nat.mod_eq_of_lt (by omega)
  rw [h1, if_pos h]

/-- C20. `ReadWavFile` for a single valid file of `N` samples with the expected sample rate
and channel count and `align_samples = a > 0` (`N + a < 2^31`) returns true with
`*original_num_samples = N` and a vector that holds the `N` samples of the file followed
by `a - N % a` zeros: its length is `(N / a + 1) * a`, the smallest multiple of `a` that is
greater than `N`. When `a` divides `N` that is `N + a`, a whole frame of zeros more than
`N`, the smallest multiple of `a` that is at least `N`; when it does not, it is the smallest
multiple of `a` that is at least `N`. -/
theorem read_pads_to_next_multiple (wave_file : WaveFile) (a : Nat)
    (expected_sample_rate : Nat) (expected_num_channels : Int)
    (hv : wave_file.valid = true) (hr : wave_file.sampleRate = expected_sample_rate)
    (hc : (wave_file.nChannels : Int) = expected_num_channels) (ha : 0 < a)
    (hN : wave_file.samples.length + a < 2 ^ 31) :
    ReadWavFile wave_file expected_sample_rate expected_num_channels a =
      Outcome.returnedTrue
        (wave_file.samples ++ List.replicate (a - wave_file.samples.length % a) 0)
        wave_file.samples.length ∧
    (wave_file.samples ++ List.replicate (a - wave_file.samples.length % a) 0).length =
      (wave_file.samples.length / a + 1) * a ∧
    (a ∣ wave_file.samples.length →
      (wave_file.samples ++ List.replicate (a - wave_file.samples.length % a) 0).length =
        wave_file.samples.length + a) ∧
    (¬ a ∣ wave_file.samples.length →
      wave_file.samples.length <
        (wave_file.samples ++ List.replicate (a - wave_file.samples.length % a) 0).length ∧
      (wave_file.samples ++ List.replicate (a - wave_file.samples.length % a) 0).length <
        wave_file.samples.length + a) := by
  have hmod : wave_file.samples.length % a < a := Nat.mod_lt _ ha
  have hdm := Nat.div_add_mod wave_file.samples.length a
  have hlen : (wave_file.samples ++
      List.replicate (a - wave_file.samples.length % a) 0).length =
      (wave_file.samples.length / a + 1) * a := by
    rw [List.length_append, List.length_replicate, Nat.add_mul, Nat.one_mul,
      Nat.mul_comm (wave_file.samples.length / a) a]
    omega
  refine ⟨?_, hlen, ?_, ?_⟩
  · have h1 : wave_file.samples.length % 2 ^ 32 = wave_file.samples.length :=
      Nat.mod_eq_of_lt (by omega)
    have h2 : ((a : Int) % 2 ^ 32).toNat = a := by
      have : ((a : Int) % 2 ^ 32) = (a : Int) := Int.emod_eq_of_lt (by omega) (by omega)
      rw [this]
      rfl
    have h3 : (a + 2 ^ 32 - wave_file.samples.length % a) % 2 ^ 32 =
        a - wave_file.samples.length % a := by
      have : a + 2 ^ 32 - wave_file.samples.length % a =
          (a - wave_file.samples.length % a) + 2 ^ 32 := by omega
      rw [this, Nat.add_mod_right]
      exact Nat.mod_eq_of_lt (by omega)
    have h4 : toInt32 (wave_file.samples.length + (a - wave_file.samples.length % a)) =
        ((wave_file.samples.length + (a - wave_file.samples.length % a) : Nat) : Int) :=
      toInt32_of_lt _ (by omega)
    have hne : (a : Int) ≠ -1 := by omega
    have ha0 : a ≠ 0 := by omega
    unfold ReadWavFile
    simp only [hv, hr, hc, h1, h2, h3, h4, hne, ha0, Bool.true_eq_false, if_false, ne_eq,
      not_true_eq_false, not_false_eq_true, if_true, Int.toNat_ofNat]
    have hnn : ¬ ((wave_file.samples.length + (a - wave_file.samples.length % a) : Nat) :
        Int) < 0 := by omega
    rw [if_neg hnn]
    unfold resize
    rw [List.take_of_length_le (Nat.le_add_right _ _), Nat.add_sub_cancel_left]
  · intro hd
    rw [List.length_append, List.length_replicate, Nat.mod_eq_zero_of_dvd hd]
    rfl
  · intro hd
    have : wave_file.samples.length % a ≠ 0 := fun h => hd (Nat.dvd_of_mod_eq_zero h)
    rw [List.length_append, List.length_replicate]
    omega

/-- Witness of `read_pads_to_next_multiple`, the failing input of C20: a file of 528 samples
read with `align_samples = 528` comes back with 1056 entries, the 528 samples and 528 zeros,
where the smallest multiple of 528 that is at least 528 is 528. -/
theorem read_pads_to_next_multiple_witness :
    ((WaveFile.sample 528).valid = true ∧ (WaveFile.sample 528).sampleRate = 16000 ∧
      ((WaveFile.sample 528).nChannels : Int) = 1 ∧ 0 < 528 ∧
      (WaveFile.sample 528).samples.length + 528 < 2 ^ 31) ∧
    ReadWavFile (WaveFile.sample 528) 16000 1 (528 : Nat) =
      Outcome.returnedTrue (List.replicate 528 1 ++ List.replicate 528 0) 528 ∧
    (List.replicate 528 (1 : Sample) ++ List.replicate 528 0).length = 1056 := by
  have h5 : (WaveFile.sample 528).samples.length + 528 < 2 ^ 31 := by
    simp [WaveFile.sample]
  obtain ⟨h, _⟩ := read_pads_to_next_multiple (WaveFile.sample 528) 528 16000 1 rfl rfl rfl
    (by omega) h5
  refine ⟨⟨rfl, rfl, rfl, by omega, h5⟩, ?_, by simp⟩
  rw [h]
  simp [WaveFile.sample]

end WaveReadWrite

namespace SpeechLivePortraitApp

theorem feedAndRun_ok (env : Env) (hs : env.AllSucceed) (p : Phase) (i : Nat)
    (frame : List Sample) (st : State) :
    feedAndRun env p i frame st =
      .ok { st with trace := st.trace ++ [Event.feed frame] ++ [Event.run] } := by
  obtain ⟨h1, h2, h3, _, _⟩ := hs
  unfold NVCV_SUCCESS at h1 h3
  simp [feedAndRun, h1, h2, h3]

theorem ProcessOutputVideo_ok (env : Env) (hs : env.AllSucceed) (p : Phase) (i : Nat)
    (st : State) :
    ProcessOutputVideo env p i st =
      (Err.errNone, { st with trace := st.trace ++ [Event.write] }) := by
  obtain ⟨_, _, _, h4, h5⟩ := hs
  unfold NVCV_SUCCESS at h4
  simp [ProcessOutputVideo, h4, h5]

theorem primeLoop_closed (env : Env) (hs : env.AllSucceed) (samples : List Sample)
    (spf : Nat) (st : State) (k : Nat) :
    primeLoop env samples spf k st =
      .ok { st with
            trace := st.trace ++
              (List.range k).flatMap (fun i => [Event.feed (audioFrame samples spf i),
                Event.run]) } := by
  induction k with
  | zero => simp [primeLoop]
  | succ k ih =>
    simp only [primeLoop, ih, feedAndRun_ok env hs, List.range_succ, List.flatMap_append,
      List.flatMap_singleton, List.flatMap_nil, List.append_assoc, List.singleton_append,
      List.cons_append, List.nil_append]

theorem pumpLoop_closed (env : Env) (hs : env.AllSucceed) (samples : List Sample)
    (spf L : Nat) (st : State) (k : Nat) :
    pumpLoop env samples spf L k st =
      .ok { app_err := if k = 0 then st.app_err else Err.errNone
            trace := st.trace ++
              (List.range k).flatMap (fun i => [Event.feed (audioFrame samples spf (L + i)),
                Event.run, Event.write]) } := by
  induction k with
  | zero => simp [pumpLoop]
  | succ k ih =>
    simp only [pumpLoop, ih, feedAndRun_ok env hs, ProcessOutputVideo_ok env hs,
      List.range_succ, List.flatMap_append, List.flatMap_singleton, List.flatMap_nil,
      List.append_assoc, List.singleton_append, List.cons_append, List.nil_append]
    simp

theorem flushLoop_closed (env : Env) (hs : env.AllSucceed) (spf : Nat) (st : State)
    (k : Nat) :
    flushLoop env spf k st =
      .ok { app_err := if k = 0 then st.app_err else Err.errNone
            trace := st.trace ++
              (List.range k).flatMap (fun _ => [Event.feed (List.replicate spf 0),
                Event.run, Event.write]) } := by
  induction k with
  | zero => simp [flushLoop]
  | succ k ih =>
    simp only [flushLoop, ih, feedAndRun_ok env hs, ProcessOutputVideo_ok env hs,
      List.range_succ, List.flatMap_append, List.flatMap_singleton, List.flatMap_nil,
      List.append_assoc, List.singleton_append, List.cons_append, List.nil_append]
    simp

theorem count_flatMap_const (k : Nat) (f : Nat → List Event)
    (e : Event) (c : Nat) (h : ∀ i, (f i).count e = c) :
    ((List.range k).flatMap f).count e = k * c := by
  induction k with
  | zero => simp
  | succ k ih =>
    rw [List.range_succ, List.flatMap_append, List.count_append, ih, List.flatMap_singleton,
      h, Nat.succ_mul]

/-- C18. The three loops of `App::Run` for an audio of `n = size / samples_per_frame` frames
and an init latency `L`, when no call fails and the generated video is captured: the loop
`Prime` feeds the first `min L n` frames and runs inference on each without output, `Pump`
feeds the frames `L .. n - 1` and `Flush` feeds `L` frames of zeros, each of the two running
inference and writing one output frame per iteration. The inference calls are `n + L`; the
output frames written are `(n - L) + L`, which is `n` when `L <= n` and is `L`, more than the
`n` input frames, when `n < L`. -/
theorem outputs_written_by_pump_and_flush (env : Env) (hs : env.AllSucceed)
    (input_wav_samples : List Sample) (samples_per_frame init_latency_frame_cnt : Nat) :
    (Run env input_wav_samples samples_per_frame init_latency_frame_cnt).2.trace =
      (List.range (min init_latency_frame_cnt
        (input_wav_samples.length / samples_per_frame))).flatMap
          (fun i => [Event.feed (audioFrame input_wav_samples samples_per_frame i),
            Event.run]) ++
        (List.range
          (input_wav_samples.length / samples_per_frame - init_latency_frame_cnt)).flatMap
          (fun i => [Event.feed (audioFrame input_wav_samples samples_per_frame
            (init_latency_frame_cnt + i)), Event.run, Event.write]) ++
        (List.range init_latency_frame_cnt).flatMap
          (fun _ => [Event.feed (List.replicate samples_per_frame 0), Event.run,
            Event.write]) ∧
    (Run env input_wav_samples samples_per_frame init_latency_frame_cnt).2.trace.count
        Event.run =
      input_wav_samples.length / samples_per_frame + init_latency_frame_cnt ∧
    (Run env input_wav_samples samples_per_frame init_latency_frame_cnt).2.trace.count
        Event.write =
      (input_wav_samples.length / samples_per_frame - init_latency_frame_cnt) +
        init_latency_frame_cnt ∧
    (init_latency_frame_cnt ≤ input_wav_samples.length / samples_per_frame →
      (Run env input_wav_samples samples_per_frame init_latency_frame_cnt).2.trace.count
          Event.write = input_wav_samples.length / samples_per_frame) ∧
    (input_wav_samples.length / samples_per_frame < init_latency_frame_cnt →
      (Run env input_wav_samples samples_per_frame init_latency_frame_cnt).2.trace.count
          Event.write = init_latency_frame_cnt) := by
  have htr : (Run env input_wav_samples samples_per_frame init_latency_frame_cnt).2.trace =
      (List.range (min init_latency_frame_cnt
        (input_wav_samples.length / samples_per_frame))).flatMap
          (fun i => [Event.feed (audioFrame input_wav_samples samples_per_frame i),
            Event.run]) ++
        (List.range
          (input_wav_samples.length / samples_per_frame - init_latency_frame_cnt)).flatMap
          (fun i => [Event.feed (audioFrame input_wav_samples samples_per_frame
            (init_latency_frame_cnt + i)), Event.run, Event.write]) ++
        (List.range init_latency_frame_cnt).flatMap
          (fun _ => [Event.feed (List.replicate samples_per_frame 0), Event.run,
            Event.write]) := by
    simp only [Run, primeLoop_closed env hs, pumpLoop_closed env hs, flushLoop_closed env hs,
      List.nil_append, List.append_assoc]
  have hrun : (Run env input_wav_samples samples_per_frame
      init_latency_frame_cnt).2.trace.count Event.run =
      input_wav_samples.length / samples_per_frame + init_latency_frame_cnt := by
    rw [htr, List.count_append, List.count_append,
      count_flatMap_const _ _ Event.run 1 (fun _ => by simp [List.count_cons]),
      count_flatMap_const _ _ Event.run 1 (fun _ => by simp [List.count_cons]),
      count_flatMap_const _ _ Event.run 1 (fun _ => by simp [List.count_cons])]
    omega
  have hwr : (Run env input_wav_samples samples_per_frame
      init_latency_frame_cnt).2.trace.count Event.write =
      (input_wav_samples.length / samples_per_frame - init_latency_frame_cnt) +
        init_latency_frame_cnt := by
    rw [htr, List.count_append, List.count_append,
      count_flatMap_const _ _ Event.write 0 (fun _ => by simp [List.count_cons]),
      count_flatMap_const _ _ Event.write 1 (fun _ => by simp [List.count_cons]),
      count_flatMap_const _ _ Event.write 1 (fun _ => by simp [List.count_cons])]
    omega
  refine ⟨htr, hrun, hwr, ?_, ?_⟩
  · intro h
    rw [hwr]
    omega
  · intro h
    rw [hwr]
    omega

/-- Witness of `outputs_written_by_pump_and_flush`, the failing input of C18: an audio of
`n = 2` frames of 528 samples with the init latency `L = 6`. The run makes 8 inference calls
and writes 6 output frames for its 2 input frames. -/
theorem outputs_written_by_pump_and_flush_witness :
    Env.succeeding.AllSucceed ∧
    (List.replicate 1056 (1 : Sample)).length / 528 = 2 ∧
    (Run Env.succeeding (List.replicate 1056 1) 528 6).1 = Err.errNone ∧
    (Run Env.succeeding (List.replicate 1056 1) 528 6).2.trace.count Event.run = 8 ∧
    (Run Env.succeeding (List.replicate 1056 1) 528 6).2.trace.count Event.write = 6 := by
  have hs : Env.succeeding.AllSucceed :=
    ⟨fun _ _ => rfl, fun _ _ => rfl, fun _ _ => rfl, fun _ _ => rfl, rfl⟩
  have hn : (List.replicate 1056 (1 : Sample)).length / 528 = 2 := by
    rw [List.length_replicate]
  obtain ⟨_, h2, h3, _⟩ := outputs_written_by_pump_and_flush Env.succeeding hs
    (List.replicate 1056 1) 528 6
  rw [hn] at h2 h3
  exact ⟨hs, hn, by decide, h2, h3⟩

end SpeechLivePortraitApp

section RunFailure

end RunFailure

section AllocationFailure

theorem ft_openLoop_ok (videos : List Video) :
    ∀ k, k ≤ videos.length → ∀ caps w h, FaceTrackTriton.openLoop videos k = .ok (caps, w, h) →
      caps.length = videos.length ∧
      ∀ j, j < k → caps[j]? = some (rewound videos j) ∧ 1 ≤ numFrames videos j := by
  intro k
  induction k with
  | zero =>
    intro _ caps w h hok
    simp only [FaceTrackTriton.openLoop] at hok
    cases hok
    exact ⟨by simp, fun j hj => absurd hj (by omega)⟩
  | succ k ih =>
    intro hk caps w h hok
    simp only [FaceTrackTriton.openLoop] at hok
    cases hp : FaceTrackTriton.openLoop videos k with
    | error e => rw [hp] at hok; cases hok
    | ok r =>
      obtain ⟨caps0, w0, h0⟩ := r
      rw [hp] at hok
      simp only at hok
      obtain ⟨i1, i2⟩ := ih (by omega) caps0 w0 h0 hp
      have key : ∀ (w1 h1 : Nat),
          (!(VideoCapture.open (videos.getD k Video.absent)).opened) ≠ true →
          (VideoCapture.open (videos.getD k Video.absent)).image ≠ none →
          (caps0.set k
            { (VideoCapture.open (videos.getD k Video.absent)).advance with pos := 0 },
            w1, h1) = (caps, w, h) →
          caps.length = videos.length ∧
            ∀ j, j < k + 1 → caps[j]? = some (rewound videos j) ∧ 1 ≤ numFrames videos j := by
        intro w1 h1 c1 hi hc
        have ho : (VideoCapture.open (videos.getD k Video.absent)).opened = true := by
          simpa using c1
        have hopens : (videos.getD k Video.absent).opens = true := by
          simpa [VideoCapture.open] using ho
        have hcap : VideoCapture.open (videos.getD k Video.absent) = rewound videos k := by
          simp only [VideoCapture.open, hopens, if_true, rewound]
        have hadv : ({ (VideoCapture.open (videos.getD k Video.absent)).advance with
            pos := 0 } : VideoCapture) = rewound videos k := by
          rw [hcap]
          simp only [VideoCapture.advance, rewound]
          split <;> rfl
        have hnf : 1 ≤ numFrames videos k := by
          rw [hcap] at hi
          simp only [VideoCapture.image, rewound, if_true] at hi
          rw [ne_eq, List.getElem?_eq_none_iff] at hi
          unfold numFrames
          omega
        rw [hadv] at hc
        cases hc
        refine ⟨by simp [i1], ?_⟩
        intro j hj
        rw [List.getElem?_set]
        by_cases hjk : k = j
        · subst hjk
          rw [if_pos rfl, if_pos (by omega)]
          exact ⟨rfl, hnf⟩
        · rw [if_neg hjk]
          exact i2 j (by omega)
      split_ifs at hok with c1 c2 c3 c4
      · exact key _ _ c1 c2 (Except.ok.inj hok)
      · exact key _ _ c1 c2 (Except.ok.inj hok)

theorem ft_initLoop_error_stays (sdk : Sdk) (s0 e : FaceTrackTriton.State) (k m : Nat)
    (h : FaceTrackTriton.initLoop sdk k s0 = .error e) :
    FaceTrackTriton.initLoop sdk (k + m) s0 = .error e := by
  induction m with
  | zero => exact h
  | succ m ih =>
    rw [← Nat.add_assoc]
    simp only [FaceTrackTriton.initLoop, ih]

theorem ft_initLoop_trace (sdk : Sdk) (s0 : FaceTrackTriton.State) :
    ∀ k,
      (∀ s, FaceTrackTriton.initLoop sdk k s0 = .ok s →
        s.list_of_writers = s0.list_of_writers ∧
        (∀ e ∈ s.trace, e ∈ s0.trace ∨ ∃ j, j < k ∧ e = Event.AllocateState j) ∧
        s.list_of_captures.length = s0.list_of_captures.length ∧
        s.frames.length = s0.frames.length ∧
        (∀ j, k ≤ j → s.list_of_captures[j]? = s0.list_of_captures[j]?) ∧
        ∀ j, j < k → j < s0.list_of_captures.length → j < s0.frames.length →
          (s0.list_of_captures.getD j VideoCapture.new).opened = true →
          (s0.list_of_captures.getD j VideoCapture.new).image ≠ none →
          sdk.status (Call.AllocateState j) = 0) ∧
      ∀ s, FaceTrackTriton.initLoop sdk k s0 = .error s →
        s.list_of_writers = s0.list_of_writers ∧
        ∀ e ∈ s.trace, e ∈ s0.trace ∨ ∃ j, j < k ∧ e = Event.AllocateState j := by
  intro k
  induction k with
  | zero =>
    refine ⟨?_, ?_⟩
    · intro s h
      cases h
      exact ⟨rfl, fun e he => Or.inl he, rfl, rfl, fun _ _ => rfl,
        fun j hj => absurd hj (by omega)⟩
    · intro s h
      cases h
  | succ k ih =>
    obtain ⟨ihok, iherr⟩ := ih
    cases hp : FaceTrackTriton.initLoop sdk k s0 with
    | error e0 =>
      refine ⟨?_, ?_⟩
      · intro s h
        simp only [FaceTrackTriton.initLoop, hp] at h
        cases h
      · intro s h
        simp only [FaceTrackTriton.initLoop, hp] at h
        cases h
        obtain ⟨a1, a2⟩ := iherr e0 hp
        refine ⟨a1, fun e he => ?_⟩
        rcases a2 e he with h1 | ⟨j, hj, h1⟩
        · exact Or.inl h1
        · exact Or.inr ⟨j, by omega, h1⟩
    | ok p =>
      obtain ⟨b1, b2, b3, b4, b5, b6⟩ := ihok p hp
      have hmono : ∀ e, (e ∈ s0.trace ∨ ∃ j, j < k ∧ e = Event.AllocateState j) →
          (e ∈ s0.trace ∨ ∃ j, j < k + 1 ∧ e = Event.AllocateState j) := by
        intro e he
        rcases he with h1 | ⟨j, hj, h1⟩
        · exact Or.inl h1
        · exact Or.inr ⟨j, by omega, h1⟩
      have hcapk : p.list_of_captures.getD k VideoCapture.new =
          s0.list_of_captures.getD k VideoCapture.new :=
        getD_congr _ (b5 k (Nat.le_refl k))
      refine ⟨?_, ?_⟩
      · intro s h
        simp only [FaceTrackTriton.initLoop, hp] at h
        by_cases ho : (p.list_of_captures.getD k VideoCapture.new).opened = true
        · simp only [ho, Bool.not_true, Bool.false_eq_true, if_false] at h
          by_cases hf : (p.frames.set k (p.list_of_captures.getD k VideoCapture.new).image).getD
              k none = none
          · rw [if_pos hf] at h
            cases h
            refine ⟨b1, fun e he => hmono e (b2 e he), by simp [b3], by simp [b4], ?_, ?_⟩
            · intro j hj
              simp only
              rw [List.getElem?_set, if_neg (by omega), List.getElem?_set, if_neg (by omega)]
              exact b5 j (by omega)
            · intro j hj hj1 hj2 hop him
              by_cases hjk : j = k
              · subst hjk
                exfalso
                rw [List.getD_eq_getElem?_getD, List.getElem?_set, if_pos rfl,
                  if_pos (by omega)] at hf
                rw [hcapk] at hf
                exact him hf
              · exact b6 j (by omega) hj1 hj2 hop him
          · rw [if_neg hf] at h
            by_cases hst : sdk.status (Call.AllocateState k) = 0
            · have hI : (FaceTrackTriton.InitVideoStream sdk k
                  { p with
                    list_of_captures :=
                      p.list_of_captures.set k
                        (p.list_of_captures.getD k VideoCapture.new).advance
                    frames :=
                      p.frames.set k (p.list_of_captures.getD k VideoCapture.new).image }).1 =
                  0 := by
                simp [FaceTrackTriton.InitVideoStream, App.InitStream, hst, NVCV_SUCCESS]
              rw [if_neg (not_not.mpr hI)] at h
              cases h
              refine ⟨b1, ?_, by simp [FaceTrackTriton.InitVideoStream, b3],
                by simp [FaceTrackTriton.InitVideoStream, b4], ?_, ?_⟩
              · intro e he
                simp only [FaceTrackTriton.InitVideoStream, List.mem_append,
                  List.mem_singleton] at he
                rcases he with he | he
                · exact hmono e (b2 e he)
                · exact Or.inr ⟨k, by omega, he⟩
              · intro j hj
                simp only [FaceTrackTriton.InitVideoStream]
                rw [List.getElem?_set, if_neg (by omega)]
                exact b5 j (by omega)
              · intro j hj hj1 hj2 hop him
                by_cases hjk : j = k
                · subst hjk
                  exact hst
                · exact b6 j (by omega) hj1 hj2 hop him
            · have hI : (FaceTrackTriton.InitVideoStream sdk k
                  { p with
                    list_of_captures :=
                      p.list_of_captures.set k
                        (p.list_of_captures.getD k VideoCapture.new).advance
                    frames :=
                      p.frames.set k (p.list_of_captures.getD k VideoCapture.new).image }).1 ≠
                  0 := by
                simp [FaceTrackTriton.InitVideoStream, App.InitStream, hst]
              rw [if_pos hI] at h
              cases h
        · simp only [ho, Bool.not_false, if_true] at h
          cases h
          refine ⟨b1, fun e he => hmono e (b2 e he), b3, b4, fun j hj => b5 j (by omega), ?_⟩
          intro j hj hj1 hj2 hop him
          by_cases hjk : j = k
          · subst hjk
            rw [hcapk] at ho
            exact absurd hop ho
          · exact b6 j (by omega) hj1 hj2 hop him
      · intro s h
        simp only [FaceTrackTriton.initLoop, hp] at h
        split_ifs at h
        cases h
        refine ⟨b1, ?_⟩
        intro e he
        simp only [FaceTrackTriton.InitVideoStream, List.mem_append,
          List.mem_singleton] at he
        rcases he with he | he
        · exact hmono e (b2 e he)
        · exact Or.inr ⟨k, by omega, he⟩

theorem ft_initLoop_fails (sdk : Sdk) (N i : Nat) (s2 : FaceTrackTriton.State)
    (hi : i < N) (hc : i < s2.list_of_captures.length) (hf : i < s2.frames.length)
    (ho : (s2.list_of_captures.getD i VideoCapture.new).opened = true)
    (him : (s2.list_of_captures.getD i VideoCapture.new).image ≠ none)
    (ht : s2.trace = []) (hst : sdk.status (Call.AllocateState i) ≠ 0) :
    (∀ s, FaceTrackTriton.initLoop sdk N s2 ≠ .ok s) ∧
    ∀ e, FaceTrackTriton.initLoop sdk N s2 = .error e →
      e.list_of_writers = s2.list_of_writers ∧
      ∀ ev ∈ e.trace, ∃ j, j ≤ i ∧ ev = Event.AllocateState j := by
  obtain ⟨tok, terr⟩ := ft_initLoop_trace sdk s2 (i + 1)
  have hN : N = (i + 1) + (N - (i + 1)) := by omega
  cases hinit : FaceTrackTriton.initLoop sdk (i + 1) s2 with
  | ok s =>
    exfalso
    obtain ⟨_, _, _, _, _, b6⟩ := tok s hinit
    exact hst (b6 i (by omega) hc hf ho him)
  | error e =>
    have hall := ft_initLoop_error_stays sdk s2 e (i + 1) (N - (i + 1)) hinit
    rw [← hN] at hall
    rw [hall]
    obtain ⟨a1, a2⟩ := terr e hinit
    refine ⟨(fun s h => by cases h), ?_⟩
    intro e1 he1
    cases he1
    refine ⟨a1, ?_⟩
    intro ev hev
    rcases a2 ev hev with h1 | ⟨j, hj, h1⟩
    · rw [ht] at h1
      cases h1
    · exact ⟨j, by omega, h1⟩

theorem ft_allocation_failure (sdk : Sdk) (videos : List Video) (fuel i : Nat)
    (hi : i < videos.length) (hst : sdk.status (Call.AllocateState i) ≠ 0) :
    ∃ st, FaceTrackTriton.BatchProcessVideos sdk videos fuel = some st ∧
      (∀ e ∈ st.trace, ∃ j, j ≤ i ∧ e = Event.AllocateState j) ∧
      ∀ w ∈ st.list_of_writers, w = [] := by
  have hrep : ∀ w ∈ List.replicate videos.length ([] : List FaceTrackTriton.VizFrame),
      w = [] := fun w hw => (List.mem_replicate.mp hw).2
  have hg : ¬ ¬ videos.length > 0 := by omega
  unfold FaceTrackTriton.BatchProcessVideos
  dsimp only
  rw [if_neg hg]
  cases hopen : FaceTrackTriton.openLoop videos videos.length with
  | error e => exact ⟨_, rfl, (fun e he => by cases he), hrep⟩
  | ok r =>
    obtain ⟨caps, w, h⟩ := r
    dsimp only
    obtain ⟨o1, o2⟩ := ft_openLoop_ok videos videos.length (Nat.le_refl _) caps w h hopen
    have hcap : caps.getD i VideoCapture.new = rewound videos i :=
      getD_of_getElem? _ (o2 i hi).1
    split_ifs
    · exact ⟨_, rfl, (fun e he => by cases he), hrep⟩
    · exact ⟨_, rfl, (fun e he => by cases he), hrep⟩
    · exact ⟨_, rfl, (fun e he => by cases he), hrep⟩
    · exact ⟨_, rfl, (fun e he => by cases he), hrep⟩
    · exact ⟨_, rfl, (fun e he => by cases he), hrep⟩
    · split
      · rename_i e heq
        obtain ⟨a1, a2⟩ := (ft_initLoop_fails sdk videos.length i _ hi
          (by rw [o1]; exact hi) (by simp; exact hi)
          (by rw [hcap]; rfl)
          (by
            rw [hcap]
            simp only [VideoCapture.image, rewound, if_true, ne_eq]
            rw [List.getElem?_eq_none_iff]
            have := (o2 i hi).2
            unfold numFrames at this
            omega)
          rfl hst).2 e heq
        refine ⟨e, rfl, a2, ?_⟩
        rw [a1]
        exact hrep
      · rename_i s heq
        exfalso
        exact (ft_initLoop_fails sdk videos.length i _ hi
          (by rw [o1]; exact hi) (by simp; exact hi)
          (by rw [hcap]; rfl)
          (by
            rw [hcap]
            simp only [VideoCapture.image, rewound, if_true, ne_eq]
            rw [List.getElem?_eq_none_iff]
            have := (o2 i hi).2
            unfold numFrames at this
            omega)
          rfl hst).1 s heq

theorem ls_openLoop_ok (videos : List Video) (N : Nat) :
    ∀ k, k ≤ N → ∀ caps w h, LipSyncTriton.openLoop videos N k = .ok (caps, w, h) →
      caps.length = N ∧
      ∀ j, j < k → ∃ v, videos[j]? = some v ∧ v.opens = true ∧
        caps[j]? = some { opened := true, frames := v.frames, pos := 0 } := by
  intro k
  induction k with
  | zero =>
    intro _ caps w h hok
    simp only [LipSyncTriton.openLoop] at hok
    cases hok
    exact ⟨by simp, fun j hj => absurd hj (by omega)⟩
  | succ k ih =>
    intro hk caps w h hok
    simp only [LipSyncTriton.openLoop] at hok
    cases hp : LipSyncTriton.openLoop videos N k with
    | error e => rw [hp] at hok; cases hok
    | ok r =>
      obtain ⟨caps0, w0, h0⟩ := r
      rw [hp] at hok
      dsimp only at hok
      obtain ⟨i1, i2⟩ := ih (by omega) caps0 w0 h0 hp
      cases hv : videos[k]? with
      | none => rw [hv] at hok; cases hok
      | some v =>
        rw [hv] at hok
        dsimp only at hok
        have key : ∀ (w1 h1 : Nat), (!(VideoCapture.open v).opened) ≠ true →
            (caps0.set k { VideoCapture.open v with pos := 0 }, w1, h1) = (caps, w, h) →
            caps.length = N ∧
              ∀ j, j < k + 1 → ∃ v, videos[j]? = some v ∧ v.opens = true ∧
                caps[j]? = some { opened := true, frames := v.frames, pos := 0 } := by
          intro w1 h1 c1 hc
          have hopens : v.opens = true := by simpa [VideoCapture.open] using c1
          have hcap : ({ VideoCapture.open v with pos := 0 } : VideoCapture) =
              { opened := true, frames := v.frames, pos := 0 } := by
            simp [VideoCapture.open, hopens]
          rw [hcap] at hc
          cases hc
          refine ⟨by simp [i1], ?_⟩
          intro j hj
          rw [List.getElem?_set]
          by_cases hjk : k = j
          · subst hjk
            rw [if_pos rfl, if_pos (by omega)]
            exact ⟨v, hv, hopens, rfl⟩
          · rw [if_neg hjk]
            exact i2 j (by omega)
        split_ifs at hok with c1 c2 c3 c4
        · exact key _ _ c1 (Except.ok.inj hok)
        · exact key _ _ c1 (Except.ok.inj hok)

theorem ls_initLoop_error_stays (sdk : Sdk) (s0 e : LipSyncTriton.State) (k m : Nat)
    (h : LipSyncTriton.initLoop sdk k s0 = .error e) :
    LipSyncTriton.initLoop sdk (k + m) s0 = .error e := by
  induction m with
  | zero => exact h
  | succ m ih =>
    rw [← Nat.add_assoc]
    simp only [LipSyncTriton.initLoop, ih]

theorem ls_initLoop_trace (sdk : Sdk) (s0 : LipSyncTriton.State) :
    ∀ k,
      (∀ s, LipSyncTriton.initLoop sdk k s0 = .ok s →
        s.list_of_writers = s0.list_of_writers ∧
        (∀ e ∈ s.trace, e ∈ s0.trace ∨ ∃ j, j < k ∧ e = Event.AllocateState j) ∧
        s.list_of_captures.length = s0.list_of_captures.length ∧
        s.frames.length = s0.frames.length ∧
        s.audio_finished = s0.audio_finished ∧
        (∀ j, k ≤ j → s.list_of_captures[j]? = s0.list_of_captures[j]?) ∧
        ∀ j, j < k → j < s0.list_of_captures.length → j < s0.frames.length →
          (s0.list_of_captures.getD j VideoCapture.new).opened = true →
          (s0.list_of_captures.getD j VideoCapture.new).image ≠ none →
          s0.audio_finished.getD j false = false →
          sdk.status (Call.AllocateState j) = 0) ∧
      ∀ s, LipSyncTriton.initLoop sdk k s0 = .error s →
        s.list_of_writers = s0.list_of_writers ∧
        ∀ e ∈ s.trace, e ∈ s0.trace ∨ ∃ j, j < k ∧ e = Event.AllocateState j := by
  intro k
  induction k with
  | zero =>
    refine ⟨?_, ?_⟩
    · intro s h
      cases h
      exact ⟨rfl, fun e he => Or.inl he, rfl, rfl, rfl, fun _ _ => rfl,
        fun j hj => absurd hj (by omega)⟩
    · intro s h
      cases h
  | succ k ih =>
    obtain ⟨ihok, iherr⟩ := ih
    cases hp : LipSyncTriton.initLoop sdk k s0 with
    | error e0 =>
      refine ⟨?_, ?_⟩
      · intro s h
        simp only [LipSyncTriton.initLoop, hp] at h
        cases h
      · intro s h
        simp only [LipSyncTriton.initLoop, hp] at h
        cases h
        obtain ⟨a1, a2⟩ := iherr e0 hp
        refine ⟨a1, fun e he => ?_⟩
        rcases a2 e he with h1 | ⟨j, hj, h1⟩
        · exact Or.inl h1
        · exact Or.inr ⟨j, by omega, h1⟩
    | ok p =>
      obtain ⟨b1, b2, b3, b4, bfin, b5, b6⟩ := ihok p hp
      have hmono : ∀ e, (e ∈ s0.trace ∨ ∃ j, j < k ∧ e = Event.AllocateState j) →
          (e ∈ s0.trace ∨ ∃ j, j < k + 1 ∧ e = Event.AllocateState j) := by
        intro e he
        rcases he with h1 | ⟨j, hj, h1⟩
        · exact Or.inl h1
        · exact Or.inr ⟨j, by omega, h1⟩
      have hcapk : p.list_of_captures.getD k VideoCapture.new =
          s0.list_of_captures.getD k VideoCapture.new :=
        getD_congr _ (b5 k (Nat.le_refl k))
      refine ⟨?_, ?_⟩
      · intro s h
        simp only [LipSyncTriton.initLoop, hp] at h
        by_cases ho : (p.list_of_captures.getD k VideoCapture.new).opened = true
        · simp only [ho, Bool.not_true, Bool.false_eq_true, if_false] at h
          by_cases hf : (p.frames.set k (p.list_of_captures.getD k VideoCapture.new).image).getD
              k none = none ∨ p.audio_finished.getD k false = true
          · rw [if_pos hf] at h
            cases h
            refine ⟨b1, fun e he => hmono e (b2 e he), by simp [b3], by simp [b4], bfin, ?_,
              ?_⟩
            · intro j hj
              simp only
              rw [List.getElem?_set, if_neg (by omega), List.getElem?_set, if_neg (by omega)]
              exact b5 j (by omega)
            · intro j hj hj1 hj2 hop him hfin
              by_cases hjk : j = k
              · subst hjk
                exfalso
                rcases hf with hf | hf
                · rw [List.getD_eq_getElem?_getD, List.getElem?_set, if_pos rfl,
                    if_pos (by omega)] at hf
                  rw [hcapk] at hf
                  exact him hf
                · rw [bfin, hfin] at hf
                  cases hf
              · exact b6 j (by omega) hj1 hj2 hop him hfin
          · rw [if_neg hf] at h
            by_cases hst : sdk.status (Call.AllocateState k) = 0
            · have hI : (LipSyncTriton.InitStream sdk k
                  { p with
                    list_of_captures :=
                      p.list_of_captures.set k
                        (p.list_of_captures.getD k VideoCapture.new).advance
                    frames :=
                      p.frames.set k (p.list_of_captures.getD k VideoCapture.new).image }).1 =
                  0 := by
                simp [LipSyncTriton.InitStream, App.InitStream, hst, NVCV_SUCCESS]
              rw [if_neg (not_not.mpr hI)] at h
              cases h
              refine ⟨b1, ?_, by simp [LipSyncTriton.InitStream, b3],
                by simp [LipSyncTriton.InitStream, b4], bfin, ?_, ?_⟩
              · intro e he
                simp only [LipSyncTriton.InitStream, List.mem_append,
                  List.mem_singleton] at he
                rcases he with he | he
                · exact hmono e (b2 e he)
                · exact Or.inr ⟨k, by omega, he⟩
              · intro j hj
                simp only [LipSyncTriton.InitStream]
                rw [List.getElem?_set, if_neg (by omega)]
                exact b5 j (by omega)
              · intro j hj hj1 hj2 hop him hfin
                by_cases hjk : j = k
                · subst hjk
                  exact hst
                · exact b6 j (by omega) hj1 hj2 hop him hfin
            · have hI : (LipSyncTriton.InitStream sdk k
                  { p with
                    list_of_captures :=
                      p.list_of_captures.set k
                        (p.list_of_captures.getD k VideoCapture.new).advance
                    frames :=
                      p.frames.set k (p.list_of_captures.getD k VideoCapture.new).image }).1 ≠
                  0 := by
                simp [LipSyncTriton.InitStream, App.InitStream, hst]
              rw [if_pos hI] at h
              cases h
        · simp only [ho, Bool.not_false, if_true] at h
          cases h
          refine ⟨b1, fun e he => hmono e (b2 e he), b3, b4, bfin, fun j hj => b5 j (by omega),
            ?_⟩
          intro j hj hj1 hj2 hop him hfin
          by_cases hjk : j = k
          · subst hjk
            rw [hcapk] at ho
            exact absurd hop ho
          · exact b6 j (by omega) hj1 hj2 hop him hfin
      · intro s h
        simp only [LipSyncTriton.initLoop, hp] at h
        split_ifs at h
        cases h
        refine ⟨b1, ?_⟩
        intro e he
        simp only [LipSyncTriton.InitStream, List.mem_append, List.mem_singleton] at he
        rcases he with he | he
        · exact hmono e (b2 e he)
        · exact Or.inr ⟨k, by omega, he⟩

theorem ls_initLoop_fails (sdk : Sdk) (N i : Nat) (s2 : LipSyncTriton.State)
    (hi : i < N) (hc : i < s2.list_of_captures.length) (hf : i < s2.frames.length)
    (ho : (s2.list_of_captures.getD i VideoCapture.new).opened = true)
    (him : (s2.list_of_captures.getD i VideoCapture.new).image ≠ none)
    (hfin : s2.audio_finished.getD i false = false)
    (ht : s2.trace = []) (hst : sdk.status (Call.AllocateState i) ≠ 0) :
    (∀ s, LipSyncTriton.initLoop sdk N s2 ≠ .ok s) ∧
    ∀ e, LipSyncTriton.initLoop sdk N s2 = .error e →
      e.list_of_writers = s2.list_of_writers ∧
      ∀ ev ∈ e.trace, ∃ j, j ≤ i ∧ ev = Event.AllocateState j := by
  obtain ⟨tok, terr⟩ := ls_initLoop_trace sdk s2 (i + 1)
  have hN : N = (i + 1) + (N - (i + 1)) := by omega
  cases hinit : LipSyncTriton.initLoop sdk (i + 1) s2 with
  | ok s =>
    exfalso
    obtain ⟨_, _, _, _, _, _, b6⟩ := tok s hinit
    exact hst (b6 i (by omega) hc hf ho him hfin)
  | error e =>
    have hall := ls_initLoop_error_stays sdk s2 e (i + 1) (N - (i + 1)) hinit
    rw [← hN] at hall
    rw [hall]
    obtain ⟨a1, a2⟩ := terr e hinit
    refine ⟨(fun s h => by cases h), ?_⟩
    intro e1 he1
    cases he1
    refine ⟨a1, ?_⟩
    intro ev hev
    rcases a2 ev hev with h1 | ⟨j, hj, h1⟩
    · rw [ht] at h1
      cases h1
    · exact ⟨j, by omega, h1⟩

theorem ls_allocation_failure (sdk : Sdk) (FLAG_verbose : Bool) (requestedEnd : Nat → Nat)
    (videos : List Video) (list_of_audio : List (List Sample)) (fuel i : Nat)
    (hi : i < list_of_audio.length)
    (hv : ∀ v, videos[i]? = some v → 1 ≤ v.frames.length)
    (hst : sdk.status (Call.AllocateState i) ≠ 0) :
    ∃ st, LipSyncTriton.BatchProcessVideos sdk FLAG_verbose requestedEnd videos list_of_audio
          fuel = some st ∧
      (∀ e ∈ st.trace, ∃ j, j ≤ i ∧ e = Event.AllocateState j) ∧
      ∀ w ∈ st.list_of_writers, w = [] := by
  have hrep : ∀ w ∈ List.replicate list_of_audio.length ([] : List Nat),
      w = [] := fun w hw => (List.mem_replicate.mp hw).2
  have hg : ¬ ¬ list_of_audio.length > 0 := by omega
  unfold LipSyncTriton.BatchProcessVideos
  dsimp only
  rw [if_neg hg]
  split
  · exact ⟨_, rfl, (fun e he => by cases he), hrep⟩
  · exact ⟨_, rfl, (fun e he => by cases he), hrep⟩
  · rename_i caps w h hopen
    obtain ⟨o1, o2⟩ := ls_openLoop_ok videos list_of_audio.length list_of_audio.length
      (Nat.le_refl _) caps w h hopen
    obtain ⟨v, hv1, hv2, hv3⟩ := o2 i hi
    have hcap : caps.getD i VideoCapture.new =
        { opened := true, frames := v.frames, pos := 0 } := getD_of_getElem? _ hv3
    have hnf := hv v hv1
    try dsimp only
    split_ifs
    · exact ⟨_, rfl, (fun e he => by cases he), hrep⟩
    · exact ⟨_, rfl, (fun e he => by cases he), hrep⟩
    · exact ⟨_, rfl, (fun e he => by cases he), hrep⟩
    · exact ⟨_, rfl, (fun e he => by cases he), hrep⟩
    · exact ⟨_, rfl, (fun e he => by cases he), hrep⟩
    · split
      · rename_i e heq
        obtain ⟨a1, a2⟩ := (ls_initLoop_fails sdk list_of_audio.length i _ hi
          (by simp only [LipSyncTriton.initialState]; rw [o1]; exact hi)
          (by simp [LipSyncTriton.initialState]; exact hi)
          (by simp only [LipSyncTriton.initialState]; rw [hcap])
          (by
            simp only [LipSyncTriton.initialState]
            rw [hcap]
            simp only [VideoCapture.image, if_true, ne_eq]
            rw [List.getElem?_eq_none_iff]
            omega)
          (by simp [LipSyncTriton.initialState, hi])
          rfl hst).2 e heq
        refine ⟨e, rfl, a2, ?_⟩
        rw [a1]
        exact hrep
      · rename_i s heq
        exfalso
        exact (ls_initLoop_fails sdk list_of_audio.length i _ hi
          (by simp only [LipSyncTriton.initialState]; rw [o1]; exact hi)
          (by simp [LipSyncTriton.initialState]; exact hi)
          (by simp only [LipSyncTriton.initialState]; rw [hcap])
          (by
            simp only [LipSyncTriton.initialState]
            rw [hcap]
            simp only [VideoCapture.image, if_true, ne_eq]
            rw [List.getElem?_eq_none_iff]
            omega)
          (by simp [LipSyncTriton.initialState, hi])
          rfl hst).1 s heq

theorem slp_initLoop_error_stays (sdk : Sdk) (chunks : List Nat)
    (s0 e : SpeechLivePortraitTriton.State) (k m : Nat)
    (h : SpeechLivePortraitTriton.initLoop sdk chunks k s0 = .error e) :
    SpeechLivePortraitTriton.initLoop sdk chunks (k + m) s0 = .error e := by
  induction m with
  | zero => exact h
  | succ m ih =>
    rw [← Nat.add_assoc]
    simp only [SpeechLivePortraitTriton.initLoop, ih]

theorem slp_initLoop_trace (sdk : Sdk) (chunks : List Nat)
    (s0 : SpeechLivePortraitTriton.State) :
    ∀ k,
      (∀ s, SpeechLivePortraitTriton.initLoop sdk chunks k s0 = .ok s →
        s.list_of_writers = s0.list_of_writers ∧
        (∀ e ∈ s.trace, e ∈ s0.trace ∨ ∃ j, j < k ∧ e = Event.AllocateState j) ∧
        ∀ j, j < k → chunks.getD j 0 ≠ 0 → sdk.status (Call.AllocateState j) = 0) ∧
      ∀ s, SpeechLivePortraitTriton.initLoop sdk chunks k s0 = .error s →
        s.list_of_writers = s0.list_of_writers ∧
        ∀ e ∈ s.trace, e ∈ s0.trace ∨ ∃ j, j < k ∧ e = Event.AllocateState j := by
  intro k
  induction k with
  | zero =>
    refine ⟨?_, ?_⟩
    · intro s h
      cases h
      exact ⟨rfl, fun e he => Or.inl he, fun j hj => absurd hj (by omega)⟩
    · intro s h
      cases h
  | succ k ih =>
    obtain ⟨ihok, iherr⟩ := ih
    cases hp : SpeechLivePortraitTriton.initLoop sdk chunks k s0 with
    | error e0 =>
      refine ⟨?_, ?_⟩
      · intro s h
        simp only [SpeechLivePortraitTriton.initLoop, hp] at h
        cases h
      · intro s h
        simp only [SpeechLivePortraitTriton.initLoop, hp] at h
        cases h
        obtain ⟨a1, a2⟩ := iherr e0 hp
        refine ⟨a1, fun e he => ?_⟩
        rcases a2 e he with h1 | ⟨j, hj, h1⟩
        · exact Or.inl h1
        · exact Or.inr ⟨j, by omega, h1⟩
    | ok p =>
      obtain ⟨b1, b2, b6⟩ := ihok p hp
      have hmono : ∀ e, (e ∈ s0.trace ∨ ∃ j, j < k ∧ e = Event.AllocateState j) →
          (e ∈ s0.trace ∨ ∃ j, j < k + 1 ∧ e = Event.AllocateState j) := by
        intro e he
        rcases he with h1 | ⟨j, hj, h1⟩
        · exact Or.inl h1
        · exact Or.inr ⟨j, by omega, h1⟩
      refine ⟨?_, ?_⟩
      · intro s h
        simp only [SpeechLivePortraitTriton.initLoop, hp] at h
        by_cases hz : chunks.getD k 0 = 0
        · rw [if_pos hz] at h
          cases h
          refine ⟨b1, fun e he => hmono e (b2 e he), ?_⟩
          intro j hj hnz
          by_cases hjk : j = k
          · subst hjk
            exact absurd hz hnz
          · exact b6 j (by omega) hnz
        · rw [if_neg hz] at h
          by_cases hst : sdk.status (Call.AllocateState k) = 0
          · have hI : (SpeechLivePortraitTriton.InitStream sdk k p).1 = 0 := by
              simp [SpeechLivePortraitTriton.InitStream, App.InitStream, hst, NVCV_SUCCESS]
            rw [if_neg (not_not.mpr hI)] at h
            cases h
            refine ⟨b1, ?_, ?_⟩
            · intro e he
              simp only [SpeechLivePortraitTriton.InitStream, List.mem_append,
                List.mem_singleton] at he
              rcases he with he | he
              · exact hmono e (b2 e he)
              · exact Or.inr ⟨k, by omega, he⟩
            · intro j hj hnz
              by_cases hjk : j = k
              · subst hjk
                exact hst
              · exact b6 j (by omega) hnz
          · have hI : (SpeechLivePortraitTriton.InitStream sdk k p).1 ≠ 0 := by
              simp [SpeechLivePortraitTriton.InitStream, App.InitStream, hst]
            rw [if_pos hI] at h
            cases h
      · intro s h
        simp only [SpeechLivePortraitTriton.initLoop, hp] at h
        split_ifs at h
        cases h
        refine ⟨b1, ?_⟩
        intro e he
        simp only [SpeechLivePortraitTriton.InitStream, List.mem_append,
          List.mem_singleton] at he
        rcases he with he | he
        · exact hmono e (b2 e he)
        · exact Or.inr ⟨k, by omega, he⟩

theorem slp_initLoop_fails (sdk : Sdk) (chunks : List Nat) (N i : Nat)
    (s2 : SpeechLivePortraitTriton.State) (hi : i < N) (hnz : chunks.getD i 0 ≠ 0)
    (ht : s2.trace = []) (hst : sdk.status (Call.AllocateState i) ≠ 0) :
    (∀ s, SpeechLivePortraitTriton.initLoop sdk chunks N s2 ≠ .ok s) ∧
    ∀ e, SpeechLivePortraitTriton.initLoop sdk chunks N s2 = .error e →
      e.list_of_writers = s2.list_of_writers ∧
      ∀ ev ∈ e.trace, ∃ j, j ≤ i ∧ ev = Event.AllocateState j := by
  obtain ⟨tok, terr⟩ := slp_initLoop_trace sdk chunks s2 (i + 1)
  have hN : N = (i + 1) + (N - (i + 1)) := by omega
  cases hinit : SpeechLivePortraitTriton.initLoop sdk chunks (i + 1) s2 with
  | ok s =>
    exfalso
    obtain ⟨_, _, b6⟩ := tok s hinit
    exact hst (b6 i (by omega) hnz)
  | error e =>
    have hall := slp_initLoop_error_stays sdk chunks s2 e (i + 1) (N - (i + 1)) hinit
    rw [← hN] at hall
    rw [hall]
    obtain ⟨a1, a2⟩ := terr e hinit
    refine ⟨(fun s h => by cases h), ?_⟩
    intro e1 he1
    cases he1
    refine ⟨a1, ?_⟩
    intro ev hev
    rcases a2 ev hev with h1 | ⟨j, hj, h1⟩
    · rw [ht] at h1
      cases h1
    · exact ⟨j, by omega, h1⟩

theorem slp_allocation_failure (sdk : Sdk) (list_of_audio : List (List Sample))
    (fuel i : Nat) (hi : i < list_of_audio.length)
    (hnz : SpeechLivePortraitTriton.kSamplesPerFrame ≤ (list_of_audio.getD i []).length)
    (hst : sdk.status (Call.AllocateState i) ≠ 0) :
    ∃ st, SpeechLivePortraitTriton.BatchProcessVideos sdk list_of_audio fuel = some st ∧
      (∀ e ∈ st.trace, ∃ j, j ≤ i ∧ e = Event.AllocateState j) ∧
      ∀ w ∈ st.list_of_writers, w = [] := by
  have hrep : ∀ w ∈ List.replicate list_of_audio.length ([] : List Nat),
      w = [] := fun w hw => (List.mem_replicate.mp hw).2
  have hch : (SpeechLivePortraitTriton.audioNrChunks list_of_audio).getD i 0 ≠ 0 := by
    rw [SpeechLivePortraitTriton.audioNrChunks_getD]
    have := Nat.div_pos hnz (by decide : 0 < SpeechLivePortraitTriton.kSamplesPerFrame)
    omega
  have hg : ¬ ¬ list_of_audio.length > 0 := by omega
  unfold SpeechLivePortraitTriton.BatchProcessVideos
  dsimp only
  rw [if_neg hg]
  split_ifs
  · exact ⟨_, rfl, (fun e he => by cases he), hrep⟩
  · exact ⟨_, rfl, (fun e he => by cases he), hrep⟩
  · exact ⟨_, rfl, (fun e he => by cases he), hrep⟩
  · exact ⟨_, rfl, (fun e he => by cases he), hrep⟩
  · exact ⟨_, rfl, (fun e he => by cases he), hrep⟩
  · split
    · rename_i e heq
      obtain ⟨a1, a2⟩ := (slp_initLoop_fails sdk _ list_of_audio.length i _ hi hch rfl
        hst).2 e heq
      refine ⟨e, rfl, a2, ?_⟩
      rw [a1]
      exact hrep
    · rename_i s heq
      exfalso
      exact (slp_initLoop_fails sdk _ list_of_audio.length i _ hi hch rfl hst).1 s heq

/-- C16, at a failing input. FaceTrack, two videos of two frames each, `NvAR_AllocateState`
fails for stream 0 only: the run ends before the first tick, with no inference call, and
nothing is written for stream 1 either, although with no failure both writers receive two
frames. The same when the allocation fails for stream 1: stream 0, already allocated, gets
no inference call and no output. LipSync, two streams of one frame, flush window 0,
allocation fails for stream 0: no inference call and nothing written for stream 1. -/
theorem allocation_failure_stops_the_other_streams :
    ((FaceTrackTriton.BatchProcessVideos (Sdk.failingAt 0 (Call.AllocateState 0) (-1))
          [Video.sample 2 10, Video.sample 2 20] 10).map
        (fun st => (st.trace, st.list_of_writers)) =
        some ([Event.AllocateState 0], [[], []]) ∧
      (FaceTrackTriton.BatchProcessVideos (Sdk.succeeding 0)
          [Video.sample 2 10, Video.sample 2 20] 10).map
        (fun st => (st.trace.countP Event.isRun, st.list_of_writers.map List.length)) =
        some (2, [2, 2])) ∧
    (FaceTrackTriton.BatchProcessVideos (Sdk.failingAt 0 (Call.AllocateState 1) (-1))
          [Video.sample 2 10, Video.sample 2 20] 10).map
        (fun st => (st.trace, st.list_of_writers)) =
        some ([Event.AllocateState 0, Event.AllocateState 1], [[], []]) ∧
    (LipSyncTriton.BatchProcessVideos (Sdk.failingAt 0 (Call.AllocateState 0) (-1)) false
          LipSyncTriton.exactRequestedEnd [Video.sample 1 10, Video.sample 1 20]
          [List.replicate 600 1, List.replicate 600 2] 10).map
        (fun st => (st.trace, st.list_of_writers)) =
        some ([Event.AllocateState 0], [[], []]) :=
  ⟨⟨by decide, by decide⟩, by decide, by decide⟩

/-- C16, amended. If `NvAR_AllocateState` fails for stream `i`, `BatchProcessVideos` ends
before the first tick, for every stream: the calls made are allocations of streams up to
`i` only, so there is no inference call and no release, and no writer receives a frame. In
FaceTrack this holds for every video `i`; in LipSync for a stream `i` whose video has a first
frame; in SpeechLivePortrait for a stream `i` whose audio holds at least one chunk. -/
theorem allocation_failure_ends_the_run (sdk : Sdk) (FLAG_verbose : Bool)
    (requestedEnd : Nat → Nat) (videos : List Video) (list_of_audio : List (List Sample))
    (fuel i : Nat) (hst : sdk.status (Call.AllocateState i) ≠ NVCV_SUCCESS) :
    (i < videos.length →
      ∃ st, FaceTrackTriton.BatchProcessVideos sdk videos fuel = some st ∧
        (∀ e ∈ st.trace, ∃ j, j ≤ i ∧ e = Event.AllocateState j) ∧
        ∀ w ∈ st.list_of_writers, w = []) ∧
    (i < list_of_audio.length → (∀ v, videos[i]? = some v → 1 ≤ v.frames.length) →
      ∃ st, LipSyncTriton.BatchProcessVideos sdk FLAG_verbose requestedEnd videos
            list_of_audio fuel = some st ∧
        (∀ e ∈ st.trace, ∃ j, j ≤ i ∧ e = Event.AllocateState j) ∧
        ∀ w ∈ st.list_of_writers, w = []) ∧
    (i < list_of_audio.length →
      SpeechLivePortraitTriton.kSamplesPerFrame ≤ (list_of_audio.getD i []).length →
      ∃ st, SpeechLivePortraitTriton.BatchProcessVideos sdk list_of_audio fuel = some st ∧
        (∀ e ∈ st.trace, ∃ j, j ≤ i ∧ e = Event.AllocateState j) ∧
        ∀ w ∈ st.list_of_writers, w = []) :=
  ⟨fun hi => ft_allocation_failure sdk videos fuel i hi hst,
   fun hi hv => ls_allocation_failure sdk FLAG_verbose requestedEnd videos list_of_audio fuel
     i hi hv hst,
   fun hi hn => slp_allocation_failure sdk list_of_audio fuel i hi hn hst⟩

/-- Witness of `allocation_failure_ends_the_run`: two streams, the allocation fails for
stream 1, whose video has three frames and whose audio holds one chunk. -/
theorem allocation_failure_ends_the_run_witness :
    (Sdk.failingAt 1 (Call.AllocateState 1) (-1)).status (Call.AllocateState 1) ≠
        NVCV_SUCCESS ∧
    1 < [Video.sample 2 10, Video.sample 3 20].length ∧
    1 < [List.replicate 600 (1 : Sample), List.replicate 600 2].length ∧
    (∀ v, [Video.sample 2 10, Video.sample 3 20][1]? = some v → 1 ≤ v.frames.length) ∧
    SpeechLivePortraitTriton.kSamplesPerFrame ≤
      (([List.replicate 600 (1 : Sample), List.replicate 600 2]).getD 1 []).length ∧
    ((1 < [Video.sample 2 10, Video.sample 3 20].length →
      ∃ st, FaceTrackTriton.BatchProcessVideos (Sdk.failingAt 1 (Call.AllocateState 1) (-1))
          [Video.sample 2 10, Video.sample 3 20] 10 = some st ∧
        (∀ e ∈ st.trace, ∃ j, j ≤ 1 ∧ e = Event.AllocateState j) ∧
        ∀ w ∈ st.list_of_writers, w = []) ∧
    (1 < [List.replicate 600 (1 : Sample), List.replicate 600 2].length →
      (∀ v, [Video.sample 2 10, Video.sample 3 20][1]? = some v → 1 ≤ v.frames.length) →
      ∃ st, LipSyncTriton.BatchProcessVideos (Sdk.failingAt 1 (Call.AllocateState 1) (-1))
            false LipSyncTriton.exactRequestedEnd [Video.sample 2 10, Video.sample 3 20]
            [List.replicate 600 (1 : Sample), List.replicate 600 2] 10 = some st ∧
        (∀ e ∈ st.trace, ∃ j, j ≤ 1 ∧ e = Event.AllocateState j) ∧
        ∀ w ∈ st.list_of_writers, w = []) ∧
    (1 < [List.replicate 600 (1 : Sample), List.replicate 600 2].length →
      SpeechLivePortraitTriton.kSamplesPerFrame ≤
        (([List.replicate 600 (1 : Sample), List.replicate 600 2]).getD 1 []).length →
      ∃ st, SpeechLivePortraitTriton.BatchProcessVideos
            (Sdk.failingAt 1 (Call.AllocateState 1) (-1))
            [List.replicate 600 (1 : Sample), List.replicate 600 2] 10 = some st ∧
        (∀ e ∈ st.trace, ∃ j, j ≤ 1 ∧ e = Event.AllocateState j) ∧
        ∀ w ∈ st.list_of_writers, w = [])) :=
  ⟨by decide, by decide, by decide,
   (fun v hv => by cases hv; decide),
   by decide,
   allocation_failure_ends_the_run (Sdk.failingAt 1 (Call.AllocateState 1) (-1)) false
     LipSyncTriton.exactRequestedEnd [Video.sample 2 10, Video.sample 3 20]
     [List.replicate 600 (1 : Sample), List.replicate 600 2] 10 1 (by decide)⟩

end AllocationFailure

section FlushAudio

theorem ls_pre_keeps_audio (sdk : Sdk) (V : Bool) (i : Nat) (s : LipSyncTriton.State) :
    (LipSyncTriton.flushOrSkip sdk i (LipSyncTriton.readNext V i s)).1.audio_finished =
      s.audio_finished ∧
    (LipSyncTriton.flushOrSkip sdk i (LipSyncTriton.readNext V i s)).1.frame_timestamp =
      s.frame_timestamp.set i (s.frame_timestamp.getD i 0 + 1) ∧
    (LipSyncTriton.flushOrSkip sdk i (LipSyncTriton.readNext V i s)).1.last_audio_end_sample =
      s.last_audio_end_sample ∧
    (LipSyncTriton.flushOrSkip sdk i (LipSyncTriton.readNext V i s)).1.audio_frame_batched =
      s.audio_frame_batched ∧
    (LipSyncTriton.flushOrSkip sdk i (LipSyncTriton.readNext V i s)).1.audio_frame_num_samples =
      s.audio_frame_num_samples := by
  unfold LipSyncTriton.flushOrSkip LipSyncTriton.readNext LipSyncTriton.ReleaseStream
  dsimp only
  split_ifs <;> exact ⟨rfl, rfl, rfl, rfl, rfl⟩

theorem ls_flushOrSkip_flush (sdk : Sdk) (V : Bool) (i : Nat) (s : LipSyncTriton.State)
    (hfin : s.audio_finished.getD i false = true)
    (hfl : 0 < s.flush_frames_remaining.getD i 0) :
    (LipSyncTriton.flushOrSkip sdk i (LipSyncTriton.readNext V i s)).2 = true := by
  unfold LipSyncTriton.flushOrSkip LipSyncTriton.readNext LipSyncTriton.ReleaseStream
  dsimp only
  split_ifs <;> rfl

theorem ls_cutAudio_finished (rE : Nat → Nat) (audio : List (List Sample)) (t i : Nat)
    (s : LipSyncTriton.State) (ts last : Nat) (hfin : s.audio_finished.getD i false = true)
    (hts : s.frame_timestamp.getD i 0 = ts) (hlast : s.last_audio_end_sample = last) :
    LipSyncTriton.cutAndStage rE audio t i s =
      .ok (LipSyncTriton.stage t i (LipSyncTriton.cutFrame rE audio i s)
        (LipSyncTriton.cutState rE audio i s)) ∧
    LipSyncTriton.cutFrame rE audio i s = List.replicate (rE ts - last) 0 ∧
    (LipSyncTriton.cutState rE audio i s).audio_frame_batched = s.audio_frame_batched ∧
    (LipSyncTriton.cutState rE audio i s).audio_frame_num_samples =
      s.audio_frame_num_samples := by
  have hne : ¬ (s.audio_finished.getD i false = false ∧
      min (rE (s.frame_timestamp.getD i 0)) (audio.getD i []).length <
        s.last_audio_end_sample) := fun h => by rw [hfin] at h; cases h.1
  have hne2 : ¬ (s.audio_finished.getD i false = false ∧
      rE (s.frame_timestamp.getD i 0) ≥ (audio.getD i []).length) :=
    fun h => by rw [hfin] at h; cases h.1
  refine ⟨by rw [LipSyncTriton.cutAndStage_eq, if_neg hne], ?_, ?_, ?_⟩
  · unfold LipSyncTriton.cutFrame
    rw [if_pos hfin, hts, hlast]
  · unfold LipSyncTriton.cutState
    rw [if_neg hne2]
  · unfold LipSyncTriton.cutState
    rw [if_neg hne2]

/-- C13, amended. On a flush tick of a stream whose audio is finished when the tick starts
(`audio_finished[i]` is set and `flush_frames_remaining[i] > 0`), the assembly either leaves
through `bail` because the transfer of the stream's current frame fails, or stages the stream
in the next slot with an audio frame that consists only of zero-valued samples: the batched
audio grows by `requested_audio_end_sample - audio_start_sample` zeros and that number is the
length recorded for the slot. -/
theorem flush_tick_with_finished_audio_stages_zeros (sdk : Sdk) (FLAG_verbose : Bool)
    (requestedEnd : Nat → Nat) (list_of_audio : List (List Sample)) (tick i : Nat)
    (st : LipSyncTriton.State) (hts : i < st.frame_timestamp.length)
    (hfin : st.audio_finished.getD i false = true)
    (hfl : 0 < st.flush_frames_remaining.getD i 0) :
    (sdk.status (Call.TransferToNthImage tick i) ≠ 0 ∧ st.frames.getD i none ≠ none ∧
      ∃ e, LipSyncTriton.assembleStep sdk FLAG_verbose requestedEnd list_of_audio tick i st =
        .error e) ∨
    ∃ st1, LipSyncTriton.assembleStep sdk FLAG_verbose requestedEnd list_of_audio tick i st =
        .ok st1 ∧
      st1.batchsize = st.batchsize + 1 ∧
      st1.batch_indices = st.batch_indices.set st.batchsize i ∧
      st1.audio_frame_batched = st.audio_frame_batched ++
        List.replicate
          (requestedEnd (st.frame_timestamp.getD i 0 + 1) - st.last_audio_end_sample) 0 ∧
      st1.audio_frame_num_samples = st.audio_frame_num_samples.set st.batchsize
        (requestedEnd (st.frame_timestamp.getD i 0 + 1) - st.last_audio_end_sample) := by
  obtain ⟨k1, k2, k3, k4, k5⟩ := ls_pre_keeps sdk FLAG_verbose i st
  obtain ⟨p1, p2, p3, p4, p5⟩ := ls_pre_keeps_audio sdk FLAG_verbose i st
  have hstaged := ls_flushOrSkip_flush sdk FLAG_verbose i st hfin hfl
  have hts1 : (LipSyncTriton.flushOrSkip sdk i
      (LipSyncTriton.readNext FLAG_verbose i st)).1.frame_timestamp.getD i 0 =
      st.frame_timestamp.getD i 0 + 1 := by
    rw [p2, List.getD_eq_getElem?_getD, List.getElem?_set, if_pos rfl, if_pos hts]
    rfl
  have hfin1 : (LipSyncTriton.flushOrSkip sdk i
      (LipSyncTriton.readNext FLAG_verbose i st)).1.audio_finished.getD i false = true := by
    rw [p1]
    exact hfin
  unfold LipSyncTriton.assembleStep
  rw [if_neg (by rw [hstaged]; decide)]
  dsimp only
  cases hf : (LipSyncTriton.flushOrSkip sdk i
      (LipSyncTriton.readNext FLAG_verbose i st)).1.frames.getD i none with
  | none =>
    dsimp only
    obtain ⟨c1, c2, c3, c4, c5⟩ := ls_cutAudio_keeps requestedEnd list_of_audio i
      (LipSyncTriton.flushOrSkip sdk i (LipSyncTriton.readNext FLAG_verbose i st)).1
    obtain ⟨d0, d1, d2, d3⟩ := ls_cutAudio_finished requestedEnd list_of_audio tick i
      (LipSyncTriton.flushOrSkip sdk i (LipSyncTriton.readNext FLAG_verbose i st)).1 _ _ hfin1
      hts1 p3
    rw [d0]
    refine Or.inr ⟨_, rfl, ?_, ?_, ?_, ?_⟩
    · show _ + 1 = _
      rw [c4, k4]
    · show List.set _ _ i = _
      rw [c3, c4, k3, k4]
    · show _ ++ _ = _
      rw [d2, d1, p4]
    · show List.set _ _ _ = _
      rw [d3, d1, c4, p5, k4, List.length_replicate]
  | some f =>
    dsimp only
    by_cases hst : sdk.status (Call.TransferToNthImage tick i) = 0
    · rw [if_neg (not_not.mpr hst)]
      obtain ⟨c1, c2, c3, c4, c5⟩ := ls_cutAudio_keeps requestedEnd list_of_audio i
        { (LipSyncTriton.flushOrSkip sdk i (LipSyncTriton.readNext FLAG_verbose i st)).1 with
          err := sdk.status (Call.TransferToNthImage tick i)
          app :=
            { (LipSyncTriton.flushOrSkip sdk i
                (LipSyncTriton.readNext FLAG_verbose i st)).1.app with
              m_srcVid :=
                (LipSyncTriton.flushOrSkip sdk i
                  (LipSyncTriton.readNext FLAG_verbose i st)).1.app.m_srcVid.set
                  (LipSyncTriton.flushOrSkip sdk i
                    (LipSyncTriton.readNext FLAG_verbose i st)).1.batchsize
                  (some f) } }
      obtain ⟨d0, d1, d2, d3⟩ := ls_cutAudio_finished requestedEnd list_of_audio tick i
        { (LipSyncTriton.flushOrSkip sdk i (LipSyncTriton.readNext FLAG_verbose i st)).1 with
          err := sdk.status (Call.TransferToNthImage tick i)
          app :=
            { (LipSyncTriton.flushOrSkip sdk i
                (LipSyncTriton.readNext FLAG_verbose i st)).1.app with
              m_srcVid :=
                (LipSyncTriton.flushOrSkip sdk i
                  (LipSyncTriton.readNext FLAG_verbose i st)).1.app.m_srcVid.set
                  (LipSyncTriton.flushOrSkip sdk i
                    (LipSyncTriton.readNext FLAG_verbose i st)).1.batchsize
                  (some f) } } _ _ hfin1 hts1 p3
      rw [d0]
      dsimp only at d2 d3 c3 c4
      refine Or.inr ⟨_, rfl, ?_, ?_, ?_, ?_⟩
      · show _ + 1 = _
        rw [c4, k4]
      · show List.set _ _ i = _
        rw [c3, c4, k3, k4]
      · show _ ++ _ = _
        rw [d2, d1, p4]
      · show List.set _ _ _ = _
        rw [d3, d1, c4, p5, k4, List.length_replicate]
    · rw [if_pos hst]
      refine Or.inl ⟨hst, ?_, _, rfl⟩
      rw [k1] at hf
      rw [hf]
      exact fun h => by cases h

/-- Witness of `flush_tick_with_finished_audio_stages_zeros`: stream 1 of the sample state,
with its audio finished, two flush ticks left and the audio cut up to sample 533, on tick 1:
the frame staged is `1066 - 533` zeros. -/
theorem flush_tick_with_finished_audio_stages_zeros_witness :
    1 < ({ LipSyncTriton.sampleState with
            audio_finished := [false, true, false]
            flush_frames_remaining := [2, 2, 2]
            frame_timestamp := [2, 1, 2]
            last_audio_end_sample := 533 } : LipSyncTriton.State).frame_timestamp.length ∧
    (((Sdk.succeeding 2).status (Call.TransferToNthImage 1 1) ≠ 0 ∧
      ({ LipSyncTriton.sampleState with
            audio_finished := [false, true, false]
            flush_frames_remaining := [2, 2, 2]
            frame_timestamp := [2, 1, 2]
            last_audio_end_sample := 533 } : LipSyncTriton.State).frames.getD 1 none ≠ none ∧
      ∃ e, LipSyncTriton.assembleStep (Sdk.succeeding 2) false LipSyncTriton.exactRequestedEnd
          [List.replicate 1200 1, List.replicate 600 2, List.replicate 1200 3] 1 1
          { LipSyncTriton.sampleState with
            audio_finished := [false, true, false]
            flush_frames_remaining := [2, 2, 2]
            frame_timestamp := [2, 1, 2]
            last_audio_end_sample := 533 } = .error e) ∨
    ∃ st1, LipSyncTriton.assembleStep (Sdk.succeeding 2) false LipSyncTriton.exactRequestedEnd
          [List.replicate 1200 1, List.replicate 600 2, List.replicate 1200 3] 1 1
          { LipSyncTriton.sampleState with
            audio_finished := [false, true, false]
            flush_frames_remaining := [2, 2, 2]
            frame_timestamp := [2, 1, 2]
            last_audio_end_sample := 533 } = .ok st1 ∧
      st1.batchsize = 0 + 1 ∧
      st1.batch_indices = [0, 1, 2].set 0 1 ∧
      st1.audio_frame_batched = [] ++
        List.replicate (LipSyncTriton.exactRequestedEnd (1 + 1) - 533) 0 ∧
      st1.audio_frame_num_samples = [0, 0, 0].set 0
        (LipSyncTriton.exactRequestedEnd (1 + 1) - 533)) :=
  ⟨by decide,
   flush_tick_with_finished_audio_stages_zeros (Sdk.succeeding 2) false
     LipSyncTriton.exactRequestedEnd
     [List.replicate 1200 1, List.replicate 600 2, List.replicate 1200 3] 1 1
     { LipSyncTriton.sampleState with
       audio_finished := [false, true, false]
       flush_frames_remaining := [2, 2, 2]
       frame_timestamp := [2, 1, 2]
       last_audio_end_sample := 533 } (by decide) (by decide) (by decide)⟩

end FlushAudio

section Termination

open LipSyncTriton

theorem realTicksFrom_spec (rE : Nat → Nat) (A : Nat) :
    ∀ n t, t ≤ realTicksFrom rE A n t ∧ realTicksFrom rE A n t ≤ t + n ∧
      (∀ u, t ≤ u → u + 1 < realTicksFrom rE A n t → rE (u + 1) < A) ∧
      (realTicksFrom rE A n t < t + n →
        t + 1 ≤ realTicksFrom rE A n t ∧ A ≤ rE (realTicksFrom rE A n t)) := by
  intro n
  induction n with
  | zero =>
    intro t
    simp only [realTicksFrom]
    exact ⟨Nat.le_refl _, Nat.le_refl _, fun u h1 h2 => absurd h2 (by omega),
      fun h => absurd h (by omega)⟩
  | succ n ih =>
    intro t
    simp only [realTicksFrom]
    by_cases h : A ≤ rE (t + 1)
    · rw [if_pos h]
      exact ⟨by omega, by omega, fun u h1 h2 => absurd h2 (by omega), fun _ => ⟨by omega, h⟩⟩
    · rw [if_neg h]
      obtain ⟨i1, i2, i3, i4⟩ := ih (t + 1)
      refine ⟨by omega, by omega, ?_, ?_⟩
      · intro u h1 h2
        by_cases hu : u = t
        · subst hu
          omega
        · exact i3 u (by omega) h2
      · intro h5
        obtain ⟨j1, j2⟩ := i4 (by omega)
        exact ⟨by omega, j2⟩

theorem realTicks_spec (rE : Nat → Nat) (videos : List Video) (audio : List (List Sample))
    (i : Nat) :
    realTicks rE videos audio i ≤ numFrames videos i ∧
    (∀ u, u + 1 < realTicks rE videos audio i → rE (u + 1) < (audio.getD i []).length) ∧
    (realTicks rE videos audio i < numFrames videos i →
      (audio.getD i []).length ≤ rE (realTicks rE videos audio i)) := by
  obtain ⟨_, i2, i3, i4⟩ := realTicksFrom_spec rE (audio.getD i []).length (numFrames videos i) 0
  unfold realTicks
  exact ⟨by omega, fun u h => i3 u (Nat.zero_le _) h, fun h => (i4 (by omega)).2⟩

theorem realTicks_eq_min (rE : Nat → Nat) (videos : List Video) (audio : List (List Sample))
    (i T : Nat) (h1 : ∀ u, u < T → rE (u + 1) < (audio.getD i []).length)
    (h2 : (audio.getD i []).length ≤ rE (T + 1)) :
    realTicks rE videos audio i = min (numFrames videos i) (T + 1) := by
  obtain ⟨i1, i2, i3, i4⟩ := realTicksFrom_spec rE (audio.getD i []).length (numFrames videos i) 0
  obtain ⟨s1, s2, s3⟩ := realTicks_spec rE videos audio i
  have hle : realTicks rE videos audio i ≤ T + 1 := by
    by_contra hc
    have := s2 T (by omega)
    omega
  by_cases hlt : realTicks rE videos audio i < numFrames videos i
  · have h3 := s3 hlt
    have h4 : 1 ≤ realTicks rE videos audio i := (i4 (by unfold realTicks at hlt; omega)).1
    have h5 : ¬ realTicks rE videos audio i - 1 < T := by
      intro hc
      have := h1 (realTicks rE videos audio i - 1) hc
      rw [Nat.sub_add_cancel h4] at this
      omega
    omega
  · omega

theorem realTicks_eq_frames (rE : Nat → Nat) (videos : List Video)
    (audio : List (List Sample)) (i : Nat)
    (h1 : ∀ u, u < numFrames videos i → rE (u + 1) < (audio.getD i []).length) :
    realTicks rE videos audio i = numFrames videos i := by
  obtain ⟨i1, i2, i3, i4⟩ := realTicksFrom_spec rE (audio.getD i []).length (numFrames videos i) 0
  obtain ⟨s1, s2, s3⟩ := realTicks_spec rE videos audio i
  by_contra hc
  have hlt : realTicks rE videos audio i < numFrames videos i := by omega
  have h3 := s3 hlt
  have h4 : 1 ≤ realTicks rE videos audio i := (i4 (by unfold realTicks at hlt; omega)).1
  have := h1 (realTicks rE videos audio i - 1) (by omega)
  rw [Nat.sub_add_cancel h4] at this
  omega

theorem stream_step (rE : Nat → Nat) (A r F t : Nat) (vf : List Nat) (v v1 : StreamView)
    (staged : Bool) (hinv : StreamInv r F t vf v) (hrel : StepRel rE A v v1 staged)
    (r1 : r ≤ vf.length) (r2 : ∀ u, u + 1 < r → rE (u + 1) < A)
    (r3 : r < vf.length → A ≤ rE r) :
    (staged = true ↔ t < r + F) ∧
    StreamInv r F (t + 1) vf { v1 with frame := if staged = true then v1.frame1 else v.frame } := by
  obtain ⟨vcap, vframe, vframe1, vts, vfin, vflush⟩ := v
  obtain ⟨wcap, wframe, wframe1, wts, wfin, wflush⟩ := v1
  obtain ⟨i1, i2, i3, i4⟩ := hinv
  obtain ⟨s1, s2, s3, s4, s5, s6, s7, s8, s9⟩ := hrel
  dsimp only at i1 i2 i3 i4 s1 s2 s3 s4 s5 s6 s7 s8 s9
  subst i1
  by_cases hreal : vts < r
  · obtain ⟨a1, a2, a3⟩ := i3 hreal
    have hst : staged = true := s3.mpr (Or.inl ⟨a1, a2⟩)
    have hop : vcap.opened = true := by rw [a3]
    have himg : vcap.image = vf[vts + 1]? := by
      rw [a3]
      simp [VideoCapture.image]
    have hf1 := s6 hop
    rw [himg] at hf1
    refine ⟨⟨fun _ => by omega, fun _ => hst⟩, ?_⟩
    rw [if_pos hst]
    refine ⟨s1, ?_, ?_, ?_⟩
    · show wflush = _
      rw [s4, if_pos ⟨a1, a2⟩, i2]
      omega
    · intro h
      dsimp only
      have hlt : vts + 1 < vf.length := by omega
      refine ⟨?_, ?_, ?_⟩
      · rw [hf1, List.getElem?_eq_getElem hlt]
        exact fun h => by cases h
      · cases hw : wfin with
        | false => rfl
        | true =>
          exfalso
          rcases s5.mp hw with h5 | ⟨_, h5⟩
          · rw [a2] at h5
            cases h5
          · have := r2 vts h
            omega
      · rcases s9 a2 hop with h9 | ⟨_, h9⟩
        · rw [h9, a3]
          simp [VideoCapture.advance, hlt]
        · rw [himg, List.getElem?_eq_getElem hlt] at h9
          cases h9
    · intro h
      dsimp only
      have hr : r = vts + 1 := by omega
      by_cases hA : A ≤ rE (vts + 1)
      · exact Or.inl (s5.mpr (Or.inr ⟨hst, hA⟩))
      · have hV : vf.length = vts + 1 := by
          by_contra hc
          have := r3 (by omega)
          rw [hr] at this
          exact hA this
        have hnone : wframe1 = none := by
          rw [hf1, List.getElem?_eq_none (by omega)]
        refine Or.inr ⟨hnone, ?_, fun _ => hnone⟩
        intro hwo
        rcases s9 a2 hop with h9 | ⟨h9, _⟩
        · rw [h9, a3]
          simp [VideoCapture.advance, VideoCapture.image, hV]
        · rw [h9] at hwo
          simp [VideoCapture.release] at hwo
  · have hge : r ≤ vts := by omega
    have hnr : ¬ (vframe ≠ none ∧ vfin = false) := by
      rintro ⟨b1, b2⟩
      rcases i4 hge with h | ⟨h, _⟩
      · rw [b2] at h
        cases h
      · exact b1 h
    have hstaged : staged = true ↔ vts < r + F := by
      rw [s3, i2]
      constructor
      · rintro (h | h)
        · exact absurd h hnr
        · omega
      · intro h
        exact Or.inr (by omega)
    refine ⟨hstaged, s1, ?_, fun h => absurd h (by omega), ?_⟩
    · show wflush = _
      rw [s4, if_neg hnr, i2]
      omega
    · intro _
      dsimp only
      rcases i4 hge with h | ⟨h1, h2, h3⟩
      · exact Or.inl (s5.mpr (Or.inl h))
      · cases hfin : vfin with
        | true => exact Or.inl (s5.mpr (Or.inl hfin))
        | false =>
          have hnone : wframe1 = none := by
            cases hop : vcap.opened with
            | true => rw [s6 hop, h2 hop]
            | false => rw [s7 hop, h3 hop]
          refine Or.inr ⟨?_, ?_, fun _ => hnone⟩
          · split_ifs
            · exact hnone
            · exact h1
          · intro hwo
            cases hop : vcap.opened with
            | true =>
              have himg := h2 hop
              have hadv : vcap.advance = vcap := by
                unfold VideoCapture.advance
                rw [if_neg]
                rintro ⟨_, hlt⟩
                simp only [VideoCapture.image, hop, if_true] at himg
                rw [List.getElem?_eq_getElem hlt] at himg
                cases himg
              rcases s9 hfin hop with h9 | ⟨h9, _⟩
              · rw [h9, hadv]
                exact himg
              · rw [h9] at hwo
                simp [VideoCapture.release] at hwo
            | false =>
              rw [s8 hfin hop, hop] at hwo
              cases hwo

theorem getD_set_self {α : Type} (l : List α) (i : Nat) (x d : α) (h : i < l.length) :
    (l.set i x).getD i d = x := by
  rw [List.getD_eq_getElem?_getD, List.getElem?_set, if_pos rfl, if_pos h]
  rfl

theorem getD_set_ne {α : Type} (l : List α) (i j : Nat) (x d : α) (h : i ≠ j) :
    (l.set i x).getD j d = l.getD j d := by
  rw [List.getD_eq_getElem?_getD, List.getElem?_set, if_neg h, List.getD_eq_getElem?_getD]

theorem set_getD_self {α : Type} (l : List α) (i : Nat) (d : α) : l.set i (l.getD i d) = l := by
  apply List.ext_getElem?
  intro j
  rw [List.getElem?_set]
  by_cases e : i = j
  · subst e
    rw [if_pos rfl]
    by_cases h : i < l.length
    · rw [if_pos h, List.getD_eq_getElem?_getD, List.getElem?_eq_getElem h]
      rfl
    · rw [if_neg h, List.getElem?_eq_none (by omega)]
  · rw [if_neg e]

theorem ls_Upd_of_same (i : Nat) (s s1 : State)
    (h1 : s1.list_of_captures = s.list_of_captures) (h2 : s1.frames_t_1 = s.frames_t_1)
    (h3 : s1.frame_timestamp = s.frame_timestamp) (h4 : s1.audio_finished = s.audio_finished)
    (h5 : s1.flush_frames_remaining = s.flush_frames_remaining) (h6 : s1.frames = s.frames)
    (h7 : s1.frame_count = s.frame_count)
    (h8 : s1.batch_indices.length = s.batch_indices.length) : Upd i s s1 (view s i) where
  caps := by rw [h1]; exact (set_getD_self _ _ _).symm
  frames1 := by rw [h2]; exact (set_getD_self _ _ _).symm
  ts := by rw [h3]; exact (set_getD_self _ _ _).symm
  fin := by rw [h4]; exact (set_getD_self _ _ _).symm
  flush := by rw [h5]; exact (set_getD_self _ _ _).symm
  frame := rfl
  frames := h6
  frame_count := h7
  bi_len := h8

theorem ls_Upd_view (i N : Nat) (s s1 : State) (v : StreamView) (h : Upd i s s1 v)
    (hl : Lens N s) (hi : i < N) : view s1 i = v := by
  obtain ⟨c, f, f1, ts, fin, fl⟩ := v
  obtain ⟨h1, h2, h3, h4, h5, h6, h7, _, _⟩ := h
  dsimp only at h1 h2 h3 h4 h5 h6
  unfold view
  rw [h1, h2, h3, h4, h5, h7, getD_set_self _ _ _ _ (by rw [hl.caps]; exact hi),
    getD_set_self _ _ _ _ (by rw [hl.frames1]; exact hi),
    getD_set_self _ _ _ _ (by rw [hl.ts]; exact hi),
    getD_set_self _ _ _ _ (by rw [hl.fin]; exact hi),
    getD_set_self _ _ _ _ (by rw [hl.flush]; exact hi), h6]

theorem ls_Upd_view_ne (i j : Nat) (s s1 : State) (v : StreamView) (h : Upd i s s1 v)
    (hij : i ≠ j) : view s1 j = view s j := by
  obtain ⟨h1, h2, h3, h4, h5, h6, h7, _, _⟩ := h
  unfold view
  rw [h1, h2, h3, h4, h5, h7, getD_set_ne _ _ _ _ _ hij, getD_set_ne _ _ _ _ _ hij,
    getD_set_ne _ _ _ _ _ hij, getD_set_ne _ _ _ _ _ hij, getD_set_ne _ _ _ _ _ hij]

theorem ls_Upd_lens (i N : Nat) (s s1 : State) (v : StreamView) (h : Upd i s s1 v)
    (hl : Lens N s) : Lens N s1 where
  caps := by rw [h.caps, List.length_set, hl.caps]
  frames := by rw [h.frames, hl.frames]
  frames1 := by rw [h.frames1, List.length_set, hl.frames1]
  ts := by rw [h.ts, List.length_set, hl.ts]
  fin := by rw [h.fin, List.length_set, hl.fin]
  flush := by rw [h.flush, List.length_set, hl.flush]
  bi := by rw [h.bi_len, hl.bi]

theorem ls_Upd_trans (i : Nat) (s s1 s2 : State) (v w : StreamView) (h : Upd i s s1 v)
    (h2 : Upd i s1 s2 w) : Upd i s s2 w where
  caps := by rw [h2.caps, h.caps, List.set_set]
  frames1 := by rw [h2.frames1, h.frames1, List.set_set]
  ts := by rw [h2.ts, h.ts, List.set_set]
  fin := by rw [h2.fin, h.fin, List.set_set]
  flush := by rw [h2.flush, h.flush, List.set_set]
  frame := by rw [h2.frame, h.frames]
  frames := by rw [h2.frames, h.frames]
  frame_count := by rw [h2.frame_count, h.frame_count]
  bi_len := by rw [h2.bi_len, h.bi_len]

theorem ls_readNext_upd (V : Bool) (i N : Nat) (s : State) (hl : Lens N s) (hi : i < N) :
    ∃ v1, Upd i s (readNext V i s) v1 ∧ v1.ts = (view s i).ts + 1 ∧
      v1.fin = (view s i).fin ∧ v1.flush = (view s i).flush ∧
      ((view s i).cap.opened = true → v1.frame1 = (view s i).cap.image) ∧
      ((view s i).cap.opened = false → v1.frame1 = (view s i).frame1) ∧
      ((view s i).cap.opened = false → v1.cap = (view s i).cap) ∧
      ((view s i).cap.opened = true →
        v1.cap = (view s i).cap.advance ∨
          (v1.cap = (view s i).cap.advance.release ∧ (view s i).cap.image = none)) := by
  have hc : i < s.list_of_captures.length := by rw [hl.caps]; exact hi
  have hf1 : i < s.frames_t_1.length := by rw [hl.frames1]; exact hi
  unfold readNext
  dsimp only
  by_cases hop : (s.list_of_captures.getD i VideoCapture.new).opened = true
  · rw [if_pos hop, getD_set_self _ _ _ _ hf1, getD_set_self _ _ _ _ hc]
    have hno : ¬ (s.list_of_captures.getD i VideoCapture.new).opened = false := by
      rw [hop]
      exact fun h => by cases h
    by_cases hrel : ((s.list_of_captures.getD i VideoCapture.new).image = none ∨
        s.audio_finished.getD i false = true) ∧ V = true ∧
        (s.list_of_captures.getD i VideoCapture.new).image = none
    · rw [if_pos hrel]
      refine ⟨{ view s i with
          cap := (s.list_of_captures.getD i VideoCapture.new).advance.release
          frame1 := (s.list_of_captures.getD i VideoCapture.new).image
          ts := s.frame_timestamp.getD i 0 + 1 }, ?_, rfl, rfl, rfl, fun _ => rfl,
        fun h => absurd h hno, fun h => absurd h hno, fun _ => Or.inr ⟨rfl, hrel.2.2⟩⟩
      exact
        { caps := List.set_set _ _ _ _
          frames1 := rfl
          ts := rfl
          fin := (set_getD_self _ _ _).symm
          flush := (set_getD_self _ _ _).symm
          frame := rfl
          frames := rfl
          frame_count := rfl
          bi_len := rfl }
    · rw [if_neg hrel]
      refine ⟨{ view s i with
          cap := (s.list_of_captures.getD i VideoCapture.new).advance
          frame1 := (s.list_of_captures.getD i VideoCapture.new).image
          ts := s.frame_timestamp.getD i 0 + 1 }, ?_, rfl, rfl, rfl, fun _ => rfl,
        fun h => absurd h hno, fun h => absurd h hno, fun _ => Or.inl rfl⟩
      exact
        { caps := rfl
          frames1 := rfl
          ts := rfl
          fin := (set_getD_self _ _ _).symm
          flush := (set_getD_self _ _ _).symm
          frame := rfl
          frames := rfl
          frame_count := rfl
          bi_len := rfl }
  · rw [if_neg hop]
    refine ⟨{ view s i with ts := s.frame_timestamp.getD i 0 + 1 }, ?_, rfl, rfl, rfl,
      fun h => absurd h hop, fun _ => rfl, fun _ => rfl, fun h => absurd h hop⟩
    exact
      { caps := (set_getD_self _ _ _).symm
        frames1 := (set_getD_self _ _ _).symm
        ts := rfl
        fin := (set_getD_self _ _ _).symm
        flush := (set_getD_self _ _ _).symm
        frame := rfl
        frames := rfl
        frame_count := rfl
        bi_len := rfl }

theorem ls_flushOrSkip_upd (sdk : Sdk) (i N : Nat) (s : State) (hl : Lens N s) (hi : i < N) :
    ∃ v1, Upd i s (flushOrSkip sdk i s).1 v1 ∧ v1.ts = (view s i).ts ∧
      v1.fin = (view s i).fin ∧ v1.frame1 = (view s i).frame1 ∧
      ((flushOrSkip sdk i s).2 = true ↔
        ((view s i).frame ≠ none ∧ (view s i).fin = false) ∨ 0 < (view s i).flush) ∧
      v1.flush =
        (if (view s i).frame ≠ none ∧ (view s i).fin = false then (view s i).flush
        else (view s i).flush - 1) ∧
      ((view s i).fin = false → v1.cap = (view s i).cap) := by
  have hfl : i < s.flush_frames_remaining.length := by rw [hl.flush]; exact hi
  unfold flushOrSkip
  dsimp only
  by_cases hfs : s.frames.getD i none = none ∨ s.audio_finished.getD i false = true
  · have hnr : ¬ ((view s i).frame ≠ none ∧ (view s i).fin = false) := by
      rintro ⟨b1, b2⟩
      rcases hfs with h | h
      · exact b1 h
      · have : s.audio_finished.getD i false = false := b2
        rw [this] at h
        cases h
    rw [if_pos hfs]
    by_cases hpos : s.flush_frames_remaining.getD i 0 > 0
    · rw [if_pos hpos, getD_set_self _ _ _ _ hfl]
      have hU : ∀ s1 : State, s1.list_of_captures = s.list_of_captures →
          s1.frames_t_1 = s.frames_t_1 → s1.frame_timestamp = s.frame_timestamp →
          s1.audio_finished = s.audio_finished →
          s1.flush_frames_remaining =
            s.flush_frames_remaining.set i (s.flush_frames_remaining.getD i 0 - 1) →
          s1.frames = s.frames → s1.frame_count = s.frame_count →
          s1.batch_indices = s.batch_indices →
          Upd i s s1 { view s i with flush := s.flush_frames_remaining.getD i 0 - 1 } := by
        intro s1 e1 e2 e3 e4 e5 e6 e7 e8
        exact
          { caps := by rw [e1]; exact (set_getD_self _ _ _).symm
            frames1 := by rw [e2]; exact (set_getD_self _ _ _).symm
            ts := by rw [e3]; exact (set_getD_self _ _ _).symm
            fin := by rw [e4]; exact (set_getD_self _ _ _).symm
            flush := e5
            frame := rfl
            frames := e6
            frame_count := e7
            bi_len := by rw [e8] }
      refine ⟨{ view s i with flush := s.flush_frames_remaining.getD i 0 - 1 }, ?_, rfl, rfl,
        rfl, ?_, ?_, fun _ => rfl⟩
      · split_ifs
        · exact hU _ rfl rfl rfl rfl rfl rfl rfl rfl
        · exact hU _ rfl rfl rfl rfl rfl rfl rfl rfl
      · split_ifs
        · exact ⟨fun _ => Or.inr hpos, fun _ => rfl⟩
        · exact ⟨fun _ => Or.inr hpos, fun _ => rfl⟩
      · show _ = if _ then _ else _
        rw [if_neg hnr]
        rfl
    · rw [if_neg hpos]
      have hz : s.flush_frames_remaining.getD i 0 = 0 := by omega
      have hiff : ∀ b : Bool, b = false →
          (b = true ↔
            ((view s i).frame ≠ none ∧ (view s i).fin = false) ∨ 0 < (view s i).flush) := by
        intro b hb
        subst hb
        constructor
        · intro h
          cases h
        · rintro (h | h)
          · exact absurd h hnr
          · exact absurd h hpos
      have hflush : (view s i).flush =
          if (view s i).frame ≠ none ∧ (view s i).fin = false then (view s i).flush
          else (view s i).flush - 1 := by
        rw [if_neg hnr]
        show s.flush_frames_remaining.getD i 0 = s.flush_frames_remaining.getD i 0 - 1
        omega
      by_cases hfin : s.audio_finished.getD i false = true
      · rw [if_pos hfin]
        refine ⟨{ view s i with
            cap := (s.list_of_captures.getD i VideoCapture.new).release }, ?_, rfl, rfl, rfl,
          hiff _ rfl, hflush, ?_⟩
        · exact
            { caps := rfl
              frames1 := (set_getD_self _ _ _).symm
              ts := (set_getD_self _ _ _).symm
              fin := (set_getD_self _ _ _).symm
              flush := (set_getD_self _ _ _).symm
              frame := rfl
              frames := rfl
              frame_count := rfl
              bi_len := rfl }
        · intro h
          have : s.audio_finished.getD i false = false := h
          rw [this] at hfin
          cases hfin
      · rw [if_neg hfin]
        exact ⟨view s i, ls_Upd_of_same i s s rfl rfl rfl rfl rfl rfl rfl rfl, rfl, rfl, rfl,
          hiff _ rfl, hflush, fun _ => rfl⟩
  · rw [if_neg hfs]
    have hr : (view s i).frame ≠ none ∧ (view s i).fin = false := by
      rw [not_or] at hfs
      refine ⟨hfs.1, ?_⟩
      show s.audio_finished.getD i false = false
      cases h : s.audio_finished.getD i false with
      | false => rfl
      | true => exact absurd h hfs.2
    refine ⟨view s i, ls_Upd_of_same i s s rfl rfl rfl rfl rfl rfl rfl rfl, rfl, rfl, rfl,
      ⟨fun _ => Or.inl hr, fun _ => rfl⟩, ?_, fun _ => rfl⟩
    rw [if_pos hr]

theorem ls_cutAudio_upd (rE : Nat → Nat) (audio : List (List Sample)) (i : Nat)
    (s : State) :
    ∃ v1, Upd i s (cutState rE audio i s) v1 ∧ v1.ts = (view s i).ts ∧
      v1.cap = (view s i).cap ∧ v1.frame1 = (view s i).frame1 ∧
      v1.flush = (view s i).flush ∧
      (v1.fin = true ↔
        (view s i).fin = true ∨ (audio.getD i []).length ≤ rE ((view s i).ts)) := by
  unfold cutState
  by_cases hfin : s.audio_finished.getD i false = true
  · have hne2 : ¬ (s.audio_finished.getD i false = false ∧
        rE (s.frame_timestamp.getD i 0) ≥ (audio.getD i []).length) :=
      fun h => by rw [hfin] at h; cases h.1
    rw [if_neg hne2]
    exact ⟨view s i, ls_Upd_of_same i s _ rfl rfl rfl rfl rfl rfl rfl rfl, rfl, rfl, rfl, rfl,
      ⟨fun h => Or.inl h, fun _ => hfin⟩⟩
  · have hf : s.audio_finished.getD i false = false := by
      cases h : s.audio_finished.getD i false with
      | false => rfl
      | true => exact absurd h hfin
    have hU : ∀ s1 : State, s1.list_of_captures = s.list_of_captures →
        s1.frames_t_1 = s.frames_t_1 → s1.frame_timestamp = s.frame_timestamp →
        s1.audio_finished = s.audio_finished.set i true →
        s1.flush_frames_remaining = s.flush_frames_remaining →
        s1.frames = s.frames → s1.frame_count = s.frame_count →
        s1.batch_indices = s.batch_indices →
        Upd i s s1 { view s i with fin := true } := by
      intro s1 e1 e2 e3 e4 e5 e6 e7 e8
      exact
        { caps := by rw [e1]; exact (set_getD_self _ _ _).symm
          frames1 := by rw [e2]; exact (set_getD_self _ _ _).symm
          ts := by rw [e3]; exact (set_getD_self _ _ _).symm
          fin := e4
          flush := by rw [e5]; exact (set_getD_self _ _ _).symm
          frame := rfl
          frames := e6
          frame_count := e7
          bi_len := by rw [e8] }
    by_cases hA : rE (s.frame_timestamp.getD i 0) ≥ (audio.getD i []).length
    · rw [if_pos ⟨hf, hA⟩]
      exact ⟨{ view s i with fin := true }, hU _ rfl rfl rfl rfl rfl rfl rfl rfl, rfl, rfl, rfl,
        rfl, ⟨fun _ => Or.inr hA, fun _ => rfl⟩⟩
    · rw [if_neg (fun h => hA h.2)]
      refine ⟨view s i, ls_Upd_of_same i s _ rfl rfl rfl rfl rfl rfl rfl rfl, rfl, rfl, rfl,
        rfl, ?_⟩
      constructor
      · intro h
        exact Or.inl h
      · rintro (h | h)
        · exact h
        · exact absurd h hA

theorem ls_Upd_congr (i : Nat) (s s1 s2 : State) (v : StreamView) (h : Upd i s s1 v)
    (h1 : s2.list_of_captures = s1.list_of_captures) (h2 : s2.frames_t_1 = s1.frames_t_1)
    (h3 : s2.frame_timestamp = s1.frame_timestamp)
    (h4 : s2.audio_finished = s1.audio_finished)
    (h5 : s2.flush_frames_remaining = s1.flush_frames_remaining)
    (h6 : s2.frames = s1.frames) (h7 : s2.frame_count = s1.frame_count)
    (h8 : s2.batch_indices.length = s1.batch_indices.length) : Upd i s s2 v where
  caps := by rw [h1, h.caps]
  frames1 := by rw [h2, h.frames1]
  ts := by rw [h3, h.ts]
  fin := by rw [h4, h.fin]
  flush := by rw [h5, h.flush]
  frame := h.frame
  frames := by rw [h6, h.frames]
  frame_count := by rw [h7, h.frame_count]
  bi_len := by rw [h8, h.bi_len]

theorem ls_stage_cut (rE : Nat → Nat) (audio : List (List Sample)) (t i : Nat) (q q1 : State)
    (h1 : q1.list_of_captures = q.list_of_captures) (h2 : q1.frames_t_1 = q.frames_t_1)
    (h3 : q1.frame_timestamp = q.frame_timestamp) (h4 : q1.audio_finished = q.audio_finished)
    (h5 : q1.flush_frames_remaining = q.flush_frames_remaining) (h6 : q1.frames = q.frames)
    (h7 : q1.frame_count = q.frame_count) (h8 : q1.batch_indices = q.batch_indices)
    (h9 : q1.batchsize = q.batchsize) :
    ∃ v1, Upd i q (stage t i (cutFrame rE audio i q1) (cutState rE audio i q1)) v1 ∧
      v1.ts = (view q i).ts ∧ v1.cap = (view q i).cap ∧ v1.frame1 = (view q i).frame1 ∧
      v1.flush = (view q i).flush ∧
      (v1.fin = true ↔ (view q i).fin = true ∨ (audio.getD i []).length ≤ rE ((view q i).ts)) ∧
      (stage t i (cutFrame rE audio i q1) (cutState rE audio i q1)).batchsize =
        q.batchsize + 1 ∧
      (stage t i (cutFrame rE audio i q1) (cutState rE audio i q1)).batch_indices =
        q.batch_indices.set q.batchsize i := by
  have hv : view q1 i = view q i := by
    unfold view
    rw [h1, h2, h3, h4, h5, h6]
  obtain ⟨v1, u, a1, a2, a3, a4, a5⟩ := ls_cutAudio_upd rE audio i q1
  rw [hv] at a1 a2 a3 a4 a5
  obtain ⟨_, _, c3, c4, _⟩ := ls_cutAudio_keeps rE audio i q1
  have u1 : Upd i q (cutState rE audio i q1) v1 :=
    { caps := by rw [u.caps, h1]
      frames1 := by rw [u.frames1, h2]
      ts := by rw [u.ts, h3]
      fin := by rw [u.fin, h4]
      flush := by rw [u.flush, h5]
      frame := by rw [u.frame, h6]
      frames := by rw [u.frames, h6]
      frame_count := by rw [u.frame_count, h7]
      bi_len := by rw [u.bi_len, h8] }
  refine ⟨v1, ls_Upd_congr i q _ _ v1 u1 rfl rfl rfl rfl rfl rfl rfl ?_, a1, a2, a3, a4, a5,
    ?_, ?_⟩
  · show (List.set _ _ _).length = _
    rw [List.length_set]
  · show _ + 1 = _
    rw [c4, h9]
  · show List.set _ _ _ = _
    rw [c3, c4, h8, h9]

theorem ls_assembleStep_view (sdk : Sdk) (V : Bool) (rE : Nat → Nat)
    (audio : List (List Sample)) (t i N : Nat) (s s1 : State) (hl : Lens N s) (hi : i < N)
    (h : assembleStep sdk V rE audio t i s = .ok s1) :
    ∃ v1 staged, Upd i s s1 v1 ∧
      StepRel rE (audio.getD i []).length (view s i) v1 staged ∧
      ((staged = true ∧ s1.batchsize = s.batchsize + 1 ∧
          s1.batch_indices = s.batch_indices.set s.batchsize i) ∨
        (staged = false ∧ s1.batchsize = s.batchsize ∧ s1.batch_indices = s.batch_indices)) := by
  obtain ⟨vr, ur, r1, r2, r3, r4, r5, r6, r7⟩ := ls_readNext_upd V i N s hl hi
  have hlr := ls_Upd_lens i N _ _ _ ur hl
  have hvr := ls_Upd_view i N _ _ _ ur hl hi
  obtain ⟨vq, uq, q1, q2, q3, q4, q5, q6⟩ :=
    ls_flushOrSkip_upd sdk i N (readNext V i s) hlr hi
  rw [hvr] at q1 q2 q3 q4 q5 q6
  have hlq := ls_Upd_lens i N _ _ _ uq hlr
  have hvq := ls_Upd_view i N _ _ _ uq hlr hi
  have usq := ls_Upd_trans i _ _ _ _ _ ur uq
  have hfr : vr.frame = (view s i).frame := ur.frame
  rw [hfr, r2, r3] at q4 q5
  rw [r2] at q6
  obtain ⟨k1, k2, k3, k4, k5⟩ := ls_pre_keeps sdk V i s
  have hrel : ∀ (w : StreamView) (staged : Bool),
      (flushOrSkip sdk i (readNext V i s)).2 = staged →
      w.frame = (view s i).frame → w.ts = vq.ts → w.cap = vq.cap → w.frame1 = vq.frame1 →
      w.flush = vq.flush →
      (w.fin = true ↔ vq.fin = true ∨ (staged = true ∧ (audio.getD i []).length ≤ rE vq.ts)) →
      StepRel rE (audio.getD i []).length (view s i) w staged := by
    intro w staged e0 e1 e2 e3 e4 e5 e6
    rw [e0] at q4
    exact
      { ts := by rw [e2, q1, r1]
        frame := e1
        staged_iff := q4
        flush := by rw [e5, q5]
        fin := by rw [e6, q2, r2, q1, r1]
        frame1_open := fun ho => by rw [e4, q3, r4 ho]
        frame1_closed := fun ho => by rw [e4, q3, r5 ho]
        cap_closed := fun hf ho => by rw [e3, q6 hf, r6 ho]
        cap_open := fun hf ho => by rw [e3, q6 hf]; exact r7 ho }
  unfold assembleStep at h
  by_cases hc : (flushOrSkip sdk i (readNext V i s)).2 = false
  · rw [if_pos hc] at h
    cases h
    refine ⟨vq, false, usq, hrel vq false hc usq.frame rfl rfl rfl rfl ?_, Or.inr ⟨rfl, k4, k3⟩⟩
    constructor
    · exact fun h => Or.inl h
    · rintro (h | ⟨h, _⟩)
      · exact h
      · cases h
  · rw [if_neg hc] at h
    dsimp only at h
    have hst : (flushOrSkip sdk i (readNext V i s)).2 = true := by
      cases hb : (flushOrSkip sdk i (readNext V i s)).2 with
      | false => exact absurd hb hc
      | true => rfl
    have fin : ∀ q1 : State,
        q1.list_of_captures = (flushOrSkip sdk i (readNext V i s)).1.list_of_captures →
        q1.frames_t_1 = (flushOrSkip sdk i (readNext V i s)).1.frames_t_1 →
        q1.frame_timestamp = (flushOrSkip sdk i (readNext V i s)).1.frame_timestamp →
        q1.audio_finished = (flushOrSkip sdk i (readNext V i s)).1.audio_finished →
        q1.flush_frames_remaining =
          (flushOrSkip sdk i (readNext V i s)).1.flush_frames_remaining →
        q1.frames = (flushOrSkip sdk i (readNext V i s)).1.frames →
        q1.frame_count = (flushOrSkip sdk i (readNext V i s)).1.frame_count →
        q1.batch_indices = (flushOrSkip sdk i (readNext V i s)).1.batch_indices →
        q1.batchsize = (flushOrSkip sdk i (readNext V i s)).1.batchsize →
        stage t i (cutFrame rE audio i q1) (cutState rE audio i q1) = s1 →
        ∃ v1 staged, Upd i s s1 v1 ∧
          StepRel rE (audio.getD i []).length (view s i) v1 staged ∧
          ((staged = true ∧ s1.batchsize = s.batchsize + 1 ∧
              s1.batch_indices = s.batch_indices.set s.batchsize i) ∨
            (staged = false ∧ s1.batchsize = s.batchsize ∧
              s1.batch_indices = s.batch_indices)) := by
      intro q1 e1 e2 e3 e4 e5 e6 e7 e8 e9 es
      obtain ⟨v1, u, a1, a2, a3, a4, a5, a6, a7⟩ :=
        ls_stage_cut rE audio t i (flushOrSkip sdk i (readNext V i s)).1 q1 e1 e2 e3 e4 e5 e6
          e7 e8 e9
      rw [hvq] at a1 a2 a3 a4 a5
      rw [es] at u a6 a7
      have ut := ls_Upd_trans i _ _ _ _ _ usq u
      refine ⟨v1, true, ut, hrel v1 true hst ut.frame a1 a2 a3 a4 ?_, Or.inl ⟨rfl, ?_, ?_⟩⟩
      · rw [a5]
        constructor
        · rintro (h | h)
          · exact Or.inl h
          · exact Or.inr ⟨rfl, h⟩
        · rintro (h | ⟨_, h⟩)
          · exact Or.inl h
          · exact Or.inr h
      · rw [a6, k4]
      · rw [a7, k3, k4]
    cases hf : (flushOrSkip sdk i (readNext V i s)).1.frames.getD i none with
    | none =>
      rw [hf] at h
      dsimp only at h
      exact fin _ rfl rfl rfl rfl rfl rfl rfl rfl rfl (cutAndStage_ok _ _ _ _ _ _ h).symm
    | some f =>
      rw [hf] at h
      dsimp only at h
      by_cases hs : sdk.status (Call.TransferToNthImage t i) = 0
      · rw [if_neg (not_not.mpr hs)] at h
        exact fin
          { (flushOrSkip sdk i (readNext V i s)).1 with
            err := sdk.status (Call.TransferToNthImage t i)
            app :=
              { (flushOrSkip sdk i (readNext V i s)).1.app with
                m_srcVid :=
                  (flushOrSkip sdk i (readNext V i s)).1.app.m_srcVid.set
                    (flushOrSkip sdk i (readNext V i s)).1.batchsize (some f) } }
          rfl rfl rfl rfl rfl rfl rfl rfl rfl (cutAndStage_ok _ _ _ _ _ _ h).symm
      · rw [if_pos hs] at h
        cases h

theorem ls_assembleStep_frame_count (sdk : Sdk) (V : Bool) (rE : Nat → Nat)
    (audio : List (List Sample)) (t i : Nat) (s : State) :
    (∀ e, assembleStep sdk V rE audio t i s = .error e → e.frame_count = s.frame_count) ∧
    ∀ e, assembleStep sdk V rE audio t i s = .ok e → e.frame_count = s.frame_count := by
  have hpre : (flushOrSkip sdk i (readNext V i s)).1.frame_count = s.frame_count := by
    unfold flushOrSkip readNext ReleaseStream
    dsimp only
    split_ifs <;> rfl
  have hcut : ∀ q : State,
      (∀ e, cutAndStage rE audio t i q = .error e → e.frame_count = q.frame_count) ∧
      ∀ e, cutAndStage rE audio t i q = .ok e → e.frame_count = q.frame_count := by
    intro q
    rw [cutAndStage_eq]
    unfold cutState
    refine ⟨fun e h => ?_, fun e h => ?_⟩
    · split_ifs at h
      cases h
      rfl
    · split_ifs at h <;> cases h <;> rfl
  unfold assembleStep
  by_cases hc : (flushOrSkip sdk i (readNext V i s)).2 = false
  · rw [if_pos hc]
    refine ⟨(fun e h => by cases h), fun e h => ?_⟩
    cases h
    exact hpre
  · rw [if_neg hc]
    dsimp only
    cases hf : (flushOrSkip sdk i (readNext V i s)).1.frames.getD i none with
    | none =>
      dsimp only
      exact ⟨fun e h => ((hcut _).1 e h).trans hpre, fun e h => ((hcut _).2 e h).trans hpre⟩
    | some f =>
      dsimp only
      by_cases hs : sdk.status (Call.TransferToNthImage t i) = 0
      · rw [if_neg (not_not.mpr hs)]
        exact ⟨fun e h => ((hcut _).1 e h).trans hpre, fun e h => ((hcut _).2 e h).trans hpre⟩
      · rw [if_pos hs]
        refine ⟨fun e h => ?_, fun e h => by cases h⟩
        cases h
        exact hpre

theorem ls_assembleLoop_frame_count (sdk : Sdk) (V : Bool) (rE : Nat → Nat)
    (audio : List (List Sample)) (t : Nat) (s : State) :
    ∀ k, (∀ e, assembleLoop sdk V rE audio t k s = .error e →
        e.frame_count = s.frame_count) ∧
      ∀ e, assembleLoop sdk V rE audio t k s = .ok e → e.frame_count = s.frame_count := by
  intro k
  induction k with
  | zero =>
    refine ⟨fun e h => ?_, fun e h => ?_⟩
    · cases h
    · cases h
      rfl
  | succ k ih =>
    obtain ⟨ih1, ih2⟩ := ih
    cases hp : assembleLoop sdk V rE audio t k s with
    | error e0 =>
      refine ⟨fun e h => ?_, fun e h => ?_⟩
      · simp only [assembleLoop, hp] at h
        cases h
        exact ih1 e0 hp
      · simp only [assembleLoop, hp] at h
        cases h
    | ok p =>
      obtain ⟨s1, s2⟩ := ls_assembleStep_frame_count sdk V rE audio t k p
      refine ⟨fun e h => ?_, fun e h => ?_⟩
      · simp only [assembleLoop, hp] at h
        exact (s1 e h).trans (ih2 p hp)
      · simp only [assembleLoop, hp] at h
        exact (s2 e h).trans (ih2 p hp)

theorem ls_assembleLoop_live (sdk : Sdk) (V : Bool) (rE : Nat → Nat) (videos : List Video)
    (audio : List (List Sample)) (F t : Nat) (s : State)
    (hinv : TickInv rE videos audio F t s) :
    ∀ k, k ≤ audio.length → ∀ a,
      assembleLoop sdk V rE audio t k { s with batchsize := 0 } = .ok a →
      Lens audio.length a ∧ a.frames = s.frames ∧
      (∀ i, i < k →
        StreamInv (realTicks rE videos audio i) F (t + 1) (videos.getD i Video.absent).frames
          { view a i with
            frame :=
              if t < realTicks rE videos audio i + F then (view a i).frame1
              else (view a i).frame }) ∧
      (∀ i, k ≤ i → view a i = view s i) ∧
      a.batchsize ≤ k ∧
      ∀ x, x ∈ a.batch_indices.take a.batchsize ↔
        x < k ∧ t < realTicks rE videos audio x + F := by
  intro k
  induction k with
  | zero =>
    intro _ a h
    cases h
    refine ⟨⟨hinv.lens.caps, hinv.lens.frames, hinv.lens.frames1, hinv.lens.ts, hinv.lens.fin,
      hinv.lens.flush, hinv.lens.bi⟩, rfl, fun i hi => absurd hi (by omega), fun _ _ => rfl,
      Nat.le_refl _, ?_⟩
    intro x
    simp
  | succ k ih =>
    intro hk a h
    simp only [assembleLoop] at h
    cases hp : assembleLoop sdk V rE audio t k { s with batchsize := 0 } with
    | error e => rw [hp] at h; cases h
    | ok p =>
      rw [hp] at h
      simp only at h
      obtain ⟨i1, i2, i3, i4, i5, i6⟩ := ih (by omega) p hp
      obtain ⟨v1, staged, u, rel, hb⟩ :=
        ls_assembleStep_view sdk V rE audio t k audio.length p a i1 (by omega) h
      have hva := ls_Upd_view k audio.length p a v1 u i1 (by omega)
      have hsk : StreamInv (realTicks rE videos audio k) F t
          (videos.getD k Video.absent).frames (view p k) := by
        rw [i4 k (Nat.le_refl k)]
        exact hinv.streams k (by omega)
      obtain ⟨r1, r2, r3⟩ := realTicks_spec rE videos audio k
      obtain ⟨st1, st2⟩ := stream_step rE (audio.getD k []).length
        (realTicks rE videos audio k) F t (videos.getD k Video.absent).frames (view p k) v1
        staged hsk rel r1 r2 r3
      refine ⟨ls_Upd_lens k audio.length p a v1 u i1, u.frames.trans i2, ?_, ?_, ?_, ?_⟩
      · intro i hi
        by_cases hik : i = k
        · subst hik
          rw [hva]
          have e : (if t < realTicks rE videos audio i + F then v1.frame1 else v1.frame) =
              (if staged = true then v1.frame1 else (view p i).frame) := by
            by_cases hs : staged = true
            · rw [if_pos hs, if_pos (st1.mp hs)]
            · rw [if_neg hs, if_neg (fun h => hs (st1.mpr h)), rel.frame]
          rw [e]
          exact st2
        · rw [ls_Upd_view_ne k i p a v1 u (fun h => hik h.symm)]
          exact i3 i (by omega)
      · intro i hi
        rw [ls_Upd_view_ne k i p a v1 u (by omega)]
        exact i4 i (by omega)
      · rcases hb with ⟨_, b2, _⟩ | ⟨_, b2, _⟩
        · omega
        · omega
      · intro x
        rcases hb with ⟨b1, b2, b3⟩ | ⟨b1, b2, b3⟩
        · rw [b2, b3, take_succ_set _ _ _ (by rw [i1.bi]; omega), List.mem_append,
            List.mem_singleton, i6 x]
          have hst := st1.mp b1
          constructor
          · rintro (⟨h1, h2⟩ | h1)
            · exact ⟨by omega, h2⟩
            · subst h1
              exact ⟨by omega, hst⟩
          · rintro ⟨h1, h2⟩
            by_cases hx : x = k
            · exact Or.inr hx
            · exact Or.inl ⟨by omega, h2⟩
        · rw [b2, b3, i6 x]
          have hst : ¬ t < realTicks rE videos audio k + F := by
            intro hc
            have := st1.mpr hc
            rw [b1] at this
            cases this
          constructor
          · rintro ⟨h1, h2⟩
            exact ⟨by omega, h2⟩
          · rintro ⟨h1, h2⟩
            refine ⟨?_, h2⟩
            by_contra hc
            have hx : x = k := by omega
            subst hx
            exact hst h2

theorem ls_Run_view (sdk : Sdk) (t : Nat) (ab : List Sample) (an : List Nat) (bi : List Nat)
    (b : Nat) (st : State) :
    (Run sdk t ab an bi b st).2.list_of_captures = st.list_of_captures ∧
    (Run sdk t ab an bi b st).2.frames = st.frames ∧
    (Run sdk t ab an bi b st).2.frames_t_1 = st.frames_t_1 ∧
    (Run sdk t ab an bi b st).2.frame_timestamp = st.frame_timestamp ∧
    (Run sdk t ab an bi b st).2.audio_finished = st.audio_finished ∧
    (Run sdk t ab an bi b st).2.flush_frames_remaining = st.flush_frames_remaining ∧
    (Run sdk t ab an bi b st).2.batch_indices = st.batch_indices ∧
    (Run sdk t ab an bi b st).2.batchsize = st.batchsize ∧
    (Run sdk t ab an bi b st).2.frame_count = st.frame_count := by
  unfold Run
  dsimp only
  split_ifs <;> exact ⟨rfl, rfl, rfl, rfl, rfl, rfl, rfl, rfl, rfl⟩

theorem ls_writeStep_frames (sdk : Sdk) (t k : Nat) (s : State) :
    (∀ e, writeStep sdk t k s = .error e → e.frame_count = s.frame_count) ∧
    ∀ s1, writeStep sdk t k s = .ok s1 →
      s1.list_of_captures = s.list_of_captures ∧ s1.frames_t_1 = s.frames_t_1 ∧
      s1.frame_timestamp = s.frame_timestamp ∧ s1.audio_finished = s.audio_finished ∧
      s1.flush_frames_remaining = s.flush_frames_remaining ∧
      s1.batch_indices = s.batch_indices ∧ s1.frame_count = s.frame_count ∧
      s1.frames = s.frames.set (s.batch_indices.getD k 0)
        (s.frames_t_1.getD (s.batch_indices.getD k 0) none) := by
  unfold writeStep
  by_cases h1 : (GenerateNthOutputVizImage sdk t k).1 ≠ 0
  · rw [if_pos h1]
    refine ⟨fun e h => ?_, (fun s1 h => by cases h)⟩
    cases h
    rfl
  · rw [if_neg h1]
    refine ⟨(fun e h => by cases h), fun s1 h => ?_⟩
    dsimp only at h
    cases h
    cases (GenerateNthOutputVizImage sdk t k).2 with
    | none => exact ⟨rfl, rfl, rfl, rfl, rfl, rfl, rfl, rfl⟩
    | some d => exact ⟨rfl, rfl, rfl, rfl, rfl, rfl, rfl, rfl⟩

theorem ls_writeLoop_frames (sdk : Sdk) (t : Nat) (r : State) :
    ∀ k, k ≤ r.batch_indices.length →
      (∀ e, writeLoop sdk t k r = .error e → e.frame_count = r.frame_count) ∧
      ∀ w, writeLoop sdk t k r = .ok w →
        w.list_of_captures = r.list_of_captures ∧ w.frames_t_1 = r.frames_t_1 ∧
        w.frame_timestamp = r.frame_timestamp ∧ w.audio_finished = r.audio_finished ∧
        w.flush_frames_remaining = r.flush_frames_remaining ∧
        w.batch_indices = r.batch_indices ∧ w.frame_count = r.frame_count ∧
        w.frames.length = r.frames.length ∧
        ∀ i, i < r.frames.length →
          w.frames.getD i none =
            if i ∈ r.batch_indices.take k then r.frames_t_1.getD i none
            else r.frames.getD i none := by
  intro k
  induction k with
  | zero =>
    intro _
    refine ⟨(fun e h => by cases h), fun w h => ?_⟩
    cases h
    refine ⟨rfl, rfl, rfl, rfl, rfl, rfl, rfl, rfl, fun i _ => ?_⟩
    simp
  | succ k ih =>
    intro hk
    obtain ⟨ih1, ih2⟩ := ih (by omega)
    cases hp : writeLoop sdk t k r with
    | error e0 =>
      refine ⟨fun e h => ?_, fun w h => ?_⟩
      · simp only [writeLoop, hp] at h
        cases h
        exact ih1 e0 hp
      · simp only [writeLoop, hp] at h
        cases h
    | ok p =>
      obtain ⟨a1, a2, a3, a4, a5, a6, a7, a8, a9⟩ := ih2 p hp
      obtain ⟨s1, s2⟩ := ls_writeStep_frames sdk t k p
      refine ⟨fun e h => ?_, fun w h => ?_⟩
      · simp only [writeLoop, hp] at h
        exact (s1 e h).trans a7
      · simp only [writeLoop, hp] at h
        obtain ⟨b1, b2, b3, b4, b5, b6, b7, b8⟩ := s2 w h
        refine ⟨b1.trans a1, b2.trans a2, b3.trans a3, b4.trans a4, b5.trans a5, b6.trans a6,
          b7.trans a7, by rw [b8, List.length_set, a8], ?_⟩
        intro i hi
        rw [b8, a6, a2]
        have hget : r.batch_indices[k]? = some (r.batch_indices.getD k 0) := by
          rw [List.getD_eq_getElem?_getD, List.getElem?_eq_getElem (by omega)]
          rfl
        have hmem := mem_take_succ r.batch_indices k (r.batch_indices.getD k 0) i hget
        by_cases hx : r.batch_indices.getD k 0 = i
        · rw [if_pos (hmem.mpr (Or.inr hx.symm)), hx,
            getD_set_self _ _ _ _ (by rw [a8]; exact hi)]
        · rw [getD_set_ne _ _ _ _ _ hx, a9 i hi]
          by_cases hm : i ∈ r.batch_indices.take k
          · rw [if_pos hm, if_pos (hmem.mpr (Or.inl hm))]
          · rw [if_neg hm, if_neg]
            intro hc
            rcases hmem.mp hc with h | h
            · exact hm h
            · exact hx h.symm

theorem ls_realTicks_le_bound (rE : Nat → Nat) (videos : List Video)
    (audio : List (List Sample)) (F i : Nat) (hi : i < audio.length) :
    realTicks rE videos audio i + F ≤ tickBound rE videos audio F := by
  unfold tickBound
  have := (foldr_max_le ((List.range audio.length).map (realTicks rE videos audio))
    (((List.range audio.length).map (realTicks rE videos audio)).foldr max 0)).mp
    (Nat.le_refl _) (realTicks rE videos audio i)
    (List.mem_map.mpr ⟨i, List.mem_range.mpr hi, rfl⟩)
  omega

theorem ls_writeLoop_frame_count (sdk : Sdk) (t : Nat) (r : State) :
    ∀ k, (∀ e, writeLoop sdk t k r = .error e → e.frame_count = r.frame_count) ∧
      ∀ w, writeLoop sdk t k r = .ok w → w.frame_count = r.frame_count := by
  intro k
  induction k with
  | zero =>
    refine ⟨(fun e h => by cases h), fun w h => ?_⟩
    cases h
    rfl
  | succ k ih =>
    obtain ⟨ih1, ih2⟩ := ih
    cases hp : writeLoop sdk t k r with
    | error e0 =>
      refine ⟨fun e h => ?_, fun w h => ?_⟩
      · simp only [writeLoop, hp] at h
        cases h
        exact ih1 e0 hp
      · simp only [writeLoop, hp] at h
        cases h
    | ok p =>
      obtain ⟨s1, s2⟩ := ls_writeStep_frames sdk t k p
      refine ⟨fun e h => ?_, fun w h => ?_⟩
      · simp only [writeLoop, hp] at h
        exact (s1 e h).trans (ih2 p hp)
      · simp only [writeLoop, hp] at h
        exact (s2 w h).2.2.2.2.2.2.1.trans (ih2 p hp)

theorem ls_tick_step (sdk : Sdk) (V : Bool) (rE : Nat → Nat) (videos : List Video)
    (audio : List (List Sample)) (F t : Nat) (s : State)
    (hinv : TickInv rE videos audio F t s) :
    ∀ st1, tick sdk V rE audio audio.length t s = .ok (false, st1) →
      TickInv rE videos audio F (t + 1) st1 ∧ t < tickBound rE videos audio F := by
  intro st1 h
  unfold tick at h
  cases ha : assembleLoop sdk V rE audio t audio.length { s with batchsize := 0 } with
  | error e =>
    rw [ha] at h
    cases h
  | ok a =>
    rw [ha] at h
    dsimp only at h
    obtain ⟨i1, i2, i3, i4, i5, i6⟩ := ls_assembleLoop_live sdk V rE videos audio F t s hinv
      audio.length (Nat.le_refl _) a ha
    obtain ⟨k1, k2, k3, k4, k5, k6, k7, k8, k9⟩ := ls_Run_view sdk t a.audio_frame_batched
      a.audio_frame_num_samples a.batch_indices a.batchsize a
    by_cases c1 : a.batchsize = 0
    · rw [if_pos c1] at h
      cases h
    rw [if_neg c1] at h
    by_cases c2 : (Run sdk t a.audio_frame_batched a.audio_frame_num_samples a.batch_indices
        a.batchsize a).1 ≠ 0
    · rw [if_pos c2] at h
      cases h
    rw [if_neg c2] at h
    by_cases c3 : sdk.status (Call.GetActivation t) ≠ 0
    · rw [if_pos c3] at h
      cases h
    rw [if_neg c3] at h
    split at h
    · cases h
    · rename_i w hw
      have hle : a.batchsize ≤ a.batch_indices.length := by
        rw [i1.bi]
        exact i5
      obtain ⟨b1, b2, b3, b4, b5, b6, b7, b8, b9⟩ :=
        (ls_writeLoop_frames sdk t _ _ (by
          show (Run sdk t a.audio_frame_batched a.audio_frame_num_samples a.batch_indices
            a.batchsize a).2.batchsize ≤ (Run sdk t a.audio_frame_batched
            a.audio_frame_num_samples a.batch_indices a.batchsize a).2.batch_indices.length
          rw [k8, k7]
          exact hle)).2 w hw
      dsimp only at b1 b2 b3 b4 b5 b6 b7 b8 b9
      rw [k1] at b1
      rw [k3] at b2
      rw [k4] at b3
      rw [k5] at b4
      rw [k6] at b5
      rw [k7] at b6
      rw [k2] at b8
      rw [k2, k3, k7, k8] at b9
      have hst2 := (Prod.mk.inj (Except.ok.inj h)).2
      subst hst2
      refine ⟨⟨⟨?_, ?_, ?_, ?_, ?_, ?_, ?_⟩, ?_⟩, ?_⟩
      · show w.list_of_captures.length = _
        rw [b1, i1.caps]
      · show w.frames.length = _
        rw [b8, i1.frames]
      · show w.frames_t_1.length = _
        rw [b2, i1.frames1]
      · show w.frame_timestamp.length = _
        rw [b3, i1.ts]
      · show w.audio_finished.length = _
        rw [b4, i1.fin]
      · show w.flush_frames_remaining.length = _
        rw [b5, i1.flush]
      · show w.batch_indices.length = _
        rw [b6, i1.bi]
      · intro i hi
        have hv : view
            { w with
              frame_count := w.frame_count + 1
              audio_frame_batched := []
              audio_frame_num_samples_size := 0 } i =
            { view a i with
              frame :=
                if t < realTicks rE videos audio i + F then (view a i).frame1
                else (view a i).frame } := by
          unfold view
          dsimp only
          rw [b1, b2, b3, b4, b5, b9 i (by rw [i1.frames]; exact hi)]
          congr 1
          by_cases hm : i ∈ a.batch_indices.take a.batchsize
          · rw [if_pos hm, if_pos ((i6 i).mp hm).2]
          · rw [if_neg hm, if_neg (fun hc => hm ((i6 i).mpr ⟨hi, hc⟩))]
        rw [hv]
        exact i3 i hi
      · have hne : a.batch_indices.take a.batchsize ≠ [] := by
          intro hc
          have hl := congrArg List.length hc
          rw [List.length_take, i1.bi] at hl
          simp only [List.length_nil] at hl
          omega
        obtain ⟨x, hx⟩ := List.exists_mem_of_ne_nil _ hne
        obtain ⟨x1, x2⟩ := (i6 x).mp hx
        have := ls_realTicks_le_bound rE videos audio F x x1
        omega

theorem ls_tick_frame_count (sdk : Sdk) (V : Bool) (rE : Nat → Nat)
    (audio : List (List Sample)) (N t : Nat) (s : State) :
    (∀ e, tick sdk V rE audio N t s = .error e → e.frame_count = s.frame_count) ∧
    (∀ a, tick sdk V rE audio N t s = .ok (true, a) → a.frame_count = s.frame_count) ∧
    ∀ a, tick sdk V rE audio N t s = .ok (false, a) → a.frame_count = s.frame_count + 1 := by
  obtain ⟨l1, l2⟩ := ls_assembleLoop_frame_count sdk V rE audio t { s with batchsize := 0 } N
  unfold tick
  cases ha : assembleLoop sdk V rE audio t N { s with batchsize := 0 } with
  | error e =>
    dsimp only
    refine ⟨fun e1 h => ?_, (fun a h => by cases h), (fun a h => by cases h)⟩
    cases h
    exact l1 e ha
  | ok a =>
    dsimp only
    have hfa : a.frame_count = s.frame_count := l2 a ha
    obtain ⟨k1, k2, k3, k4, k5, k6, k7, k8, k9⟩ := ls_Run_view sdk t a.audio_frame_batched
      a.audio_frame_num_samples a.batch_indices a.batchsize a
    by_cases c1 : a.batchsize = 0
    · rw [if_pos c1]
      refine ⟨(fun e h => by cases h), fun b h => ?_, (fun b h => by cases h)⟩
      cases h
      exact hfa
    · rw [if_neg c1]
      by_cases c2 : (Run sdk t a.audio_frame_batched a.audio_frame_num_samples a.batch_indices
          a.batchsize a).1 ≠ 0
      · rw [if_pos c2]
        refine ⟨fun e h => ?_, (fun b h => by cases h), (fun b h => by cases h)⟩
        cases h
        exact k9.trans hfa
      · rw [if_neg c2]
        by_cases c3 : sdk.status (Call.GetActivation t) ≠ 0
        · rw [if_pos c3]
          refine ⟨fun e h => ?_, (fun b h => by cases h), (fun b h => by cases h)⟩
          cases h
          exact k9.trans hfa
        · rw [if_neg c3]
          split
          · rename_i e he
            refine ⟨fun e1 h => ?_, (fun b h => by cases h), (fun b h => by cases h)⟩
            cases h
            exact ((ls_writeLoop_frame_count sdk t _ _).1 e he).trans (k9.trans hfa)
          · rename_i w hw
            refine ⟨(fun e h => by cases h), (fun b h => by cases h), fun b h => ?_⟩
            have hst2 := (Prod.mk.inj (Except.ok.inj h)).2
            subst hst2
            show w.frame_count + 1 = _
            rw [(ls_writeLoop_frame_count sdk t _ _).2 w hw]
            show (Run sdk t a.audio_frame_batched a.audio_frame_num_samples a.batch_indices
              a.batchsize a).2.frame_count + 1 = _
            rw [k9, hfa]

theorem ls_tickLoop_terminates (sdk : Sdk) (V : Bool) (rE : Nat → Nat) (videos : List Video)
    (audio : List (List Sample)) (F : Nat) :
    ∀ fuel t s, TickInv rE videos audio F t s → t ≤ tickBound rE videos audio F →
      tickBound rE videos audio F + 1 ≤ t + fuel →
      ∃ st, tickLoop sdk V rE audio audio.length fuel t s = some st ∧
        st.frame_count + t ≤ s.frame_count + tickBound rE videos audio F := by
  intro fuel
  induction fuel with
  | zero =>
    intro t s _ h1 h2
    omega
  | succ fuel ih =>
    intro t s hinv h1 h2
    obtain ⟨f1, f2, f3⟩ := ls_tick_frame_count sdk V rE audio audio.length t s
    have hstep := ls_tick_step sdk V rE videos audio F t s hinv
    unfold tickLoop
    cases ht : tick sdk V rE audio audio.length t s with
    | error e =>
      dsimp only
      exact ⟨e, rfl, by rw [f1 e ht]; omega⟩
    | ok r =>
      obtain ⟨b, st1⟩ := r
      cases b with
      | true =>
        dsimp only
        exact ⟨st1, rfl, by rw [f2 st1 ht]; omega⟩
      | false =>
        dsimp only
        obtain ⟨g1, g2⟩ := hstep st1 ht
        obtain ⟨st, e1, e2⟩ := ih (t + 1) st1 g1 (by omega) (by omega)
        refine ⟨st, e1, ?_⟩
        rw [f3 st1 ht] at e2
        omega

theorem ls_realTicks_pos (rE : Nat → Nat) (videos : List Video) (audio : List (List Sample))
    (i : Nat) (h : 0 < numFrames videos i) : 0 < realTicks rE videos audio i := by
  obtain ⟨_, _, _, i4⟩ := realTicksFrom_spec rE (audio.getD i []).length (numFrames videos i) 0
  unfold realTicks
  by_cases hlt : realTicksFrom rE (audio.getD i []).length (numFrames videos i) 0 <
      0 + numFrames videos i
  · have := (i4 hlt).1
    omega
  · omega

theorem ls_initLoop_inv (sdk : Sdk) (rE : Nat → Nat) (videos : List Video)
    (audio : List (List Sample)) (F : Nat) (s0 : State) (hl : Lens audio.length s0)
    (h0 : ∀ i, i < audio.length →
      view s0 i =
        { cap := { opened := true, frames := (videos.getD i Video.absent).frames, pos := 0 }
          frame := none, frame1 := none, ts := 0, fin := false, flush := F }) :
    ∀ k, k ≤ audio.length →
      (∀ e, initLoop sdk k s0 = .error e → e.frame_count = s0.frame_count) ∧
      ∀ p, initLoop sdk k s0 = .ok p →
        Lens audio.length p ∧ p.frame_count = s0.frame_count ∧
        (∀ i, i < k →
          StreamInv (realTicks rE videos audio i) F 0 (videos.getD i Video.absent).frames
            (view p i)) ∧
        ∀ i, k ≤ i → view p i = view s0 i := by
  intro k
  induction k with
  | zero =>
    intro _
    refine ⟨(fun e h => by cases h), fun p h => ?_⟩
    cases h
    exact ⟨hl, rfl, fun i hi => absurd hi (by omega), fun _ _ => rfl⟩
  | succ k ih =>
    intro hk
    obtain ⟨ih1, ih2⟩ := ih (by omega)
    cases hp : initLoop sdk k s0 with
    | error e0 =>
      refine ⟨fun e h => ?_, fun p h => ?_⟩
      · simp only [initLoop, hp] at h
        cases h
        exact ih1 e0 hp
      · simp only [initLoop, hp] at h
        cases h
    | ok p =>
      obtain ⟨pl, pf, ps, pu⟩ := ih2 p hp
      have hvk : view p k =
          { cap := { opened := true, frames := (videos.getD k Video.absent).frames, pos := 0 }
            frame := none, frame1 := none, ts := 0, fin := false, flush := F } := by
        rw [pu k (Nat.le_refl k)]
        exact h0 k (by omega)
      have hcap : p.list_of_captures.getD k VideoCapture.new =
          { opened := true, frames := (videos.getD k Video.absent).frames, pos := 0 } :=
        congrArg StreamView.cap hvk
      have hfr1 : p.frames_t_1.getD k none = none := congrArg StreamView.frame1 hvk
      have hts : p.frame_timestamp.getD k 0 = 0 := congrArg StreamView.ts hvk
      have hfin : p.audio_finished.getD k false = false := congrArg StreamView.fin hvk
      have hflush : p.flush_frames_remaining.getD k 0 = F := congrArg StreamView.flush hvk
      have hkc : k < p.list_of_captures.length := by rw [pl.caps]; omega
      have hkf : k < p.frames.length := by rw [pl.frames]; omega
      have himg : (p.list_of_captures.getD k VideoCapture.new).image =
          (videos.getD k Video.absent).frames[0]? := by
        rw [hcap]
        simp [VideoCapture.image]
      obtain ⟨r1, r2, r3⟩ := realTicks_spec rE videos audio k
      have key : ∀ (q : State) (c : VideoCapture),
          q.list_of_captures = p.list_of_captures.set k c →
          q.frames = p.frames.set k (videos.getD k Video.absent).frames[0]? →
          q.frames_t_1 = p.frames_t_1 → q.frame_timestamp = p.frame_timestamp →
          q.audio_finished = p.audio_finished →
          q.flush_frames_remaining = p.flush_frames_remaining →
          q.batch_indices = p.batch_indices → q.frame_count = p.frame_count →
          (0 < numFrames videos k →
            c = { opened := true, frames := (videos.getD k Video.absent).frames, pos := 1 }) →
          (numFrames videos k = 0 → c.opened = false) →
          Lens audio.length q ∧ q.frame_count = s0.frame_count ∧
          (∀ i, i < k + 1 →
            StreamInv (realTicks rE videos audio i) F 0 (videos.getD i Video.absent).frames
              (view q i)) ∧
          ∀ i, k + 1 ≤ i → view q i = view s0 i := by
        intro q c e1 e2 e3 e4 e5 e6 e7 e8 hc1 hc2
        have hne : ∀ i, k ≠ i → view q i = view p i := by
          intro i hik
          unfold view
          rw [e1, e2, e3, e4, e5, e6, getD_set_ne _ _ _ _ _ hik, getD_set_ne _ _ _ _ _ hik]
        refine ⟨⟨by rw [e1, List.length_set, pl.caps], by rw [e2, List.length_set, pl.frames],
          by rw [e3, pl.frames1], by rw [e4, pl.ts], by rw [e5, pl.fin], by rw [e6, pl.flush],
          by rw [e7, pl.bi]⟩, e8.trans pf, ?_, ?_⟩
        · intro i hi
          by_cases hik : k = i
          · subst hik
            have hv : view q k =
                { cap := c, frame := (videos.getD k Video.absent).frames[0]?, frame1 := none,
                  ts := 0, fin := false, flush := F } := by
              unfold view
              rw [e1, e2, e3, e4, e5, e6, getD_set_self _ _ _ _ hkc,
                getD_set_self _ _ _ _ hkf, hfr1, hts, hfin, hflush]
            rw [hv]
            refine ⟨rfl, by show F = _; omega, ?_, ?_⟩
            · intro hr
              have hV : 0 < numFrames videos k := by omega
              refine ⟨?_, rfl, hc1 hV⟩
              show (videos.getD k Video.absent).frames[0]? ≠ none
              rw [List.getElem?_eq_getElem hV]
              exact fun h => by cases h
            · intro hr
              have hV : numFrames videos k = 0 := by
                by_contra hc
                have := ls_realTicks_pos rE videos audio k (by omega)
                omega
              refine Or.inr ⟨?_, ?_, fun _ => rfl⟩
              · show (videos.getD k Video.absent).frames[0]? = none
                rw [List.getElem?_eq_none]
                exact Nat.le_of_eq hV
              · intro ho
                rw [hc2 hV] at ho
                cases ho
          · rw [hne i hik]
            exact ps i (by omega)
        · intro i hi
          rw [hne i (by omega)]
          exact pu i (by omega)
      have hop : (!(p.list_of_captures.getD k VideoCapture.new).opened) = false := by
        rw [hcap]
        rfl
      have hset : (p.frames.set k (p.list_of_captures.getD k VideoCapture.new).image).getD k
          none = (videos.getD k Video.absent).frames[0]? := by
        rw [getD_set_self _ _ _ _ hkf, himg]
      have hadv : 0 < numFrames videos k →
          (p.list_of_captures.getD k VideoCapture.new).advance =
            { opened := true, frames := (videos.getD k Video.absent).frames, pos := 1 } := by
        intro hV
        rw [hcap]
        unfold VideoCapture.advance
        rw [if_pos ⟨rfl, hV⟩]
      refine ⟨fun e h => ?_, fun q h => ?_⟩
      · simp only [initLoop, hp, hop, Bool.false_eq_true, if_false, hset, hfin, or_false] at h
        split_ifs at h
        cases h
        exact pf
      · simp only [initLoop, hp, hop, Bool.false_eq_true, if_false, hset, hfin, or_false] at h
        by_cases hnone : (videos.getD k Video.absent).frames[0]? = none
        · rw [if_pos hnone] at h
          cases h
          have hV : numFrames videos k = 0 := by
            rw [List.getElem?_eq_none_iff] at hnone
            unfold numFrames
            omega
          refine key _ (((p.list_of_captures.set k
              (p.list_of_captures.getD k VideoCapture.new).advance).getD k
              VideoCapture.new).release) ?_ ?_ rfl rfl rfl rfl rfl rfl
            (fun h => absurd h (by omega)) (fun _ => rfl)
          · show List.set (List.set _ _ _) _ _ = _
            rw [List.set_set]
          · show List.set _ _ _ = _
            rw [himg]
        · rw [if_neg hnone] at h
          have hV : 0 < numFrames videos k := by
            rw [List.getElem?_eq_none_iff] at hnone
            unfold numFrames
            omega
          split_ifs at h
          cases h
          refine key _ ((p.list_of_captures.getD k VideoCapture.new).advance) rfl ?_ rfl rfl
            rfl rfl rfl rfl hadv (fun h => absurd h (by omega))
          show List.set _ _ _ = _
          rw [himg]

theorem ls_getD_replicate {α : Type} (n i : Nat) (x d : α) (h : i < n) :
    (List.replicate n x).getD i d = x := by
  rw [List.getD_eq_getElem?_getD, List.getElem?_replicate, if_pos h]
  rfl

/-- For every environment, verbosity, requested-end function, list of videos, list of audio
buffers and flush window `F = NumInitialFrames`, the `while (1)` loop of `BatchProcessVideos`
does not go on for ever: with fuel for `tickBound + 1` iterations or more the run ends, through
`break`, through `bail` or with the exception thrown by the insert of line 557, and the
number of ticks completed before that is at most `tickBound`, the largest number of
real-input ticks of a stream plus `F`. The real-input ticks of stream `i` are
`min (V_i, T + 1)` when `T` is the first tick whose requested end sample reaches the length
of the stream's audio, and `V_i` when no tick below `V_i` does, for a video of `V_i`
frames. -/
theorem ls_run_ends_within_bound (sdk : Sdk) (FLAG_verbose : Bool)
    (requestedEnd : Nat → Nat) (videos : List Video) (list_of_audio : List (List Sample))
    (m : Nat) :
    (∃ st, BatchProcessVideos sdk FLAG_verbose requestedEnd videos list_of_audio
        (tickBound requestedEnd videos list_of_audio sdk.NumInitialFrames + 1 + m) = some st ∧
      st.frame_count ≤ tickBound requestedEnd videos list_of_audio sdk.NumInitialFrames) ∧
    tickBound requestedEnd videos list_of_audio sdk.NumInitialFrames =
      ((List.range list_of_audio.length).map
        (realTicks requestedEnd videos list_of_audio)).foldr max 0 + sdk.NumInitialFrames ∧
    (∀ i T, (∀ u, u < T → requestedEnd (u + 1) < (list_of_audio.getD i []).length) →
      (list_of_audio.getD i []).length ≤ requestedEnd (T + 1) →
      realTicks requestedEnd videos list_of_audio i = min (numFrames videos i) (T + 1)) ∧
    ∀ i, (∀ u, u < numFrames videos i →
        requestedEnd (u + 1) < (list_of_audio.getD i []).length) →
      realTicks requestedEnd videos list_of_audio i = numFrames videos i := by
  refine ⟨?_, rfl, fun i T h1 h2 => realTicks_eq_min requestedEnd videos list_of_audio i T h1 h2,
    fun i h => realTicks_eq_frames requestedEnd videos list_of_audio i h⟩
  unfold BatchProcessVideos
  dsimp only
  by_cases hg : ¬ list_of_audio.length > 0
  · rw [if_pos hg]
    exact ⟨_, rfl, Nat.zero_le _⟩
  rw [if_neg hg]
  split
  · exact ⟨_, rfl, Nat.zero_le _⟩
  · exact ⟨_, rfl, Nat.zero_le _⟩
  · rename_i caps w h hopen
    obtain ⟨o1, o2⟩ := ls_openLoop_ok videos list_of_audio.length list_of_audio.length
      (Nat.le_refl _) caps w h hopen
    try dsimp only
    split_ifs
    · exact ⟨_, rfl, Nat.zero_le _⟩
    · exact ⟨_, rfl, Nat.zero_le _⟩
    · exact ⟨_, rfl, Nat.zero_le _⟩
    · exact ⟨_, rfl, Nat.zero_le _⟩
    · exact ⟨_, rfl, Nat.zero_le _⟩
    · have hinit := ls_initLoop_inv sdk requestedEnd videos list_of_audio sdk.NumInitialFrames
        { (initialState caps list_of_audio.length) with
          err := sdk.status Call.GetNumInitialFrames
          app :=
            { ((initialState caps list_of_audio.length).app.Init sdk list_of_audio.length).2 with
              m_srcVid := List.replicate list_of_audio.length none }
          flush_frames_remaining :=
            List.replicate list_of_audio.length sdk.NumInitialFrames }
        ⟨o1, by simp [initialState], by simp [initialState], by simp [initialState],
          by simp [initialState], by simp, by simp [initialState]⟩
        (by
          intro i hi
          obtain ⟨v, hv1, hv2, hv3⟩ := o2 i hi
          have hvf : (videos.getD i Video.absent).frames = v.frames := by
            rw [List.getD_eq_getElem?_getD, hv1]
            rfl
          unfold view
          dsimp only [initialState]
          rw [getD_of_getElem? _ hv3, ls_getD_replicate _ _ _ _ hi,
            ls_getD_replicate _ _ _ _ hi, ls_getD_replicate _ _ _ _ hi,
            ls_getD_replicate _ _ _ _ hi, hvf]) list_of_audio.length (Nat.le_refl _)
      obtain ⟨he, hok⟩ := hinit
      split
      · rename_i e heq
        refine ⟨e, rfl, ?_⟩
        rw [he e heq]
        exact Nat.zero_le _
      · rename_i s heq
        obtain ⟨s1, s2, s3, s4⟩ := hok s heq
        split
        · refine ⟨_, rfl, ?_⟩
          show s.frame_count ≤ _
          rw [s2]
          exact Nat.zero_le _
        · obtain ⟨st, e1, e2⟩ := ls_tickLoop_terminates sdk FLAG_verbose requestedEnd videos
            list_of_audio sdk.NumInitialFrames
            (tickBound requestedEnd videos list_of_audio sdk.NumInitialFrames + 1 + m) 0 s
            ⟨s1, s3⟩ (Nat.zero_le _) (by omega)
          refine ⟨st, e1, ?_⟩
          rw [s2] at e2
          have h0 : (0 : Nat) = 0 := rfl
          exact (Nat.add_zero _ ▸ e2).trans (Nat.le_of_eq (Nat.zero_add _))

/-- C12, at a failing input: two streams with videos of three frames and audio buffers of
1500 and 600 samples, flush window 0, no failing call; `tickBound` is 3 ticks. Tick 0 is
run with both streams. On tick 1 the end sample requested is 1066: stream 0 is
staged, and the audio of stream 1 is cut from the sample 1066 that stream 0 has left in
`last_audio_end_sample`, which lies behind the end 600 of the audio of stream 1, so the
insert of line 557 throws. The run ends there, after one inference call and with stream 0
staged in a batch that is not empty: no empty batch is reached. Stream 1 alone ends its run
through the empty batch of tick 2. -/
theorem audio_range_exception_ends_the_run :
    tickBound exactRequestedEnd [Video.sample 3 10, Video.sample 3 20]
        [List.replicate 1500 1, List.replicate 600 2] 0 = 3 ∧
    (BatchProcessVideos (Sdk.succeeding 0) false exactRequestedEnd
        [Video.sample 3 10, Video.sample 3 20]
        [List.replicate 1500 1, List.replicate 600 2] 10).map
      (fun st => (st.err, st.violations, st.trace.countP Event.isRun, st.frame_count,
        st.batchsize, st.last_audio_end_sample)) =
      some (NVCV_SUCCESS,
        [Violation.numSamplesIndex 1 0 0, Violation.audioRange 1 1 1066 600], 1, 1, 1, 1066) ∧
    (BatchProcessVideos (Sdk.succeeding 0) false exactRequestedEnd [Video.sample 3 20]
        [List.replicate 600 2] 10).map
      (fun st => (st.err, st.violations, st.trace.countP Event.isRun, st.frame_count,
        st.batchsize)) =
      some (NVCV_SUCCESS, [Violation.numSamplesIndex 1 0 0], 2, 2, 0) :=
  ⟨by decide, by decide, by decide⟩

end Termination



section Flags

/-- C22, at failing inputs. FaceTrack Triton `ParseMyArgs`, whatever `strtol` computes: for
the argument `--temporal`, which is the form `Usage` prints, `GetFlagArgVal` matches the flag
with `*val = NULL` and the `long` overload passes that null pointer to `strtol`; the same for
`--landmark_mode` and for `--log_level`. With a value (`--temporal=3`) `strtol` is given the
string `3`, and the flags without a number (`--grpc`) are parsed without a call of
`strtol`. -/
theorem flag_without_value_passes_null_to_strtol (strtol : List Char → Int) :
    FaceTrackTriton.ParseMyArgs strtol ["--temporal".toList] 0 FaceTrackTriton.Flags.initial =
      .error "--temporal".toList ∧
    FaceTrackTriton.ParseMyArgs strtol ["--landmark_mode".toList] 0
        FaceTrackTriton.Flags.initial = .error "--landmark_mode".toList ∧
    FaceTrackTriton.ParseMyArgs strtol ["--log_level".toList] 0
        FaceTrackTriton.Flags.initial = .error "--log_level".toList ∧
    GetFlagArgVal_unsigned strtol "temporal".toList "--temporal".toList =
      FlagResult.nullToStrtol ∧
    FaceTrackTriton.ParseMyArgs strtol ["--temporal=3".toList] 0
        FaceTrackTriton.Flags.initial =
      .ok (0, { FaceTrackTriton.Flags.initial with
                FLAG_temporal := (strtol ['3'] % 2 ^ 32).toNat }) ∧
    FaceTrackTriton.ParseMyArgs strtol ["--grpc".toList] 0 FaceTrackTriton.Flags.initial =
      .ok (0, { FaceTrackTriton.Flags.initial with FLAG_useTritonGRPC := true }) :=
  ⟨rfl, rfl, rfl, rfl, rfl, rfl⟩

end Flags

section Split

theorem takeWhile_ne_append (c : Char) (a b : List Char) (h : c ∉ a) :
    (a ++ c :: b).takeWhile (fun x => x != c) = a ∧
    (a ++ c :: b).dropWhile (fun x => x != c) = c :: b := by
  induction a with
  | nil => simp
  | cons x a ih =>
    have hx : x ≠ c := fun e => h (by rw [e]; exact List.mem_cons_self _ _)
    have ha : c ∉ a := fun e => h (List.mem_cons_of_mem _ e)
    obtain ⟨i1, i2⟩ := ih ha
    simp [hx, i1, i2]

theorem takeWhile_ne_self (c : Char) (a : List Char) (h : c ∉ a) :
    a.takeWhile (fun x => x != c) = a ∧ a.dropWhile (fun x => x != c) = [] := by
  induction a with
  | nil => simp
  | cons x a ih =>
    have hx : x ≠ c := fun e => h (by rw [e]; exact List.mem_cons_self _ _)
    have ha : c ∉ a := fun e => h (List.mem_cons_of_mem _ e)
    obtain ⟨i1, i2⟩ := ih ha
    simp [hx, i1, i2]

theorem takeWhile_append_dropWhile_ne (c : Char) (s : List Char) :
    c ∉ s.takeWhile (fun x => x != c) ∧
    (s.dropWhile (fun x => x != c) = [] ∨
      ∃ b, s.dropWhile (fun x => x != c) = c :: b) := by
  induction s with
  | nil => simp
  | cons x s ih =>
    by_cases hx : x = c
    · subst hx
      simp
    · obtain ⟨i1, i2⟩ := ih
      simp only [List.takeWhile_cons, List.dropWhile_cons, bne_iff_ne, ne_eq, hx,
        not_false_eq_true, if_true, List.mem_cons, not_or]
      exact ⟨⟨fun e => hx e.symm, i1⟩, i2⟩

theorem GetFlagArgVal_with_value (flag v : List Char) (h1 : '=' ∉ flag)
    (h2 : flag.head? ≠ some '-') :
    GetFlagArgVal flag ("--".toList ++ flag ++ '=' :: v) = some (some v) := by
  have hd : (['-'] ++ flag ++ '=' :: v).dropWhile (fun c => c == '-') = flag ++ '=' :: v := by
    cases flag with
    | nil => simp
    | cons x flag =>
      have hx : x ≠ '-' := fun e => h2 (by rw [e]; rfl)
      simp [hx]
  obtain ⟨t1, t2⟩ := takeWhile_ne_append '=' flag v h1
  show GetFlagArgVal flag ('-' :: (['-'] ++ flag ++ '=' :: v)) = _
  unfold GetFlagArgVal
  simp only [ne_eq, not_true_eq_false, if_false, hd, t1, t2, or_self]

theorem GetFlagArgVal_dash (flag rest : List Char) :
    GetFlagArgVal flag ('-' :: rest) =
      match (rest.dropWhile (fun c => c == '-')).dropWhile (fun c => c != '=') with
      | [] => if flag ≠ rest.dropWhile (fun c => c == '-') then none else some none
      | _ :: val =>
        if flag.length ≠
              ((rest.dropWhile (fun c => c == '-')).takeWhile (fun c => c != '=')).length ∨
            flag ≠ (rest.dropWhile (fun c => c == '-')).takeWhile (fun c => c != '=') then none
        else some (some val) := by
  simp only [GetFlagArgVal, ne_eq, not_true_eq_false, if_false]

theorem dashes_split (rest : List Char) :
    '-' :: rest = List.replicate ((rest.takeWhile (fun c => c == '-')).length + 1) '-' ++
      rest.dropWhile (fun c => c == '-') := by
  have e1 : rest.takeWhile (fun c => c == '-') =
      List.replicate (rest.takeWhile (fun c => c == '-')).length '-' := by
    rw [List.eq_replicate_iff]
    refine ⟨rfl, fun b hb => ?_⟩
    have := List.mem_takeWhile_imp hb
    simpa using this
  rw [List.replicate_succ, List.cons_append, ← e1, List.takeWhile_append_dropWhile]

theorem GetFlagArgVal_form (flag arg : List Char) :
    (GetFlagArgVal flag arg = some none →
      ∃ k, arg = List.replicate (k + 1) '-' ++ flag) ∧
    ∀ v, GetFlagArgVal flag arg = some (some v) →
      ∃ k, arg = List.replicate (k + 1) '-' ++ flag ++ '=' :: v := by
  cases arg with
  | nil =>
    refine ⟨fun h => ?_, fun v h => ?_⟩
    · simp [GetFlagArgVal] at h
    · simp [GetFlagArgVal] at h
  | cons c rest =>
    by_cases hc : c = '-'
    · subst hc
      rw [GetFlagArgVal_dash]
      have hsplit := List.takeWhile_append_dropWhile (fun c => c != '=')
        (rest.dropWhile (fun c => c == '-'))
      obtain ⟨_, d2⟩ := takeWhile_append_dropWhile_ne '='
        (rest.dropWhile (fun c => c == '-'))
      have hd := dashes_split rest
      cases hdw : (rest.dropWhile (fun c => c == '-')).dropWhile (fun c => c != '=') with
      | nil =>
        dsimp only
        refine ⟨fun h => ?_, fun v h => ?_⟩
        · by_cases hf : flag = rest.dropWhile (fun c => c == '-')
          · exact ⟨_, by rw [hd, hf]⟩
          · rw [if_pos hf] at h
            cases h
        · split_ifs at h
          cases h
      | cons x val =>
        dsimp only
        refine ⟨fun h => ?_, fun v h => ?_⟩
        · split_ifs at h
          cases h
        · by_cases hf : flag.length ≠
              ((rest.dropWhile (fun c => c == '-')).takeWhile (fun c => c != '=')).length ∨
              flag ≠ (rest.dropWhile (fun c => c == '-')).takeWhile (fun c => c != '=')
          · rw [if_pos hf] at h
            cases h
          · rw [if_neg hf] at h
            have hv : val = v := Option.some.inj (Option.some.inj h)
            rw [not_or, not_not, not_not] at hf
            rcases d2 with d2 | ⟨b, d2⟩
            · rw [hdw] at d2
              cases d2
            · rw [hdw] at d2
              have hx : x = '=' := (List.cons.inj d2).1
              rw [hdw, hx, hv, ← hf.2] at hsplit
              exact ⟨_, by rw [hd, ← hsplit, List.append_assoc]⟩
    · refine ⟨fun h => ?_, fun v h => ?_⟩
      · simp [GetFlagArgVal, hc] at h
      · simp [GetFlagArgVal, hc] at h

theorem splitOnP_no_sep (p : Char → Bool) :
    ∀ s : List Char, ∀ q ∈ s.splitOnP p, ∀ x ∈ q, p x = false := by
  intro s
  induction s with
  | nil =>
    intro q hq x hx
    rw [List.splitOnP_nil, List.mem_singleton] at hq
    subst hq
    cases hx
  | cons a s ih =>
    intro q hq x hx
    rw [List.splitOnP_cons] at hq
    by_cases ha : p a = true
    · rw [if_pos ha, List.mem_cons] at hq
      rcases hq with hq | hq
      · subst hq
        cases hx
      · exact ih q hq x hx
    · rw [if_neg ha] at hq
      cases hs : s.splitOnP p with
      | nil =>
        rw [hs] at hq
        simp [List.modifyHead] at hq
      | cons h t =>
        rw [hs] at hq ih
        simp only [List.modifyHead, List.mem_cons] at hq
        rcases hq with hq | hq
        · subst hq
          rw [List.mem_cons] at hx
          rcases hx with hx | hx
          · subst hx
            simpa using ha
          · exact ih h (List.mem_cons_self _ _) x hx
        · exact ih q (List.mem_cons_of_mem _ hq) x hx

theorem splitOn_fields_step (x : Char) (xs : List Char) :
    (((x :: xs).splitOn ',').filter (fun p => decide (p ≠ []))) =
      (if (x :: xs).takeWhile (fun c => c != ',') ≠ [] then
        [(x :: xs).takeWhile (fun c => c != ',')] else []) ++
      (((((x :: xs).dropWhile (fun c => c != ',')).drop 1).splitOn ',').filter
        (fun p => decide (p ≠ []))) := by
  obtain ⟨n1, n2⟩ := takeWhile_append_dropWhile_ne ',' (x :: xs)
  have hsplit := List.takeWhile_append_dropWhile (fun c => c != ',') (x :: xs)
  have hno : ∀ y ∈ (x :: xs).takeWhile (fun c => c != ','), ¬ (y == ',') = true := by
    intro y hy hc
    rw [beq_iff_eq] at hc
    subst hc
    exact n1 hy
  rcases n2 with n2 | ⟨b, n2⟩
  · rw [n2] at hsplit
    rw [List.append_nil] at hsplit
    rw [n2, hsplit]
    have h1 : (x :: xs).splitOn ',' = [x :: xs] := by
      unfold List.splitOn
      rw [List.splitOnP_eq_single]
      intro y hy
      rw [← hsplit] at hy
      exact hno y hy
    rw [h1]
    simp [List.splitOn]
  · rw [n2] at hsplit
    have h1 : (x :: xs).splitOn ',' =
        (x :: xs).takeWhile (fun c => c != ',') :: b.splitOn ',' := by
      unfold List.splitOn
      conv_lhs => rw [← hsplit]
      exact List.splitOnP_first _ _ hno ',' (by simp) b
    rw [h1, n2]
    by_cases he : (x :: xs).takeWhile (fun c => c != ',') = []
    · rw [he]
      simp
    · rw [if_pos he, List.filter_cons_of_pos (by simpa using he)]
      simp

theorem splitLoop_eq (fuel : Nat) :
    ∀ (s : List Char) (vals : List (List Char)), s.length < fuel →
      splitLoop fuel s vals =
        some (vals ++ (s.splitOn ',').filter (fun p => decide (p ≠ []))) := by
  induction fuel with
  | zero =>
    intro s vals h
    omega
  | succ fuel ih =>
    intro s vals h
    cases s with
    | nil => simp [splitLoop, getline, List.splitOn]
    | cons x xs =>
      have hlen : (((x :: xs).dropWhile (fun c => c != ',')).drop 1).length < fuel := by
        have h1 := (List.dropWhile_sublist (fun c => c != ',') (l := x :: xs)).length_le
        rw [List.length_drop]
        simp only [List.length_cons] at h h1 ⊢
        omega
      simp only [splitLoop, getline]
      rw [ih _ _ hlen, splitOn_fields_step x xs]
      by_cases he : (x :: xs).takeWhile (fun c => c != ',') = []
      · rw [if_neg (not_not.mpr he), if_neg (not_not.mpr he), List.nil_append]
      · rw [if_pos he, if_pos he, List.append_assoc]

/-- C23. For a flag name without `=` that does not begin with `-` and every value `v`,
`GetFlagArgValAndSplit` on the argument `--<flag>=<v>` returns true and leaves in `vals` the
entries it held followed by the non-empty fields of `v` between commas, in order: the fields
are the lists `v.splitOn ','`, which joined with commas give back `v`, and no entry appended
is empty or contains a comma. For an argument that is not the flag after one or more dashes,
alone or followed by `=` and a value, it returns false and leaves `vals` unchanged. -/
theorem split_appends_the_nonempty_fields (flag v : List Char) (vals : List (List Char))
    (h1 : '=' ∉ flag) (h2 : flag.head? ≠ some '-') :
    GetFlagArgValAndSplit flag ("--".toList ++ flag ++ '=' :: v) vals =
      some (true, vals ++ (v.splitOn ',').filter (fun p => decide (p ≠ []))) ∧
    [','].intercalate (v.splitOn ',') = v ∧
    (∀ p ∈ (v.splitOn ',').filter (fun p => decide (p ≠ [])), p ≠ [] ∧ ',' ∉ p) ∧
    ∀ arg : List Char,
      (∀ k w, arg ≠ List.replicate (k + 1) '-' ++ flag ∧
        arg ≠ List.replicate (k + 1) '-' ++ flag ++ '=' :: w) →
      GetFlagArgValAndSplit flag arg vals = some (false, vals) := by
  refine ⟨?_, List.intercalate_splitOn v ',', ?_, ?_⟩
  · unfold GetFlagArgValAndSplit
    rw [GetFlagArgVal_with_value flag v h1 h2]
    simp only [splitLoop_eq (v.length + 1) v vals (Nat.lt_succ_self _)]
  · intro p hp
    obtain ⟨hp1, hp2⟩ := List.mem_filter.mp hp
    refine ⟨by simpa using hp2, fun hc => ?_⟩
    have := splitOnP_no_sep (fun c => c == ',') v p hp1 ',' hc
    simp at this
  · intro arg harg
    unfold GetFlagArgValAndSplit
    obtain ⟨g1, g2⟩ := GetFlagArgVal_form flag arg
    cases hg : GetFlagArgVal flag arg with
    | none => rfl
    | some r =>
      exfalso
      cases r with
      | none =>
        obtain ⟨k, hk⟩ := g1 hg
        exact (harg k []).1 hk
      | some w =>
        obtain ⟨k, hk⟩ := g2 w hg
        exact (harg k w).2 hk

/-- Witness of `split_appends_the_nonempty_fields`: `--src_videos=a.mp4,,b.mp4,` appends
`a.mp4` and `b.mp4` to a vector that holds `x`. -/
theorem split_appends_the_nonempty_fields_witness :
    '=' ∉ "src_videos".toList ∧ "src_videos".toList.head? ≠ some '-' ∧
    GetFlagArgValAndSplit "src_videos".toList
        ("--".toList ++ "src_videos".toList ++ '=' :: "a.mp4,,b.mp4,".toList) [['x']] =
      some (true, [['x']] ++
        ("a.mp4,,b.mp4,".toList.splitOn ',').filter (fun p => decide (p ≠ []))) ∧
    ("a.mp4,,b.mp4,".toList.splitOn ',').filter (fun p => decide (p ≠ [])) =
      ["a.mp4".toList, "b.mp4".toList] :=
  ⟨by decide, by decide,
    (split_appends_the_nonempty_fields "src_videos".toList "a.mp4,,b.mp4,".toList [['x']]
      (by decide) (by decide)).1, by decide⟩

end Split

namespace LipSyncTriton

/-- C26, at a failing input (one stream, a video of two frames and 1500 audio samples, flush
window 0, no failure). The vector `audio_frame_num_samples` is created with `num_streams = 1`
elements and cleared at the end of every tick, so on tick 1 the write
`audio_frame_num_samples[0] = ...` finds a vector of size 0; on tick 0 the write is in
bounds. The run goes on to success with two inference calls. -/
theorem num_samples_vector_is_empty_after_first_tick :
    (BatchProcessVideos (Sdk.succeeding 0) false exactRequestedEnd [Video.sample 2 10]
        [List.replicate 1500 1] 5).map
      (fun st => (st.err, st.violations, st.trace.countP Event.isRun)) =
      some (NVCV_SUCCESS, [Violation.numSamplesIndex 1 0 0], 2) := by
  decide

/-- C27, at failing inputs. The argument list `--src_audios=a.wav` is parsed without error
and leaves one audio file and no video file; `BatchProcessVideos` with one audio buffer and an
empty `FLAG_srcVideoFiles` reads `FLAG_srcVideoFiles[0]` in the first iteration of the loop
that opens the videos, whatever the environment, and no error status is set before it. The
same with two audio files and one video file that opens, for `FLAG_srcVideoFiles[1]`. -/
theorem fewer_videos_than_audios_indexes_past_the_end (strtol : List Char → Int) (sdk : Sdk)
    (FLAG_verbose : Bool) (requestedEnd : Nat → Nat) (a b : List Sample) (fuel : Nat) :
    ParseMyArgs strtol ["--src_audios=a.wav".toList] 0 Flags.initial =
      .ok (0, { Flags.initial with FLAG_srcAudioFiles := ["a.wav".toList] }) ∧
    (BatchProcessVideos sdk FLAG_verbose requestedEnd [] [a] fuel).map
        (fun st => (st.err, st.violations, st.trace)) =
      some (NVCV_SUCCESS, [Violation.videoFileIndex 0 0], []) ∧
    ParseMyArgs strtol ["--src_videos=v.mp4".toList, "a.wav".toList, "b.wav".toList] 0
        Flags.initial =
      .ok (0, { Flags.initial with
                FLAG_srcVideoFiles := ["v.mp4".toList]
                FLAG_srcAudioFiles := ["a.wav".toList, "b.wav".toList] }) ∧
    (BatchProcessVideos sdk FLAG_verbose requestedEnd [Video.sample 2 10] [a, b] fuel).map
        (fun st => (st.err, st.violations, st.trace)) =
      some (NVCV_SUCCESS, [Violation.videoFileIndex 1 1], []) :=
  ⟨rfl, rfl, rfl, rfl⟩

end LipSyncTriton



namespace WaveReadWrite

theorem readOne_of_several (wave_file : WaveFile) (num_files rate : Nat) (ch : Int) (a : Nat)
    (st : ReadState) (hn : 1 < num_files) (hv : wave_file.valid = true)
    (hr : wave_file.sampleRate = rate) (hc : (wave_file.nChannels : Int) = ch) (ha : 0 < a)
    (ha2 : a < 2 ^ 31) :
    readOne wave_file num_files rate ch (a : Int) st =
      .ok { original_num_samples :=
              (st.original_num_samples + wave_file.samples.length % 2 ^ 32) % 2 ^ 32
            ret := some (st.ret.getD [] ++ wave_file.samples)
            data := st.ret.getD [] ++ wave_file.samples } := by
  have h1 : ((a : Int) % 2 ^ 32).toNat = a := by
    have : ((a : Int) % 2 ^ 32) = (a : Int) := Int.emod_eq_of_lt (by omega) (by omega)
    rw [this]
    exact Int.toNat_natCast a
  have h2 : ¬ ((a : Int) ≠ -1 ∧ ((a : Int) % 2 ^ 32).toNat = 0) := by
    rw [h1]
    omega
  unfold readOne
  rw [if_neg (by rw [hv]; decide), if_neg (not_not.mpr hr), if_neg (not_not.mpr hc)]
  dsimp only
  rw [if_neg h2, if_pos hn]

theorem readLoop_of_several (fs : List Char → WaveFile) (num_files rate : Nat) (ch : Int)
    (a : Nat) (hn : 1 < num_files) (ha : 0 < a) (ha2 : a < 2 ^ 31) :
    ∀ (names : List (List Char)) (st : ReadState),
      (∀ f ∈ names, (fs f).valid = true ∧ (fs f).sampleRate = rate ∧
        ((fs f).nChannels : Int) = ch) →
      names ≠ [] →
      st.original_num_samples + (names.flatMap (fun f => (fs f).samples)).length < 2 ^ 32 →
      readLoop fs num_files rate ch (a : Int) names st =
        .ok { original_num_samples :=
                st.original_num_samples + (names.flatMap (fun f => (fs f).samples)).length
              ret := some (st.ret.getD [] ++ names.flatMap (fun f => (fs f).samples))
              data := st.ret.getD [] ++ names.flatMap (fun f => (fs f).samples) } := by
  intro names
  induction names with
  | nil =>
    intro st _ h _
    exact absurd rfl h
  | cons f names ih =>
    intro st hv _ hb
    obtain ⟨v1, v2, v3⟩ := hv f (List.mem_cons_self _ _)
    simp only [List.flatMap_cons, List.length_append] at hb
    have hm : (fs f).samples.length % 2 ^ 32 = (fs f).samples.length :=
      Nat.mod_eq_of_lt (by omega)
    have hm2 : (st.original_num_samples + (fs f).samples.length) % 2 ^ 32 =
        st.original_num_samples + (fs f).samples.length := Nat.mod_eq_of_lt (by omega)
    simp only [readLoop, readOne_of_several (fs f) num_files rate ch a st hn v1 v2 v3 ha ha2,
      hm, hm2]
    cases names with
    | nil =>
      simp only [readLoop, List.flatMap_cons, List.flatMap_nil, List.append_nil]
    | cons g names =>
      rw [ih _ (fun x hx => hv x (List.mem_cons_of_mem _ hx)) (fun h => by cases h)
        (by simp only [List.flatMap_cons, List.length_append] at hb ⊢; omega)]
      simp only [List.flatMap_cons, List.length_append, Option.getD_some, List.append_assoc,
        Nat.add_assoc]

/-- C24. `ReadWavFile` for a `filename` that names two or more files, each valid with the
expected sample rate and channel count, and `align_samples = a > 0`, the files holding `S`
samples in all (`S + a < 2^31`): it returns true with `*original_num_samples = S` and a
vector that holds the samples of the files one after the other followed by `S % a` zeros, the
remainder itself, not what is missing to the next multiple. Its length `S + S % a` is a
multiple of `a` only when `a` divides `2 * (S % a)`. -/
theorem read_of_several_files_pads_by_the_remainder (fs : List Char → WaveFile)
    (filename : List Char) (names : List (List Char)) (rate : Nat) (ch : Int) (a : Nat)
    (hsplit : splitFilenames filename = some names) (hn : 2 ≤ names.length)
    (hv : ∀ f ∈ names, (fs f).valid = true ∧ (fs f).sampleRate = rate ∧
      ((fs f).nChannels : Int) = ch)
    (ha : 0 < a)
    (hS : (names.flatMap (fun f => (fs f).samples)).length + a < 2 ^ 31) :
    ReadWavFiles fs filename rate ch (a : Int) =
      some (Outcome.returnedTrue
        (names.flatMap (fun f => (fs f).samples) ++
          List.replicate ((names.flatMap (fun f => (fs f).samples)).length % a) 0)
        (names.flatMap (fun f => (fs f).samples)).length) ∧
    (names.flatMap (fun f => (fs f).samples) ++
        List.replicate ((names.flatMap (fun f => (fs f).samples)).length % a) 0).length =
      (names.flatMap (fun f => (fs f).samples)).length +
        (names.flatMap (fun f => (fs f).samples)).length % a ∧
    (a ∣ (names.flatMap (fun f => (fs f).samples)).length +
        (names.flatMap (fun f => (fs f).samples)).length % a ↔
      a ∣ 2 * ((names.flatMap (fun f => (fs f).samples)).length % a)) := by
  have hne : names ≠ [] := by
    intro h
    rw [h] at hn
    simp at hn
  have hloop := readLoop_of_several fs names.length rate ch a (by omega) ha (by omega) names
    { original_num_samples := 0, ret := none, data := [] } hv hne
    (by simp only [Nat.zero_add]; omega)
  have h64 : ((a : Int) % 2 ^ 64).toNat = a := by
    have : ((a : Int) % 2 ^ 64) = (a : Int) := Int.emod_eq_of_lt (by omega) (by omega)
    rw [this]
    exact Int.toNat_natCast a
  have hcond : names.length > 1 ∧ (a : Int) ≠ -1 := ⟨by omega, by omega⟩
  have hmod := Nat.mod_lt (names.flatMap (fun f => (fs f).samples)).length ha
  have hpad : ((names.flatMap (fun f => (fs f).samples)).length % a) % 2 ^ 32 =
      (names.flatMap (fun f => (fs f).samples)).length % a := Nat.mod_eq_of_lt (by omega)
  refine ⟨?_, by rw [List.length_append, List.length_replicate], ?_⟩
  · unfold ReadWavFiles
    rw [hsplit]
    dsimp only
    rw [hloop]
    dsimp only
    rw [if_pos hcond, h64]
    simp only [Option.getD_none, List.nil_append, Nat.zero_add, hpad]
    by_cases hz : (names.flatMap (fun f => (fs f).samples)).length % a = 0
    · rw [if_neg (not_not.mpr hz), hz]
      simp
    · rw [if_pos hz]
      congr 2
      unfold resize
      rw [List.take_of_length_le (Nat.le_add_right _ _), Nat.add_sub_cancel_left]
  · have hdm := Nat.div_add_mod (names.flatMap (fun f => (fs f).samples)).length a
    constructor
    · intro h
      have h1 : a ∣ a * ((names.flatMap (fun f => (fs f).samples)).length / a) +
          2 * ((names.flatMap (fun f => (fs f).samples)).length % a) := by
        have e : a * ((names.flatMap (fun f => (fs f).samples)).length / a) +
            2 * ((names.flatMap (fun f => (fs f).samples)).length % a) =
            (names.flatMap (fun f => (fs f).samples)).length +
              (names.flatMap (fun f => (fs f).samples)).length % a := by omega
        rw [e]
        exact h
      exact (Nat.dvd_add_right (Dvd.intro _ rfl)).mp h1
    · intro h
      have e : (names.flatMap (fun f => (fs f).samples)).length +
            (names.flatMap (fun f => (fs f).samples)).length % a =
          a * ((names.flatMap (fun f => (fs f).samples)).length / a) +
            2 * ((names.flatMap (fun f => (fs f).samples)).length % a) := by omega
      rw [e]
      exact Dvd.dvd.add (Dvd.intro _ rfl) h

/-- Witness of `read_of_several_files_pads_by_the_remainder`, the failing input of C24: the
files `a.wav` of 3 samples and `b.wav` of 2 samples with `align_samples = 4`. The vector
returned has `5 + 5 % 4 = 6` entries, which is not a multiple of 4. -/
theorem read_of_several_files_pads_by_the_remainder_witness :
    splitFilenames "a.wav;b.wav".toList = some ["a.wav".toList, "b.wav".toList] ∧
    ReadWavFiles sampleFiles "a.wav;b.wav".toList 16000 1 4 =
      some (Outcome.returnedTrue [1, 2, 3, 4, 5, 0] 5) ∧
    ¬ (4 ∣ ([1, 2, 3, 4, 5, 0] : List Sample).length) :=
  ⟨by decide,
    (read_of_several_files_pads_by_the_remainder sampleFiles "a.wav;b.wav".toList
      ["a.wav".toList, "b.wav".toList] 16000 1 4 (by decide) (by decide) (by decide)
      (by decide) (by decide)).1,
    by decide⟩

end WaveReadWrite



namespace WaveReadWrite

theorem findLoop_finishes (bytes : List Nat) (fourcc : Nat) :
    ∀ fuel ptr end_, end_ ≤ ptr + fuel → findLoop bytes fourcc fuel ptr end_ ≠ Found.unfinished := by
  intro fuel
  induction fuel with
  | zero =>
    intro ptr end_ h
    unfold findLoop
    rw [if_neg (by omega)]
    exact fun h => by cases h
  | succ fuel ih =>
    intro ptr end_ h
    unfold findLoop
    split_ifs with c
    · split
      · split_ifs
        · exact fun h => by cases h
        · exact ih _ _ (by omega)
      · split_ifs
        · exact fun h => by cases h
        · exact fun h => by cases h
      · exact fun h => by cases h
    · exact fun h => by cases h

theorem FindChunk_finishes (bytes : List Nat) (data sizeBytes fourcc : Nat) :
    FindChunk bytes data sizeBytes fourcc ≠ Found.unfinished :=
  findLoop_finishes bytes fourcc sizeBytes data (data + sizeBytes) (Nat.le_refl _)

theorem readFormat_finishes (bytes : List Nat) (wf dataChunk chunkSize : Nat) :
    readFormat bytes wf dataChunk chunkSize ≠ ReadPCM.unfinished := by
  unfold readFormat
  split
  · split
    · exact fun h => by cases h
    · dsimp only
      split_ifs
      · exact fun h => by cases h
      · exact fun h => by cases h
  · exact fun h => by cases h

theorem readPCM_finishes (bytes : List Nat) : readPCM bytes ≠ ReadPCM.unfinished := by
  have f1 := FindChunk_finishes bytes
  have f2 := readFormat_finishes bytes
  unfold readPCM
  repeat' first
    | exact absurd (by assumption) (f1 _ _ _)
    | exact f2 _ _ _
    | exact fun h => by cases h
    | split

/-- C28, at failing inputs. A mono PCM file of two 24-bit samples (6 data bytes) is accepted
by `readPCM` with `m_nNumSamples = 2`; `GetFloatPCMData` reads an `int32_t` at the offsets 0
and 3, and the second read ends at byte 7 of the 6 copied: for every `i` the read of sample
`i` of a 24-bit mono file ends one byte after the sample, so the last read of every such file
is not inside `m_WaveData`. A stereo file of 16-bit samples with 8 data bytes is accepted
with `m_nNumSamples = 8 / (4 / 2) = 4`, the number of samples of both channels, and the loop
steps by `nBlockAlign = 4`: the reads at the offsets 8 and 12 are outside the 8 bytes. A file
whose header gives 0 channels passes every check of `readPCM` and divides by zero. In a mono
file of 16-bit samples every read is inside. -/
theorem sample_reads_leave_the_data_chunk :
    (readPCM (pcmFile 1 24 [1, 2, 3, 4, 5, 6]) =
        ReadPCM.accepted
          { wFormatTag := 1, nChannels := 1, nSamplesPerSec := 16000, nAvgBytesPerSec := 48000,
            nBlockAlign := 3, wBitsPerSample := 24, cbSize := 0 } 44 6 2 ∧
      sampleReads
          { wFormatTag := 1, nChannels := 1, nSamplesPerSec := 16000, nAvgBytesPerSec := 48000,
            nBlockAlign := 3, wBitsPerSample := 24, cbSize := 0 } 2 = [(0, 4), (3, 4)] ∧
      ¬ (3 + 4 ≤ 6)) ∧
    (∀ i, sampleRead
          { wFormatTag := 1, nChannels := 1, nSamplesPerSec := 16000, nAvgBytesPerSec := 48000,
            nBlockAlign := 3, wBitsPerSample := 24, cbSize := 0 } i = some (i * 3, 4) ∧
        ¬ (i * 3 + 4 ≤ 3 * (i + 1))) ∧
    (readPCM (pcmFile 2 16 [1, 2, 3, 4, 5, 6, 7, 8]) =
        ReadPCM.accepted
          { wFormatTag := 1, nChannels := 2, nSamplesPerSec := 16000, nAvgBytesPerSec := 64000,
            nBlockAlign := 4, wBitsPerSample := 16, cbSize := 0 } 44 8 4 ∧
      sampleReads
          { wFormatTag := 1, nChannels := 2, nSamplesPerSec := 16000, nAvgBytesPerSec := 64000,
            nBlockAlign := 4, wBitsPerSample := 16, cbSize := 0 } 4 =
        [(0, 2), (4, 2), (8, 2), (12, 2)] ∧
      ¬ (8 + 2 ≤ 8)) ∧
    readPCM (pcmFile 0 16 [1, 2]) =
      ReadPCM.divisionByZero
        { wFormatTag := 1, nChannels := 0, nSamplesPerSec := 16000, nAvgBytesPerSec := 0,
          nBlockAlign := 0, wBitsPerSample := 16, cbSize := 0 } 2 ∧
    (readPCM (pcmFile 1 16 [1, 2, 3, 4]) =
        ReadPCM.accepted
          { wFormatTag := 1, nChannels := 1, nSamplesPerSec := 16000, nAvgBytesPerSec := 32000,
            nBlockAlign := 2, wBitsPerSample := 16, cbSize := 0 } 44 4 2 ∧
      sampleReads
          { wFormatTag := 1, nChannels := 1, nSamplesPerSec := 16000, nAvgBytesPerSec := 32000,
            nBlockAlign := 2, wBitsPerSample := 16, cbSize := 0 } 2 = [(0, 2), (2, 2)]) :=
  ⟨⟨by decide, by decide, by decide⟩, (fun i => ⟨rfl, by omega⟩),
    ⟨by decide, by decide, by decide⟩, by decide, ⟨by decide, by decide⟩⟩

end WaveReadWrite

section Refinement

theorem feedsOf_flatMap (k : Nat) (f : Nat → List Sample)
    (rest : List SpeechLivePortraitApp.Event)
    (hrest : SpeechLivePortraitApp.feedsOf rest = []) :
    SpeechLivePortraitApp.feedsOf
        ((List.range k).flatMap (fun i => SpeechLivePortraitApp.Event.feed (f i) :: rest)) =
      (List.range k).map f := by
  induction k with
  | zero => rfl
  | succ k ih =>
    rw [List.range_succ, List.flatMap_append, List.map_append]
    unfold SpeechLivePortraitApp.feedsOf at *
    rw [List.filterMap_append, ih, List.flatMap_singleton, List.map_singleton,
      List.filterMap_cons, hrest]

theorem range_prime_pump (n L : Nat) :
    (List.range (min L n)).map id ++ (List.range (n - L)).map (fun i => L + i) =
      List.range n := by
  by_cases h : n ≤ L
  · rw [Nat.min_eq_right h, Nat.sub_eq_zero_of_le h]
    simp
  · have e : n = L + (n - L) := by omega
    rw [Nat.min_eq_left (by omega)]
    conv_rhs => rw [e, List.range_add]
    simp

theorem slp_single_stream_runs (audio : List Sample) (k : Nat)
    (hk : k ≤ audio.length / SpeechLivePortraitTriton.kSamplesPerFrame +
      SpeechLivePortraitTriton.kInitLatencyFrameCnt) :
    (List.range k).map (fun t =>
        (SpeechLivePortraitTriton.batchAt (SpeechLivePortraitTriton.audioNrChunks [audio]) 1 t,
          (SpeechLivePortraitTriton.batchAt
            (SpeechLivePortraitTriton.audioNrChunks [audio]) 1 t).flatMap
              (SpeechLivePortraitTriton.unitAt [audio] t))) =
      (List.range k).map (fun t => ([0], SpeechLivePortraitTriton.unitAt [audio] t 0)) := by
  apply List.map_congr_left
  intro t ht
  rw [List.mem_range] at ht
  have hb : SpeechLivePortraitTriton.batchAt
      (SpeechLivePortraitTriton.audioNrChunks [audio]) 1 t = [0] := by
    unfold SpeechLivePortraitTriton.batchAt SpeechLivePortraitTriton.audioNrChunks
    have : t < audio.length / SpeechLivePortraitTriton.kSamplesPerFrame +
        SpeechLivePortraitTriton.kInitLatencyFrameCnt := by omega
    simp [List.range_succ, this]
  rw [hb]
  simp

/-- C25. For a single stream whose audio holds `n >= 1` chunks of 528 samples, in runs
without failure and with the init latency 6: the audio frames that the tick loop of the
SpeechLivePortrait Triton client passes to its inference calls are, in order, the audio
frames that the loops `Prime`, `Pump` and `Flush` of `App::Run` of SpeechLivePortraitApp
set, namely the chunks `0 .. n - 1` followed by 6 frames of 528 zeros, and both make
`n + 6` inference calls and end with success. -/
theorem triton_and_app_submit_the_same_audio (sdk : Sdk) (hs : sdk.AllSucceed)
    (env : SpeechLivePortraitApp.Env) (he : env.AllSucceed) (audio : List Sample) (n : Nat)
    (hn : 1 ≤ n) (hlen : audio.length = n * 528) (fuel : Nat) (hf : n + 6 < fuel) :
    ∃ st, SpeechLivePortraitTriton.BatchProcessVideos sdk [audio] fuel = some st ∧
      (runsOf st.trace).map Prod.snd =
        SpeechLivePortraitApp.feedsOf (SpeechLivePortraitApp.Run env audio 528 6).2.trace ∧
      (runsOf st.trace).map Prod.snd =
        (List.range n).map (fun i => (audio.drop (i * 528)).take 528) ++
          List.replicate 6 (List.replicate 528 0) ∧
      st.trace.countP Event.isRun = n + 6 ∧
      (SpeechLivePortraitApp.Run env audio 528 6).2.trace.count
        SpeechLivePortraitApp.Event.run = n + 6 ∧
      st.err = NVCV_SUCCESS ∧
      (SpeechLivePortraitApp.Run env audio 528 6).1 = SpeechLivePortraitApp.Err.errNone := by
  have hdiv : audio.length / 528 = n := by
    rw [hlen]
    exact Nat.mul_div_cancel n (by decide)
  have hch : SpeechLivePortraitTriton.audioNrChunks [audio] = [n] := by
    unfold SpeechLivePortraitTriton.audioNrChunks
    simp only [List.map_cons, List.map_nil]
    rw [show SpeechLivePortraitTriton.kSamplesPerFrame = 528 from rfl, hdiv]
  have hlast : SpeechLivePortraitTriton.lastTick
      (SpeechLivePortraitTriton.audioNrChunks [audio]) = n + 6 := by
    rw [hch]
    simp [SpeechLivePortraitTriton.lastTick, SpeechLivePortraitTriton.kInitLatencyFrameCnt]
  obtain ⟨st, all, h1, h2', h3⟩ := SpeechLivePortraitTriton.slp_BatchProcessVideos_closed sdk hs
    [audio] fuel (by rw [hlast]; exact hf)
  have h2 := h2' (Nat.succ_pos _)
  have htr : (SpeechLivePortraitApp.Run env audio 528 6).2.trace =
      (List.range (min 6 (audio.length / 528))).flatMap
          (fun i => [SpeechLivePortraitApp.Event.feed
            (SpeechLivePortraitApp.audioFrame audio 528 i),
            SpeechLivePortraitApp.Event.run]) ++
        (List.range (audio.length / 528 - 6)).flatMap
          (fun i => [SpeechLivePortraitApp.Event.feed
            (SpeechLivePortraitApp.audioFrame audio 528 (6 + i)),
            SpeechLivePortraitApp.Event.run, SpeechLivePortraitApp.Event.write]) ++
        (List.range 6).flatMap
          (fun _ => [SpeechLivePortraitApp.Event.feed (List.replicate 528 0),
            SpeechLivePortraitApp.Event.run, SpeechLivePortraitApp.Event.write]) := by
    simp only [SpeechLivePortraitApp.Run, SpeechLivePortraitApp.primeLoop_closed env he,
      SpeechLivePortraitApp.pumpLoop_closed env he,
      SpeechLivePortraitApp.flushLoop_closed env he, List.nil_append, List.append_assoc]
  have herr : (SpeechLivePortraitApp.Run env audio 528 6).1 =
      SpeechLivePortraitApp.Err.errNone := by
    simp only [SpeechLivePortraitApp.Run, SpeechLivePortraitApp.primeLoop_closed env he,
      SpeechLivePortraitApp.pumpLoop_closed env he,
      SpeechLivePortraitApp.flushLoop_closed env he]
    simp
  have hfeeds : SpeechLivePortraitApp.feedsOf
      (SpeechLivePortraitApp.Run env audio 528 6).2.trace =
      (List.range n).map (fun i => (audio.drop (i * 528)).take 528) ++
        List.replicate 6 (List.replicate 528 0) := by
    rw [htr, hdiv]
    have e1 := feedsOf_flatMap (min 6 n) (fun i => SpeechLivePortraitApp.audioFrame audio 528 i)
      [SpeechLivePortraitApp.Event.run] rfl
    have e2 := feedsOf_flatMap (n - 6)
      (fun i => SpeechLivePortraitApp.audioFrame audio 528 (6 + i))
      [SpeechLivePortraitApp.Event.run, SpeechLivePortraitApp.Event.write] rfl
    have e3 := feedsOf_flatMap 6 (fun _ => List.replicate 528 (0 : Sample))
      [SpeechLivePortraitApp.Event.run, SpeechLivePortraitApp.Event.write] rfl
    unfold SpeechLivePortraitApp.feedsOf at e1 e2 e3 ⊢
    rw [List.filterMap_append, List.filterMap_append, e1, e2, e3]
    have hr := range_prime_pump n 6
    have e4 : (List.range n).map (fun i => (audio.drop (i * 528)).take 528) =
        (List.range (min 6 n)).map (fun i => SpeechLivePortraitApp.audioFrame audio 528 i) ++
          (List.range (n - 6)).map
            (fun i => SpeechLivePortraitApp.audioFrame audio 528 (6 + i)) := by
      conv_lhs => rw [← hr]
      rw [List.map_append, List.map_map, List.map_map]
      rfl
    rw [e4]
    congr 1
  have hruns : (runsOf st.trace).map Prod.snd =
      (List.range n).map (fun i => (audio.drop (i * 528)).take 528) ++
        List.replicate 6 (List.replicate 528 0) := by
    rw [h3]
    unfold runsOf
    rw [List.filterMap_append]
    have h0 := SpeechLivePortraitTriton.runsOf_initEvents
      (SpeechLivePortraitTriton.audioNrChunks [audio]) [audio].length
    unfold runsOf at h0
    rw [h0, List.nil_append]
    have h4 := SpeechLivePortraitTriton.runsOf_ticks [audio] all
      (SpeechLivePortraitTriton.lastTick (SpeechLivePortraitTriton.audioNrChunks [audio]))
    unfold runsOf at h4
    rw [h4, hlast]
    have h5 := slp_single_stream_runs audio (n + 6) (by
      rw [show SpeechLivePortraitTriton.kSamplesPerFrame = 528 from rfl, hdiv]
      exact Nat.le_refl _)
    rw [show [audio].length = 1 from rfl, h5, List.map_map, List.range_add, List.map_append,
      List.map_map]
    congr 1
    · apply List.map_congr_left
      intro t ht
      rw [List.mem_range] at ht
      show SpeechLivePortraitTriton.unitAt [audio] t 0 = _
      unfold SpeechLivePortraitTriton.unitAt
      rw [show SpeechLivePortraitTriton.kSamplesPerFrame = 528 from rfl]
      show (if t < audio.length / 528 then _ else _) = _
      rw [hdiv, if_pos ht]
      rfl
    · rw [List.eq_replicate_iff]
      refine ⟨by simp, ?_⟩
      intro b hb
      obtain ⟨t, _, rfl⟩ := List.mem_map.mp hb
      show SpeechLivePortraitTriton.unitAt [audio] (n + t) 0 = _
      unfold SpeechLivePortraitTriton.unitAt
      rw [show SpeechLivePortraitTriton.kSamplesPerFrame = 528 from rfl]
      show (if n + t < audio.length / 528 then _ else _) = _
      rw [hdiv, if_neg (by omega)]
  refine ⟨st, h1, hruns.trans hfeeds.symm, hruns, ?_, ?_, h2, herr⟩
  · rw [h3, List.countP_append, SpeechLivePortraitTriton.slp_countP_isRun_initEvents,
      Nat.zero_add, hlast]
    exact countP_isRun_ticks
      (SpeechLivePortraitTriton.releasedAt (SpeechLivePortraitTriton.audioNrChunks [audio])
        [audio].length)
      (fun t => Event.Run
        (SpeechLivePortraitTriton.batchAt (SpeechLivePortraitTriton.audioNrChunks [audio])
          [audio].length t)
        { BatchSize :=
            (SpeechLivePortraitTriton.batchAt
              (SpeechLivePortraitTriton.audioNrChunks [audio]) [audio].length t).length
          State :=
            (SpeechLivePortraitTriton.batchAt
              (SpeechLivePortraitTriton.audioNrChunks [audio]) [audio].length t).map
              (fun i => all.getD i 0)
          AudioFrameBuffer :=
            (SpeechLivePortraitTriton.batchAt
              (SpeechLivePortraitTriton.audioNrChunks [audio]) [audio].length t).flatMap
              (SpeechLivePortraitTriton.unitAt [audio] t)
          AudioFrameLength := [] } []) (fun _ => rfl) _
  · rw [htr, hdiv, List.count_append, List.count_append,
      SpeechLivePortraitApp.count_flatMap_const _ _ SpeechLivePortraitApp.Event.run 1
        (fun _ => by simp [List.count_cons]),
      SpeechLivePortraitApp.count_flatMap_const _ _ SpeechLivePortraitApp.Event.run 1
        (fun _ => by simp [List.count_cons]),
      SpeechLivePortraitApp.count_flatMap_const _ _ SpeechLivePortraitApp.Event.run 1
        (fun _ => by simp [List.count_cons])]
    omega

/-- Witness of `triton_and_app_submit_the_same_audio`: an audio of `n = 2` chunks (1056
samples of value 1); both programs make 8 inference calls. -/
theorem triton_and_app_submit_the_same_audio_witness :
    (Sdk.succeeding 6).AllSucceed ∧ SpeechLivePortraitApp.Env.succeeding.AllSucceed ∧
    1 ≤ 2 ∧ (List.replicate 1056 (1 : Sample)).length = 2 * 528 ∧ 2 + 6 < 9 ∧
    ∃ st, SpeechLivePortraitTriton.BatchProcessVideos (Sdk.succeeding 6)
        [List.replicate 1056 1] 9 = some st ∧
      (runsOf st.trace).map Prod.snd =
        SpeechLivePortraitApp.feedsOf
          (SpeechLivePortraitApp.Run SpeechLivePortraitApp.Env.succeeding
            (List.replicate 1056 1) 528 6).2.trace ∧
      st.trace.countP Event.isRun = 2 + 6 ∧
      (SpeechLivePortraitApp.Run SpeechLivePortraitApp.Env.succeeding
        (List.replicate 1056 1) 528 6).2.trace.count SpeechLivePortraitApp.Event.run =
        2 + 6 := by
  have hs : (Sdk.succeeding 6).AllSucceed := ⟨fun _ => rfl, fun _ => rfl⟩
  have he : SpeechLivePortraitApp.Env.succeeding.AllSucceed :=
    ⟨fun _ _ => rfl, fun _ _ => rfl, fun _ _ => rfl, fun _ _ => rfl, rfl⟩
  have hl : (List.replicate 1056 (1 : Sample)).length = 2 * 528 := by
    rw [List.length_replicate]
  obtain ⟨st, h1, h2, _, h4, h5, _⟩ := triton_and_app_submit_the_same_audio (Sdk.succeeding 6)
    hs SpeechLivePortraitApp.Env.succeeding he (List.replicate 1056 1) 2 (by decide) hl 9
    (by decide)
  exact ⟨hs, he, by decide, hl, by decide, st, h1, h2, h4, h5⟩

end Refinement



namespace LipSyncApp

theorem audioFrame_zero_past (samples : List Sample) (s e j : Nat)
    (h : samples.length ≤ s + j) : (audioFrame samples s e).getD j 0 = 0 := by
  unfold audioFrame
  simp only []
  rw [List.getD_eq_getElem?_getD]
  have hlen : ((samples.drop (min s samples.length)).take
      (min e samples.length - min s samples.length)).length ≤ j := by
    rw [List.length_take, List.length_drop]
    omega
  rw [List.getElem?_append_right hlen, List.getElem?_replicate]
  split_ifs <;> rfl

theorem setEndsOf_append (a b : List Event) : setEndsOf (a ++ b) = setEndsOf a ++ setEndsOf b := by
  induction a with
  | nil => rfl
  | cons x a ih =>
    cases x <;> simp [setEndsOf, ih]

theorem submit_ok (env : Env) (hs : env.AllSucceed) (s : Nat) (f : List Sample) (got : Bool)
    (img : Mat) (st : State) :
    ∃ tr, submit env s f got img st = .ok { st with trace := st.trace ++ tr } ∧
      setEndsOf tr = [] ∧ (∀ s1 f1, Event.feed s1 f1 ∈ tr → s1 = s ∧ f1 = f) := by
  obtain ⟨h1, h2, h3, h4, h5⟩ := hs
  unfold NVCV_SUCCESS at h1 h2 h3 h4 h5
  by_cases hr : env.output_ready st.input_frame_index = 0 <;>
    cases got <;> cases hg : env.genVideoOpened <;>
    simp [submit, ProcessOutputVideo, h1, h2, h3, h4, h5, hr, hg, setEndsOf, setEndsOf_append]

theorem truncationFrom_spec (audioEnd : Nat → Nat) (A : Nat) :
    ∀ (n t : Nat), t ≤ truncationFrom audioEnd A n t ∧ truncationFrom audioEnd A n t ≤ t + n ∧
      (∀ u, t ≤ u → u < truncationFrom audioEnd A n t → windowStart audioEnd u < A) ∧
      (truncationFrom audioEnd A n t < t + n →
        A ≤ windowStart audioEnd (truncationFrom audioEnd A n t)) := by
  intro n
  induction n with
  | zero =>
    intro t
    simp only [truncationFrom]
    exact ⟨le_refl _, by omega, fun u h1 h2 => by omega, fun h => by omega⟩
  | succ n ih =>
    intro t
    simp only [truncationFrom]
    by_cases h : A ≤ windowStart audioEnd t
    · rw [if_pos h]
      exact ⟨le_refl _, by omega, fun u h1 h2 => by omega, fun _ => h⟩
    · rw [if_neg h]
      obtain ⟨i1, i2, i3, i4⟩ := ih (t + 1)
      refine ⟨by omega, by omega, fun u h1 h2 => ?_, fun h5 => i4 (by omega)⟩
      by_cases hu : u = t
      · subst hu
        omega
      · exact i3 u (by omega) h2

theorem stopFrame_spec (flags : Flags) (audioEnd : Nat → Nat) (V A : Nat) :
    stopFrame flags audioEnd V A ≤ V ∧
    (flags.FLAG_extendAudio ≠ kExtendAudioSilence →
      ∀ t, t < stopFrame flags audioEnd V A → windowStart audioEnd t < A) ∧
    (stopFrame flags audioEnd V A < V →
      flags.FLAG_extendAudio ≠ kExtendAudioSilence ∧
        A ≤ windowStart audioEnd (stopFrame flags audioEnd V A)) := by
  unfold stopFrame
  by_cases h : flags.FLAG_extendAudio = kExtendAudioSilence
  · rw [if_pos h]
    exact ⟨le_refl _, fun h1 => absurd h h1, fun h1 => absurd h1 (lt_irrefl _)⟩
  · rw [if_neg h]
    obtain ⟨_, i2, i3, i4⟩ := truncationFrom_spec audioEnd A V 0
    exact ⟨by omega, fun _ t ht => i3 t (Nat.zero_le _) ht, fun h1 => ⟨h, i4 (by omega)⟩⟩

theorem body_ok (env : Env) (hs : env.AllSucceed) (flags : Flags)
    (hv : flags.FLAG_extendVideo ≠ kExtendVideoForward ∧
      flags.FLAG_extendVideo ≠ kExtendVideoReverse)
    (samples : List Sample) (audioEnd : Nat → Nat) (F : Nat) (st : State)
    (h1 : st.frame_step = 1) :
    ∃ tr, body env flags samples audioEnd F st =
        .ok { (setEndFrameIndex F
                (shouldStop (st.video_finished || !st.m_cap.image.isSome)
                  (st.audio_finished || !decide (st.last_audio_end_sample < samples.length))
                  st.m_cap.image.isSome
                  (extendAudio flags
                    (st.audio_finished || !decide (st.last_audio_end_sample < samples.length))
                    (decide (st.last_audio_end_sample < samples.length))))
                { st with
                  m_cap := st.m_cap.advance
                  last_audio_end_sample := audioEnd st.input_frame_index
                  video_finished := st.video_finished || !st.m_cap.image.isSome
                  audio_finished := st.audio_finished ||
                    !decide (st.last_audio_end_sample < samples.length) }) with
              trace := (setEndFrameIndex F
                (shouldStop (st.video_finished || !st.m_cap.image.isSome)
                  (st.audio_finished || !decide (st.last_audio_end_sample < samples.length))
                  st.m_cap.image.isSome
                  (extendAudio flags
                    (st.audio_finished || !decide (st.last_audio_end_sample < samples.length))
                    (decide (st.last_audio_end_sample < samples.length))))
                { st with
                  m_cap := st.m_cap.advance
                  last_audio_end_sample := audioEnd st.input_frame_index
                  video_finished := st.video_finished || !st.m_cap.image.isSome
                  audio_finished := st.audio_finished ||
                    !decide (st.last_audio_end_sample < samples.length) }).trace ++ tr } ∧
      setEndsOf tr = [] ∧
      (∀ s1 f1, Event.feed s1 f1 ∈ tr → s1 = st.last_audio_end_sample ∧
        f1 = audioFrame samples st.last_audio_end_sample (audioEnd st.input_frame_index)) := by
  have e1 : stepBack env (st.m_cap.pos : Int) { st with m_cap := st.m_cap.advance } =
      .ok { st with m_cap := st.m_cap.advance } := by
    simp [stepBack, h1]
  have e2 : ∀ (g : Bool) (img : Mat) (s : State),
      extendVideo env flags (st.m_cap.pos : Int) g img s = .ok (g, img, s) := by
    intro g img s
    simp [extendVideo, hv.1, hv.2]
  unfold body
  simp only [e1, e2]
  exact submit_ok env hs _ _ _ _ _

theorem silentPast_extend (samples : List Sample) (tr0 mid tr : List Event) (s e : Nat)
    (h0 : SilentPast samples.length tr0) (hmid : ∀ s1 f1, Event.feed s1 f1 ∉ mid)
    (htr : ∀ s1 f1, Event.feed s1 f1 ∈ tr → s1 = s ∧ f1 = audioFrame samples s e) :
    SilentPast samples.length (tr0 ++ mid ++ tr) := by
  intro s1 f1 hm j hj
  rw [List.mem_append, List.mem_append] at hm
  rcases hm with (hm | hm) | hm
  · exact h0 s1 f1 hm j hj
  · exact absurd hm (hmid s1 f1)
  · obtain ⟨rfl, rfl⟩ := htr s1 f1 hm
    exact audioFrame_zero_past samples s1 e j hj

theorem extendAudio_running (flags : Flags) (af ga : Bool)
    (h : flags.FLAG_extendAudio ≠ kExtendAudioSilence → ga = true) :
    extendAudio flags (af || !ga) ga = true := by
  unfold extendAudio
  by_cases hf : flags.FLAG_extendAudio = kExtendAudioSilence
  · cases ga <;> simp [hf]
  · rw [h hf]
    simp

theorem body_running (env : Env) (hs : env.AllSucceed) (flags : Flags)
    (hv : flags.FLAG_extendVideo ≠ kExtendVideoForward ∧
      flags.FLAG_extendVideo ≠ kExtendVideoReverse)
    (frames : List Nat) (samples : List Sample) (audioEnd : Nat → Nat) (F t : Nat)
    (ht : t < stopFrame flags audioEnd frames.length samples.length)
    (hb : t + 1 < 2 ^ 32) (st : State)
    (hr : Running frames audioEnd samples.length t st) :
    ∃ st1, body env flags samples audioEnd F st = .ok st1 ∧
      Running frames audioEnd samples.length (t + 1)
        { st1 with input_frame_index := (st1.input_frame_index + 1) % 2 ^ 32 } := by
  obtain ⟨r1, r2, r3, r4, r5, r6, r7, r8⟩ := hr
  obtain ⟨p1, p2, _⟩ := stopFrame_spec flags audioEnd frames.length samples.length
  obtain ⟨tr, e1, e2, e3⟩ := body_ok env hs flags hv samples audioEnd F st r5
  have himg : st.m_cap.image.isSome = true := by
    rw [r6]
    simp only [VideoCapture.image, if_true]
    rw [List.getElem?_eq_getElem (by omega)]
    rfl
  have hadv : st.m_cap.advance = { opened := true, frames := frames, pos := t + 1 } := by
    rw [r6]
    unfold VideoCapture.advance
    rw [if_pos ⟨rfl, by show t < frames.length; omega⟩]
  have hga : extendAudio flags
      (st.audio_finished || !decide (st.last_audio_end_sample < samples.length))
      (decide (st.last_audio_end_sample < samples.length)) = true := by
    apply extendAudio_running
    intro hf
    rw [r3]
    exact decide_eq_true (p2 hf t ht)
  have hstop : shouldStop (st.video_finished || !st.m_cap.image.isSome)
      (st.audio_finished || !decide (st.last_audio_end_sample < samples.length))
      st.m_cap.image.isSome
      (extendAudio flags
        (st.audio_finished || !decide (st.last_audio_end_sample < samples.length))
        (decide (st.last_audio_end_sample < samples.length))) = false := by
    rw [hga, himg, r4]
    simp [shouldStop]
  rw [hstop] at e1
  have hset : ∀ s : State, setEndFrameIndex F false s = s := by
    intro s
    simp [setEndFrameIndex]
  rw [hset] at e1
  refine ⟨_, e1, ?_⟩
  refine ⟨?_, r2, ?_, ?_, r5, hadv, ?_, ?_⟩
  · show (st.input_frame_index + 1) % 2 ^ 32 = t + 1
    rw [r1]
    exact Nat.mod_eq_of_lt hb
  · show audioEnd st.input_frame_index = windowStart audioEnd (t + 1)
    rw [r1]
    rfl
  · show (st.video_finished || !st.m_cap.image.isSome) = false
    rw [r4, himg]
    rfl
  · show setEndsOf (st.trace ++ tr) = []
    rw [setEndsOf_append, r7, e2]
    rfl
  · show SilentPast samples.length (st.trace ++ tr)
    have := silentPast_extend samples st.trace [] tr _ _ r8
      (fun _ _ h => by cases h) e3
    rwa [List.append_nil] at this

theorem body_stop (env : Env) (hs : env.AllSucceed) (flags : Flags)
    (hv : flags.FLAG_extendVideo ≠ kExtendVideoForward ∧
      flags.FLAG_extendVideo ≠ kExtendVideoReverse)
    (frames : List Nat) (samples : List Sample) (audioEnd : Nat → Nat) (F : Nat)
    (st : State)
    (hr : Running frames audioEnd samples.length
      (stopFrame flags audioEnd frames.length samples.length) st) :
    ∃ st1, body env flags samples audioEnd F st = .ok st1 ∧
      st1.input_frame_index = stopFrame flags audioEnd frames.length samples.length ∧
      Stopping samples.length (stopFrame flags audioEnd frames.length samples.length)
        ((stopFrame flags audioEnd frames.length samples.length + F) % 2 ^ 32) st1 := by
  obtain ⟨r1, r2, r3, r4, r5, r6, r7, r8⟩ := hr
  obtain ⟨p1, _, p3⟩ := stopFrame_spec flags audioEnd frames.length samples.length
  obtain ⟨tr, e1, e2, e3⟩ := body_ok env hs flags hv samples audioEnd F st r5
  have hstop : shouldStop (st.video_finished || !st.m_cap.image.isSome)
      (st.audio_finished || !decide (st.last_audio_end_sample < samples.length))
      st.m_cap.image.isSome
      (extendAudio flags
        (st.audio_finished || !decide (st.last_audio_end_sample < samples.length))
        (decide (st.last_audio_end_sample < samples.length))) = true := by
    by_cases hV : stopFrame flags audioEnd frames.length samples.length < frames.length
    · obtain ⟨hf, hA⟩ := p3 hV
      have hga : decide (st.last_audio_end_sample < samples.length) = false := by
        rw [r3]
        exact decide_eq_false (by omega)
      rw [hga]
      simp [shouldStop, extendAudio, hf]
    · have himg : st.m_cap.image.isSome = false := by
        rw [r6]
        simp only [VideoCapture.image, if_true]
        rw [List.getElem?_eq_none (by omega)]
        rfl
      rw [himg]
      simp [shouldStop]
  rw [hstop] at e1
  simp only [setEndFrameIndex, r2, and_self, if_true] at e1
  refine ⟨_, e1, r1, ?_⟩
  refine ⟨?_, r5, ?_, ?_⟩
  · show (st.input_frame_index + F) % 2 ^ 32 = _
    rw [r1]
  · show setEndsOf (st.trace ++ [Event.setEnd st.input_frame_index
      ((st.input_frame_index + F) % 2 ^ 32)] ++ tr) = _
    rw [setEndsOf_append, setEndsOf_append, r7, e2, r1]
    rfl
  · show SilentPast samples.length (st.trace ++ [Event.setEnd st.input_frame_index
      ((st.input_frame_index + F) % 2 ^ 32)] ++ tr)
    exact silentPast_extend samples st.trace _ tr _ _ r8
      (fun _ _ h => by simp at h) e3

theorem body_stopping (env : Env) (hs : env.AllSucceed) (flags : Flags)
    (hv : flags.FLAG_extendVideo ≠ kExtendVideoForward ∧
      flags.FLAG_extendVideo ≠ kExtendVideoReverse)
    (samples : List Sample) (audioEnd : Nat → Nat) (F t e : Nat) (he : e ≠ UINT_MAX)
    (st : State) (hr : Stopping samples.length t e st) :
    ∃ st1, body env flags samples audioEnd F st = .ok st1 ∧
      st1.input_frame_index = st.input_frame_index ∧ Stopping samples.length t e st1 := by
  obtain ⟨r1, r2, r3, r4⟩ := hr
  obtain ⟨tr, e1, e2, e3⟩ := body_ok env hs flags hv samples audioEnd F st r2
  simp only [setEndFrameIndex, r1, he, false_and, if_false] at e1
  refine ⟨_, e1, rfl, rfl, r2, ?_, ?_⟩
  · show setEndsOf (st.trace ++ tr) = _
    rw [setEndsOf_append, r3, e2]
    rfl
  · show SilentPast samples.length (st.trace ++ tr)
    have := silentPast_extend samples st.trace [] tr _ _ r4
      (fun _ _ h => by cases h) e3
    rwa [List.append_nil] at this

theorem loop_stopping (env : Env) (hs : env.AllSucceed) (flags : Flags)
    (hv : flags.FLAG_extendVideo ≠ kExtendVideoForward ∧
      flags.FLAG_extendVideo ≠ kExtendVideoReverse)
    (samples : List Sample) (audioEnd : Nat → Nat) (F t e : Nat) (he : e < UINT_MAX) :
    ∀ (k : Nat) (st : State), Stopping samples.length t e st →
      e - st.input_frame_index ≤ k → ∀ fuel, k < fuel →
      ∃ st1, loop env flags samples audioEnd F fuel st = some (Err.errNone, st1) ∧
        Stopping samples.length t e st1 := by
  intro k
  induction k with
  | zero =>
    intro st hst hk fuel hfuel
    obtain ⟨fuel, rfl⟩ : ∃ f, fuel = f + 1 := ⟨fuel - 1, by omega⟩
    have : ¬ st.input_frame_index < st.end_frame_index := by
      rw [hst.1]
      omega
    simp only [loop, if_neg this]
    exact ⟨st, rfl, hst⟩
  | succ k ih =>
    intro st hst hk fuel hfuel
    obtain ⟨fuel, rfl⟩ : ∃ f, fuel = f + 1 := ⟨fuel - 1, by omega⟩
    by_cases hlt : st.input_frame_index < st.end_frame_index
    · obtain ⟨st1, b1, b2, b3⟩ := body_stopping env hs flags hv samples audioEnd F t e
        (Nat.ne_of_lt he) st hst
      simp only [loop, if_pos hlt, b1]
      have hidx : (st1.input_frame_index + 1) % 2 ^ 32 = st.input_frame_index + 1 := by
        rw [b2]
        apply Nat.mod_eq_of_lt
        rw [hst.1] at hlt
        unfold UINT_MAX at he
        omega
      rw [hidx]
      apply ih
      · exact b3
      · show e - (st.input_frame_index + 1) ≤ k
        omega
      · omega
    · simp only [loop, if_neg hlt]
      exact ⟨st, rfl, hst⟩

theorem loop_running (env : Env) (hs : env.AllSucceed) (flags : Flags)
    (hv : flags.FLAG_extendVideo ≠ kExtendVideoForward ∧
      flags.FLAG_extendVideo ≠ kExtendVideoReverse)
    (frames : List Nat) (samples : List Sample) (audioEnd : Nat → Nat) (F : Nat)
    (hb : stopFrame flags audioEnd frames.length samples.length + F < UINT_MAX) :
    ∀ (k t : Nat) (st : State), Running frames audioEnd samples.length t st →
      t + k = stopFrame flags audioEnd frames.length samples.length →
      ∀ fuel, k + F + 1 < fuel →
      ∃ st1, loop env flags samples audioEnd F fuel st = some (Err.errNone, st1) ∧
        Stopping samples.length (stopFrame flags audioEnd frames.length samples.length)
          (stopFrame flags audioEnd frames.length samples.length + F) st1 := by
  intro k
  induction k with
  | zero =>
    intro t st hst hk fuel hfuel
    obtain ⟨fuel, rfl⟩ : ∃ f, fuel = f + 1 := ⟨fuel - 1, by omega⟩
    rw [Nat.add_zero] at hk
    subst hk
    have hlt : st.input_frame_index < st.end_frame_index := by
      rw [hst.1, hst.2.1]
      omega
    obtain ⟨st1, b1, b2, b3⟩ := body_stop env hs flags hv frames samples audioEnd F st hst
    have hmod : (stopFrame flags audioEnd frames.length samples.length + F) % 2 ^ 32 =
        stopFrame flags audioEnd frames.length samples.length + F := by
      apply Nat.mod_eq_of_lt
      unfold UINT_MAX at hb
      omega
    rw [hmod] at b3
    simp only [loop, if_pos hlt, b1]
    apply loop_stopping env hs flags hv samples audioEnd F _ _ hb F
    · exact b3
    · show _ - (st1.input_frame_index + 1) % 2 ^ 32 ≤ F
      rw [b2]
      unfold UINT_MAX at hb
      omega
    · omega
  | succ k ih =>
    intro t st hst hk fuel hfuel
    obtain ⟨fuel, rfl⟩ : ∃ f, fuel = f + 1 := ⟨fuel - 1, by omega⟩
    have hlt : st.input_frame_index < st.end_frame_index := by
      rw [hst.1, hst.2.1]
      omega
    have hb2 : t + 1 < 2 ^ 32 := by
      unfold UINT_MAX at hb
      omega
    obtain ⟨st1, b1, b2⟩ := body_running env hs flags hv frames samples audioEnd F t
      (by omega) hb2 st hst
    simp only [loop, if_pos hlt, b1]
    exact ih (t + 1) _ b2 (by omega) fuel (by omega)

/-- C21. The frame loop of `App::Run` of LipSyncApp when `--extend_short_video` is neither
`forward_loop` nor `reverse_loop` (the default `off`) and no SDK call fails, for a video of
`V` frames, an audio of `A` samples and the init latency `F`, with `t* + F` below
`UINT_MAX`: the loop returns `errNone`, `end_frame_index` is assigned exactly once, in
iteration `t*`, the value `t* + F`, and keeps it; every audio frame handed to the SDK is zero
at the samples that lie at or beyond `A`. With `--extend_short_audio=silence`, `t* = V`.
Otherwise `t* = min(V, T)` for the first frame index `T` whose audio window starts at or
beyond sample `A`, and `t* = V` when no window of the video starts there. -/
theorem end_frame_index_is_set_once (env : Env) (hs : env.AllSucceed) (flags : Flags)
    (hv : flags.FLAG_extendVideo ≠ kExtendVideoForward ∧
      flags.FLAG_extendVideo ≠ kExtendVideoReverse)
    (frames : List Nat) (input_wav_samples : List Sample) (audioEnd : Nat → Nat)
    (init_latency_frame_cnt : Nat)
    (hb : stopFrame flags audioEnd frames.length input_wav_samples.length +
      init_latency_frame_cnt < UINT_MAX)
    (fuel : Nat)
    (hf : stopFrame flags audioEnd frames.length input_wav_samples.length +
      init_latency_frame_cnt + 1 < fuel) :
    (∃ st, Run env flags frames input_wav_samples audioEnd init_latency_frame_cnt fuel =
        some (Err.errNone, st) ∧
      setEndsOf st.trace =
        [(stopFrame flags audioEnd frames.length input_wav_samples.length,
          stopFrame flags audioEnd frames.length input_wav_samples.length +
            init_latency_frame_cnt)] ∧
      st.end_frame_index =
        stopFrame flags audioEnd frames.length input_wav_samples.length +
          init_latency_frame_cnt ∧
      SilentPast input_wav_samples.length st.trace) ∧
    (flags.FLAG_extendAudio = kExtendAudioSilence →
      stopFrame flags audioEnd frames.length input_wav_samples.length = frames.length) ∧
    (flags.FLAG_extendAudio ≠ kExtendAudioSilence →
      (∀ T, input_wav_samples.length ≤ windowStart audioEnd T →
        (∀ t, t < T → windowStart audioEnd t < input_wav_samples.length) →
        stopFrame flags audioEnd frames.length input_wav_samples.length =
          min frames.length T) ∧
      ((∀ t, t < frames.length → windowStart audioEnd t < input_wav_samples.length) →
        stopFrame flags audioEnd frames.length input_wav_samples.length = frames.length)) := by
  obtain ⟨p1, p2, p3⟩ := stopFrame_spec flags audioEnd frames.length input_wav_samples.length
  refine ⟨?_, ?_, ?_⟩
  · have hinit : Running frames audioEnd input_wav_samples.length 0
        (State.initial { opened := true, frames := frames, pos := 0 }) :=
      ⟨rfl, rfl, rfl, rfl, rfl, rfl, rfl, fun _ _ h => by cases h⟩
    obtain ⟨st, e1, e2⟩ := loop_running env hs flags hv frames input_wav_samples audioEnd
      init_latency_frame_cnt hb
      (stopFrame flags audioEnd frames.length input_wav_samples.length) 0 _ hinit
      (Nat.zero_add _) fuel hf
    exact ⟨st, e1, e2.2.2.1, e2.1, e2.2.2.2⟩
  · intro h
    unfold stopFrame
    rw [if_pos h]
  · intro h
    refine ⟨fun T h1 h2 => ?_, fun h1 => ?_⟩
    · have q2 := p2 h
      have hle : stopFrame flags audioEnd frames.length input_wav_samples.length ≤ T := by
        by_contra hc
        have := q2 T (by omega)
        omega
      by_cases hV : stopFrame flags audioEnd frames.length input_wav_samples.length <
          frames.length
      · have q3 := (p3 hV).2
        by_cases hT : stopFrame flags audioEnd frames.length input_wav_samples.length < T
        · have := h2 _ hT
          omega
        · omega
      · omega
    · by_contra hc
      have hV : stopFrame flags audioEnd frames.length input_wav_samples.length <
          frames.length := by omega
      have q3 := (p3 hV).2
      have := h1 _ hV
      omega

/-- Witness of `end_frame_index_is_set_once`: a video of 3 frames, an audio of 4 samples,
windows of 2 samples and the init latency 2, with both flags `off`. The window of frame 2
starts at sample 4, so `end_frame_index` is assigned once, in iteration 2, the value 4. -/
theorem end_frame_index_is_set_once_witness :
    Env.succeeding.AllSucceed ∧
    stopFrame Flags.initial (fun t => 2 * (t + 1)) 3 4 = 2 ∧
    (∃ st, Run Env.succeeding Flags.initial [10, 11, 12] [1, 2, 3, 4]
        (fun t => 2 * (t + 1)) 2 9 = some (Err.errNone, st) ∧
      setEndsOf st.trace = [(2, 4)] ∧ st.end_frame_index = 4) := by
  have hs : Env.succeeding.AllSucceed :=
    ⟨fun _ => rfl, fun _ => rfl, fun _ => rfl, fun _ => rfl, fun _ => rfl⟩
  have ht : stopFrame Flags.initial (fun t => 2 * (t + 1)) 3 4 = 2 := by decide
  obtain ⟨⟨st, h1, h2, h3, _⟩, _⟩ := end_frame_index_is_set_once Env.succeeding hs
    Flags.initial ⟨by decide, by decide⟩ [10, 11, 12] [1, 2, 3, 4] (fun t => 2 * (t + 1)) 2
    (by decide) 9 (by decide)
  exact ⟨hs, ht, st, h1, h2, h3⟩

end LipSyncApp

end ARSDK
